import Mathlib

/-!
C-space free polytope: Gram variables, SOS programs and redundancy.

A shallow embedding of `geometry/optimization/cspace_free_polytope.cc`, and of the
penalty of `solvers/minimum_value_constraint.cc`.

* C++ `int` values that come from `rows()` / `size()` are natural numbers; `int`
  values that are inputs or results of a subtraction are integers.
* A failed `DRAKE_THROW_UNLESS`, a failed `DRAKE_DEMAND`, an out-of-range
  container access and a thrown `std::runtime_error` are the constructors of
  `Error`; fallible code runs in `Except Error`.
* `symbolic::Polynomial` is an arbitrary commutative ring `P`; variables `V` and
  monomials `M` are mapped into it.
* `double` values are elements of an ordered field `K`. The searches whose results
  depend on the solver and the library functions on matrices and polyhedra that
  the outer loops call are the fields of `SearchEnv`.
* A `while` loop is a recursion on the number of runs of its body that are left.
-/

namespace Drake

/-- The ways the embedded code can fail. -/
inductive Error where
  /-- A `DRAKE_THROW_UNLESS` condition was false. -/
  | throwUnless
  /-- A `DRAKE_DEMAND` condition was false. -/
  | demand
  /-- An index or a size was outside a container (Eigen assertion, `at`). -/
  | outOfRange
  /-- A `throw std::runtime_error(...)`. -/
  | runtimeError
  deriving DecidableEq, Repr

/-- `std::array<VectorX<symbolic::Monomial>, 4>`. -/
abbrev MonomialBasisArray (M : Type) := Fin 4 → List M

/-- `monomial_basis_array[i]`: an index outside the four slots is a failure. -/
def basisAt {M : Type} (monomial_basis_array : MonomialBasisArray M) (i : Nat) :
    Except Error (List M) :=
  if h : i < 4 then .ok (monomial_basis_array ⟨i, h⟩) else .error .outOfRange

/-- The lambda `gram_lower_size` of `GetGramVarSize`. -/
def gram_lower_size (gram_rows : Nat) : Nat :=
  gram_rows * (gram_rows + 1) / 2

/-- `GetGramVarSize`: total size of the lower triangular Gram variables. -/
def GetGramVarSize {M : Type} (monomial_basis_array : MonomialBasisArray M)
    (with_cross_y : Bool) (num_y : Int) : Except Error Nat :=
  if num_y = 0 then
    .ok (gram_lower_size (monomial_basis_array 0).length)
  else if with_cross_y then do
    let gram_rows ← (List.range num_y.toNat).foldlM
      (fun gram_rows i => do
        let b ← basisAt monomial_basis_array (i + 1)
        pure (gram_rows + b.length))
      (monomial_basis_array 0).length
    pure (gram_lower_size gram_rows)
  else
    (List.range num_y.toNat).foldlM
      (fun ret i => do
        let b ← basisAt monomial_basis_array (i + 1)
        pure (ret + gram_lower_size ((monomial_basis_array 0).length + b.length)))
      0

/-- The reference value of the Gram variable count, as the specification words
it: `n` is the size of `m(s)` and `b i` the size of `yᵢ * m(s)`. -/
def GramVarSizeRef (n : Nat) (b : Nat → Nat) (with_cross_y : Bool) (num_y : Nat) : Nat :=
  if num_y = 0 then n * (n + 1) / 2
  else if with_cross_y then
    (n + ∑ i in Finset.range num_y, b i) * (n + ∑ i in Finset.range num_y, b i + 1) / 2
  else ∑ i in Finset.range num_y, (n + b i) * (n + b i + 1) / 2

/-- Rows of `monomial_basis_array[i + 1]`, zero outside the array. -/
def basisRows {M : Type} (monomial_basis_array : MonomialBasisArray M) (i : Nat) : Nat :=
  if h : i + 1 < 4 then (monomial_basis_array ⟨i + 1, h⟩).length else 0


/-! ## Vectors and matrices -/

/-- `v(i)` on a dynamic vector. -/
def vecGet {α : Type} (v : List α) (i : Nat) : Except Error α :=
  match v[i]? with
  | some x => .ok x
  | none => .error .outOfRange

/-- `v(i) = x` on a dynamic vector. -/
def vecSet {α : Type} (v : List α) (i : Nat) (x : α) : Except Error (List α) :=
  if i < v.length then .ok (v.set i x) else .error .outOfRange

/-- `v.segment(start, n)` read as a value. -/
def segment {α : Type} (v : List α) (start n : Nat) : Except Error (List α) :=
  if start + n ≤ v.length then .ok ((v.drop start).take n) else .error .outOfRange

/-- `v.segment(start, n) = src`. -/
def assignSegment {α : Type} (v : List α) (start n : Nat) (src : List α) :
    Except Error (List α) :=
  if start + n ≤ v.length ∧ src.length = n then
    .ok (v.take start ++ src ++ v.drop (start + n))
  else .error .outOfRange

/-- `v.topRows(n) = src`. -/
def assignTopRows {α : Type} (v : List α) (n : Nat) (src : List α) : Except Error (List α) :=
  assignSegment v 0 n src

/-- `v.bottomRows(n) = src`. -/
def assignBottomRows {α : Type} (v : List α) (n : Nat) (src : List α) :
    Except Error (List α) :=
  if n ≤ v.length then assignSegment v (v.length - n) n src else .error .outOfRange

/-- `a.dot(b)` for vectors of polynomials. -/
def dot {P : Type} [CommRing P] (a b : List P) : Except Error P :=
  if a.length = b.length then .ok (List.zipWith (· * ·) a b).sum else .error .outOfRange

/-- `MatrixX<T>`: an entry that was never assigned is `none`. -/
structure MatrixX (α : Type) where
  rows : Nat
  cols : Nat
  coeff : Nat → Nat → Option α

/-- `MatrixX<T>(rows, cols)`: the entries are not initialized. -/
def MatrixX.sized {α : Type} (rows cols : Nat) : MatrixX α :=
  ⟨rows, cols, fun _ _ => none⟩

/-- `mat.resize(rows, cols)`: keeps the matrix when the size is unchanged. -/
def MatrixX.resize {α : Type} (mat : MatrixX α) (rows cols : Nat) : MatrixX α :=
  if mat.rows = rows ∧ mat.cols = cols then mat else MatrixX.sized rows cols

/-- `mat(i, j) = x`. -/
def MatrixX.set {α : Type} (mat : MatrixX α) (i j : Nat) (x : α) : Except Error (MatrixX α) :=
  if i < mat.rows ∧ j < mat.cols then
    .ok { mat with coeff := fun a b => if a = i ∧ b = j then some x else mat.coeff a b }
  else .error .outOfRange

/-- `mat(i, j)` read as a value. -/
def MatrixX.get {α : Type} (mat : MatrixX α) (i j : Nat) : Except Error α :=
  if i < mat.rows ∧ j < mat.cols then
    match mat.coeff i j with
    | some x => .ok x
    | none => .error .outOfRange
  else .error .outOfRange

/-- The body of the inner loop of `SymmetricMatrixFromLowerTriangularPart`. -/
def symmetricInnerBody {α : Type} (lower_triangle : List α) (j : Nat)
    (st : MatrixX α × Nat) (i : Nat) : Except Error (MatrixX α × Nat) := do
  let x ← vecGet lower_triangle st.2
  let mat ← st.1.set i j x
  let mat ← mat.set j i x
  pure (mat, st.2 + 1)

/-- The body of the outer loop of `SymmetricMatrixFromLowerTriangularPart`. -/
def symmetricOuterBody {α : Type} (rows : Nat) (lower_triangle : List α)
    (st : MatrixX α × Nat) (j : Nat) : Except Error (MatrixX α × Nat) := do
  let x ← vecGet lower_triangle st.2
  let mat ← st.1.set j j x
  (List.range' (j + 1) (rows - (j + 1))).foldlM (symmetricInnerBody lower_triangle j)
    (mat, st.2 + 1)

/-- `SymmetricMatrixFromLowerTriangularPart`. -/
def SymmetricMatrixFromLowerTriangularPart {α : Type} (rows : Nat) (lower_triangle : List α)
    (mat : MatrixX α) : Except Error (MatrixX α) := do
  let mat := mat.resize rows rows
  if lower_triangle.length ≠ rows * (rows + 1) / 2 then throw Error.throwUnless
  let st ← (List.range rows).foldlM (symmetricOuterBody rows lower_triangle) (mat, 0)
  pure st.1

/-! ## Mathematical programs -/

/-- The constraints this file adds to a `MathematicalProgram`. -/
inductive Constraint (V P : Type) where
  /-- `AddBoundingBoxConstraint(lb, ub, x)`; `ub = none` is `kInf`. -/
  | boundingBox (lb : Int) (ub : Option Int) (x : V)
  /-- `AddRotatedLorentzConeConstraint(Vector3(z0, z1, z2))`. -/
  | rotatedLorentzCone (z0 z1 z2 : V)
  /-- `AddPositiveSemidefiniteConstraint(X)`. -/
  | positiveSemidefinite (X : MatrixX V)
  /-- `AddEqualityConstraintBetweenPolynomials(p, q)`. -/
  | polynomialEquality (p q : P)

/-- `solvers::MathematicalProgram`, as far as this file builds it. -/
structure MathematicalProgram (V P : Type) where
  indeterminates : List V
  decision_variables : List V
  constraints : List (Constraint V P)

/-- A program with nothing in it. -/
def MathematicalProgram.empty {V P : Type} : MathematicalProgram V P := ⟨[], [], []⟩

/-- Appends one constraint. -/
def MathematicalProgram.addConstraint {V P : Type} (prog : MathematicalProgram V P)
    (c : Constraint V P) : MathematicalProgram V P :=
  { prog with constraints := prog.constraints ++ [c] }

/-- `prog.AddIndeterminates(vars)`. -/
def MathematicalProgram.AddIndeterminates {V P : Type} (prog : MathematicalProgram V P)
    (vars : List V) : MathematicalProgram V P :=
  { prog with indeterminates := prog.indeterminates ++ vars }

/-- `prog.AddDecisionVariables(vars)`. -/
def MathematicalProgram.AddDecisionVariables {V P : Type} (prog : MathematicalProgram V P)
    (vars : List V) : MathematicalProgram V P :=
  { prog with decision_variables := prog.decision_variables ++ vars }

/-- `prog.NewContinuousVariables(rows, "Gram")`: `fresh k` is the `k`-th variable
the call creates; a negative size is a failure. -/
def MathematicalProgram.NewContinuousVariables {V P : Type} (prog : MathematicalProgram V P)
    (fresh : Nat → V) (rows : Int) : Except Error (List V × MathematicalProgram V P) :=
  if rows < 0 then .error .outOfRange
  else
    let vars := (List.range rows.toNat).map fresh
    .ok (vars, { prog with decision_variables := prog.decision_variables ++ vars })

/-- `AddPsdConstraint`. -/
def AddPsdConstraint {V P : Type} (prog : MathematicalProgram V P) (X : MatrixX V) :
    Except Error (MathematicalProgram V P) :=
  if X.rows ≠ X.cols then .error .throwUnless
  else if X.rows = 1 then do
    let x00 ← X.get 0 0
    pure (prog.addConstraint (.boundingBox 0 none x00))
  else if X.rows = 2 then do
    let x00 ← X.get 0 0
    let x11 ← X.get 1 1
    let x01 ← X.get 0 1
    pure (prog.addConstraint (.rotatedLorentzCone x00 x11 x01))
  else
    pure (prog.addConstraint (.positiveSemidefinite X))

/-! ## Gram matrices and monomial bases -/

/-- Position of the entry `(i, j)`, `i ≥ j`, of an `r × r` symmetric matrix in
its column-by-column lower triangle. -/
def lowerIndex (r i j : Nat) : Nat :=
  j * r - j * (j - 1) / 2 + (i - j)

/-- The polynomial `Σ_j l_jj m_j² + 2 Σ_{i>j} l_ij m_i m_j` of a basis `m` of `r`
monomials and a packed lower triangle `l`. -/
def lowerTrianglePolynomial {V M P : Type} [CommRing P] (vp : V → P) (mp : M → P)
    (monomial_basis : List M) (gram_lower : List V) : P :=
  let r := monomial_basis.length
  let m := fun i => ((monomial_basis[i]?).map mp).getD 0
  let l := fun i j => ((gram_lower[lowerIndex r i j]?).map vp).getD 0
  ∑ j in Finset.range r, l j j * m j ^ 2
    + 2 * ∑ j in Finset.range r, ∑ i in Finset.Ico (j + 1) r, l i j * m i * m j

/-- Modelled from the spec: `symbolic::CalcPolynomialWLowerTriangularPart` is
declared outside this file. For a basis `m` of `r` monomials and the packed
lower triangle `l` of `r(r+1)/2` entries it is
`Σ_j l_jj m_j² + 2 Σ_{i>j} l_ij m_i m_j`. -/
def CalcPolynomialWLowerTriangularPart {V M P : Type} [CommRing P] (vp : V → P) (mp : M → P)
    (monomial_basis : List M) (gram_lower : List V) : Except Error P :=
  if gram_lower.length ≠ monomial_basis.length * (monomial_basis.length + 1) / 2 then
    .error .demand
  else .ok (lowerTrianglePolynomial vp mp monomial_basis gram_lower)

/-- `struct GramAndMonomialBasis`. -/
structure GramAndMonomialBasis (V M : Type) where
  gram_var_size : Nat
  grams : List (MatrixX V)
  monomial_basis : List (List M)

/-- The body of the loop that copies `yᵢ * m(s)` into the stacked basis. -/
def stackBody {M : Type} (monomial_basis_array : MonomialBasisArray M)
    (st : List M × Nat) (i : Nat) : Except Error (List M × Nat) := do
  let b ← basisAt monomial_basis_array (i + 1)
  let v ← assignSegment st.1 st.2 b.length b
  pure (v, st.2 + b.length)

/-- The body of the loop that makes one Gram block per `yᵢ`. -/
def blockBody {V M : Type} [Inhabited M] (monomial_basis_array : MonomialBasisArray M)
    (st : List (MatrixX V) × List (List M)) (i : Nat) :
    Except Error (List (MatrixX V) × List (List M)) := do
  let b ← basisAt monomial_basis_array (i + 1)
  let gram_rows := (monomial_basis_array 0).length + b.length
  let v : List M := List.replicate gram_rows default
  let v ← assignTopRows v (monomial_basis_array 0).length (monomial_basis_array 0)
  let v ← assignBottomRows v b.length b
  pure (st.1 ++ [MatrixX.sized gram_rows gram_rows], st.2 ++ [v])

/-- The constructor `GramAndMonomialBasis::GramAndMonomialBasis`. -/
def GramAndMonomialBasis.new {V M : Type} [Inhabited M]
    (monomial_basis_array : MonomialBasisArray M) (with_cross_y : Bool) (num_y : Int) :
    Except Error (GramAndMonomialBasis V M) := do
  let gram_var_size ← GetGramVarSize monomial_basis_array with_cross_y num_y
  let n := (monomial_basis_array 0).length
  if num_y = 0 then
    pure ⟨gram_var_size, [MatrixX.sized n n], [monomial_basis_array 0]⟩
  else if with_cross_y then
    let gram_rows ← (List.range num_y.toNat).foldlM
      (fun gram_rows i => do
        let b ← basisAt monomial_basis_array (i + 1)
        pure (gram_rows + b.length))
      n
    let v : List M := List.replicate gram_rows default
    let v ← assignTopRows v n (monomial_basis_array 0)
    let st ← (List.range num_y.toNat).foldlM (stackBody monomial_basis_array) (v, n)
    pure ⟨gram_var_size, [MatrixX.sized gram_rows gram_rows], [st.1]⟩
  else
    let st ← (List.range num_y.toNat).foldlM (blockBody monomial_basis_array) ([], [])
    pure ⟨gram_var_size, st.1, st.2⟩

/-- The body of the first loop of `AddSos`: unpack one Gram matrix. -/
def unpackBody {V : Type} (gram_lower : List V) (st : List (MatrixX V) × Nat)
    (gram : MatrixX V) : Except Error (List (MatrixX V) × Nat) := do
  let gram_lower_size := gram.rows * (gram.rows + 1) / 2
  let seg ← segment gram_lower st.2 gram_lower_size
  let gram ← SymmetricMatrixFromLowerTriangularPart gram.rows seg gram
  pure (st.1 ++ [gram], st.2 + gram_lower_size)

/-- The body of the second loop of `AddSos`: constrain one block and add its
polynomial. -/
def sosBody {V M P : Type} [CommRing P] (vp : V → P) (mp : M → P)
    (grams : List (MatrixX V)) (monomial_basis : List (List M)) (gram_lower : List V)
    (st : MathematicalProgram V P × P × Nat) (i : Nat) :
    Except Error (MathematicalProgram V P × P × Nat) := do
  let gram ← vecGet grams i
  let prog ← AddPsdConstraint st.1 gram
  let gram_lower_size := gram.rows * (gram.rows + 1) / 2
  let basis ← vecGet monomial_basis i
  let seg ← segment gram_lower st.2.2 gram_lower_size
  let p ← CalcPolynomialWLowerTriangularPart vp mp basis seg
  pure (prog, st.2.1 + p, st.2.2 + gram_lower_size)

/-- `GramAndMonomialBasis::AddSos`: returns the object with its Gram matrices
filled, the program with the PSD constraints added, and `*poly`. -/
def GramAndMonomialBasis.AddSos {V M P : Type} [CommRing P] (vp : V → P) (mp : M → P)
    (self : GramAndMonomialBasis V M) (prog : MathematicalProgram V P)
    (gram_lower : List V) :
    Except Error (GramAndMonomialBasis V M × MathematicalProgram V P × P) := do
  let st ← self.grams.foldlM (unpackBody gram_lower) ([], 0)
  let self := { self with grams := st.1 }
  let st ← (List.range self.grams.length).foldlM
    (sosBody vp mp self.grams self.monomial_basis gram_lower) (prog, 0, 0)
  pure (self, st.1, st.2.1)

/-! ## The certificate program of one separating plane -/

/-- `CIrisGeometryType`. -/
inductive CIrisGeometryType where
  | kPolytope
  | kSphere
  | kCylinder
  | kCapsule
  deriving DecidableEq, Repr

/-- What this file reads of a `CIrisCollisionGeometry`. -/
structure CIrisCollisionGeometry where
  id : Nat
  body_index : Nat
  type : CIrisGeometryType

/-- `SortedPair<T>(a, b)`. -/
def SortedPair (a b : Nat) : Nat × Nat :=
  if a ≤ b then (a, b) else (b, a)

/-- `CSpaceSeparatingPlane<symbolic::Variable>`. -/
structure CSpaceSeparatingPlane (V P : Type) where
  a : List P
  b : P
  positive_side_geometry : CIrisCollisionGeometry
  negative_side_geometry : CIrisCollisionGeometry
  expressed_body : Nat
  decision_variables : List V

/-- The geometry pair of a plane, as the key of the ignored-pair set. -/
def CSpaceSeparatingPlane.geometry_pair {V P : Type} (plane : CSpaceSeparatingPlane V P) :
    Nat × Nat :=
  SortedPair plane.positive_side_geometry.id plane.negative_side_geometry.id

/-- `symbolic::RationalFunction`. -/
structure RationalFunction (P : Type) where
  numerator : P
  denominator : P

/-- `PlaneSeparatesGeometries`. -/
structure PlaneSeparatesGeometries (P : Type) where
  positive_side_rationals : List (RationalFunction P)
  negative_side_rationals : List (RationalFunction P)
  plane_index : Int

/-- `CspaceFreePolytope::SeparatingPlaneLagrangians`. -/
structure SeparatingPlaneLagrangians (P : Type) where
  polytope : List P
  s_lower : List P
  s_upper : List P

/-- `SeparatingPlaneLagrangians(C_rows, s_size)`: default (zero) polynomials. -/
def SeparatingPlaneLagrangians.sized {P : Type} [CommRing P] (C_rows s_size : Nat) :
    SeparatingPlaneLagrangians P :=
  ⟨List.replicate C_rows 0, List.replicate s_size 0, List.replicate s_size 0⟩

/-- `CspaceFreePolytope::SeparationCertificate`. -/
structure SeparationCertificate (P : Type) where
  positive_side_rational_lagrangians : List (SeparatingPlaneLagrangians P)
  negative_side_rational_lagrangians : List (SeparatingPlaneLagrangians P)

/-- `CspaceFreePolytope::SeparationCertificateProgram`. -/
structure SeparationCertificateProgram (V P : Type) where
  prog : MathematicalProgram V P
  plane_index : Int
  certificate : SeparationCertificate P

/-- `CspaceFreePolytope::SeparationCertificateResult`: the plane index, the solved
Lagrangians and the solved plane `a`, `b`. -/
structure SeparationCertificateResult (P : Type) where
  plane_index : Int
  positive_side_rational_lagrangians : List (SeparatingPlaneLagrangians P)
  negative_side_rational_lagrangians : List (SeparatingPlaneLagrangians P)
  a : List P
  b : P

/-- The members of `CspaceFreePolytope` (and of its base class) this file reads.
`GetNumYInRational` is `internal::GetNumYInRational`, declared outside this
file, taken as given. -/
structure CspaceFreePolytope (V M P : Type) where
  /-- `rational_forward_kin().s()`. -/
  s : List V
  y_slack : List V
  with_cross_y : Bool
  separating_planes : List (CSpaceSeparatingPlane V P)
  /-- `map_body_to_monomial_basis_array()`; `none` is an absent key. -/
  map_body_to_monomial_basis_array : Nat × Nat → Option (MonomialBasisArray M)
  plane_geometries_ : List (PlaneSeparatesGeometries P)
  s_minus_s_lower_ : List P
  s_upper_minus_s_ : List P
  GetNumYInRational : RationalFunction P → List V → Int

/-- `v[i]` for an `int` index. -/
def vecGetInt {α : Type} (v : List α) (i : Int) : Except Error α :=
  if i < 0 then .error .outOfRange else vecGet v i.toNat

/-- `map_body_to_monomial_basis_array().at(pair)`. -/
def CspaceFreePolytope.basisArrayAt {V M P : Type} (self : CspaceFreePolytope V M P)
    (pair : Nat × Nat) : Except Error (MonomialBasisArray M) :=
  match self.map_body_to_monomial_basis_array pair with
  | some arr => .ok arr
  | none => .error .outOfRange

/-- The lambda `count_gram` of `ConstructPlaneSearchProgram`. -/
def CspaceFreePolytope.count_gram {V M P : Type} (self : CspaceFreePolytope V M P)
    (d_minus_Cs : List P) (C_redundant_indices s_lower_redundant_indices
      s_upper_redundant_indices : Finset Int)
    (rational : RationalFunction P) (monomial_basis_array : MonomialBasisArray M) :
    Except Error Int := do
  let s_size := self.s.length
  let num_sos : Int := 1 + (d_minus_Cs.length : Int) + 2 * (s_size : Int)
    - (C_redundant_indices.card : Int) - (s_lower_redundant_indices.card : Int)
    - (s_upper_redundant_indices.card : Int)
  let y_size := self.GetNumYInRational rational self.y_slack
  let num_gram_vars_per_sos ← GetGramVarSize monomial_basis_array self.with_cross_y y_size
  pure ((num_gram_vars_per_sos : Int) * num_sos)

/-- The running state of the code that adds SOS polynomials: the Gram builder,
the program and `gram_var_count`. -/
structure SosState (V M P : Type) where
  gmb : GramAndMonomialBasis V M
  prog : MathematicalProgram V P
  gram_var_count : Nat

/-- The statement pair
`gmb.AddSos(prog, gram_vars.segment(gram_var_count, num_gram_vars_per_sos), &poly);
gram_var_count += num_gram_vars_per_sos;`. -/
def addSosAt {V M P : Type} [CommRing P] (vp : V → P) (mp : M → P) (gram_vars : List V)
    (num_gram_vars_per_sos : Nat) (st : SosState V M P) : Except Error (SosState V M P × P) := do
  let seg ← segment gram_vars st.gram_var_count num_gram_vars_per_sos
  let r ← st.gmb.AddSos vp mp st.prog seg
  pure (⟨r.1, r.2.1, st.gram_var_count + num_gram_vars_per_sos⟩, r.2.2)

/-- The body of the loop over the faces in `add_rational_nonnegative`. -/
def polytopeLagrangianBody {V M P : Type} [CommRing P] (vp : V → P) (mp : M → P)
    (C_redundant_indices : Finset Int) (gram_vars : List V) (num_gram_vars_per_sos : Nat)
    (st : SosState V M P × SeparatingPlaneLagrangians P) (j : Nat) :
    Except Error (SosState V M P × SeparatingPlaneLagrangians P) :=
  if (j : Int) ∉ C_redundant_indices then do
    let r ← addSosAt vp mp gram_vars num_gram_vars_per_sos st.1
    let v ← vecSet st.2.polytope j r.2
    pure (r.1, { st.2 with polytope := v })
  else do
    let v ← vecSet st.2.polytope j 0
    pure (st.1, { st.2 with polytope := v })

/-- The body of the loop over the bounds in `add_rational_nonnegative`. -/
def boundsLagrangianBody {V M P : Type} [CommRing P] (vp : V → P) (mp : M → P)
    (s_lower_redundant_indices s_upper_redundant_indices : Finset Int)
    (gram_vars : List V) (num_gram_vars_per_sos : Nat)
    (st : SosState V M P × SeparatingPlaneLagrangians P) (j : Nat) :
    Except Error (SosState V M P × SeparatingPlaneLagrangians P) := do
  let st ←
    if (j : Int) ∉ s_lower_redundant_indices then do
      let r ← addSosAt vp mp gram_vars num_gram_vars_per_sos st.1
      let v ← vecSet st.2.s_lower j r.2
      pure (r.1, { st.2 with s_lower := v })
    else do
      let v ← vecSet st.2.s_lower j 0
      pure (st.1, { st.2 with s_lower := v })
  if (j : Int) ∉ s_upper_redundant_indices then do
    let r ← addSosAt vp mp gram_vars num_gram_vars_per_sos st.1
    let v ← vecSet st.2.s_upper j r.2
    pure (r.1, { st.2 with s_upper := v })
  else do
    let v ← vecSet st.2.s_upper j 0
    pure (st.1, { st.2 with s_upper := v })

/-- The lambda `add_rational_nonnegative` of `ConstructPlaneSearchProgram`; the
captured `gram_var_count` and the program are threaded through. -/
def CspaceFreePolytope.add_rational_nonnegative {V M P : Type} [CommRing P] [Inhabited M]
    (self : CspaceFreePolytope V M P) (vp : V → P) (mp : M → P) (d_minus_Cs : List P)
    (C_redundant_indices s_lower_redundant_indices s_upper_redundant_indices : Finset Int)
    (gram_vars : List V) (monomial_basis_array : MonomialBasisArray M)
    (st : MathematicalProgram V P × Nat) (rational : RationalFunction P) :
    Except Error ((MathematicalProgram V P × Nat) × SeparatingPlaneLagrangians P) := do
  let y_size := self.GetNumYInRational rational self.y_slack
  let gram_and_monomial_basis ←
    GramAndMonomialBasis.new monomial_basis_array self.with_cross_y y_size
  let num_gram_vars_per_sos := gram_and_monomial_basis.gram_var_size
  let s_size := self.s.length
  let lagrangians : SeparatingPlaneLagrangians P :=
    SeparatingPlaneLagrangians.sized d_minus_Cs.length s_size
  let st1 ← (List.range d_minus_Cs.length).foldlM
    (polytopeLagrangianBody vp mp C_redundant_indices gram_vars num_gram_vars_per_sos)
    (⟨gram_and_monomial_basis, st.1, st.2⟩, lagrangians)
  let st2 ← (List.range s_size).foldlM
    (boundsLagrangianBody vp mp s_lower_redundant_indices s_upper_redundant_indices
      gram_vars num_gram_vars_per_sos)
    st1
  let lagrangians := st2.2
  let dot_polytope ← dot lagrangians.polytope d_minus_Cs
  let dot_lower ← dot lagrangians.s_lower self.s_minus_s_lower_
  let dot_upper ← dot lagrangians.s_upper self.s_upper_minus_s_
  let poly := rational.numerator - dot_polytope - dot_lower - dot_upper
  let r ← addSosAt vp mp gram_vars num_gram_vars_per_sos st2.1
  let prog := r.1.prog.addConstraint (.polynomialEquality poly r.2)
  pure ((prog, r.1.gram_var_count), lagrangians)

/-- The loop `for (rational : rationals) v.push_back(add_rational_nonnegative(...))`. -/
def CspaceFreePolytope.add_rationals {V M P : Type} [CommRing P] [Inhabited M]
    (self : CspaceFreePolytope V M P) (vp : V → P) (mp : M → P) (d_minus_Cs : List P)
    (C_redundant_indices s_lower_redundant_indices s_upper_redundant_indices : Finset Int)
    (gram_vars : List V) (monomial_basis_array : MonomialBasisArray M)
    (st : MathematicalProgram V P × Nat) (rationals : List (RationalFunction P)) :
    Except Error ((MathematicalProgram V P × Nat) × List (SeparatingPlaneLagrangians P)) :=
  rationals.foldlM
    (fun acc rational => do
      let r ← self.add_rational_nonnegative vp mp d_minus_Cs C_redundant_indices
        s_lower_redundant_indices s_upper_redundant_indices gram_vars monomial_basis_array
        acc.1 rational
      pure (r.1, acc.2 ++ [r.2]))
    (st, [])

/-- The loop `for (rational : rationals) gram_var_count += count_gram(...)`. -/
def CspaceFreePolytope.count_grams {V M P : Type} (self : CspaceFreePolytope V M P)
    (d_minus_Cs : List P) (C_redundant_indices s_lower_redundant_indices
      s_upper_redundant_indices : Finset Int)
    (monomial_basis_array : MonomialBasisArray M) (gram_var_count : Int)
    (rationals : List (RationalFunction P)) : Except Error Int :=
  rationals.foldlM
    (fun acc rational => do
      let c ← self.count_gram d_minus_Cs C_redundant_indices s_lower_redundant_indices
        s_upper_redundant_indices rational monomial_basis_array
      pure (acc + c))
    gram_var_count

/-- `ConstructPlaneSearchProgram` up to, and not including, its final
`DRAKE_DEMAND`: returns the result, `gram_var_count` and `gram_vars`. -/
def CspaceFreePolytope.ConstructPlaneSearchProgramBody {V M P : Type} [CommRing P]
    [Inhabited M] (self : CspaceFreePolytope V M P) (vp : V → P) (mp : M → P)
    (fresh : Nat → V) (plane_geometries : PlaneSeparatesGeometries P)
    (d_minus_Cs : List P)
    (C_redundant_indices s_lower_redundant_indices s_upper_redundant_indices : Finset Int) :
    Except Error (SeparationCertificateProgram V P × Nat × List V) := do
  let prog : MathematicalProgram V P := MathematicalProgram.empty
  let prog := prog.AddIndeterminates self.s
  let plane ← vecGetInt self.separating_planes plane_geometries.plane_index
  let prog := prog.AddDecisionVariables plane.decision_variables
  let monomial_basis_array_positive_side ← self.basisArrayAt
    (SortedPair plane.expressed_body plane.positive_side_geometry.body_index)
  let gram_var_count ← self.count_grams d_minus_Cs C_redundant_indices
    s_lower_redundant_indices s_upper_redundant_indices monomial_basis_array_positive_side 0
    plane_geometries.positive_side_rationals
  let monomial_basis_array_negative_side ← self.basisArrayAt
    (SortedPair plane.expressed_body plane.negative_side_geometry.body_index)
  let gram_var_count ← self.count_grams d_minus_Cs C_redundant_indices
    s_lower_redundant_indices s_upper_redundant_indices monomial_basis_array_negative_side
    gram_var_count plane_geometries.negative_side_rationals
  let r ← prog.NewContinuousVariables fresh gram_var_count
  let gram_vars := r.1
  let prog := r.2
  let prog :=
    if plane.positive_side_geometry.type ≠ CIrisGeometryType.kPolytope ∨
        plane.negative_side_geometry.type ≠ CIrisGeometryType.kPolytope then
      prog.AddIndeterminates self.y_slack
    else prog
  let pos ← self.add_rationals vp mp d_minus_Cs C_redundant_indices
    s_lower_redundant_indices s_upper_redundant_indices gram_vars
    monomial_basis_array_positive_side (prog, 0) plane_geometries.positive_side_rationals
  let neg ← self.add_rationals vp mp d_minus_Cs C_redundant_indices
    s_lower_redundant_indices s_upper_redundant_indices gram_vars
    monomial_basis_array_negative_side pos.1 plane_geometries.negative_side_rationals
  pure (⟨neg.1.1, plane_geometries.plane_index, ⟨pos.2, neg.2⟩⟩, neg.1.2, gram_vars)

/-- `CspaceFreePolytope::ConstructPlaneSearchProgram`. -/
def CspaceFreePolytope.ConstructPlaneSearchProgram {V M P : Type} [CommRing P]
    [Inhabited M] (self : CspaceFreePolytope V M P) (vp : V → P) (mp : M → P)
    (fresh : Nat → V) (plane_geometries : PlaneSeparatesGeometries P)
    (d_minus_Cs : List P)
    (C_redundant_indices s_lower_redundant_indices s_upper_redundant_indices : Finset Int) :
    Except Error (SeparationCertificateProgram V P) := do
  let r ← self.ConstructPlaneSearchProgramBody vp mp fresh plane_geometries d_minus_Cs
    C_redundant_indices s_lower_redundant_indices s_upper_redundant_indices
  if r.2.1 ≠ r.2.2.length then throw Error.demand
  pure r.1

/-! ## The polytope search program -/

/-- The lambda `count_gram_per_rational` of `GetGramVarSizeForPolytopeSearchProgram`;
the captured `ret` is threaded through. -/
def CspaceFreePolytope.count_gram_per_rational {V M P : Type}
    (self : CspaceFreePolytope V M P) (search_s_bounds_lagrangians : Bool)
    (monomial_basis_array : MonomialBasisArray M) (ret : Nat)
    (rational : RationalFunction P) : Except Error Nat := do
  let s_size := self.s.length
  let num_sos := 1 + (if search_s_bounds_lagrangians then 2 * s_size else 0)
  let num_y := self.GetNumYInRational rational self.y_slack
  let g ← GetGramVarSize monomial_basis_array self.with_cross_y num_y
  pure (ret + num_sos * g)

/-- The body of the loop over `plane_geometries_` in
`GetGramVarSizeForPolytopeSearchProgram`. -/
def CspaceFreePolytope.gramSizePlaneBody {V M P : Type} (self : CspaceFreePolytope V M P)
    (ignored_collision_pairs : Finset (Nat × Nat)) (search_s_bounds_lagrangians : Bool)
    (ret : Nat) (plane_geometries : PlaneSeparatesGeometries P) : Except Error Nat := do
  let plane ← vecGetInt self.separating_planes plane_geometries.plane_index
  if plane.geometry_pair ∉ ignored_collision_pairs then do
    let monomial_basis_array_positive_side ← self.basisArrayAt
      (SortedPair plane.expressed_body plane.positive_side_geometry.body_index)
    let ret ← plane_geometries.positive_side_rationals.foldlM
      (self.count_gram_per_rational search_s_bounds_lagrangians
        monomial_basis_array_positive_side) ret
    let monomial_basis_array_negative_side ← self.basisArrayAt
      (SortedPair plane.expressed_body plane.negative_side_geometry.body_index)
    plane_geometries.negative_side_rationals.foldlM
      (self.count_gram_per_rational search_s_bounds_lagrangians
        monomial_basis_array_negative_side) ret
  else pure ret

/-- `CspaceFreePolytope::GetGramVarSizeForPolytopeSearchProgram`. -/
def CspaceFreePolytope.GetGramVarSizeForPolytopeSearchProgram {V M P : Type}
    (self : CspaceFreePolytope V M P) (ignored_collision_pairs : Finset (Nat × Nat))
    (search_s_bounds_lagrangians : Bool) : Except Error Nat :=
  self.plane_geometries_.foldlM
    (self.gramSizePlaneBody ignored_collision_pairs search_s_bounds_lagrangians) 0

/-- `map.emplace(key, value)` on a `std::unordered_map<int, T>`, kept as an
association list: an existing key keeps its value. -/
def mapEmplace {β : Type} (m : List (Int × β)) (key : Int) (value : β) : List (Int × β) :=
  if m.any (fun e => e.1 == key) then m else m ++ [(key, value)]

/-- `map.at(key)`. -/
def mapAt {β : Type} (m : List (Int × β)) (key : Int) : Except Error β :=
  match m.find? (fun e => e.1 == key) with
  | some e => .ok e.2
  | none => .error .outOfRange

/-- Assignment through the reference that `emplace` returned. -/
def mapSet {β : Type} (m : List (Int × β)) (key : Int) (value : β) : List (Int × β) :=
  m.map (fun e => if e.1 == key then (e.1, value) else e)

/-- `C.data()` of a matrix of variables: its entries column by column. -/
def MatrixX.data {α : Type} (mat : MatrixX α) : List α :=
  (List.range mat.cols).flatMap (fun j =>
    (List.range mat.rows).filterMap (fun i => mat.coeff i j))

/-- The body of the loop that fills `plane_to_certificate_map`; reading
`plane_index` through an empty optional is a failure. -/
def planeToCertificateBody {P : Type}
    (certificates_vec : List (Option (SeparationCertificateResult P)))
    (plane_to_certificate_map : List (Int × Nat)) (i : Nat) :
    Except Error (List (Int × Nat)) := do
  let c ← vecGet certificates_vec i
  match c with
  | some c => pure (mapEmplace plane_to_certificate_map c.plane_index i)
  | none => throw Error.outOfRange

/-- The loop that fills `plane_to_certificate_map`. -/
def buildPlaneToCertificateMap {P : Type}
    (certificates_vec : List (Option (SeparationCertificateResult P))) :
    Except Error (List (Int × Nat)) :=
  (List.range certificates_vec.length).foldlM (planeToCertificateBody certificates_vec) []

/-- The body of the loop over the bounds when the bound Lagrangians are searched:
the state is the SOS state, `s_lower_lagrangians` and `s_upper_lagrangians`. -/
def searchBoundsBody {V M P : Type} [CommRing P] (vp : V → P) (mp : M → P)
    (gram_vars : List V) (num_gram_vars_per_sos : Nat)
    (st : SosState V M P × List P × List P) (j : Nat) :
    Except Error (SosState V M P × List P × List P) := do
  let r ← addSosAt vp mp gram_vars num_gram_vars_per_sos st.1
  let s_lower_lagrangians ← vecSet st.2.1 j r.2
  let r ← addSosAt vp mp gram_vars num_gram_vars_per_sos r.1
  let s_upper_lagrangians ← vecSet st.2.2 j r.2
  pure (r.1, s_lower_lagrangians, s_upper_lagrangians)

/-- What the lambda `add_rationals_nonnegative_given_lagrangians` reads and
writes outside its arguments, and `*new_lagrangians_vec` (`none` for `nullptr`). -/
structure PolytopeSearchState (V P : Type) where
  prog : MathematicalProgram V P
  gram_var_count : Nat
  s_lower_lagrangians : List P
  s_upper_lagrangians : List P
  new_lagrangians_vec : Option (List (SeparatingPlaneLagrangians P))

/-- The body of the loop over the rationals in
`add_rationals_nonnegative_given_lagrangians`. -/
def CspaceFreePolytope.givenLagrangiansBody {V M P : Type} [CommRing P] [Inhabited M]
    (self : CspaceFreePolytope V M P) (vp : V → P) (mp : M → P) (d_minus_Cs : List P)
    (gram_vars : List V) (search_s_bounds_lagrangians : Bool)
    (rationals : List (RationalFunction P)) (monomial_basis_array : MonomialBasisArray M)
    (lagrangians_vec : List (SeparatingPlaneLagrangians P))
    (st : PolytopeSearchState V P) (i : Nat) : Except Error (PolytopeSearchState V P) := do
  let s_size := self.s.length
  let rational ← vecGet rationals i
  let num_y := self.GetNumYInRational rational self.y_slack
  let num_gram_vars_per_sos ← GetGramVarSize monomial_basis_array self.with_cross_y num_y
  let gram_and_monomial_basis ←
    GramAndMonomialBasis.new monomial_basis_array self.with_cross_y num_y
  let lagrangians ← vecGet lagrangians_vec i
  let st1 ←
    if search_s_bounds_lagrangians then
      (List.range s_size).foldlM (searchBoundsBody vp mp gram_vars num_gram_vars_per_sos)
        ((⟨gram_and_monomial_basis, st.prog, st.gram_var_count⟩ : SosState V M P),
          st.s_lower_lagrangians, st.s_upper_lagrangians)
    else
      pure ((⟨gram_and_monomial_basis, st.prog, st.gram_var_count⟩ : SosState V M P),
        lagrangians.s_lower, lagrangians.s_upper)
  let new_lagrangians_vec := st.new_lagrangians_vec.map
    (fun v => v ++ [(⟨lagrangians.polytope, st1.2.1, st1.2.2⟩ : SeparatingPlaneLagrangians P)])
  let dot_polytope ← dot lagrangians.polytope d_minus_Cs
  let dot_lower ← dot st1.2.1 self.s_minus_s_lower_
  let dot_upper ← dot st1.2.2 self.s_upper_minus_s_
  let poly := rational.numerator - dot_polytope - dot_lower - dot_upper
  let r ← addSosAt vp mp gram_vars num_gram_vars_per_sos st1.1
  pure ⟨r.1.prog.addConstraint (.polynomialEquality poly r.2), r.1.gram_var_count,
    st1.2.1, st1.2.2, new_lagrangians_vec⟩

/-- The lambda `add_rationals_nonnegative_given_lagrangians`. -/
def CspaceFreePolytope.add_rationals_nonnegative_given_lagrangians {V M P : Type}
    [CommRing P] [Inhabited M]
    (self : CspaceFreePolytope V M P) (vp : V → P) (mp : M → P) (d_minus_Cs : List P)
    (gram_vars : List V) (search_s_bounds_lagrangians : Bool)
    (st : PolytopeSearchState V P)
    (rationals : List (RationalFunction P)) (monomial_basis_array : MonomialBasisArray M)
    (lagrangians_vec : List (SeparatingPlaneLagrangians P)) :
    Except Error (PolytopeSearchState V P) := do
  if rationals.length ≠ lagrangians_vec.length then throw Error.throwUnless
  (List.range rationals.length).foldlM
    (self.givenLagrangiansBody vp mp d_minus_Cs gram_vars search_s_bounds_lagrangians
      rationals monomial_basis_array lagrangians_vec) st

/-- The program, `gram_var_count` and `*new_certificates` (`none` for `nullptr`)
in the loop over the planes of `InitializePolytopeSearchProgram`. -/
structure InitState (V P : Type) where
  prog : MathematicalProgram V P
  gram_var_count : Nat
  new_certificates : Option (List (Int × SeparationCertificate P))

/-- The body of the loop over the planes of `InitializePolytopeSearchProgram`. -/
def CspaceFreePolytope.initializePlaneBody {V M P : Type} [CommRing P] [Inhabited M]
    (self : CspaceFreePolytope V M P) (vp : V → P) (mp : M → P)
    (ignored_collision_pairs : Finset (Nat × Nat)) (d_minus_Cs : List P)
    (certificates_vec : List (Option (SeparationCertificateResult P)))
    (search_s_bounds_lagrangians : Bool) (gram_vars : List V)
    (plane_to_certificate_map : List (Int × Nat))
    (st : InitState V P) (plane_index : Nat) : Except Error (InitState V P) := do
  let s_size := self.s.length
  let plane ← vecGet self.separating_planes plane_index
  if plane.geometry_pair ∉ ignored_collision_pairs then do
    let prog := st.prog.AddDecisionVariables plane.decision_variables
    let idx ← mapAt plane_to_certificate_map (plane_index : Int)
    let certificate ← vecGet certificates_vec idx
    match certificate with
    | none => throw Error.throwUnless
    | some certificate =>
      if certificate.plane_index ≠ (plane_index : Int) then throw Error.throwUnless
      let new_certificates := st.new_certificates.map
        (fun m => mapEmplace m (plane_index : Int) (⟨[], []⟩ : SeparationCertificate P))
      let new_certificate : Option (SeparationCertificate P) :=
        new_certificates.bind (fun m => (mapAt m (plane_index : Int)).toOption)
      let s_lower_lagrangians : List P := List.replicate s_size 0
      let s_upper_lagrangians : List P := List.replicate s_size 0
      let monomial_basis_array_positive_side ← self.basisArrayAt
        (SortedPair plane.expressed_body plane.positive_side_geometry.body_index)
      let plane_geometries ← vecGet self.plane_geometries_ plane_index
      let st1 ← self.add_rationals_nonnegative_given_lagrangians vp mp d_minus_Cs gram_vars
        search_s_bounds_lagrangians
        ⟨prog, st.gram_var_count, s_lower_lagrangians, s_upper_lagrangians,
          new_certificate.map (fun c => c.positive_side_rational_lagrangians)⟩
        plane_geometries.positive_side_rationals monomial_basis_array_positive_side
        certificate.positive_side_rational_lagrangians
      let monomial_basis_array_negative_side ← self.basisArrayAt
        (SortedPair plane.expressed_body plane.negative_side_geometry.body_index)
      let st2 ← self.add_rationals_nonnegative_given_lagrangians vp mp d_minus_Cs gram_vars
        search_s_bounds_lagrangians
        ⟨st1.prog, st1.gram_var_count, st1.s_lower_lagrangians, st1.s_upper_lagrangians,
          new_certificate.map (fun c => c.negative_side_rational_lagrangians)⟩
        plane_geometries.negative_side_rationals monomial_basis_array_negative_side
        certificate.negative_side_rational_lagrangians
      let new_certificates := new_certificates.map (fun m =>
        mapSet m (plane_index : Int)
          (⟨st1.new_lagrangians_vec.getD [], st2.new_lagrangians_vec.getD []⟩ :
            SeparationCertificate P))
      pure ⟨st2.prog, st2.gram_var_count, new_certificates⟩
  else pure st

/-- `InitializePolytopeSearchProgram` (the overload that takes the vector of
certificates) up to, and not including, its final `DRAKE_DEMAND`: returns the
program, `*new_certificates` and `gram_var_count`. -/
def CspaceFreePolytope.InitializePolytopeSearchProgramBody {V M P : Type} [CommRing P]
    [Inhabited M] (self : CspaceFreePolytope V M P) (vp : V → P) (mp : M → P)
    (fresh : Nat → V) (ignored_collision_pairs : Finset (Nat × Nat))
    (C : MatrixX V) (d : List V) (d_minus_Cs : List P)
    (certificates_vec : List (Option (SeparationCertificateResult P)))
    (search_s_bounds_lagrangians : Bool) (gram_total_size : Int)
    (new_certificates : Option (List (Int × SeparationCertificate P))) :
    Except Error (InitState V P) := do
  let prog : MathematicalProgram V P := MathematicalProgram.empty
  let prog := prog.AddIndeterminates self.s
  let prog :=
    if self.separating_planes.any (fun plane =>
        decide (plane.geometry_pair ∉ ignored_collision_pairs) &&
        (decide (plane.positive_side_geometry.type ≠ CIrisGeometryType.kPolytope) ||
          decide (plane.negative_side_geometry.type ≠ CIrisGeometryType.kPolytope))) then
      prog.AddIndeterminates self.y_slack
    else prog
  let prog := prog.AddDecisionVariables C.data
  let prog := prog.AddDecisionVariables d
  let r ← prog.NewContinuousVariables fresh gram_total_size
  let gram_vars := r.1
  let prog := r.2
  let plane_to_certificate_map ← buildPlaneToCertificateMap certificates_vec
  (List.range self.separating_planes.length).foldlM
    (self.initializePlaneBody vp mp ignored_collision_pairs d_minus_Cs certificates_vec
      search_s_bounds_lagrangians gram_vars plane_to_certificate_map)
    ⟨prog, 0, new_certificates⟩

/-- `CspaceFreePolytope::InitializePolytopeSearchProgram`, the overload that takes
the vector of certificates. -/
def CspaceFreePolytope.InitializePolytopeSearchProgram {V M P : Type} [CommRing P]
    [Inhabited M] (self : CspaceFreePolytope V M P) (vp : V → P) (mp : M → P)
    (fresh : Nat → V) (ignored_collision_pairs : Finset (Nat × Nat))
    (C : MatrixX V) (d : List V) (d_minus_Cs : List P)
    (certificates_vec : List (Option (SeparationCertificateResult P)))
    (search_s_bounds_lagrangians : Bool) (gram_total_size : Int)
    (new_certificates : Option (List (Int × SeparationCertificate P))) :
    Except Error (MathematicalProgram V P × Option (List (Int × SeparationCertificate P))) := do
  let st ← self.InitializePolytopeSearchProgramBody vp mp fresh ignored_collision_pairs C d
    d_minus_Cs certificates_vec search_s_bounds_lagrangians gram_total_size new_certificates
  if (st.gram_var_count : Int) ≠ gram_total_size then throw Error.demand
  pure (st.prog, st.new_certificates)

/-! ## Redundant inequalities -/

/-- `Eigen::MatrixXd`, with entries in an ordered field. -/
structure MatrixXd (K : Type) where
  rows : Nat
  cols : Nat
  coeff : Nat → Nat → K

/-- `Eigen::MatrixXd::Identity(n, n)`. -/
def MatrixXd.Identity {K : Type} [LinearOrderedField K] (n : Nat) : MatrixXd K :=
  ⟨n, n, fun i j => if i = j then 1 else 0⟩

/-- The matrix `-A`. -/
def MatrixXd.neg {K : Type} [LinearOrderedField K] (A : MatrixXd K) : MatrixXd K :=
  ⟨A.rows, A.cols, fun i j => -A.coeff i j⟩

/-- One step of a comma initializer that stacks full-width blocks: `B` goes
under the rows filled so far. -/
def MatrixXd.stack {K : Type} (A B : MatrixXd K) : MatrixXd K :=
  ⟨A.rows + B.rows, A.cols, fun i j => if i < A.rows then A.coeff i j else B.coeff (i - A.rows) j⟩

/-- `M(rows, cols); M << B₁, B₂, B₃;` for blocks stacked vertically: every block
must have `cols` columns and the blocks must fill the `rows` rows. -/
def MatrixXd.commaInit {K : Type} (rows cols : Nat) (B₁ B₂ B₃ : MatrixXd K) :
    Except Error (MatrixXd K) :=
  if B₁.cols = cols ∧ B₂.cols = cols ∧ B₃.cols = cols ∧ B₁.rows + B₂.rows + B₃.rows = rows then
    .ok ((B₁.stack B₂).stack B₃)
  else .error .outOfRange

/-- `v(n); v << a, b, c;` for vectors. -/
def vectorCommaInit {K : Type} (n : Nat) (a b c : List K) : Except Error (List K) :=
  if a.length + b.length + c.length = n then .ok (a ++ b ++ c) else .error .outOfRange

/-- `HPolyhedron`: the set `{x | A x ≤ b}`. -/
structure HPolyhedron (K : Type) where
  A : MatrixXd K
  b : List K

/-- The constructor `HPolyhedron(A, b)`. -/
def HPolyhedron.new {K : Type} (A : MatrixXd K) (b : List K) : Except Error (HPolyhedron K) :=
  if A.rows = b.length then .ok ⟨A, b⟩ else .error .throwUnless

/-- `set->clear()`. -/
def clear (_ : Finset Int) : Finset Int := ∅

/-- The body of the loop of `FindRedundantInequalities` over the reported rows;
the state is `(C_redundant_indices, s_lower_redundant_indices,
s_upper_redundant_indices)`. -/
def classifyBody (C_rows ns : Nat) (st : Finset Int × Finset Int × Finset Int) (index : Int) :
    Finset Int × Finset Int × Finset Int :=
  if index < (C_rows : Int) then
    (insert index st.1, st.2.1, st.2.2)
  else if index < (C_rows : Int) + (ns : Int) then
    (st.1, st.2.1, insert (index - (C_rows : Int)) st.2.2)
  else
    (st.1, insert (index - (C_rows : Int) - (ns : Int)) st.2.1, st.2.2)

/-- `CspaceFreePolytope::FindRedundantInequalities`. `FindRedundant` is
`HPolyhedron::FindRedundant`, declared outside this file, taken as given; the
three sets passed in are the previous contents of the output sets; the result
is `(C_redundant_indices, s_lower_redundant_indices, s_upper_redundant_indices)`. -/
def FindRedundantInequalities {K : Type} [LinearOrderedField K]
    (FindRedundant : HPolyhedron K → K → Finset Int)
    (C : MatrixXd K) (d s_lower s_upper : List K) (tighten : K)
    (C_redundant_indices s_lower_redundant_indices s_upper_redundant_indices : Finset Int) :
    Except Error (Finset Int × Finset Int × Finset Int) := do
  let C_redundant_indices := clear C_redundant_indices
  let s_lower_redundant_indices := clear s_lower_redundant_indices
  let s_upper_redundant_indices := clear s_upper_redundant_indices
  let ns := s_lower.length
  let C_bar ← MatrixXd.commaInit (C.rows + 2 * ns) ns C (MatrixXd.Identity ns)
    (MatrixXd.Identity ns).neg
  let d_bar ← vectorCommaInit (d.length + 2 * ns) d s_upper (s_lower.map (fun x => -x))
  let hpolyhedron ← HPolyhedron.new C_bar d_bar
  let redundant_indices := FindRedundant hpolyhedron (-tighten)
  pure ((redundant_indices.sort (· ≤ ·)).foldl (classifyBody C.rows ns)
    (C_redundant_indices, s_lower_redundant_indices, s_upper_redundant_indices))

/-- The stacked system `[C; I; -I] s ≤ [d; s_upper; -s_lower]`. -/
def stackedSystem {K : Type} [LinearOrderedField K] (C : MatrixXd K)
    (d s_lower s_upper : List K) : HPolyhedron K :=
  ⟨⟨C.rows + s_lower.length + s_lower.length, C.cols,
    fun i j =>
      if i < C.rows then C.coeff i j
      else if i < C.rows + s_lower.length then (if i - C.rows = j then 1 else 0)
      else (if i - C.rows - s_lower.length = j then -1 else 0)⟩,
   d ++ s_upper ++ s_lower.map (fun x => -x)⟩

/-- Modelled from the spec: `HPolyhedron::FindRedundant` is declared outside this
file; the specification has it report the rows that are implied by the rest.
Row `k` of `A x ≤ b` is implied by the remaining rows when every point that
satisfies all the other rows satisfies row `k`. -/
def RowImplied {K : Type} [LinearOrderedField K] (P : HPolyhedron K) (k : Nat) : Prop :=
  ∀ x : Nat → K,
    (∀ i, i < P.A.rows → i ≠ k →
      ∑ j in Finset.range P.A.cols, P.A.coeff i j * x j ≤ P.b.getD i 0) →
    ∑ j in Finset.range P.A.cols, P.A.coeff k j * x j ≤ P.b.getD k 0

/-- The polytope rows `x ≤ 2`, `x ≤ 5` of the one-dimensional example. -/
def exampleC : MatrixXd ℚ := ⟨2, 1, fun _ _ => 1⟩

/-- The stacked system of the example: `x ≤ 2`, `x ≤ 5`, `x ≤ 1`, `-x ≤ 0`. -/
def exampleSystem : HPolyhedron ℚ := stackedSystem exampleC [2, 5] [0] [1]

/-! ## Reference definitions for the Gram blocks -/

/-- `monomial_basis_array[i + 1]`, empty outside the array. -/
def basisGet {M : Type} (monomial_basis_array : MonomialBasisArray M) (i : Nat) : List M :=
  if h : i + 1 < 4 then monomial_basis_array ⟨i + 1, h⟩ else []

/-- The Gram blocks as the specification words them, a list of pairs
(block size, monomial basis): one block `m(s)` without auxiliary variables; one
block stacking `m(s)` with every `yᵢ m(s)` with cross terms; one block
`[m(s); yᵢ m(s)]` per `yᵢ` without. -/
def GramBlocksRef {M : Type} (monomial_basis_array : MonomialBasisArray M)
    (with_cross_y : Bool) (num_y : Nat) : List (Nat × List M) :=
  let m := monomial_basis_array 0
  if num_y = 0 then [(m.length, m)]
  else if with_cross_y then
    [(m.length + ∑ i in Finset.range num_y, (basisGet monomial_basis_array i).length,
      m ++ ((List.range num_y).map (basisGet monomial_basis_array)).flatten)]
  else
    (List.range num_y).map
      (fun i => (m.length + (basisGet monomial_basis_array i).length,
        m ++ basisGet monomial_basis_array i))

/-! ## Reference definitions for `AddSos` -/

/-- The matrix has size `r × r` and the entries `(i, j)`, `(j, i)` selected by
`done` hold the packed entry `lowerIndex r i j` of `lt`. -/
def Filled {α : Type} (lt : List α) (r : Nat) (mat : MatrixX α) (done : Nat → Nat → Prop) :
    Prop :=
  mat.rows = r ∧ mat.cols = r ∧
    ∀ i j, j ≤ i → i < r → done i j →
      mat.coeff i j = lt[lowerIndex r i j]? ∧ mat.coeff j i = lt[lowerIndex r i j]?

/-- The polynomial `basisᵀ · Gram · basis` of one block. -/
def quadForm {V M P : Type} [CommRing P] (vp : V → P) (mp : M → P)
    (basis : List M) (gram : MatrixX V) : P :=
  ∑ i in Finset.range gram.rows, ∑ j in Finset.range gram.cols,
    ((basis[i]?).map mp).getD 0 * ((gram.coeff i j).map vp).getD 0
      * ((basis[j]?).map mp).getD 0

/-- Where the packed lower triangle of block `b` starts in the flat vector of
Gram variables, for blocks of the given sizes. -/
def blockOffset (rows : List Nat) (b : Nat) : Nat :=
  ((rows.take b).map gram_lower_size).sum

/-- The segment of the flat vector that holds block `b`. -/
def blockSegment {V : Type} (rows : List Nat) (gram_lower : List V) (b : Nat) : List V :=
  (gram_lower.drop (blockOffset rows b)).take (gram_lower_size (rows.getD b 0))

/-- The polynomial `AddSos` returns for the given bases and flat vector. -/
def sosPolynomial {V M P : Type} [CommRing P] (vp : V → P) (mp : M → P)
    (monomial_basis : List (List M)) (gram_lower : List V) : P :=
  ∑ b in Finset.range monomial_basis.length,
    lowerTrianglePolynomial vp mp (monomial_basis.getD b [])
      (blockSegment (monomial_basis.map List.length) gram_lower b)

/-- The bases have the sizes of the Gram matrices and `gram_var_size` is the total
size of the lower triangles. -/
def GramAndMonomialBasis.WF {V M : Type} (G : GramAndMonomialBasis V M) : Prop :=
  G.monomial_basis.map List.length = G.grams.map (fun g => g.rows) ∧
  G.gram_var_size = ((G.grams.map (fun g => g.rows)).map gram_lower_size).sum

/-- A constraint on Gram matrix entries (not a polynomial equality). -/
def Constraint.isGram {V P : Type} : Constraint V P → Bool
  | .polynomialEquality _ _ => false
  | _ => true

/-! ## Positive semidefiniteness -/

/-- The value of the entry `(i, j)` of a matrix of variables under a valuation. -/
def MatrixX.entry {V K : Type} [LinearOrderedField K] (val : V → K) (X : MatrixX V)
    (i j : Nat) : K :=
  ((X.coeff i j).map val).getD 0

/-- Every entry of the matrix has been assigned. -/
def MatrixX.Assigned {V : Type} (X : MatrixX V) : Prop :=
  ∀ i j, i < X.rows → j < X.cols → ∃ x, X.coeff i j = some x

/-- The matrix of values is symmetric. -/
def MatrixX.IsSymm {V K : Type} [LinearOrderedField K] (val : V → K) (X : MatrixX V) : Prop :=
  ∀ i j, i < X.rows → j < X.cols → X.entry val i j = X.entry val j i

/-- Positive semidefiniteness of the matrix of values: `vᵀ X v ≥ 0` for every
vector `v`. -/
def MatrixX.IsPSD {V K : Type} [LinearOrderedField K] (val : V → K) (X : MatrixX V) : Prop :=
  ∀ v : Nat → K,
    0 ≤ ∑ i in Finset.range X.rows, ∑ j in Finset.range X.cols, v i * X.entry val i j * v j

/-! ## Reference definitions for the certificate program -/

/-- The number of faces `i < j` that are not redundant. -/
def activeFaces (C_redundant_indices : Finset Int) (j : Nat) : Nat :=
  ((List.range j).filter (fun (i : Nat) => (i : Int) ∉ C_redundant_indices)).length

/-- The number of non-redundant lower and upper bounds with index `i < j`. -/
def activeBounds (s_lower_redundant_indices s_upper_redundant_indices : Finset Int)
    (j : Nat) : Nat :=
  ((List.range j).filter (fun (i : Nat) => (i : Int) ∉ s_lower_redundant_indices)).length
    + ((List.range j).filter (fun (i : Nat) => (i : Int) ∉ s_upper_redundant_indices)).length

/-- The SOS polynomial built on the `num` Gram variables that start at position
`off` of `gram_vars`. -/
def sosAt {V M P : Type} [CommRing P] (vp : V → P) (mp : M → P)
    (monomial_basis : List (List M)) (gram_vars : List V) (num off : Nat) : P :=
  sosPolynomial vp mp monomial_basis ((gram_vars.drop off).take num)

/-- The Lagrangians of one rational in closed form, when its first Gram variable
is at position `start`: a redundant index has the zero polynomial, every other
index the SOS polynomial on the next free segment of `num` Gram variables. -/
def lagrangiansSpec {V M P : Type} [CommRing P] (vp : V → P) (mp : M → P)
    (monomial_basis : List (List M)) (gram_vars : List V) (num : Nat)
    (C_redundant_indices s_lower_redundant_indices s_upper_redundant_indices : Finset Int)
    (C_rows s_size start : Nat) : SeparatingPlaneLagrangians P :=
  let start1 := start + num * activeFaces C_redundant_indices C_rows
  { polytope := (List.range C_rows).map (fun (j : Nat) =>
      if (j : Int) ∈ C_redundant_indices then 0
      else sosAt vp mp monomial_basis gram_vars num
        (start + num * activeFaces C_redundant_indices j)),
    s_lower := (List.range s_size).map (fun (j : Nat) =>
      if (j : Int) ∈ s_lower_redundant_indices then 0
      else sosAt vp mp monomial_basis gram_vars num
        (start1 + num * activeBounds s_lower_redundant_indices s_upper_redundant_indices j)),
    s_upper := (List.range s_size).map (fun (j : Nat) =>
      if (j : Int) ∈ s_upper_redundant_indices then 0
      else sosAt vp mp monomial_basis gram_vars num
        (start1 + num * (activeBounds s_lower_redundant_indices s_upper_redundant_indices j
          + (if (j : Int) ∈ s_lower_redundant_indices then 0 else 1)))) }

/-- The number of SOS polynomials of one rational: the non-redundant faces and
bounds, and `σ`. -/
def numSos (C_redundant_indices s_lower_redundant_indices s_upper_redundant_indices : Finset Int)
    (C_rows s_size : Nat) : Nat :=
  activeFaces C_redundant_indices C_rows
    + activeBounds s_lower_redundant_indices s_upper_redundant_indices s_size + 1

/-- The builder is well formed, has `num` Gram variables, the given bases and
the given number of blocks. -/
def GramAndMonomialBasis.Shaped {V M : Type} (G : GramAndMonomialBasis V M)
    (monomial_basis : List (List M)) (num blocks : Nat) : Prop :=
  G.WF ∧ G.gram_var_size = num ∧ G.monomial_basis = monomial_basis ∧ G.grams.length = blocks

/-- The program `prog'` is `prog` with `k` more constraints, all on Gram entries. -/
def MathematicalProgram.ExtendsByGram {V P : Type} (prog' prog : MathematicalProgram V P)
    (k : Nat) : Prop :=
  ∃ cs : List (Constraint V P),
    prog' = { prog with constraints := prog.constraints ++ cs } ∧ cs.length = k ∧
      ∀ c ∈ cs, c.isGram = true

/-- The monomial bases of the Gram blocks for `num_y` auxiliary variables. -/
def basesOf {M : Type} (monomial_basis_array : MonomialBasisArray M) (with_cross_y : Bool)
    (num_y : Int) : List (List M) :=
  (GramBlocksRef monomial_basis_array with_cross_y num_y.toNat).map (fun b => b.2)

/-- The number of Gram variables of one SOS polynomial for `num_y` auxiliary
variables. -/
def numGramOf {M : Type} (monomial_basis_array : MonomialBasisArray M) (with_cross_y : Bool)
    (num_y : Int) : Nat :=
  GramVarSizeRef (monomial_basis_array 0).length (basisRows monomial_basis_array)
    with_cross_y num_y.toNat

/-- The number of Gram blocks for `num_y` auxiliary variables. -/
def blocksOf {M : Type} (monomial_basis_array : MonomialBasisArray M) (with_cross_y : Bool)
    (num_y : Int) : Nat :=
  (GramBlocksRef monomial_basis_array with_cross_y num_y.toNat).length

/-- The sum `Σ aᵢ bᵢ` of a dot product. -/
def dotSum {P : Type} [CommRing P] (a b : List P) : P :=
  (List.zipWith (· * ·) a b).sum

/-- The polynomial that is constrained equal to `σ`: the numerator minus the
Lagrangians times their inequality polynomials. -/
def certificatePolynomial {P : Type} [CommRing P] (d_minus_Cs s_minus_s_lower
    s_upper_minus_s : List P) (numerator : P) (lagrangians : SeparatingPlaneLagrangians P) : P :=
  numerator - dotSum lagrangians.polytope d_minus_Cs
    - dotSum lagrangians.s_lower s_minus_s_lower
    - dotSum lagrangians.s_upper s_upper_minus_s

/-- The Lagrangians of a list of rationals in closed form, the first Gram
variable of the first rational being at position `start`. -/
def CspaceFreePolytope.lagrangiansListSpec {V M P : Type} [CommRing P]
    (self : CspaceFreePolytope V M P) (vp : V → P) (mp : M → P) (gram_vars : List V)
    (C_redundant_indices s_lower_redundant_indices s_upper_redundant_indices : Finset Int)
    (C_rows : Nat) (arr : MonomialBasisArray M) :
    Nat → List (RationalFunction P) → List (SeparatingPlaneLagrangians P)
  | _, [] => []
  | start, r :: rs =>
    lagrangiansSpec vp mp
        (basesOf arr self.with_cross_y (self.GetNumYInRational r self.y_slack)) gram_vars
        (numGramOf arr self.with_cross_y (self.GetNumYInRational r self.y_slack))
        C_redundant_indices s_lower_redundant_indices s_upper_redundant_indices
        C_rows self.s.length start
      :: self.lagrangiansListSpec vp mp gram_vars C_redundant_indices
          s_lower_redundant_indices s_upper_redundant_indices C_rows arr
          (start + numGramOf arr self.with_cross_y (self.GetNumYInRational r self.y_slack)
            * numSos C_redundant_indices s_lower_redundant_indices
                s_upper_redundant_indices C_rows self.s.length) rs

/-- The polynomial equality constraints of a list of rationals in closed form. -/
def CspaceFreePolytope.equalitiesSpec {V M P : Type} [CommRing P]
    (self : CspaceFreePolytope V M P) (vp : V → P) (mp : M → P) (d_minus_Cs : List P)
    (gram_vars : List V)
    (C_redundant_indices s_lower_redundant_indices s_upper_redundant_indices : Finset Int)
    (arr : MonomialBasisArray M) :
    Nat → List (RationalFunction P) → List (Constraint V P)
  | _, [] => []
  | start, r :: rs =>
    Constraint.polynomialEquality
        (certificatePolynomial d_minus_Cs self.s_minus_s_lower_ self.s_upper_minus_s_
          r.numerator
          (lagrangiansSpec vp mp
            (basesOf arr self.with_cross_y (self.GetNumYInRational r self.y_slack)) gram_vars
            (numGramOf arr self.with_cross_y (self.GetNumYInRational r self.y_slack))
            C_redundant_indices s_lower_redundant_indices s_upper_redundant_indices
            d_minus_Cs.length self.s.length start))
        (sosAt vp mp
          (basesOf arr self.with_cross_y (self.GetNumYInRational r self.y_slack)) gram_vars
          (numGramOf arr self.with_cross_y (self.GetNumYInRational r self.y_slack))
          (start + numGramOf arr self.with_cross_y (self.GetNumYInRational r self.y_slack)
            * (activeFaces C_redundant_indices d_minus_Cs.length
              + activeBounds s_lower_redundant_indices s_upper_redundant_indices
                  self.s.length)))
      :: self.equalitiesSpec vp mp d_minus_Cs gram_vars C_redundant_indices
          s_lower_redundant_indices s_upper_redundant_indices arr
          (start + numGramOf arr self.with_cross_y (self.GetNumYInRational r self.y_slack)
            * numSos C_redundant_indices s_lower_redundant_indices
                s_upper_redundant_indices d_minus_Cs.length self.s.length) rs

/-- The number of Gram variables a list of rationals consumes when every rational
has `num_sos` SOS polynomials. -/
def CspaceFreePolytope.totalGram {V M P : Type} (self : CspaceFreePolytope V M P)
    (arr : MonomialBasisArray M) (num_sos : Nat) (rs : List (RationalFunction P)) : Nat :=
  (rs.map (fun r =>
    numGramOf arr self.with_cross_y (self.GetNumYInRational r self.y_slack) * num_sos)).sum

/-- The number of Gram constraints a list of rationals adds. -/
def CspaceFreePolytope.totalBlocks {V M P : Type} (self : CspaceFreePolytope V M P)
    (arr : MonomialBasisArray M) (num_sos : Nat) (rs : List (RationalFunction P)) : Nat :=
  (rs.map (fun r =>
    blocksOf arr self.with_cross_y (self.GetNumYInRational r self.y_slack) * num_sos)).sum

/-- The program `prog'` is `prog` with more constraints: the polynomial
equalities `eqs`, in this order, and `k` Gram constraints. -/
def MathematicalProgram.After {V P : Type} (prog' prog : MathematicalProgram V P)
    (eqs : List (Constraint V P)) (k : Nat) : Prop :=
  prog'.indeterminates = prog.indeterminates ∧
  prog'.decision_variables = prog.decision_variables ∧
  ∃ cs : List (Constraint V P), prog'.constraints = prog.constraints ++ cs ∧
    cs.filter (fun c => !c.isGram) = eqs ∧ (cs.filter (fun c => c.isGram)).length = k

/-- Every rational of the list has between 0 and 3 auxiliary variables. -/
def CspaceFreePolytope.NumYInRange {V M P : Type} (self : CspaceFreePolytope V M P)
    (rs : List (RationalFunction P)) : Prop :=
  ∀ r ∈ rs, 0 ≤ self.GetNumYInRational r self.y_slack ∧
    self.GetNumYInRational r self.y_slack ≤ 3

/-- The program of `ConstructPlaneSearchProgram` after its declarations, before
any constraint: the indeterminates `s` (and `y` for a non-polytopic geometry),
the plane's decision variables and the Gram variables. -/
def CspaceFreePolytope.declaredProgram {V M P : Type} (self : CspaceFreePolytope V M P)
    (plane : CSpaceSeparatingPlane V P) (gram_vars : List V) : MathematicalProgram V P :=
  let prog : MathematicalProgram V P :=
    ⟨self.s, plane.decision_variables ++ gram_vars, []⟩
  if plane.positive_side_geometry.type ≠ CIrisGeometryType.kPolytope ∨
      plane.negative_side_geometry.type ≠ CIrisGeometryType.kPolytope then
    prog.AddIndeterminates self.y_slack
  else prog

/-- The redundant indices are indices of existing inequalities. -/
def RedundantInRange (C_redundant_indices s_lower_redundant_indices
    s_upper_redundant_indices : Finset Int) (C_rows s_size : Nat) : Prop :=
  (∀ k ∈ C_redundant_indices, 0 ≤ k ∧ k < (C_rows : Int)) ∧
  (∀ k ∈ s_lower_redundant_indices, 0 ≤ k ∧ k < (s_size : Int)) ∧
  (∀ k ∈ s_upper_redundant_indices, 0 ≤ k ∧ k < (s_size : Int))

/-- What `ConstructPlaneSearchProgram` needs of the object for one plane: the plane
exists, both body pairs have a monomial basis array, every rational has between
0 and 3 auxiliary variables, and the bound polynomials have one entry per
variable of `s`. -/
structure CspaceFreePolytope.Ready {V M P : Type} (cfp : CspaceFreePolytope V M P)
    (pg : PlaneSeparatesGeometries P) (plane : CSpaceSeparatingPlane V P)
    (arrP arrN : MonomialBasisArray M) : Prop where
  plane_eq : vecGetInt cfp.separating_planes pg.plane_index = .ok plane
  positive_array : cfp.map_body_to_monomial_basis_array
    (SortedPair plane.expressed_body plane.positive_side_geometry.body_index) = some arrP
  negative_array : cfp.map_body_to_monomial_basis_array
    (SortedPair plane.expressed_body plane.negative_side_geometry.body_index) = some arrN
  positive_num_y : cfp.NumYInRange pg.positive_side_rationals
  negative_num_y : cfp.NumYInRange pg.negative_side_rationals
  s_lower_size : cfp.s_minus_s_lower_.length = cfp.s.length
  s_upper_size : cfp.s_upper_minus_s_.length = cfp.s.length

/-- A plane between two polytopes, for the examples. -/
def examplePlane : CSpaceSeparatingPlane Nat Int :=
  ⟨[], 0, ⟨0, 0, .kPolytope⟩, ⟨1, 1, .kPolytope⟩, 0, []⟩

/-- A monomial basis array with one monomial in every slot, for the examples. -/
def exampleArr : MonomialBasisArray Nat := fun _ => [0]

/-- The rationals of the example plane: one on the positive side. -/
def examplePg : PlaneSeparatesGeometries Int := ⟨[⟨1, 1⟩], [], 0⟩

/-- An object with one configuration variable and one plane, for the examples. -/
def exampleCfp : CspaceFreePolytope Nat Nat Int :=
  { s := [0], y_slack := [], with_cross_y := false, separating_planes := [examplePlane],
    map_body_to_monomial_basis_array := fun _ => some exampleArr,
    plane_geometries_ := [examplePg], s_minus_s_lower_ := [1], s_upper_minus_s_ := [1],
    GetNumYInRational := fun _ _ => 0 }

/-- The segments, counted in units of `num_gram_vars_per_sos` from the first Gram
variable of a rational, that the SOS polynomials of the rational are built on,
in the order of the code: the non-redundant faces, then for every bound index
the lower and the upper bound when not redundant, then `σ`. -/
def sosSegments (C_redundant_indices s_lower_redundant_indices
    s_upper_redundant_indices : Finset Int) (C_rows s_size : Nat) : List Nat :=
  ((List.range C_rows).filter (fun (j : Nat) => (j : Int) ∉ C_redundant_indices)).map
      (activeFaces C_redundant_indices)
    ++ (List.range s_size).flatMap (fun (j : Nat) =>
        (if (j : Int) ∈ s_lower_redundant_indices then []
         else [activeFaces C_redundant_indices C_rows
          + activeBounds s_lower_redundant_indices s_upper_redundant_indices j])
        ++ (if (j : Int) ∈ s_upper_redundant_indices then []
         else [activeFaces C_redundant_indices C_rows
          + (activeBounds s_lower_redundant_indices s_upper_redundant_indices j
            + (if (j : Int) ∈ s_lower_redundant_indices then 0 else 1))]))
    ++ [activeFaces C_redundant_indices C_rows
      + activeBounds s_lower_redundant_indices s_upper_redundant_indices s_size]

/-- The Lagrangians `L` of a rational whose first Gram variable is at position
`start`: the Lagrangian of a redundant index is the zero polynomial; the
Lagrangian of any other index is the SOS polynomial on the segment of `num` Gram
variables whose number, counted from `start`, is the one listed in
`sosSegments`; all the segments of the rational, the one of `σ` included, lie
inside `gram_vars`. -/
def LagrangiansOnSegments {V M P : Type} [CommRing P] (vp : V → P) (mp : M → P)
    (monomial_basis : List (List M)) (gram_vars : List V) (num : Nat)
    (C_redundant_indices s_lower_redundant_indices s_upper_redundant_indices : Finset Int)
    (C_rows s_size start : Nat) (L : SeparatingPlaneLagrangians P) : Prop :=
  start + num * numSos C_redundant_indices s_lower_redundant_indices
      s_upper_redundant_indices C_rows s_size ≤ gram_vars.length ∧
  L.polytope.length = C_rows ∧ L.s_lower.length = s_size ∧ L.s_upper.length = s_size ∧
  (∀ j : Nat, j < C_rows → L.polytope[j]? = some
    (if (j : Int) ∈ C_redundant_indices then 0
     else sosAt vp mp monomial_basis gram_vars num
      (start + num * activeFaces C_redundant_indices j))) ∧
  (∀ j : Nat, j < s_size → L.s_lower[j]? = some
    (if (j : Int) ∈ s_lower_redundant_indices then 0
     else sosAt vp mp monomial_basis gram_vars num
      (start + num * (activeFaces C_redundant_indices C_rows
        + activeBounds s_lower_redundant_indices s_upper_redundant_indices j)))) ∧
  (∀ j : Nat, j < s_size → L.s_upper[j]? = some
    (if (j : Int) ∈ s_upper_redundant_indices then 0
     else sosAt vp mp monomial_basis gram_vars num
      (start + num * (activeFaces C_redundant_indices C_rows
        + (activeBounds s_lower_redundant_indices s_upper_redundant_indices j
          + (if (j : Int) ∈ s_lower_redundant_indices then 0 else 1))))))

/-- `symbolic::Monomial`: a product of variables, every variable as often as its
power. -/
abbrev symbolic.Monomial (V : Type) := Multiset V

/-- `symbolic::Monomial(var)`. -/
def symbolic.Monomial.ofVariable {V : Type} (var : V) : symbolic.Monomial V := {var}

/-- `symbolic::Monomial{}`, the monomial `1`. -/
def symbolic.Monomial.one {V : Type} : symbolic.Monomial V := 0

/-- The value of a monomial at a point. -/
def symbolic.Monomial.Evaluate {V K : Type} [CommRing K] (m : symbolic.Monomial V)
    (env : V → K) : K :=
  (m.map env).prod

/-- `symbolic::Polynomial(map)`: a polynomial holds a copy of a
`Polynomial::MapType`, the map from monomial to coefficient, kept as an
association list. -/
structure symbolic.Polynomial (V K : Type) where
  monomial_to_coefficient_map : List (symbolic.Monomial V × K)

/-- The value of a polynomial at a point: the sum over its terms. -/
def symbolic.Polynomial.Evaluate {V K : Type} [CommRing K] (p : symbolic.Polynomial V K)
    (env : V → K) : K :=
  (p.monomial_to_coefficient_map.map (fun e => e.2 * e.1.Evaluate env)).sum

/-- The statement
`it = map.find(key); if (it == map.end()) map.emplace_hint(it, key, value); else it->second = value;`
on a `Polynomial::MapType`. -/
def polyMapAssign {V K : Type} [DecidableEq V] (map : List (symbolic.Monomial V × K))
    (key : symbolic.Monomial V) (value : K) : List (symbolic.Monomial V × K) :=
  if map.any (fun e => e.1 == key) then
    map.map (fun e => if e.1 == key then (e.1, value) else e)
  else map ++ [(key, value)]

/-- `A(i, j)` on an `Eigen::MatrixXd`. -/
def MatrixXd.get {K : Type} (A : MatrixXd K) (i j : Nat) : Except Error K :=
  if i < A.rows ∧ j < A.cols then .ok (A.coeff i j) else .error .outOfRange

/-- The body of the loop of `CalcDminusCs` that fills `s_monomials`. -/
def sMonomialsBody {V : Type} (s : List V) (s_monomials : List (symbolic.Monomial V))
    (i : Nat) : Except Error (List (symbolic.Monomial V)) := do
  let var ← vecGet s i
  vecSet s_monomials i (symbolic.Monomial.ofVariable var)

/-- The body of the inner loop of `CalcDminusCs`, over the columns `j` of row `i`;
the state is `d_minus_Cs_poly_map`. -/
def dMinusCsInnerBody {V K : Type} [DecidableEq V] [CommRing K] (C : MatrixXd K)
    (s_monomials : List (symbolic.Monomial V)) (i : Nat)
    (d_minus_Cs_poly_map : List (symbolic.Monomial V × K)) (j : Nat) :
    Except Error (List (symbolic.Monomial V × K)) := do
  let key ← vecGet s_monomials j
  let c ← C.get i j
  pure (polyMapAssign d_minus_Cs_poly_map key (-c))

/-- The body of the outer loop of `CalcDminusCs`, over the rows `i`; the state is
`d_minus_Cs_poly_map`, which is not cleared between rows, and `d_minus_Cs`. -/
def dMinusCsOuterBody {V K : Type} [DecidableEq V] [CommRing K] (C : MatrixXd K)
    (d : List K) (s_rows : Nat) (s_monomials : List (symbolic.Monomial V))
    (st : List (symbolic.Monomial V × K) × List (symbolic.Polynomial V K)) (i : Nat) :
    Except Error (List (symbolic.Monomial V × K) × List (symbolic.Polynomial V K)) := do
  let d_minus_Cs_poly_map ← (List.range s_rows).foldlM
    (dMinusCsInnerBody C s_monomials i) st.1
  let di ← vecGet d i
  let d_minus_Cs_poly_map := polyMapAssign d_minus_Cs_poly_map symbolic.Monomial.one di
  let d_minus_Cs ← vecSet st.2 i (⟨d_minus_Cs_poly_map⟩ : symbolic.Polynomial V K)
  pure (d_minus_Cs_poly_map, d_minus_Cs)

/-- `CspaceFreePolytope::CalcDminusCs`, for coefficients in a commutative ring
`K` (numbers, or expressions in the variables of `C` and `d`). -/
def CspaceFreePolytope.CalcDminusCs {V M P K : Type} [DecidableEq V] [CommRing K]
    (self : CspaceFreePolytope V M P) (C : MatrixXd K) (d : List K) :
    Except Error (List (symbolic.Polynomial V K)) := do
  let s := self.s
  if ¬ (C.rows = d.length ∧ C.cols = s.length) then throw Error.throwUnless
  let s_monomials ← (List.range s.length).foldlM (sMonomialsBody s)
    (List.replicate s.length symbolic.Monomial.one)
  let d_minus_Cs : List (symbolic.Polynomial V K) := List.replicate d.length ⟨[]⟩
  let st ← (List.range C.rows).foldlM (dMinusCsOuterBody C d s.length s_monomials)
    ([], d_minus_Cs)
  pure st.2

/-- What the loops of `CalcDminusCs` keep true of `d_minus_Cs_poly_map`: no key
occurs twice and every key is one of `allowed`. -/
def PolyMapWF {V K : Type} (allowed : List (symbolic.Monomial V))
    (map : List (symbolic.Monomial V × K)) : Prop :=
  (map.map Prod.fst).Nodup ∧ ∀ e ∈ map, e.1 ∈ allowed

/-- The terms of row `i` of `d - C s` are in the map: `-C(i, j)` at the monomial of
`s(j)` for every `j`, and `d(i)` at the monomial `1`. -/
def RowTerms {V K : Type} [CommRing K] (C : MatrixXd K) (s : List V) (i : Nat) (di : K)
    (map : List (symbolic.Monomial V × K)) : Prop :=
  (∀ j : Fin s.length, (symbolic.Monomial.ofVariable (s.get j), -C.coeff i j) ∈ map) ∧
  (symbolic.Monomial.one, di) ∈ map

/-- An object with two configuration variables, for the examples. -/
def exampleCfp2 : CspaceFreePolytope Nat Nat Int :=
  { s := [0, 1], y_slack := [], with_cross_y := false, separating_planes := [],
    map_body_to_monomial_basis_array := fun _ => none,
    plane_geometries_ := [], s_minus_s_lower_ := [], s_upper_minus_s_ := [],
    GetNumYInRational := fun _ _ => 0 }

/-- A matrix with two rows and two columns, for the examples. -/
def exampleC2 : MatrixXd Int := ⟨2, 2, fun i j => 1 + 2 * (i : Int) + (j : Int)⟩

/-! ## Numeric costs and constraints, and solving with backoff -/

/-- A `Binding<LinearCost>`: the cost `aᵀ x + b` on the variables `vars`
(`variables()` in the source). -/
structure LinearCost (V K : Type) where
  a : List K
  b : K
  vars : List V
  deriving DecidableEq

/-- The constraints with numeric data that this file adds to a program; a bound
`none` is `-kInf` (lower) or `kInf` (upper). -/
inductive NumericConstraint (V K : Type) where
  /-- `AddLinearConstraint(a, lb, ub, vars)` for a row vector `a`. -/
  | linearRow (a : List K) (lb ub : Option K) (vars : List V)
  /-- `AddLinearConstraint(A, lb, ub, vars)`. -/
  | linear (A : MatrixXd K) (lb ub : List (Option K)) (vars : List V)
  /-- `AddLorentzConeConstraint(A, b, vars)`. -/
  | lorentzCone (A : MatrixXd K) (b : List K) (vars : List V)

/-- The numeric part of a `solvers::MathematicalProgram`: its linear costs, the
number of its quadratic costs, and its constraints with numeric data. -/
structure NumericProgram (V K : Type) where
  linear_costs : List (LinearCost V K)
  num_quadratic_costs : Nat
  constraints : List (NumericConstraint V K)

/-- `prog.AddLinearConstraint(a, lb, ub, vars)` for a row vector `a`. -/
def NumericProgram.AddLinearConstraintRow {V K : Type} (prog : NumericProgram V K)
    (a : List K) (lb ub : Option K) (vars : List V) : NumericProgram V K :=
  { prog with constraints := prog.constraints ++ [.linearRow a lb ub vars] }

/-- `prog.AddLinearConstraint(A, lb, ub, vars)`. -/
def NumericProgram.AddLinearConstraint {V K : Type} (prog : NumericProgram V K)
    (A : MatrixXd K) (lb ub : List (Option K)) (vars : List V) : NumericProgram V K :=
  { prog with constraints := prog.constraints ++ [.linear A lb ub vars] }

/-- `prog.AddLorentzConeConstraint(A, b, vars)`. -/
def NumericProgram.AddLorentzConeConstraint {V K : Type} (prog : NumericProgram V K)
    (A : MatrixXd K) (b : List K) (vars : List V) : NumericProgram V K :=
  { prog with constraints := prog.constraints ++ [.lorentzCone A b vars] }

/-- `prog.RemoveCost(cost)`. -/
def NumericProgram.RemoveCost {V K : Type} [DecidableEq V] [DecidableEq K]
    (prog : NumericProgram V K) (cost : LinearCost V K) : NumericProgram V K :=
  { prog with linear_costs := prog.linear_costs.erase cost }

/-- `solvers::MathematicalProgramResult`, as far as this file reads it. -/
structure MathematicalProgramResult (V K : Type) where
  is_success : Bool
  optimal_cost : K
  x_val : V → K

/-- What `SolveWithBackoff` leaves behind: the result it returns, the program as
mutated, and the programs handed to the solver, in order. -/
structure BackoffOutcome (V K : Type) where
  result : MathematicalProgramResult V K
  prog : NumericProgram V K
  solved : List (NumericProgram V K)

/-- `SolveWithBackoff`. `Solve` is the solver made by `solvers::MakeSolver`,
declared outside this file, taken as given. -/
def SolveWithBackoff {V K : Type} [DecidableEq V] [LinearOrderedField K]
    (Solve : NumericProgram V K → MathematicalProgramResult V K)
    (prog : NumericProgram V K) (backoff_scale : Option K) :
    Except Error (BackoffOutcome V K) := do
  if prog.num_quadratic_costs ≠ 0 then throw Error.throwUnless
  let result := Solve prog
  match backoff_scale with
  | some backoff_scale_value =>
    if ¬ prog.linear_costs.isEmpty then do
      if prog.linear_costs.length ≠ 1 then throw Error.throwUnless
      let cost_val := result.optimal_cost
      let cost_upper_bound :=
        if cost_val > 0 then (1 + backoff_scale_value) * cost_val
        else (1 - backoff_scale_value) * cost_val
      let cost ← vecGet prog.linear_costs 0
      let prog1 := prog.AddLinearConstraintRow cost.a none
        (some (cost_upper_bound - cost.b)) cost.vars
      let cost ← vecGet prog1.linear_costs 0
      let prog2 := prog1.RemoveCost cost
      let result := Solve prog2
      pure ⟨result, prog2, [prog, prog2]⟩
    else pure ⟨result, prog, [prog]⟩
  | none => pure ⟨result, prog, [prog]⟩

/-- The value `aᵀ x` of a row on the variables `vars` at the point `x`. -/
def rowValue {V K : Type} [CommRing K] (a : List K) (vars : List V) (x : V → K) : K :=
  (List.zipWith (fun c v => c * x v) a vars).sum

/-- The value of a linear cost at the point `x`. -/
def LinearCost.value {V K : Type} [CommRing K] (cost : LinearCost V K) (x : V → K) : K :=
  rowValue cost.a cost.vars x + cost.b

/-- The sum `f j * x v₀ + f (j + 1) * x v₁ + ...` over the variables `v₀, v₁, ...`. -/
def rowDot {V K : Type} [CommRing K] (f : Nat → K) (x : V → K) : Nat → List V → K
  | _, [] => 0
  | j, v :: vs => f j * x v + rowDot f x (j + 1) vs

/-- Entry `i` of `A * vars` at the point `x`. -/
def MatrixXd.mulVars {V K : Type} [CommRing K] (A : MatrixXd K) (vars : List V)
    (x : V → K) (i : Nat) : K :=
  rowDot (A.coeff i) x 0 vars

/-- The point `x` is below the upper bound `ub`. -/
def leUpper {K : Type} [LE K] (y : K) (ub : Option K) : Prop :=
  match ub with
  | some u => y ≤ u
  | none => True

/-- The point `x` is above the lower bound `lb`. -/
def geLower {K : Type} [LE K] (y : K) (lb : Option K) : Prop :=
  match lb with
  | some l => l ≤ y
  | none => True

/-- The point `x` satisfies the constraint. For a Lorentz cone constraint, with
`z = A * vars + b`: `z₀ ≥ 0` and `z₀² ≥ z₁² + ... + zₙ₋₁²`. -/
def NumericConstraint.holds {V K : Type} [LinearOrderedField K]
    (x : V → K) : NumericConstraint V K → Prop
  | .linearRow a lb ub vars => geLower (rowValue a vars x) lb ∧ leUpper (rowValue a vars x) ub
  | .linear A lb ub vars =>
    ∀ i : Nat, i < A.rows →
      geLower (A.mulVars vars x i) (lb.getD i none) ∧
      leUpper (A.mulVars vars x i) (ub.getD i none)
  | .lorentzCone A b vars =>
    0 ≤ A.mulVars vars x 0 + b.getD 0 0 ∧
    ∑ k in Finset.range (A.rows - 1),
        (A.mulVars vars x (k + 1) + b.getD (k + 1) 0) ^ 2
      ≤ (A.mulVars vars x 0 + b.getD 0 0) ^ 2

/-- The point `x` satisfies every constraint of the program. -/
def NumericProgram.feasible {V K : Type} [LinearOrderedField K] (prog : NumericProgram V K)
    (x : V → K) : Prop :=
  ∀ c ∈ prog.constraints, c.holds x

/-- The upper bound that `SolveWithBackoff` puts on the cost. -/
def backoffBound {K : Type} [LinearOrderedField K] (b v : K) : K :=
  if v > 0 then (1 + b) * v else (1 - b) * v

/-- The program `SolveWithBackoff` solves the second time: the cost is gone and
`aᵀ x ≤ u - b` is added. -/
def backoffProgram {V K : Type} [Sub K] (prog : NumericProgram V K) (cost : LinearCost V K) (u : K) :
    NumericProgram V K :=
  { prog with linear_costs := [],
              constraints := prog.constraints
                ++ [.linearRow cost.a none (some (u - cost.b)) cost.vars] }

/-- A linear cost `2 x₀ + 1`, for the examples. -/
def exampleCost : LinearCost Nat ℚ := ⟨[2], 1, [0]⟩

/-- A program with the cost `exampleCost` and the constraint `x₀ ≥ 1`, for the
examples. -/
def exampleNumericProgram : NumericProgram Nat ℚ :=
  ⟨[exampleCost], 0, [.linearRow [1] (some 1) none [0]]⟩

/-- A solver for the examples: it reports success and the optimal cost `3`,
attained at `x₀ = 1`. -/
def exampleSolve (_ : NumericProgram Nat ℚ) : MathematicalProgramResult Nat ℚ :=
  ⟨true, 3, fun _ => 1⟩

/-! ## The parallel search for certificates -/

/-- What this file reads of the `MathematicalProgramResult` of an SOS program:
`is_success()` and `GetSolution` on a polynomial. -/
structure SosSolution (P : Type) where
  is_success : Bool
  GetSolution : P → P

/-- The body of the first loop of `SeparatingPlaneLagrangians::GetSolution`; the
state is `ret.polytope_`. -/
def lagrangiansPolytopeBody {P : Type} (result : SosSolution P)
    (self : SeparatingPlaneLagrangians P) (ret_polytope : List P) (i : Nat) :
    Except Error (List P) := do
  let p ← vecGet self.polytope i
  vecSet ret_polytope i (result.GetSolution p)

/-- The body of the second loop of `SeparatingPlaneLagrangians::GetSolution`; the
state is `(ret.s_lower_, ret.s_upper_)`. -/
def lagrangiansBoundsBody {P : Type} (result : SosSolution P)
    (self : SeparatingPlaneLagrangians P) (st : List P × List P) (i : Nat) :
    Except Error (List P × List P) := do
  let lo ← vecGet self.s_lower i
  let ret_s_lower ← vecSet st.1 i (result.GetSolution lo)
  let up ← vecGet self.s_upper i
  let ret_s_upper ← vecSet st.2 i (result.GetSolution up)
  pure (ret_s_lower, ret_s_upper)

/-- `SeparatingPlaneLagrangians::GetSolution`. -/
def SeparatingPlaneLagrangians.GetSolution {P : Type} [CommRing P]
    (self : SeparatingPlaneLagrangians P) (result : SosSolution P) :
    Except Error (SeparatingPlaneLagrangians P) := do
  let ret : SeparatingPlaneLagrangians P :=
    SeparatingPlaneLagrangians.sized self.polytope.length self.s_lower.length
  let ret_polytope ← (List.range self.polytope.length).foldlM
    (lagrangiansPolytopeBody result self) ret.polytope
  let bounds ← (List.range self.s_lower.length).foldlM
    (lagrangiansBoundsBody result self) (ret.s_lower, ret.s_upper)
  pure ⟨ret_polytope, bounds.1, bounds.2⟩

/-- The lambda `set_lagrangians` of `SeparationCertificate::GetSolution`. -/
def set_lagrangians {P : Type} [CommRing P] (result : SosSolution P)
    (lagrangians_vec lagrangians_result : List (SeparatingPlaneLagrangians P)) :
    Except Error (List (SeparatingPlaneLagrangians P)) :=
  lagrangians_vec.foldlM
    (fun acc lagrangians => do
      let sol ← lagrangians.GetSolution result
      pure (acc ++ [sol]))
    lagrangians_result

/-- The body of the loop of `SeparationCertificate::GetSolution` over the three
entries of `a`; the state is `ret.a`. -/
def planeSolutionBody {P : Type} (result : SosSolution P) (a : List P) (ret_a : List P)
    (i : Nat) : Except Error (List P) := do
  let ai ← vecGet a i
  vecSet ret_a i (result.GetSolution ai)

/-- `SeparationCertificate::GetSolution`; the member `plane_decision_var_vals` of
the result is not represented. -/
def SeparationCertificate.GetSolution {V P : Type} [CommRing P]
    (self : SeparationCertificate P) (plane_index : Int) (a : List P) (b : P)
    (_plane_decision_vars : List V) (result : SosSolution P) :
    Except Error (SeparationCertificateResult P) := do
  let positive ← set_lagrangians result self.positive_side_rational_lagrangians []
  let negative ← set_lagrangians result self.negative_side_rational_lagrangians []
  let ret_a ← (List.range 3).foldlM (planeSolutionBody result a) (List.replicate 3 0)
  pure ⟨plane_index, positive, negative, ret_a, result.GetSolution b⟩

/-- The body of the loop of `FindSeparationCertificateGivenPolytope` that fills
`active_plane_indices`. -/
def activePlaneBody {V M P : Type} (self : CspaceFreePolytope V M P)
    (ignored_collision_pairs : Finset (Nat × Nat)) (active_plane_indices : List Nat)
    (i : Nat) : Except Error (List Nat) := do
  let plane ← vecGet self.separating_planes i
  if plane.geometry_pair ∉ ignored_collision_pairs then pure (active_plane_indices ++ [i])
  else pure active_plane_indices

/-- The loop of `FindSeparationCertificateGivenPolytope` that fills
`active_plane_indices`. -/
def CspaceFreePolytope.activePlaneIndices {V M P : Type} (self : CspaceFreePolytope V M P)
    (ignored_collision_pairs : Finset (Nat × Nat)) : Except Error (List Nat) :=
  (List.range self.separating_planes.length).foldlM
    (activePlaneBody self ignored_collision_pairs) []

/-- The lambda `solve_small_sos` of `FindSeparationCertificateGivenPolytope` up to
its two writes: the value it then stores in `ret[plane_count]`, while
`is_success[plane_count]` gets whether that value is present. `Solve` is the
solver made by `solvers::MakeSolver`, declared outside this file, taken as
given. -/
def CspaceFreePolytope.solve_small_sos {V M P : Type} [CommRing P] [Inhabited M]
    (self : CspaceFreePolytope V M P) (vp : V → P) (mp : M → P) (fresh : Nat → V)
    (Solve : MathematicalProgram V P → SosSolution P) (d_minus_Cs : List P)
    (C_redundant_indices s_lower_redundant_indices s_upper_redundant_indices : Finset Int)
    (active_plane_indices : List Nat) (plane_count : Nat) :
    Except Error (Option (SeparationCertificateResult P)) := do
  let plane_index ← vecGet active_plane_indices plane_count
  let plane_geometries ← vecGet self.plane_geometries_ plane_index
  let certificate_program ← self.ConstructPlaneSearchProgram vp mp fresh plane_geometries
    d_minus_Cs C_redundant_indices s_lower_redundant_indices s_upper_redundant_indices
  let result := Solve certificate_program.prog
  if result.is_success then do
    let plane ← vecGet self.separating_planes plane_index
    let sol ← certificate_program.certificate.GetSolution (plane_index : Int) plane.a plane.b
      plane.decision_variables result
    pure (some sol)
  else pure none

/-- The state of a `std::future` in `active_operations`: the task is running, has
returned, or has ended with an exception. -/
inductive FutureStatus where
  | running
  | ready
  | failed
  deriving DecidableEq, Repr

/-- Where the dispatching thread is in the loop of
`FindSeparationCertificateGivenPolytope`: at the test of the outer `while`, in the
scan of `active_operations` with its iterator at a position, at the test of the
inner `while` that dispatches, past the loop, or left by an exception. -/
inductive DispatchPc where
  | loopHead
  | scan (operation : Nat)
  | dispatch
  | returned
  | thrown
  deriving DecidableEq, Repr

/-- The state of the dispatch loop. `active_operations` holds, for every future in
the list, the `plane_count` of its task and its status. `dispatched` and `retired`
are records of what has happened, not variables of the code: the plane counts
dispatched so far, and the plane counts retired so far with their success flag,
both in order. -/
structure DispatchState (R : Type) where
  active_operations : List (Nat × FutureStatus)
  sos_dispatched : Nat
  stop_dispatching : Bool
  is_success : List (Option Bool)
  ret : List (Option R)
  pc : DispatchPc
  dispatched : List Nat
  retired : List (Nat × Bool)

/-- What the dispatch loop is run with: the size of `active_plane_indices`,
`num_threads`, `options.terminate_at_failure`, and for every plane count the value
its task stores (`solve_small_sos`). -/
structure DispatchConfig (R : Type) where
  num_tasks : Nat
  num_threads : Nat
  terminate_at_failure : Bool
  solve_small_sos : Nat → Except Error (Option R)

/-- The value of `num_threads`. `hardware_concurrency` is
`std::thread::hardware_concurrency()`. -/
def numThreads (options_num_threads : Int) (hardware_concurrency : Nat) : Nat :=
  if options_num_threads > 0 then options_num_threads.toNat else hardware_concurrency

/-- The state in which the dispatch loop starts. -/
def DispatchState.init {R : Type} (cfg : DispatchConfig R) : DispatchState R :=
  { active_operations := [], sos_dispatched := 0, stop_dispatching := false,
    is_success := List.replicate cfg.num_tasks none,
    ret := List.replicate cfg.num_tasks none,
    pc := .loopHead, dispatched := [], retired := [] }

/-- One step of the dispatching thread. -/
def mainStep {R : Type} (cfg : DispatchConfig R) (σ : DispatchState R) :
    Option (DispatchState R) :=
  match σ.pc with
  | .loopHead =>
    if σ.active_operations.length > 0 ∨
        (σ.sos_dispatched < cfg.num_tasks ∧ σ.stop_dispatching = false) then
      some { σ with pc := .scan 0 }
    else some { σ with pc := .returned }
  | .scan operation =>
    match σ.active_operations[operation]? with
    | none => some { σ with pc := .dispatch }
    | some (_, .running) => some { σ with pc := .scan (operation + 1) }
    | some (_, .failed) => some { σ with pc := .thrown }
    | some (plane_count, .ready) =>
      match σ.is_success[plane_count]? with
      | some (some flag) =>
        some { σ with
          stop_dispatching :=
            if !flag && cfg.terminate_at_failure then true else σ.stop_dispatching,
          active_operations := σ.active_operations.eraseIdx operation,
          pc := .scan operation,
          retired := σ.retired ++ [(plane_count, flag)] }
      | _ => some { σ with pc := .thrown }
  | .dispatch =>
    if σ.active_operations.length < cfg.num_threads ∧
        σ.sos_dispatched < cfg.num_tasks ∧ σ.stop_dispatching = false then
      some { σ with
        active_operations := σ.active_operations ++ [(σ.sos_dispatched, .running)],
        sos_dispatched := σ.sos_dispatched + 1,
        dispatched := σ.dispatched ++ [σ.sos_dispatched] }
    else some { σ with pc := .loopHead }
  | .returned => none
  | .thrown => none

/-- The task of the future at position `operation` of `active_operations` ends: it
stores its value and its success flag in its own slots and the future becomes
ready, or it ends with an exception. -/
def finishStep {R : Type} (cfg : DispatchConfig R) (operation : Nat) (σ : DispatchState R) :
    Option (DispatchState R) :=
  match σ.active_operations[operation]? with
  | some (plane_count, .running) =>
    match cfg.solve_small_sos plane_count with
    | .ok value =>
      some { σ with
        ret := σ.ret.set plane_count value,
        is_success := σ.is_success.set plane_count (some value.isSome),
        active_operations := σ.active_operations.set operation (plane_count, .ready) }
    | .error _ =>
      some { σ with
        active_operations := σ.active_operations.set operation (plane_count, .failed) }
  | _ => none

/-- One step of the dispatch loop running alongside its tasks: a step of the
dispatching thread, or the end of a running task. -/
def DispatchStep {R : Type} (cfg : DispatchConfig R) (σ σ' : DispatchState R) : Prop :=
  mainStep cfg σ = some σ' ∨ ∃ operation, finishStep cfg operation σ = some σ'

/-- The states the dispatch loop can reach from `σ`. -/
def DispatchSteps {R : Type} (cfg : DispatchConfig R) :
    DispatchState R → DispatchState R → Prop :=
  Relation.ReflTransGen (DispatchStep cfg)

/-- What holds in every state the dispatch loop reaches; `Q k r` is a property of
the value `r` that the task with plane count `k` stores. The vectors keep their
size; `sos_dispatched` stays at most the number of tasks; the tasks dispatched
are `0, ..., sos_dispatched - 1` in this order; every future in
`active_operations` belongs to a dispatched task; a dispatched task is in
`active_operations` or has its success flag recorded; the slots of a task not
yet dispatched are unset; with `terminate_at_failure`, once a retired task has
reported failure `stop_dispatching` is set; past the loop no task is in flight;
every stored value satisfies `Q`. -/
structure DispatchInv {R : Type} (cfg : DispatchConfig R) (Q : Nat → R → Prop)
    (σ : DispatchState R) : Prop where
  is_success_size : σ.is_success.length = cfg.num_tasks
  ret_size : σ.ret.length = cfg.num_tasks
  dispatched_le : σ.sos_dispatched ≤ cfg.num_tasks
  dispatched_eq : σ.dispatched = List.range σ.sos_dispatched
  active_lt : ∀ e ∈ σ.active_operations, e.1 < σ.sos_dispatched
  recorded : ∀ k, k < σ.sos_dispatched →
    (∃ st, (k, st) ∈ σ.active_operations) ∨ ∃ flag, σ.is_success[k]? = some (some flag)
  unset : ∀ k, σ.sos_dispatched ≤ k → k < cfg.num_tasks →
    σ.is_success[k]? = some none ∧ σ.ret[k]? = some none
  stopped : cfg.terminate_at_failure = true →
    ∀ c, (c, false) ∈ σ.retired → σ.stop_dispatching = true
  returned_idle : σ.pc = .returned → σ.active_operations = []
  stored : ∀ k r, σ.ret[k]? = some (some r) → Q k r

/-- A schedule, for the examples: `none` lets the dispatching thread take a step,
`some operation` lets the task at that position end; a choice that is not
possible is skipped. -/
def runSchedule {R : Type} (cfg : DispatchConfig R) :
    List (Option Nat) → DispatchState R → DispatchState R
  | [], σ => σ
  | none :: rest, σ => runSchedule cfg rest ((mainStep cfg σ).getD σ)
  | some operation :: rest, σ =>
    runSchedule cfg rest ((finishStep cfg operation σ).getD σ)

/-- The dispatch loop of `FindSeparationCertificateGivenPolytope` on an object:
the tasks are `solve_small_sos` on `active_plane_indices`. -/
def CspaceFreePolytope.dispatchConfig {V M P : Type} [CommRing P] [Inhabited M]
    (self : CspaceFreePolytope V M P) (vp : V → P) (mp : M → P) (fresh : Nat → V)
    (Solve : MathematicalProgram V P → SosSolution P) (d_minus_Cs : List P)
    (C_redundant_indices s_lower_redundant_indices s_upper_redundant_indices : Finset Int)
    (active_plane_indices : List Nat) (num_threads : Nat) (terminate_at_failure : Bool) :
    DispatchConfig (SeparationCertificateResult P) :=
  { num_tasks := active_plane_indices.length, num_threads := num_threads,
    terminate_at_failure := terminate_at_failure,
    solve_small_sos := self.solve_small_sos vp mp fresh Solve d_minus_Cs
      C_redundant_indices s_lower_redundant_indices s_upper_redundant_indices
      active_plane_indices }

/-- The planes whose pair is not ignored, in increasing order of plane index. -/
def CspaceFreePolytope.nonIgnoredPlanes {V M P : Type} (self : CspaceFreePolytope V M P)
    (ignored_collision_pairs : Finset (Nat × Nat)) : List Nat :=
  (List.range self.separating_planes.length).filter (fun i =>
    match self.separating_planes[i]? with
    | some plane => decide (plane.geometry_pair ∉ ignored_collision_pairs)
    | none => false)

/-- A solver for the examples: it reports success and leaves polynomials as they
are. -/
def exampleSosSolve (_ : MathematicalProgram Nat Int) : SosSolution Int := ⟨true, id⟩

/-- The example object with a plane whose normal `a` has its three entries. -/
def exampleSearchCfp : CspaceFreePolytope Nat Nat Int :=
  { exampleCfp with separating_planes := [{ examplePlane with a := [1, 2, 3] }] }

/-- The dispatch loop on the example object, with one thread. -/
def exampleDispatchConfig : DispatchConfig (SeparationCertificateResult Int) :=
  exampleSearchCfp.dispatchConfig (fun v : Nat => (v : Int)) (fun _ : Nat => (1 : Int)) (fun k => k)
    exampleSosSolve [3, 4] {1} ∅ {0} [0] 1 true

/-- A schedule for the example: the loop dispatches the only task, scans while it
runs, the task ends, the loop retires it and returns. -/
def exampleSchedule : List (Option Nat) :=
  [none, none, none, none, none, none, none, none, some 0, none, none, none, none, none]

/-- A dispatch loop with two tasks and one thread whose first task reports
failure, for the examples. -/
def exampleFailureConfig : DispatchConfig Nat :=
  { num_tasks := 2, num_threads := 1, terminate_at_failure := true,
    solve_small_sos := fun k => .ok (if k = 0 then none else some k) }

/-- A schedule for `exampleFailureConfig`: the loop dispatches the first task,
scans while it runs, the task ends, the loop retires it, stops dispatching and
returns. -/
def exampleFailureSchedule : List (Option Nat) :=
  [none, none, none, none, none, none, none, none, some 0, none, none, none, none, none]

/-! ## Ellipsoid and interior-point containment -/

/-- `Eigen::MatrixXd::Zero(rows, cols)`. -/
def MatrixXd.zero {K : Type} [Zero K] (rows cols : Nat) : MatrixXd K :=
  ⟨rows, cols, fun _ _ => 0⟩

/-- `A.setZero()`. -/
def MatrixXd.setZero {K : Type} [Zero K] (A : MatrixXd K) : MatrixXd K :=
  ⟨A.rows, A.cols, fun _ _ => 0⟩

/-- `A.block(i, j, p, q) = B`. -/
def MatrixXd.assignBlock {K : Type} (A : MatrixXd K) (i j p q : Nat) (B : MatrixXd K) :
    Except Error (MatrixXd K) :=
  if i + p ≤ A.rows ∧ j + q ≤ A.cols ∧ B.rows = p ∧ B.cols = q then
    .ok ⟨A.rows, A.cols, fun a b =>
      if i ≤ a ∧ a < i + p ∧ j ≤ b ∧ b < j + q then B.coeff (a - i) (b - j)
      else A.coeff a b⟩
  else .error .outOfRange

/-- `A(i, j) = x`. -/
def MatrixXd.setCoeff {K : Type} (A : MatrixXd K) (i j : Nat) (x : K) :
    Except Error (MatrixXd K) :=
  if i < A.rows ∧ j < A.cols then
    .ok ⟨A.rows, A.cols, fun a b => if a = i ∧ b = j then x else A.coeff a b⟩
  else .error .outOfRange

/-- `A.bottomRows(n) = B`. -/
def MatrixXd.assignBottomRows {K : Type} (A : MatrixXd K) (n : Nat) (B : MatrixXd K) :
    Except Error (MatrixXd K) :=
  if n ≤ A.rows then A.assignBlock (A.rows - n) 0 n A.cols B else .error .outOfRange

/-- `v.transpose()` of a vector: a matrix with one row. -/
def MatrixXd.ofRow {K : Type} [Zero K] (v : List K) : MatrixXd K :=
  ⟨1, v.length, fun _ j => v.getD j 0⟩

/-- `A.transpose()`. -/
def MatrixXd.transpose {K : Type} (A : MatrixXd K) : MatrixXd K :=
  ⟨A.cols, A.rows, fun i j => A.coeff j i⟩

/-- `C.row(i).transpose()` of a matrix of variables, as the vector of its entries. -/
def MatrixX.row {α : Type} (C : MatrixX α) (i : Nat) : Except Error (List α) :=
  (List.range C.cols).mapM (fun j => C.get i j)

/-- `(a.array() <= b.array()).all()`. -/
def arrayLe {K : Type} [LinearOrderedField K] (a b : List K) : Except Error Bool :=
  if a.length = b.length then .ok ((List.zipWith (fun x y => decide (x ≤ y)) a b).all id)
  else .error .outOfRange

/-- The body of the first loop of `AddEllipsoidContainmentConstraint`; the state is
`A_lorentz1`, `b_lorentz1` and the program. -/
def ellipsoidFaceBody {V K : Type} [LinearOrderedField K] (Q : MatrixXd K) (s0 : List K)
    (C : MatrixX V) (d ellipsoid_margins : List V)
    (st : MatrixXd K × List K × NumericProgram V K) (i : Nat) :
    Except Error (MatrixXd K × List K × NumericProgram V K) := do
  let A_lorentz1 := st.1.setZero
  let A_lorentz1 ← A_lorentz1.assignBlock 0 0 1 C.cols (MatrixXd.ofRow s0).neg
  let A_lorentz1 ← A_lorentz1.setCoeff 0 C.cols 1
  let A_lorentz1 ← A_lorentz1.setCoeff 0 (C.cols + 1) (-1)
  let A_lorentz1 ← A_lorentz1.assignBlock 1 0 Q.rows Q.cols Q
  let b_lorentz1 : List K := List.replicate st.2.1.length 0
  let ci ← C.row i
  let di ← vecGet d i
  let margin ← vecGet ellipsoid_margins i
  let lorentz1_vars := ci ++ [di, margin]
  pure (A_lorentz1, b_lorentz1,
    st.2.2.AddLorentzConeConstraint A_lorentz1 b_lorentz1 lorentz1_vars)

/-- The body of the second loop of `AddEllipsoidContainmentConstraint`. -/
def unitRowBody {V K : Type} (A_lorentz2 : MatrixXd K) (b_lorentz2 : List K) (C : MatrixX V)
    (prog : NumericProgram V K) (i : Nat) : Except Error (NumericProgram V K) := do
  let ci ← C.row i
  pure (prog.AddLorentzConeConstraint A_lorentz2 b_lorentz2 ci)

/-- `CspaceFreePolytope::AddEllipsoidContainmentConstraint`; the members `s_lower_`
and `s_upper_` of the object are passed explicitly, and the matrices declared
without initial values start at zero. -/
def AddEllipsoidContainmentConstraint {V K : Type} [LinearOrderedField K]
    (s_lower_ s_upper_ : List K) (prog : NumericProgram V K) (Q : MatrixXd K) (s0 : List K)
    (C : MatrixX V) (d ellipsoid_margins : List V) : Except Error (NumericProgram V K) := do
  if Q.rows ≠ Q.cols then throw Error.throwUnless
  let below ← arrayLe s0 s_upper_
  if below = false then throw Error.throwUnless
  let above ← arrayLe s_lower_ s0
  if above = false then throw Error.throwUnless
  let A_lorentz1 : MatrixXd K := MatrixXd.zero (Q.rows + 1) (2 + C.cols)
  let b_lorentz1 : List K := List.replicate (Q.rows + 1) 0
  let st ← (List.range C.rows).foldlM (ellipsoidFaceBody Q s0 C d ellipsoid_margins)
    (A_lorentz1, b_lorentz1, prog)
  let A_lorentz2 : MatrixXd K := MatrixXd.zero (1 + C.cols) C.cols
  let A_lorentz2 ← A_lorentz2.assignBottomRows C.cols (MatrixXd.Identity C.cols)
  let b_lorentz2 : List K := List.replicate (1 + C.cols) 0
  let b_lorentz2 ← vecSet b_lorentz2 0 1
  (List.range C.rows).foldlM (unitRowBody A_lorentz2 b_lorentz2 C) st.2.2

/-- A shape matrix that is not symmetric, for the examples. -/
def exampleQ : MatrixXd ℚ := ⟨2, 2, fun i j => if i = 0 ∧ j = 1 then 1 else 0⟩

/-- A matrix of variables with one row `(c₀, c₁) = (0, 1)`, for the examples; the
variable `2` is `d₀` and the variable `3` is the margin `δ₀`. -/
def exampleCvars : MatrixX Nat := ⟨1, 2, fun i j => if i = 0 ∧ j < 2 then some j else none⟩

/-- A program with nothing in it. -/
def NumericProgram.empty {V K : Type} : NumericProgram V K := ⟨[], 0, []⟩

/-- The point `c₀ = 1, c₁ = 0, d₀ = 1, δ₀ = 0`, for the examples. -/
def examplePoint (v : Nat) : ℚ :=
  if v = 0 then 1 else if v = 2 then 1 else 0

/-- The matrix `A_lorentz1` that the first loop of
`AddEllipsoidContainmentConstraint` hands to the program, for `n` columns of `C`:
the zero matrix after its four assignments. -/
def lorentz1Matrix {K : Type} [LinearOrderedField K] (Q : MatrixXd K) (s0 : List K)
    (n : Nat) : MatrixXd K :=
  ⟨Q.rows + 1, 2 + n, fun a b =>
    if 1 ≤ a ∧ a < 1 + Q.rows ∧ 0 ≤ b ∧ b < 0 + Q.cols then Q.coeff (a - 1) (b - 0)
    else if a = 0 ∧ b = n + 1 then -1
    else if a = 0 ∧ b = n then 1
    else if 0 ≤ a ∧ a < 0 + 1 ∧ 0 ≤ b ∧ b < 0 + n then
      (MatrixXd.ofRow s0).neg.coeff (a - 0) (b - 0)
    else 0⟩

/-- The matrix `A_lorentz2` of `AddEllipsoidContainmentConstraint`, for `n` columns
of `C`: a row of zeros above the identity. -/
def lorentz2Matrix {K : Type} [LinearOrderedField K] (n : Nat) : MatrixXd K :=
  ⟨1 + n, n, fun a b =>
    if 1 + n - n ≤ a ∧ a < 1 + n - n + n ∧ 0 ≤ b ∧ b < 0 + n then
      (MatrixXd.Identity n).coeff (a - (1 + n - n)) (b - 0)
    else 0⟩

/-- The constraints that `AddEllipsoidContainmentConstraint` adds for the faces
whose rows of variables are `c 0, c 1, ...`. -/
def ellipsoidConstraints {V K : Type} [LinearOrderedField K] (Q : MatrixXd K) (s0 : List K)
    (rows cols : Nat) (c : Nat → List V) (d ellipsoid_margins : Nat → V) :
    List (NumericConstraint V K) :=
  (List.range rows).map (fun i =>
      NumericConstraint.lorentzCone (lorentz1Matrix Q s0 cols)
        (List.replicate (Q.rows + 1) 0) (c i ++ [d i, ellipsoid_margins i]))
    ++ (List.range rows).map (fun i =>
      NumericConstraint.lorentzCone (lorentz2Matrix cols)
        ((List.replicate (1 + cols) (0 : K)).set 0 1) (c i))

/-- The body of the inner loop of the bound check of `AddCspacePolytopeContainment`,
over the columns `j` of row `i`. -/
def innerPointCheckBody {K : Type} [LinearOrderedField K] (s_lower_ s_upper_ : List K)
    (s_inner_pts : MatrixXd K) (i : Nat) (_ : Unit) (j : Nat) : Except Error Unit := do
  let pt ← s_inner_pts.get i j
  let upper ← vecGet s_upper_ i
  if pt > upper then throw Error.runtimeError
  let lower ← vecGet s_lower_ i
  if pt < lower then throw Error.runtimeError
  pure ()

/-- The body of the outer loop of the bound check of `AddCspacePolytopeContainment`,
over the rows `i`. -/
def outerPointCheckBody {K : Type} [LinearOrderedField K] (s_lower_ s_upper_ : List K)
    (s_inner_pts : MatrixXd K) (_ : Unit) (i : Nat) : Except Error Unit :=
  (List.range s_inner_pts.cols).foldlM (innerPointCheckBody s_lower_ s_upper_ s_inner_pts i) ()

/-- `-Eigen::VectorXd::Ones(n)`, as a matrix with one column. -/
def MatrixXd.negOnes {K : Type} [LinearOrderedField K] (n : Nat) : MatrixXd K :=
  ⟨n, 1, fun _ _ => -1⟩

/-- The body of the loop of `AddCspacePolytopeContainment` over the faces; the state
is `A` and `vars`. -/
def containmentFaceBody {V K : Type} [LinearOrderedField K] (C : MatrixX V) (d : List V)
    (s_inner_pts : MatrixXd K) (st : MatrixXd K × List V) (i : Nat) :
    Except Error (MatrixXd K × List V) := do
  let A ← st.1.assignBlock (i * s_inner_pts.cols) (i * (s_inner_pts.rows + 1))
    s_inner_pts.cols s_inner_pts.rows s_inner_pts.transpose
  let A ← A.assignBlock (i * s_inner_pts.cols)
    (i * (s_inner_pts.rows + 1) + s_inner_pts.rows) s_inner_pts.cols 1
    (MatrixXd.negOnes s_inner_pts.cols)
  let ci ← C.row i
  let vars ← assignSegment st.2 ((s_inner_pts.rows + 1) * i) s_inner_pts.rows ci
  let di ← vecGet d i
  let vars ← vecSet vars ((s_inner_pts.rows + 1) * i + s_inner_pts.rows) di
  pure (A, vars)

/-- `CspaceFreePolytope::AddCspacePolytopeContainment`; the members `s_lower_` and
`s_upper_` of the object are passed explicitly. -/
def CspaceFreePolytope.AddCspacePolytopeContainment {V M P K : Type} [Inhabited V]
    [LinearOrderedField K] (self : CspaceFreePolytope V M P) (s_lower_ s_upper_ : List K)
    (prog : NumericProgram V K) (C : MatrixX V) (d : List V) (s_inner_pts : MatrixXd K) :
    Except Error (NumericProgram V K) := do
  if s_inner_pts.rows ≠ self.s.length then throw Error.throwUnless
  (List.range s_inner_pts.rows).foldlM
    (outerPointCheckBody s_lower_ s_upper_ s_inner_pts) ()
  let A : MatrixXd K :=
    MatrixXd.zero (s_inner_pts.cols * C.rows) ((s_inner_pts.rows + 1) * C.rows)
  let vars : List V := List.replicate A.cols default
  let st ← (List.range C.rows).foldlM (containmentFaceBody C d s_inner_pts) (A, vars)
  pure (prog.AddLinearConstraint st.1 (List.replicate st.1.rows none)
    (List.replicate st.1.rows (some 0)) st.2)

/-- Every entry of `s_inner_pts` is within the bounds of its row. -/
def WithinBounds {K : Type} [LinearOrderedField K] (s_lower_ s_upper_ : List K)
    (s_inner_pts : MatrixXd K) : Prop :=
  ∀ i j : Nat, i < s_inner_pts.rows → j < s_inner_pts.cols →
    s_lower_.getD i 0 ≤ s_inner_pts.coeff i j ∧ s_inner_pts.coeff i j ≤ s_upper_.getD i 0

/-- Two interior points `(0, 1/2)` and `(1/2, 0)` as columns, for the examples. -/
def examplePts : MatrixXd ℚ := ⟨2, 2, fun i j => if i = j then 0 else 1 / 2⟩

/-! ## Search results and the polytope with joint limits -/

/-- `Hyperellipsoid`: the set `{x | ‖A (x - center)‖ ≤ 1}`. -/
structure Hyperellipsoid (K : Type) where
  A : MatrixXd K
  center : List K

/-- `CspaceFreePolytope::FindPolytopeGivenLagrangianResult`. -/
structure FindPolytopeGivenLagrangianResult (K P : Type) where
  C : MatrixXd K
  d : List K
  a : List (Int × List P)
  b : List (Int × P)
  ellipsoid_margins : List K

/-- `CspaceFreePolytope::SearchResult`; the maps `a_` and `b_` are kept as
association lists. -/
structure SearchResult (K P : Type) where
  C_ : MatrixXd K
  d_ : List K
  certified_polytope_ : HPolyhedron K
  a_ : List (Int × List P)
  b_ : List (Int × P)
  num_iter_ : Int

/-- The matrix `c * A`. -/
def MatrixXd.smul {K : Type} [LinearOrderedField K] (c : K) (A : MatrixXd K) : MatrixXd K :=
  ⟨A.rows, A.cols, fun i j => c * A.coeff i j⟩

/-- `CspaceFreePolytope::GetPolyhedronWithJointLimits`; the members `s_lower_` and
`s_upper_` of the object are passed explicitly. -/
def CspaceFreePolytope.GetPolyhedronWithJointLimits {V M P K : Type} [LinearOrderedField K]
    (self : CspaceFreePolytope V M P) (s_lower_ s_upper_ : List K)
    (C : MatrixXd K) (d : List K) : Except Error (HPolyhedron K) := do
  let s_size := self.s.length
  let A : MatrixXd K := MatrixXd.zero (C.rows + 2 * s_size) s_size
  let b : List K := List.replicate A.rows 0
  let A ← A.assignBlock 0 0 C.rows A.cols C
  let b ← assignTopRows b C.rows d
  let A ← A.assignBlock C.rows 0 s_size A.cols (MatrixXd.Identity s_size)
  let b ← assignSegment b C.rows s_size s_upper_
  let A ← A.assignBottomRows s_size (MatrixXd.Identity s_size).neg
  let b ← assignBottomRows b s_size (s_lower_.map (fun x => -x))
  HPolyhedron.new A b

/-- `SearchResult::SetPolytope`. -/
def SearchResult.SetPolytope {V M P K : Type} [LinearOrderedField K]
    (self : SearchResult K P) (C : MatrixXd K) (d : List K)
    (cspace_free_polytope : CspaceFreePolytope V M P) (s_lower_ s_upper_ : List K) :
    Except Error (SearchResult K P) := do
  if C.rows ≠ d.length then throw Error.throwUnless
  let certified_polytope ←
    cspace_free_polytope.GetPolyhedronWithJointLimits s_lower_ s_upper_ C d
  pure { self with C_ := C, d_ := d, certified_polytope_ := certified_polytope }

/-- `map.count(key) > 0`. -/
def mapContains {β : Type} (m : List (Int × β)) (key : Int) : Bool :=
  m.any (fun e => e.1 == key)

/-- `map.insert_or_assign(key, value)`. -/
def mapInsertOrAssign {β : Type} (m : List (Int × β)) (key : Int) (value : β) :
    List (Int × β) :=
  if mapContains m key then mapSet m key value else m ++ [(key, value)]

/-- `SearchResult::SetSeparatingPlanes(a, b)`. -/
def SearchResult.SetSeparatingPlanes {K P : Type} (self : SearchResult K P)
    (a : List (Int × List P)) (b : List (Int × P)) : Except Error (SearchResult K P) := do
  if a.length ≠ b.length then throw Error.throwUnless
  a.foldlM (fun (_ : Unit) e =>
    if mapContains b e.1 then pure () else throw Error.throwUnless) ()
  pure { self with a_ := a, b_ := b }

/-- The body of the loop of `SearchResult::SetSeparatingPlanes(certificates_result)`. -/
def setPlanesBody {K P : Type} (self : SearchResult K P)
    (certificate : Option (SeparationCertificateResult P)) :
    Except Error (SearchResult K P) :=
  match certificate with
  | none => throw Error.throwUnless
  | some certificate =>
    pure { self with
      a_ := mapEmplace self.a_ certificate.plane_index certificate.a,
      b_ := mapEmplace self.b_ certificate.plane_index certificate.b }

/-- `SearchResult::SetSeparatingPlanes(certificates_result)`. -/
def SearchResult.SetSeparatingPlanesFromCertificates {K P : Type} (self : SearchResult K P)
    (certificates_result : List (Option (SeparationCertificateResult P))) :
    Except Error (SearchResult K P) :=
  certificates_result.foldlM setPlanesBody { self with a_ := [], b_ := [] }

/-- The body of the loop of `SearchResult::UpdateSeparatingPlanes`. -/
def updatePlanesBody {K P : Type} (self : SearchResult K P)
    (certificate : Option (SeparationCertificateResult P)) : SearchResult K P :=
  match certificate with
  | some certificate =>
    { self with
      a_ := mapInsertOrAssign self.a_ certificate.plane_index certificate.a,
      b_ := mapInsertOrAssign self.b_ certificate.plane_index certificate.b }
  | none => self

/-- `SearchResult::UpdateSeparatingPlanes`. -/
def SearchResult.UpdateSeparatingPlanes {K P : Type} (self : SearchResult K P)
    (certificates_result : List (Option (SeparationCertificateResult P))) :
    SearchResult K P :=
  certificates_result.foldl updatePlanesBody self

/-! ## `SearchWithBilinearAlternation` -/

/-- What `SearchWithBilinearAlternation` reads of `BilinearAlternationOptions`;
`search_s_bounds_lagrangians` is the field of that name of
`find_polytope_options`. -/
structure BilinearAlternationOptions (K : Type) where
  max_iter : Int
  convergence_tol : K
  ellipsoid_scaling : K
  search_s_bounds_lagrangians : Bool

/-- What `SearchWithBilinearAlternation` calls and this file does not fix, taken as
given: the Eigen functions `norm`, `inverse` and `determinant`,
`HPolyhedron::MaximumVolumeInscribedEllipsoid`, the default-constructed
`SearchResult`, and the two searches, whose results depend on the solver.
`FindSeparationCertificateGivenPolytope n ignored C d` is the result of call number
`n` of that function with these arguments and the options of the caller;
`FindPolytopeGivenLagrangian n certificates Q center gram_total_size` is the result
of the call in iteration `n`, its other arguments being the same in every
iteration. -/
structure SearchEnv (K P : Type) where
  norm : List K → K
  inverse : MatrixXd K → MatrixXd K
  determinant : MatrixXd K → K
  MaximumVolumeInscribedEllipsoid : HPolyhedron K → Except Error (Hyperellipsoid K)
  default_result : SearchResult K P
  FindSeparationCertificateGivenPolytope : Nat → Finset (Nat × Nat) → MatrixXd K → List K →
    Except Error (List (Option (SeparationCertificateResult P)))
  FindPolytopeGivenLagrangian : Nat → List (Option (SeparationCertificateResult P)) →
    MatrixXd K → List K → Nat → Except Error (Option (FindPolytopeGivenLagrangianResult K P))

/-- The body of the loop of `SearchWithBilinearAlternation` that normalizes the rows
of `C` and `d`. -/
def normalizeBody {K P : Type} [LinearOrderedField K] (env : SearchEnv K P)
    (st : MatrixXd K × List K) (i : Nat) : Except Error (MatrixXd K × List K) := do
  let C_row_norm := env.norm ((List.range st.1.cols).map (st.1.coeff i))
  let C : MatrixXd K :=
    ⟨st.1.rows, st.1.cols, fun a b => if a = i then st.1.coeff a b / C_row_norm
      else st.1.coeff a b⟩
  let di ← vecGet st.2 i
  let d ← vecSet st.2 i (di / C_row_norm)
  pure (C, d)

/-- The local variables of `SearchWithBilinearAlternation` that its loop changes. -/
structure AlternationState (K P : Type) where
  ret : List (SearchResult K P)
  iter : Nat
  C : MatrixXd K
  d : List K
  ellipsoid : Hyperellipsoid K
  ellipsoid_Q : MatrixXd K
  prev_cost : K

/-- `SearchWithBilinearAlternation` up to its `while` loop: the checks, the
normalization, and the first ellipsoid. The result is
`gram_total_size_in_polytope_program` and the variables at the loop head. The
variables `C_var`, `d_var`, `ellipsoid_margins` and the polynomials `d_minus_Cs`
only go to `FindPolytopeGivenLagrangian`; `CalcDminusCs` does not throw on them,
their sizes being those that the first two checks compare. -/
def CspaceFreePolytope.alternationInit {V M P K : Type} [LinearOrderedField K]
    (self : CspaceFreePolytope V M P) (s_lower_ s_upper_ : List K) (env : SearchEnv K P)
    (ignored_collision_pairs : Finset (Nat × Nat)) (C_init : MatrixXd K) (d_init : List K)
    (options : BilinearAlternationOptions K) :
    Except Error (Nat × AlternationState K P) := do
  if C_init.rows ≠ d_init.length then throw Error.throwUnless
  if C_init.cols ≠ self.s.length then throw Error.throwUnless
  if ¬ options.max_iter ≥ 0 then throw Error.throwUnless
  if ¬ options.convergence_tol ≥ 0 then throw Error.throwUnless
  if ¬ options.ellipsoid_scaling > 0 then throw Error.throwUnless
  if ¬ options.ellipsoid_scaling ≤ 1 then throw Error.throwUnless
  let (C, d) ← (List.range C_init.rows).foldlM (normalizeBody env) (C_init, d_init)
  let gram_total_size_in_polytope_program ←
    self.GetGramVarSizeForPolytopeSearchProgram ignored_collision_pairs
      options.search_s_bounds_lagrangians
  let cspace_polytope ← self.GetPolyhedronWithJointLimits s_lower_ s_upper_ C d
  let ellipsoid ← env.MaximumVolumeInscribedEllipsoid cspace_polytope
  let ellipsoid_Q := MatrixXd.smul options.ellipsoid_scaling (env.inverse ellipsoid.A)
  let prev_cost := env.determinant ellipsoid_Q
  pure (gram_total_size_in_polytope_program,
    { ret := [], iter := 0, C := C, d := d, ellipsoid := ellipsoid,
      ellipsoid_Q := ellipsoid_Q, prev_cost := prev_cost })

/-- One run of the body of the `while` loop of `SearchWithBilinearAlternation`, up to
`++iter`: the flag is `false` when the body leaves the loop with `break`. The
element `ret.back()` is the local `back` here, and is appended to `ret` where the
body ends. -/
def CspaceFreePolytope.alternationBody {V M P K : Type} [LinearOrderedField K]
    (self : CspaceFreePolytope V M P) (s_lower_ s_upper_ : List K) (env : SearchEnv K P)
    (ignored_collision_pairs : Finset (Nat × Nat)) (options : BilinearAlternationOptions K)
    (gram_total_size_in_polytope_program : Nat) (st : AlternationState K P) :
    Except Error (Bool × AlternationState K P) := do
  let certificates_result ←
    env.FindSeparationCertificateGivenPolytope st.iter ignored_collision_pairs st.C st.d
  if certificates_result.any (fun certificate => certificate.isNone) then
    pure (false, st)
  else do
    let back ← env.default_result.SetPolytope st.C st.d self s_lower_ s_upper_
    let back := { back with num_iter_ := (st.iter : Int) }
    let back ← back.SetSeparatingPlanesFromCertificates certificates_result
    let polytope_result ← env.FindPolytopeGivenLagrangian st.iter certificates_result
      st.ellipsoid_Q st.ellipsoid.center gram_total_size_in_polytope_program
    match polytope_result with
    | some polytope_result => do
      let back ← back.SetPolytope polytope_result.C polytope_result.d self s_lower_ s_upper_
      let back ← back.SetSeparatingPlanes polytope_result.a polytope_result.b
      let back := { back with num_iter_ := (st.iter : Int) }
      let ellipsoid ← env.MaximumVolumeInscribedEllipsoid back.certified_polytope_
      let ellipsoid_Q := MatrixXd.smul options.ellipsoid_scaling (env.inverse ellipsoid.A)
      let cost := env.determinant ellipsoid_Q
      let st' : AlternationState K P :=
        { st with ret := st.ret ++ [back], C := polytope_result.C, d := polytope_result.d,
                  ellipsoid := ellipsoid, ellipsoid_Q := ellipsoid_Q }
      if (cost - st.prev_cost) / st.prev_cost < options.convergence_tol then
        pure (false, st')
      else
        pure (true, { st' with prev_cost := cost })
    | none => pure (false, { st with ret := st.ret ++ [back] })

/-- What a call of `SearchWithBilinearAlternation` does: how often the body of its
loop ran, and what it returned or threw. -/
structure AlternationOutcome (K P : Type) where
  body_runs : Nat
  result : Except Error (List (SearchResult K P))

/-- The `while` loop of `SearchWithBilinearAlternation`. The first argument bounds
the number of runs of the body that are left, `options.max_iter - iter`; the second
counts the runs so far. -/
def CspaceFreePolytope.alternationLoop {V M P K : Type} [LinearOrderedField K]
    (self : CspaceFreePolytope V M P) (s_lower_ s_upper_ : List K) (env : SearchEnv K P)
    (ignored_collision_pairs : Finset (Nat × Nat)) (options : BilinearAlternationOptions K)
    (gram_total_size_in_polytope_program : Nat) :
    Nat → Nat → AlternationState K P → AlternationOutcome K P
  | 0, body_runs, st => ⟨body_runs, .ok st.ret⟩
  | left + 1, body_runs, st =>
    if (st.iter : Int) < options.max_iter then
      match self.alternationBody s_lower_ s_upper_ env ignored_collision_pairs options
          gram_total_size_in_polytope_program st with
      | .error e => ⟨body_runs + 1, .error e⟩
      | .ok (false, st') => ⟨body_runs + 1, .ok st'.ret⟩
      | .ok (true, st') =>
        self.alternationLoop s_lower_ s_upper_ env ignored_collision_pairs options
          gram_total_size_in_polytope_program left (body_runs + 1)
          { st' with iter := st'.iter + 1 }
    else ⟨body_runs, .ok st.ret⟩

/-- `CspaceFreePolytope::SearchWithBilinearAlternation`; the members `s_lower_` and
`s_upper_` of the object are passed explicitly. -/
def CspaceFreePolytope.SearchWithBilinearAlternation {V M P K : Type}
    [LinearOrderedField K] (self : CspaceFreePolytope V M P) (s_lower_ s_upper_ : List K)
    (env : SearchEnv K P) (ignored_collision_pairs : Finset (Nat × Nat))
    (C_init : MatrixXd K) (d_init : List K) (options : BilinearAlternationOptions K) :
    AlternationOutcome K P :=
  match self.alternationInit s_lower_ s_upper_ env ignored_collision_pairs C_init d_init
      options with
  | .error e => ⟨0, .error e⟩
  | .ok (gram_total_size_in_polytope_program, st) =>
    self.alternationLoop s_lower_ s_upper_ env ignored_collision_pairs options
      gram_total_size_in_polytope_program options.max_iter.toNat 0 st

/-- The determinant of the scaled ellipsoid of a result: of
`ellipsoid_scaling * A⁻¹` for `A` of the largest ellipsoid in its polytope. -/
def SearchResult.cost {K P : Type} [LinearOrderedField K] (env : SearchEnv K P)
    (options : BilinearAlternationOptions K) (r : SearchResult K P) : Except Error K := do
  let ellipsoid ← env.MaximumVolumeInscribedEllipsoid r.certified_polytope_
  pure (env.determinant (MatrixXd.smul options.ellipsoid_scaling (env.inverse ellipsoid.A)))

/-- The matrix with the rows `1` and `-1`: the faces of an interval. -/
def exampleIntervalC : MatrixXd ℚ := ⟨2, 1, fun i _ => if i = 0 then 1 else -1⟩

/-- The largest interval in a polyhedron of the line, as an ellipsoid. -/
def exampleMVIE (p : HPolyhedron ℚ) : Except Error (Hyperellipsoid ℚ) :=
  let uppers := (List.range p.A.rows).filterMap (fun i =>
    if 0 < p.A.coeff i 0 then some (p.b.getD i 0 / p.A.coeff i 0) else none)
  let lowers := (List.range p.A.rows).filterMap (fun i =>
    if p.A.coeff i 0 < 0 then some (p.b.getD i 0 / p.A.coeff i 0) else none)
  match uppers, lowers with
  | u :: us, l :: ls =>
    let hi := us.foldl min u
    let lo := ls.foldl max l
    if lo < hi then .ok ⟨⟨1, 1, fun _ _ => 2 / (hi - lo)⟩, [(lo + hi) / 2]⟩
    else .error .runtimeError
  | _, _ => .error .runtimeError

/-- A certificate of the example plane with a plane normal, for the examples. -/
def exampleSeparation : SeparationCertificateResult Int := ⟨0, [], [], [1, 2, 3], 0⟩

/-- An environment on the line, for the examples: every certificate search
succeeds, and the polytope search returns the interval `[-4, 4]` in iteration `0`,
the interval `[-6, 6]` in iteration `1` and the interval `[-3, 3]` afterwards. -/
def exampleSearchEnv : SearchEnv ℚ Int :=
  { norm := fun row => (row.map abs).sum,
    inverse := fun A => ⟨A.rows, A.cols, fun i j => (A.coeff i j)⁻¹⟩,
    determinant := fun A => A.coeff 0 0,
    MaximumVolumeInscribedEllipsoid := exampleMVIE,
    default_result := ⟨⟨0, 0, fun _ _ => 0⟩, [], ⟨⟨0, 0, fun _ _ => 0⟩, []⟩, [], [], 0⟩,
    FindSeparationCertificateGivenPolytope := fun _ _ _ _ => .ok [some exampleSeparation],
    FindPolytopeGivenLagrangian := fun n _ _ _ _ =>
      .ok (some ⟨exampleIntervalC, if n = 0 then [4, 4] else if n = 1 then [6, 6] else [3, 3], [(0, [1, 2, 3])],
        [(0, 0)], [0, 0]⟩) }

/-- Options for the examples: at most five iterations, tolerance `1/10`, scaling
`1/2`. -/
def exampleAlternationOptions : BilinearAlternationOptions ℚ := ⟨5, 1 / 10, 1 / 2, false⟩

/-- The history that `SearchWithBilinearAlternation` returns in the example. -/
def exampleHistory : List (SearchResult ℚ Int) :=
  match (exampleSearchCfp.SearchWithBilinearAlternation [-10] [10] exampleSearchEnv ∅
    exampleIntervalC [1, 1] exampleAlternationOptions).result with
  | .ok ret => ret
  | .error _ => []

/-- Result number `k` of the history of the example. -/
def exampleResult (k : Nat) : SearchResult ℚ Int :=
  exampleHistory.getD k exampleSearchEnv.default_result

/-- What `SearchWithBilinearAlternation` has at the head of its loop in the
example. -/
def exampleInitState : Nat × AlternationState ℚ Int :=
  match exampleSearchCfp.alternationInit [-10] [10] exampleSearchEnv ∅ exampleIntervalC
    [1, 1] exampleAlternationOptions with
  | .ok p => p
  | .error _ =>
    (0, ⟨[], 0, ⟨0, 0, fun _ _ => 0⟩, [], ⟨⟨0, 0, fun _ _ => 0⟩, []⟩, ⟨0, 0, fun _ _ => 0⟩, 0⟩)

/-! ## `BinarySearch` -/

/-- What `BinarySearch` reads of `BinarySearchOptions`. -/
structure BinarySearchOptions (K : Type) where
  scale_max : K
  scale_min : K
  max_iter : Int
  convergence_tol : K

/-- `v(i) = x` for an `int` index. -/
def vecSetInt {α : Type} (v : List α) (i : Int) (x : α) : Except Error (List α) :=
  if i < 0 then .error .outOfRange else vecSet v i.toNat x

/-- The product `A * x` of a matrix and a vector. -/
def MatrixXd.mulVec {K : Type} [LinearOrderedField K] (A : MatrixXd K) (x : List K) :
    Except Error (List K) :=
  if A.cols = x.length then
    .ok ((List.range A.rows).map (fun i =>
      ((List.range A.cols).map (fun j => A.coeff i j * x.getD j 0)).sum))
  else .error .outOfRange

/-- The sum `a + b` of two vectors. -/
def vecAdd {K : Type} [LinearOrderedField K] (a b : List K) : Except Error (List K) :=
  if a.length = b.length then .ok (List.zipWith (fun x y => x + y) a b)
  else .error .outOfRange

/-- The offset `scale * d_init + (1 - scale) * C * s_center` of `is_scale_feasible`. -/
def scaledOffset {K : Type} [LinearOrderedField K] (C : MatrixXd K) (d_init s_center : List K)
    (scale : K) : Except Error (List K) := do
  let Cs ← (MatrixXd.smul (1 - scale) C).mulVec s_center
  vecAdd (d_init.map (fun x => scale * x)) Cs

/-- The local variables of `BinarySearch` that the lambda `is_scale_feasible`
changes, and the scales that it was called on so far, in order. -/
structure BinarySearchState (K P : Type) where
  ret : SearchResult K P
  geometry_pair_scale_lower_bounds : List K
  checked : List K

/-- The variables of `BinarySearch` before the first call of `is_scale_feasible`. -/
def BinarySearchState.init {V M P K : Type} [LinearOrderedField K]
    (self : CspaceFreePolytope V M P) (env : SearchEnv K P) : BinarySearchState K P :=
  { ret := env.default_result,
    geometry_pair_scale_lower_bounds := List.replicate self.separating_planes.length 0,
    checked := [] }

/-- The body of the loop of `is_scale_feasible` that fills
`ignored_collision_pairs_for_scale`. -/
def ignoredForScaleBody {V M P K : Type} [LinearOrderedField K]
    (self : CspaceFreePolytope V M P) (ignored_collision_pairs : Finset (Nat × Nat))
    (geometry_pair_scale_lower_bounds : List K) (scale : K)
    (ignored_collision_pairs_for_scale : Finset (Nat × Nat)) (i : Nat) :
    Except Error (Finset (Nat × Nat)) := do
  let plane ← vecGet self.separating_planes i
  let geometry_pair := plane.geometry_pair
  let lower_bound ← vecGet geometry_pair_scale_lower_bounds i
  if geometry_pair ∉ ignored_collision_pairs ∧ lower_bound ≥ scale then
    pure (insert geometry_pair ignored_collision_pairs_for_scale)
  else pure ignored_collision_pairs_for_scale

/-- The body of the loop of `is_scale_feasible` that updates
`geometry_pair_scale_lower_bounds`. -/
def lowerBoundsBody {K P : Type} (scale : K) (geometry_pair_scale_lower_bounds : List K)
    (certificate_result : Option (SeparationCertificateResult P)) : Except Error (List K) :=
  match certificate_result with
  | some certificate_result =>
    vecSetInt geometry_pair_scale_lower_bounds certificate_result.plane_index scale
  | none => pure geometry_pair_scale_lower_bounds

/-- The lambda `is_scale_feasible` of `BinarySearch`; the call of
`FindSeparationCertificateGivenPolytope` is call number `checked.length`. -/
def CspaceFreePolytope.is_scale_feasible {V M P K : Type} [LinearOrderedField K]
    (self : CspaceFreePolytope V M P) (s_lower_ s_upper_ : List K) (env : SearchEnv K P)
    (ignored_collision_pairs : Finset (Nat × Nat)) (C : MatrixXd K)
    (d_init s_center : List K) (st : BinarySearchState K P) (scale : K) :
    Except Error (Bool × BinarySearchState K P) := do
  let d ← scaledOffset C d_init s_center scale
  let ignored_collision_pairs_for_scale ←
    (List.range self.separating_planes.length).foldlM
      (ignoredForScaleBody self ignored_collision_pairs st.geometry_pair_scale_lower_bounds
        scale) ignored_collision_pairs
  let certificates_result ← env.FindSeparationCertificateGivenPolytope st.checked.length
    ignored_collision_pairs_for_scale C d
  let geometry_pair_scale_lower_bounds ←
    certificates_result.foldlM (lowerBoundsBody scale) st.geometry_pair_scale_lower_bounds
  if certificates_result.any (fun certificate => certificate.isNone) then
    pure (false,
      { ret := st.ret.UpdateSeparatingPlanes certificates_result,
        geometry_pair_scale_lower_bounds := geometry_pair_scale_lower_bounds,
        checked := st.checked ++ [scale] })
  else do
    let ret ← st.ret.SetPolytope C d self s_lower_ s_upper_
    pure (true,
      { ret := ret.UpdateSeparatingPlanes certificates_result,
        geometry_pair_scale_lower_bounds := geometry_pair_scale_lower_bounds,
        checked := st.checked ++ [scale] })

/-- The checks at the start of `BinarySearch`. Every element of `K` is finite, so
`std::isfinite(options.scale_max)` holds. -/
def binarySearchChecks {K P : Type} [LinearOrderedField K] (s_lower_ s_upper_ : List K)
    (env : SearchEnv K P) (C : MatrixXd K) (d_init s_center : List K)
    (options : BinarySearchOptions K) : Except Error Unit := do
  let Cs ← C.mulVec s_center
  if ¬ (← arrayLe Cs d_init) then throw Error.throwUnless
  if ¬ (← arrayLe s_lower_ s_center) then throw Error.throwUnless
  if ¬ (← arrayLe s_center s_upper_) then throw Error.throwUnless
  if ¬ options.scale_min ≥ 0 then throw Error.throwUnless
  if ¬ options.scale_min ≤ options.scale_max then throw Error.throwUnless
  if ¬ options.max_iter ≥ 0 then throw Error.throwUnless
  if ¬ options.convergence_tol > 0 then throw Error.throwUnless
  if (List.range C.rows).any (fun i =>
      decide (env.norm ((List.range C.cols).map (C.coeff i)) = 0)) then
    throw Error.runtimeError
  pure ()

/-- The variables of the bisection loop of `BinarySearch`. -/
structure BisectionState (K P : Type) where
  scale_min : K
  scale_max : K
  iter : Nat
  st : BinarySearchState K P

/-- The `while` loop of `BinarySearch`. The first argument bounds the number of
runs of the body that are left, `options.max_iter - iter`. -/
def CspaceFreePolytope.bisectionLoop {V M P K : Type} [LinearOrderedField K]
    (self : CspaceFreePolytope V M P) (s_lower_ s_upper_ : List K) (env : SearchEnv K P)
    (ignored_collision_pairs : Finset (Nat × Nat)) (C : MatrixXd K)
    (d_init s_center : List K) (options : BinarySearchOptions K) :
    Nat → BisectionState K P → Except Error (BisectionState K P)
  | 0, b => pure b
  | left + 1, b =>
    if b.scale_max - b.scale_min > options.convergence_tol ∧
        (b.iter : Int) < options.max_iter then do
      let scale := (b.scale_max + b.scale_min) / 2
      let (feasible, st) ← self.is_scale_feasible s_lower_ s_upper_ env
        ignored_collision_pairs C d_init s_center b.st scale
      if feasible then
        self.bisectionLoop s_lower_ s_upper_ env ignored_collision_pairs C d_init s_center
          options left { b with scale_min := scale, iter := b.iter + 1, st := st }
      else
        self.bisectionLoop s_lower_ s_upper_ env ignored_collision_pairs C d_init s_center
          options left { b with scale_max := scale, iter := b.iter + 1, st := st }
    else pure b

/-- What a call of `BinarySearch` that does not throw leaves behind: the value it
returns, the bracket `[scale_min, scale_max]` and the variables `ret`,
`geometry_pair_scale_lower_bounds` at its end, and the scales that
`is_scale_feasible` was called on, in order. -/
structure BinarySearchOutcome (K P : Type) where
  result : Option (SearchResult K P)
  scale_min : K
  scale_max : K
  st : BinarySearchState K P

/-- `CspaceFreePolytope::BinarySearch`; the members `s_lower_` and `s_upper_` of the
object are passed explicitly. -/
def CspaceFreePolytope.BinarySearch {V M P K : Type} [LinearOrderedField K]
    (self : CspaceFreePolytope V M P) (s_lower_ s_upper_ : List K) (env : SearchEnv K P)
    (ignored_collision_pairs : Finset (Nat × Nat)) (C : MatrixXd K)
    (d_init s_center : List K) (options : BinarySearchOptions K) :
    Except Error (BinarySearchOutcome K P) := do
  binarySearchChecks s_lower_ s_upper_ env C d_init s_center options
  let st : BinarySearchState K P := BinarySearchState.init self env
  let (feasible, st) ← self.is_scale_feasible s_lower_ s_upper_ env ignored_collision_pairs
    C d_init s_center st options.scale_min
  if ¬ feasible then
    pure ⟨none, options.scale_min, options.scale_max, st⟩
  else do
    let (feasible, st) ← self.is_scale_feasible s_lower_ s_upper_ env
      ignored_collision_pairs C d_init s_center st options.scale_max
    if feasible then
      pure ⟨some { st.ret with num_iter_ := 0 }, options.scale_min, options.scale_max,
        { st with ret := { st.ret with num_iter_ := 0 } }⟩
    else do
      let b ← self.bisectionLoop s_lower_ s_upper_ env ignored_collision_pairs C d_init
        s_center options options.max_iter.toNat ⟨options.scale_min, options.scale_max, 0, st⟩
      pure ⟨some { b.st.ret with num_iter_ := (b.iter : Int) }, b.scale_min, b.scale_max,
        { b.st with ret := { b.st.ret with num_iter_ := (b.iter : Int) } }⟩

/-- Options for the examples: the scales from `1/2` to `3/4`, at most three
bisection steps, tolerance `1/100`. -/
def exampleBinarySearchOptions : BinarySearchOptions ℚ := ⟨3 / 4, 1 / 2, 3, 1 / 100⟩

/-- An environment whose certificate search finds no certificate for the example
plane, for the examples. -/
def exampleFailingEnv : SearchEnv ℚ Int :=
  { exampleSearchEnv with FindSeparationCertificateGivenPolytope := fun _ _ _ _ => .ok [none] }

/-- What `is_scale_feasible` returns in the example, with the faces `s ≤ 2` and
`-s ≤ 2` and the center `1`. -/
def exampleCheck (env : SearchEnv ℚ Int) (st : BinarySearchState ℚ Int) (scale : ℚ) :
    Bool × BinarySearchState ℚ Int :=
  match exampleSearchCfp.is_scale_feasible [-10] [10] env ∅ exampleIntervalC [2, 2] [1] st
    scale with
  | .ok p => p
  | .error _ => (false, st)

/-! ## The penalty of `MinimumValueConstraint`

From `solvers/minimum_value_constraint.cc`. -/

/-- `ScaleValue`. -/
def ScaleValue {K : Type} [LinearOrderedField K] (value minimum_value influence_value : K) :
    K :=
  (value - influence_value) / (influence_value - minimum_value)

/-- `QuadraticallySmoothedHingeLoss`: the value it writes to `*penalty`, and the
value it writes to `*dpenalty_dx` when that pointer is not null. The literal `0.5`
is `1 / 2`. -/
def QuadraticallySmoothedHingeLoss {K : Type} [LinearOrderedField K] (x : K) : K × K :=
  if x ≥ 0 then (0, 0)
  else if x > -1 then (x * x / 2, x)
  else (-(1 / 2) - x, -1)

/-- The members of `MinimumValueConstraint` that the penalty depends on, and the
bounds of the base class `Constraint`; a lower bound `none` is `-∞`. -/
structure MinimumValueConstraint (K : Type) where
  lower_bound : Option K
  upper_bound : K
  minimum_value_ : K
  influence_value_ : K
  max_num_values_ : Int
  penalty_function_ : K → K × K
  penalty_output_scaling_ : K

/-- `MinimumValueConstraint::set_penalty_function`. -/
def MinimumValueConstraint.set_penalty_function {K : Type} [LinearOrderedField K]
    (self : MinimumValueConstraint K) (new_penalty_function : K → K × K) :
    MinimumValueConstraint K :=
  let self := { self with penalty_function_ := new_penalty_function }
  let unscaled_penalty_at_minimum_value :=
    (self.penalty_function_
      (ScaleValue self.minimum_value_ self.minimum_value_ self.influence_value_)).1
  { self with penalty_output_scaling_ := 1 / unscaled_penalty_at_minimum_value }

/-- The constructor `MinimumValueConstraint(num_vars, minimum_value,
influence_value_offset, max_num_values, ...)`. The members `penalty_function_` and
`penalty_output_scaling_` have no value before `set_penalty_function` writes them;
every element of `K` is finite. -/
def MinimumValueConstraint.new {K : Type} [LinearOrderedField K]
    (minimum_value influence_value_offset : K) (max_num_values : Int) :
    Except Error (MinimumValueConstraint K) := do
  let self : MinimumValueConstraint K :=
    { lower_bound := none, upper_bound := 1, minimum_value_ := minimum_value,
      influence_value_ := minimum_value + influence_value_offset,
      max_num_values_ := max_num_values, penalty_function_ := fun _ => (0, 0),
      penalty_output_scaling_ := 0 }
  if ¬ influence_value_offset > 0 then throw Error.demand
  pure (self.set_penalty_function QuadraticallySmoothedHingeLoss)

/-- An object with one configuration variable and two planes, between the
geometries `0`, `1` and between the geometries `0`, `2`, for the examples. -/
def exampleTwoPlaneCfp : CspaceFreePolytope Nat Nat Int :=
  { exampleCfp with
    separating_planes :=
      [⟨[1, 2, 3], 0, ⟨0, 0, .kPolytope⟩, ⟨1, 1, .kPolytope⟩, 0, []⟩,
       ⟨[4, 5, 6], 0, ⟨0, 0, .kPolytope⟩, ⟨2, 2, .kPolytope⟩, 0, []⟩] }

/-- An environment for the examples whose certificate search has one slot for
every plane that is not ignored: call `0` certifies both planes, call `1` only
plane `0`, call `2` only plane `1`, the later calls none. The plane of call `n` for
plane `i` is `a = (n, i, 0)`, `b = n`. -/
def exampleBisectionEnv : SearchEnv ℚ Int :=
  { exampleSearchEnv with
    FindSeparationCertificateGivenPolytope := fun n ignored _ _ =>
      .ok ((exampleTwoPlaneCfp.nonIgnoredPlanes ignored).map (fun (i : Nat) =>
        if n = 0 ∨ (n = 1 ∧ i = 0) ∨ (n = 2 ∧ i = 1) then
          some ⟨(i : Int), [], [], [(n : Int), (i : Int), 0], (n : Int)⟩
        else none)) }

/-- What `BinarySearch` leaves behind in the example with two planes, the faces
`s ≤ 2` and `-s ≤ 2` and the center `1`. -/
def exampleBinarySearch (options : BinarySearchOptions ℚ) : BinarySearchOutcome ℚ Int :=
  match exampleTwoPlaneCfp.BinarySearch [-10] [10] exampleBisectionEnv ∅ exampleIntervalC
    [2, 2] [1] options with
  | .ok out => out
  | .error _ => ⟨none, 0, 0, BinarySearchState.init exampleTwoPlaneCfp exampleBisectionEnv⟩

/-- The result that `BinarySearch` returns in the example with two planes. -/
def exampleBinarySearchResult (options : BinarySearchOptions ℚ) : SearchResult ℚ Int :=
  (exampleBinarySearch options).result.getD exampleSearchEnv.default_result

/-- What one call of `is_scale_feasible` computed: its argument, the offset `d`,
the set `ignored_collision_pairs_for_scale`, the result of the certificate search,
and the value it returned. -/
structure CheckEvent (K P : Type) where
  scale : K
  d : List K
  ignored_collision_pairs_for_scale : Finset (Nat × Nat)
  certificates_result : List (Option (SeparationCertificateResult P))
  feasible : Bool

/-- The call `is_scale_feasible(scale)` on the variables `st`, together with the
values it computes on its way. -/
def CspaceFreePolytope.checkEvent {V M P K : Type} [LinearOrderedField K]
    (self : CspaceFreePolytope V M P) (s_lower_ s_upper_ : List K) (env : SearchEnv K P)
    (ignored_collision_pairs : Finset (Nat × Nat)) (C : MatrixXd K)
    (d_init s_center : List K) (st : BinarySearchState K P) (scale : K) :
    Except Error (CheckEvent K P × BinarySearchState K P) := do
  let d ← scaledOffset C d_init s_center scale
  let ignored_collision_pairs_for_scale ←
    (List.range self.separating_planes.length).foldlM
      (ignoredForScaleBody self ignored_collision_pairs st.geometry_pair_scale_lower_bounds
        scale) ignored_collision_pairs
  let certificates_result ← env.FindSeparationCertificateGivenPolytope st.checked.length
    ignored_collision_pairs_for_scale C d
  let (feasible, st) ← self.is_scale_feasible s_lower_ s_upper_ env ignored_collision_pairs
    C d_init s_center st scale
  pure (⟨scale, d, ignored_collision_pairs_for_scale, certificates_result, feasible⟩, st)

/-- The calls of `is_scale_feasible` on the given scales, one after the other. -/
def CspaceFreePolytope.checkHistory {V M P K : Type} [LinearOrderedField K]
    (self : CspaceFreePolytope V M P) (s_lower_ s_upper_ : List K) (env : SearchEnv K P)
    (ignored_collision_pairs : Finset (Nat × Nat)) (C : MatrixXd K)
    (d_init s_center : List K) :
    List K → BinarySearchState K P →
      Except Error (List (CheckEvent K P) × BinarySearchState K P)
  | [], st => pure ([], st)
  | scale :: scales, st => do
    let (event, st) ← self.checkEvent s_lower_ s_upper_ env ignored_collision_pairs C
      d_init s_center st scale
    let (events, st) ← self.checkHistory s_lower_ s_upper_ env ignored_collision_pairs C
      d_init s_center scales st
    pure (event :: events, st)

/-- What `is_scale_feasible` returns in the example with two planes. -/
def exampleTwoPlaneCheck (st : BinarySearchState ℚ Int) (scale : ℚ) :
    Bool × BinarySearchState ℚ Int :=
  match exampleTwoPlaneCfp.is_scale_feasible [-10] [10] exampleBisectionEnv ∅
    exampleIntervalC [2, 2] [1] st scale with
  | .ok p => p
  | .error _ => (false, st)

/-- The options of the examples with another tolerance. -/
def exampleToleranceOptions (convergence_tol : ℚ) : BinarySearchOptions ℚ :=
  { exampleBinarySearchOptions with convergence_tol := convergence_tol }

/-- The certificate search of the environment returns what
`FindSeparationCertificateGivenPolytope` returns: one slot for every plane that is
not ignored, an entry at slot `k` carrying the index of the `k`-th such plane. -/
def SearchEnv.Slots {V M P K : Type} (env : SearchEnv K P) (self : CspaceFreePolytope V M P) :
    Prop :=
  ∀ (n : Nat) (ignored_collision_pairs : Finset (Nat × Nat)) (C : MatrixXd K) (d : List K)
    (certificates_result : List (Option (SeparationCertificateResult P))),
    env.FindSeparationCertificateGivenPolytope n ignored_collision_pairs C d
      = .ok certificates_result →
    certificates_result.length = (self.nonIgnoredPlanes ignored_collision_pairs).length ∧
    ∀ (k : Nat) (r : SeparationCertificateResult P),
      certificates_result[k]? = some (some r) →
      ∃ plane_index : Nat,
        (self.nonIgnoredPlanes ignored_collision_pairs)[k]? = some plane_index ∧
        r.plane_index = (plane_index : Int)

/-- Plane `i` obtained a certificate in the check. -/
def CheckEvent.Certified {K P : Type} (event : CheckEvent K P) (i : Nat) : Prop :=
  ∃ r : SeparationCertificateResult P,
    some r ∈ event.certificates_result ∧ r.plane_index = (i : Int)

/-- Two planes with the same geometry pair are the same plane, as
`map_geometries_to_separating_planes` has it. -/
def CspaceFreePolytope.DistinctPairs {V M P : Type} (self : CspaceFreePolytope V M P) : Prop :=
  ∀ (i j : Nat) (plane_i plane_j : CSpaceSeparatingPlane V P),
    self.separating_planes[i]? = some plane_i → self.separating_planes[j]? = some plane_j →
    plane_i.geometry_pair = plane_j.geometry_pair → i = j

/-- The entry of the plane index `idx` that `ret` stores, described by `q`, comes
from a check of the history: `idx` is the index of a plane whose pair is not
ignored, and a certificate of that plane satisfying `q` was returned in a check
whose scale is the lower bound of the plane and is at least `x`. -/
def EntryFrom {V M P K : Type} [LinearOrderedField K] (self : CspaceFreePolytope V M P)
    (ignored_collision_pairs : Finset (Nat × Nat)) (events : List (CheckEvent K P))
    (st : BinarySearchState K P) (x : K) (idx : Int)
    (q : SeparationCertificateResult P → Prop) : Prop :=
  ∃ i : Nat, idx = (i : Int) ∧
    ∃ plane : CSpaceSeparatingPlane V P, self.separating_planes[i]? = some plane ∧
      plane.geometry_pair ∉ ignored_collision_pairs ∧
      ∃ event ∈ events,
        (∃ r : SeparationCertificateResult P,
          some r ∈ event.certificates_result ∧ r.plane_index = idx ∧ q r) ∧
        st.geometry_pair_scale_lower_bounds[i]? = some event.scale ∧ x ≤ event.scale

/-- Every plane that `ret` stores comes from a check of the history at a scale that
is at least `x`. -/
def PlanesFrom {V M P K : Type} [LinearOrderedField K] (self : CspaceFreePolytope V M P)
    (ignored_collision_pairs : Finset (Nat × Nat)) (events : List (CheckEvent K P))
    (st : BinarySearchState K P) (x : K) : Prop :=
  (∀ (idx : Int) (a : List P), (idx, a) ∈ st.ret.a_ →
    EntryFrom self ignored_collision_pairs events st x idx (fun r => r.a = a)) ∧
  (∀ (idx : Int) (b : P), (idx, b) ∈ st.ret.b_ →
    EntryFrom self ignored_collision_pairs events st x idx (fun r => r.b = b))

/-- The checks that `BinarySearch` makes in the example with two planes. -/
def exampleEvents : List (CheckEvent ℚ Int) :=
  match exampleTwoPlaneCfp.checkHistory [-10] [10] exampleBisectionEnv ∅ exampleIntervalC
    [2, 2] [1] (exampleBinarySearch exampleBinarySearchOptions).st.checked
    (BinarySearchState.init exampleTwoPlaneCfp exampleBisectionEnv) with
  | .ok p => p.1
  | .error _ => []

/-- The scale of a check and the plane indices of the result of its certificate
search. -/
def CheckEvent.summary {K P : Type} (event : CheckEvent K P) : K × List (Option Int) :=
  (event.scale, event.certificates_result.map (fun certificate =>
    certificate.map (fun r => r.plane_index)))

/-- The body of the loop of `InitializePolytopeSearchProgram` (the overload that
takes the map of certificates) that fills `certificates_vec`: the entry of the map
for the pair of a plane that is not ignored is appended, and a pair without an
entry is reported by `throw std::runtime_error(...)`, whose message names the
pair. The map is kept as an association list. -/
def certificatesVecBody {V P : Type} (ignored_collision_pairs : Finset (Nat × Nat))
    (certificates : List ((Nat × Nat) × SeparationCertificateResult P))
    (certificates_vec : List (Option (SeparationCertificateResult P)))
    (plane : CSpaceSeparatingPlane V P) :
    Except Error (List (Option (SeparationCertificateResult P))) :=
  if plane.geometry_pair ∉ ignored_collision_pairs then
    match certificates.find? (fun e => e.1 == plane.geometry_pair) with
    | none => .error .runtimeError
    | some it => .ok (certificates_vec ++ [some it.2])
  else .ok certificates_vec

/-- `CspaceFreePolytope::InitializePolytopeSearchProgram`, the overload that takes
the map of certificates. The pointers `C`, `d` and `new_certificates` are `none`
when null; the result carries `*C` and `*d`. The map is an association list in the
order of its iteration, so that `certificates.begin()` is its head; dereferencing
`begin()` of an empty map, as indexing an empty vector, is undefined behaviour and
is the failure `outOfRange` here. `MakeMatrixContinuousVariable`,
`MakeVectorContinuousVariable` and the instance of `CalcDminusCs` for variables,
whose polynomials are of the type `P`, are taken as given. -/
def CspaceFreePolytope.InitializePolytopeSearchProgramMap {V M P : Type} [CommRing P]
    [Inhabited M] (self : CspaceFreePolytope V M P) (vp : V → P) (mp : M → P)
    (fresh : Nat → V) (MakeMatrixContinuousVariable : Nat → Nat → MatrixX V)
    (MakeVectorContinuousVariable : Nat → List V)
    (CalcDminusCs : MatrixX V → List V → Except Error (List P))
    (ignored_collision_pairs : Finset (Nat × Nat))
    (certificates : List ((Nat × Nat) × SeparationCertificateResult P))
    (search_s_bounds_lagrangians : Bool) (C : Option (MatrixX V)) (d : Option (List V))
    (new_certificates : Option (List (Int × SeparationCertificate P))) :
    Except Error (MathematicalProgram V P × MatrixX V × List V ×
      Option (List (Int × SeparationCertificate P))) := do
  if C.isNone then throw Error.throwUnless
  if d.isNone then throw Error.throwUnless
  if new_certificates.isNone then throw Error.throwUnless
  let s_size := self.s.length
  let first ← match certificates.head? with
    | some it => pure it
    | none => throw Error.outOfRange
  let lagrangians ← vecGet first.2.positive_side_rational_lagrangians 0
  let C_rows := lagrangians.polytope.length
  let C := MakeMatrixContinuousVariable C_rows s_size
  let d := MakeVectorContinuousVariable C_rows
  let d_minus_Cs ← CalcDminusCs C d
  let certificates_vec ← self.separating_planes.foldlM
    (certificatesVecBody ignored_collision_pairs certificates) []
  let gram_total_size ← self.GetGramVarSizeForPolytopeSearchProgram ignored_collision_pairs
    search_s_bounds_lagrangians
  let r ← self.InitializePolytopeSearchProgram vp mp fresh ignored_collision_pairs C d
    d_minus_Cs certificates_vec search_s_bounds_lagrangians (gram_total_size : Int)
    new_certificates
  pure (r.1, C, d, r.2)

/-! ## Loops -/

@[simp] theorem except_bind_ok {ε α β : Type} (a : α) (f : α → Except ε β) :
    (Except.ok a >>= f) = f a := rfl

@[simp] theorem except_bind_error {ε α β : Type} (e : ε) (f : α → Except ε β) :
    (Except.error e >>= f) = Except.error e := rfl

@[simp] theorem except_pure {ε α : Type} (a : α) :
    (pure a : Except ε α) = Except.ok a := rfl

/-- A loop over `start, start + 1, ..., start + n - 1` whose body keeps an
invariant never fails and ends in a state satisfying the invariant. -/
theorem foldlM_range'_inv {σ : Type} (f : σ → Nat → Except Error σ)
    (Inv : Nat → σ → Prop) (n start : Nat) (s0 : σ) (h0 : Inv start s0)
    (hstep : ∀ i s, start ≤ i → i < start + n → Inv i s →
      ∃ s', f s i = .ok s' ∧ Inv (i + 1) s') :
    ∃ s', (List.range' start n).foldlM f s0 = .ok s' ∧ Inv (start + n) s' := by
  induction n generalizing start s0 with
  | zero => exact ⟨s0, rfl, h0⟩
  | succ n ih =>
    obtain ⟨s1, hs1, hinv1⟩ := hstep start s0 (le_refl _) (by omega) h0
    obtain ⟨s', hs', hinv'⟩ := ih (start + 1) s1 hinv1
      (fun i s hi hlt hI => hstep i s (by omega) (by omega) hI)
    refine ⟨s', ?_, ?_⟩
    · rw [List.range'_succ, List.foldlM_cons, hs1]
      exact hs'
    · have : start + (n + 1) = start + 1 + n := by omega
      rw [this]; exact hinv'

/-- The invariant rule for a loop over `0, ..., n - 1`. -/
theorem foldlM_range_inv {σ : Type} (f : σ → Nat → Except Error σ)
    (Inv : Nat → σ → Prop) (n : Nat) (s0 : σ) (h0 : Inv 0 s0)
    (hstep : ∀ i s, i < n → Inv i s → ∃ s', f s i = .ok s' ∧ Inv (i + 1) s') :
    ∃ s', (List.range n).foldlM f s0 = .ok s' ∧ Inv n s' := by
  have := foldlM_range'_inv f Inv n 0 s0 h0
    (fun i s _ hlt hI => hstep i s (by omega) hI)
  rw [List.range_eq_range']
  simpa using this

theorem basisAt_ok {M : Type} (arr : MonomialBasisArray M) (i : Nat) (h : i + 1 < 4) :
    basisAt arr (i + 1) = .ok (arr ⟨i + 1, h⟩) := by
  simp [basisAt, h]

theorem basisRows_eq {M : Type} (arr : MonomialBasisArray M) (i : Nat) (h : i + 1 < 4) :
    basisRows arr i = (arr ⟨i + 1, h⟩).length := by
  simp [basisRows, h]

/-- The row-accumulating loop of the cross-term branch. -/
theorem cross_rows_loop {M : Type} (arr : MonomialBasisArray M) (k : Nat) (hk : k ≤ 3) :
    (List.range k).foldlM
      (fun gram_rows i => do
        let b ← basisAt arr (i + 1)
        pure (gram_rows + b.length))
      (arr 0).length
    = .ok ((arr 0).length + ∑ i in Finset.range k, basisRows arr i) := by
  obtain ⟨s', hs', hinv⟩ := foldlM_range_inv
    (fun gram_rows i => do
        let b ← basisAt arr (i + 1)
        pure (gram_rows + b.length))
    (fun i s => s = (arr 0).length + ∑ j in Finset.range i, basisRows arr j)
    k (arr 0).length (by simp)
    (fun i s hi hI => by
      have h4 : i + 1 < 4 := by omega
      refine ⟨s + (arr ⟨i + 1, h4⟩).length, ?_, ?_⟩
      · simp [basisAt_ok arr i h4]
      · dsimp only at hI ⊢
        rw [Finset.sum_range_succ, hI, basisRows_eq arr i h4]; omega)
  rw [hs', hinv]

/-- The size-accumulating loop of the branch without cross terms. -/
theorem nocross_size_loop {M : Type} (arr : MonomialBasisArray M) (k : Nat) (hk : k ≤ 3) :
    (List.range k).foldlM
      (fun ret i => do
        let b ← basisAt arr (i + 1)
        pure (ret + gram_lower_size ((arr 0).length + b.length)))
      0
    = .ok (∑ i in Finset.range k, gram_lower_size ((arr 0).length + basisRows arr i)) := by
  obtain ⟨s', hs', hinv⟩ := foldlM_range_inv
    (fun ret i => do
        let b ← basisAt arr (i + 1)
        pure (ret + gram_lower_size ((arr 0).length + b.length)))
    (fun i s => s = ∑ j in Finset.range i, gram_lower_size ((arr 0).length + basisRows arr j))
    k 0 (by simp)
    (fun i s hi hI => by
      have h4 : i + 1 < 4 := by omega
      refine ⟨s + gram_lower_size ((arr 0).length + (arr ⟨i + 1, h4⟩).length), ?_, ?_⟩
      · simp [basisAt_ok arr i h4]
      · dsimp only at hI ⊢
        rw [Finset.sum_range_succ, hI, basisRows_eq arr i h4])
  rw [hs', hinv]

/-- The closed form of `GetGramVarSize` on the inputs where every array access
is inside the array (`num_y ≤ 3`); a negative `num_y` runs no loop iteration. -/
theorem GetGramVarSize_eq {M : Type} (arr : MonomialBasisArray M) (with_cross_y : Bool)
    (num_y : Int) (hy : num_y ≤ 3) :
    GetGramVarSize arr with_cross_y num_y = .ok
      (if num_y = 0 then gram_lower_size (arr 0).length
       else if with_cross_y then
         gram_lower_size ((arr 0).length + ∑ i in Finset.range num_y.toNat, basisRows arr i)
       else ∑ i in Finset.range num_y.toNat,
         gram_lower_size ((arr 0).length + basisRows arr i)) := by
  have hk : num_y.toNat ≤ 3 := by omega
  unfold GetGramVarSize
  by_cases h0 : num_y = 0
  · simp [h0]
  · cases with_cross_y
    · simp only [h0, if_false, Bool.false_eq_true]
      exact nocross_size_loop arr _ hk
    · simp only [h0, if_false, if_true]
      rw [cross_rows_loop arr _ hk]
      rfl

/-- The value of `GetGramVarSize` is the reference count `GramVarSizeRef`. -/
theorem GetGramVarSize_ref {M : Type} (arr : MonomialBasisArray M)
    (with_cross_y : Bool) (num_y : Nat) (hy : num_y ≤ 3) :
    GetGramVarSize arr with_cross_y (num_y : Int) =
      .ok (GramVarSizeRef (arr 0).length (basisRows arr) with_cross_y num_y) := by
  rw [GetGramVarSize_eq arr with_cross_y num_y (by omega)]
  simp [GramVarSizeRef, gram_lower_size]

/-- C4: `GetGramVarSize` equals its reference definition: with `n` the rows of
`basis[0]` and `b i` the rows of `basis[i+1]`, it returns `n(n+1)/2` when
`num_y = 0`, `(n + Σ b_i)(n + Σ b_i + 1)/2` with cross terms and
`Σ (n + b_i)(n + b_i + 1)/2` without, for every `num_y` the four-slot array
admits. -/
theorem GetGramVarSize_eq_reference {M : Type} (monomial_basis_array : MonomialBasisArray M)
    (with_cross_y : Bool) (num_y : Nat) (hy : num_y ≤ 3) :
    GetGramVarSize monomial_basis_array with_cross_y (num_y : Int) =
      .ok (GramVarSizeRef (monomial_basis_array 0).length
        (basisRows monomial_basis_array) with_cross_y num_y) :=
  GetGramVarSize_ref monomial_basis_array with_cross_y num_y hy

theorem GetGramVarSize_eq_reference_witness :
    (3 : Nat) ≤ 3 ∧
    GetGramVarSize (fun i : Fin 4 => List.replicate (i.val + 1) ()) false ((3 : Nat) : Int) =
      .ok (GramVarSizeRef 1 (fun i => i + 2) false 3) :=
  ⟨le_refl _, GetGramVarSize_eq_reference
    (fun i : Fin 4 => List.replicate (i.val + 1) ()) false 3 (le_refl _)⟩

/-! ## The constructor of `GramAndMonomialBasis` -/

theorem basisGet_eq {M : Type} (arr : MonomialBasisArray M) (i : Nat) (h : i + 1 < 4) :
    basisGet arr i = arr ⟨i + 1, h⟩ := by
  simp [basisGet, h]

theorem basisRows_eq_length {M : Type} (arr : MonomialBasisArray M) (i : Nat) :
    basisRows arr i = (basisGet arr i).length := by
  unfold basisRows basisGet
  split <;> simp

theorem assignSegment_replicate {α : Type} (pre src : List α) (k : Nat) (d : α)
    (hk : src.length ≤ k) :
    assignSegment (pre ++ List.replicate k d) pre.length src.length src
      = .ok (pre ++ src ++ List.replicate (k - src.length) d) := by
  unfold assignSegment
  have h1 : pre.length + src.length ≤ (pre ++ List.replicate k d).length := by
    simp; omega
  rw [if_pos ⟨h1, rfl⟩]
  congr 2
  · congr 1
    exact List.take_left' rfl
  · rw [List.drop_append, List.drop_replicate]

theorem assignTopRows_replicate {α : Type} (src : List α) (k : Nat) (d : α)
    (hk : src.length ≤ k) :
    assignTopRows (List.replicate k d) src.length src
      = .ok (src ++ List.replicate (k - src.length) d) := by
  have := assignSegment_replicate [] src k d hk
  simpa [assignTopRows] using this

theorem assignBottomRows_append {α : Type} (pre src : List α) (d : α) :
    assignBottomRows (pre ++ List.replicate src.length d) src.length src
      = .ok (pre ++ src) := by
  unfold assignBottomRows
  have hlen : (pre ++ List.replicate src.length d).length - src.length = pre.length := by
    simp
  rw [if_pos (by simp), hlen, assignSegment_replicate pre src src.length d (le_refl _)]
  simp

theorem sum_range_le_of_le (f : Nat → Nat) {i k : Nat} (h : i ≤ k) :
    ∑ j in Finset.range i, f j ≤ ∑ j in Finset.range k, f j :=
  Finset.sum_le_sum_of_subset (Finset.range_mono h)

theorem length_flatten_map_range {α : Type} (f : Nat → List α) (i : Nat) :
    (((List.range i).map f).flatten).length = ∑ j in Finset.range i, (f j).length := by
  induction i with
  | zero => simp
  | succ i ih =>
    rw [List.range_succ, List.map_append, List.flatten_append, List.length_append, ih,
      Finset.sum_range_succ]
    simp

/-- The loop that stacks `y₀ m(s), ..., y_{k-1} m(s)` under `m(s)`. -/
theorem stack_loop {M : Type} (arr : MonomialBasisArray M) (d : M) (k : Nat) (hk : k ≤ 3) :
    (List.range k).foldlM (stackBody arr)
      ((arr 0) ++ List.replicate (∑ j in Finset.range k, (basisGet arr j).length) d,
        (arr 0).length)
    = .ok ((arr 0) ++ ((List.range k).map (basisGet arr)).flatten,
        (arr 0).length + ∑ j in Finset.range k, (basisGet arr j).length) := by
  obtain ⟨s', hs', hinv⟩ := foldlM_range_inv (stackBody arr)
    (fun i st => st =
      (((arr 0) ++ ((List.range i).map (basisGet arr)).flatten)
        ++ List.replicate (∑ j in Finset.range k, (basisGet arr j).length
            - ∑ j in Finset.range i, (basisGet arr j).length) d,
       (arr 0).length + ∑ j in Finset.range i, (basisGet arr j).length))
    k ((arr 0) ++ List.replicate (∑ j in Finset.range k, (basisGet arr j).length) d,
        (arr 0).length) (by simp)
    (fun i st hi hI => by
      have h4 : i + 1 < 4 := by omega
      dsimp only at hI
      subst hI
      have hle := sum_range_le_of_le (fun j => (basisGet arr j).length) (Nat.succ_le_of_lt hi)
      rw [Finset.sum_range_succ] at hle
      beta_reduce at hle
      have hpos : ((arr 0) ++ ((List.range i).map (basisGet arr)).flatten).length
          = (arr 0).length + ∑ j in Finset.range i, (basisGet arr j).length := by
        rw [List.length_append, length_flatten_map_range]
      refine ⟨_, ?_, rfl⟩
      unfold stackBody
      simp only [basisAt_ok arr i h4, except_bind_ok]
      rw [← hpos, ← basisGet_eq arr i h4,
        assignSegment_replicate _ (basisGet arr i) _ d (by omega)]
      simp only [except_bind_ok, except_pure]
      congr 1
      rw [Finset.sum_range_succ, List.range_succ, List.map_append, List.flatten_append]
      simp only [List.map_cons, List.map_nil, List.flatten_cons, List.flatten_nil,
        List.append_nil, List.append_assoc, Prod.mk.injEq]
      refine ⟨?_, by rw [hpos]; omega⟩
      congr 3
      rw [Nat.sub_sub])
  rw [hinv] at hs'
  simpa using hs'

theorem blockBody_ok {V M : Type} [Inhabited M] (arr : MonomialBasisArray M)
    (st : List (MatrixX V) × List (List M)) (i : Nat) (h4 : i + 1 < 4) :
    blockBody arr st i = .ok
      (st.1 ++ [MatrixX.sized ((arr 0).length + (basisGet arr i).length)
          ((arr 0).length + (basisGet arr i).length)],
       st.2 ++ [arr 0 ++ basisGet arr i]) := by
  unfold blockBody
  simp only [basisAt_ok arr i h4, except_bind_ok, ← basisGet_eq arr i h4]
  rw [assignTopRows_replicate (arr 0) _ default (by omega), except_bind_ok,
    Nat.add_sub_cancel_left, assignBottomRows_append]
  rfl

/-- The loop that makes one block `[m(s); yᵢ m(s)]` per auxiliary variable. -/
theorem block_loop {V M : Type} [Inhabited M] (arr : MonomialBasisArray M) (k : Nat)
    (hk : k ≤ 3) :
    (List.range k).foldlM (blockBody arr) (([], []) : List (MatrixX V) × List (List M))
    = .ok ((List.range k).map (fun i =>
          MatrixX.sized ((arr 0).length + (basisGet arr i).length)
            ((arr 0).length + (basisGet arr i).length)),
        (List.range k).map (fun i => arr 0 ++ basisGet arr i)) := by
  obtain ⟨s', hs', hinv⟩ := foldlM_range_inv (blockBody arr)
    (fun i (st : List (MatrixX V) × List (List M)) => st =
      ((List.range i).map (fun i =>
          MatrixX.sized ((arr 0).length + (basisGet arr i).length)
            ((arr 0).length + (basisGet arr i).length)),
        (List.range i).map (fun i => arr 0 ++ basisGet arr i)))
    k ([], []) (by simp)
    (fun i st hi hI => by
      have h4 : i + 1 < 4 := by omega
      dsimp only at hI
      subst hI
      refine ⟨_, blockBody_ok arr _ i h4, ?_⟩
      simp [List.range_succ])
  rw [hinv] at hs'
  exact hs'

/-- The constructor on the inputs where every array access is inside the array:
its three fields in closed form. -/
theorem GramAndMonomialBasis_new_eq {V M : Type} [Inhabited M] (arr : MonomialBasisArray M)
    (with_cross_y : Bool) (num_y : Nat) (hy : num_y ≤ 3) :
    (GramAndMonomialBasis.new arr with_cross_y (num_y : Int) :
        Except Error (GramAndMonomialBasis V M)) = .ok
      ⟨GramVarSizeRef (arr 0).length (basisRows arr) with_cross_y num_y,
       (GramBlocksRef arr with_cross_y num_y).map (fun b => MatrixX.sized b.1 b.1),
       (GramBlocksRef arr with_cross_y num_y).map (fun b => b.2)⟩ := by
  unfold GramAndMonomialBasis.new
  rw [GetGramVarSize_ref arr with_cross_y num_y hy]
  simp only [except_bind_ok, Int.toNat_ofNat, Nat.cast_eq_zero]
  by_cases h0 : num_y = 0
  · simp [h0, GramBlocksRef]
  · cases with_cross_y
    · simp only [h0, if_false, Bool.false_eq_true]
      rw [block_loop arr num_y hy]
      simp [GramBlocksRef, h0, Function.comp_def]
    · simp only [h0, if_false, if_true]
      rw [cross_rows_loop arr num_y hy, except_bind_ok]
      simp only [basisRows_eq_length]
      rw [assignTopRows_replicate (arr 0) _ default (by omega), except_bind_ok,
        Nat.add_sub_cancel_left, stack_loop arr default num_y hy]
      simp [GramBlocksRef, h0]

theorem sum_map_range_eq_finset_sum (f : Nat → Nat) (k : Nat) :
    ((List.range k).map f).sum = ∑ i in Finset.range k, f i := by
  induction k with
  | zero => simp
  | succ k ih => rw [List.range_succ, List.map_append, List.sum_append, ih,
      Finset.sum_range_succ]; simp

/-- The Gram variable count is the sum over the reference blocks of `r(r+1)/2`. -/
theorem GramVarSizeRef_eq_sum_blocks {M : Type} (arr : MonomialBasisArray M)
    (with_cross_y : Bool) (num_y : Nat) :
    GramVarSizeRef (arr 0).length (basisRows arr) with_cross_y num_y =
      ((GramBlocksRef arr with_cross_y num_y).map (fun b => b.1 * (b.1 + 1) / 2)).sum := by
  unfold GramVarSizeRef GramBlocksRef
  by_cases h0 : num_y = 0
  · simp [h0]
  · cases with_cross_y
    · simp only [h0, if_false, Bool.false_eq_true, List.map_map, basisRows_eq_length]
      rw [sum_map_range_eq_finset_sum]
      rfl
    · simp only [h0, if_false, if_true, basisRows_eq_length, List.map_cons, List.map_nil,
        List.sum_cons, List.sum_nil, add_zero]

/-- Every reference block has as many monomials as its size. -/
theorem GramBlocksRef_length {M : Type} (arr : MonomialBasisArray M)
    (with_cross_y : Bool) (num_y : Nat) :
    ∀ b ∈ GramBlocksRef arr with_cross_y num_y, b.2.length = b.1 := by
  intro b hb
  unfold GramBlocksRef at hb
  by_cases h0 : num_y = 0
  · simp [h0] at hb; subst hb; rfl
  · cases with_cross_y
    · simp only [h0, if_false, Bool.false_eq_true, List.mem_map, List.mem_range] at hb
      obtain ⟨i, _, rfl⟩ := hb
      simp
    · simp only [h0, if_false, if_true, List.mem_singleton] at hb
      subst hb
      rw [List.length_append, length_flatten_map_range]

/-- C5: the constructor of `GramAndMonomialBasis` produces one block of size
`rows(m(s))` with basis `m(s)` when `num_y = 0`; with cross terms one block of
size `rows(m(s)) + Σ rows(yᵢ m(s))` whose basis is `m(s)` followed by
`y₀ m(s), ..., y_{num_y-1} m(s)`; without cross terms `num_y` blocks, block `i`
of size `rows(m(s)) + rows(yᵢ m(s))` with basis `m(s)` over `yᵢ m(s)`; and its
`gram_var_size` is the sum over its blocks of `r(r+1)/2`. -/
theorem GramAndMonomialBasis_new_blocks {V M : Type} [Inhabited M]
    (monomial_basis_array : MonomialBasisArray M) (with_cross_y : Bool) (num_y : Nat)
    (hy : num_y ≤ 3) :
    ∃ G : GramAndMonomialBasis V M,
      GramAndMonomialBasis.new monomial_basis_array with_cross_y (num_y : Int) = .ok G ∧
      G.grams.map (fun g => (g.rows, g.cols)) =
        (if num_y = 0 then
          [((monomial_basis_array 0).length, (monomial_basis_array 0).length)]
         else if with_cross_y then
          [((monomial_basis_array 0).length +
              ∑ i in Finset.range num_y, (basisGet monomial_basis_array i).length,
            (monomial_basis_array 0).length +
              ∑ i in Finset.range num_y, (basisGet monomial_basis_array i).length)]
         else (List.range num_y).map (fun i =>
          ((monomial_basis_array 0).length + (basisGet monomial_basis_array i).length,
            (monomial_basis_array 0).length + (basisGet monomial_basis_array i).length))) ∧
      G.monomial_basis =
        (if num_y = 0 then [monomial_basis_array 0]
         else if with_cross_y then
          [monomial_basis_array 0 ++
            ((List.range num_y).map (basisGet monomial_basis_array)).flatten]
         else (List.range num_y).map (fun i =>
          monomial_basis_array 0 ++ basisGet monomial_basis_array i)) ∧
      G.gram_var_size = (G.grams.map (fun g => g.rows * (g.rows + 1) / 2)).sum := by
  refine ⟨_, GramAndMonomialBasis_new_eq monomial_basis_array with_cross_y num_y hy, ?_, ?_, ?_⟩
  · by_cases h0 : num_y = 0
    · simp [h0, GramBlocksRef, MatrixX.sized]
    · cases with_cross_y <;>
        simp [h0, GramBlocksRef, MatrixX.sized, Function.comp_def]
  · by_cases h0 : num_y = 0
    · simp [h0, GramBlocksRef]
    · cases with_cross_y <;> simp [h0, GramBlocksRef, Function.comp_def]
  · simp only [GramVarSizeRef_eq_sum_blocks, List.map_map]
    rfl

theorem GramAndMonomialBasis_new_blocks_witness :
    (2 : Nat) ≤ 3 ∧
    ∃ G : GramAndMonomialBasis Nat Nat,
      GramAndMonomialBasis.new (fun i : Fin 4 => List.replicate (i.val + 1) 0) false
        ((2 : Nat) : Int) = .ok G ∧
      G.grams.map (fun g => (g.rows, g.cols)) = [(3, 3), (4, 4)] ∧
      G.monomial_basis = [[0, 0, 0], [0, 0, 0, 0]] ∧
      G.gram_var_size = (G.grams.map (fun g => g.rows * (g.rows + 1) / 2)).sum := by
  refine ⟨by decide, ?_⟩
  have h := GramAndMonomialBasis_new_blocks (V := Nat)
    (fun i : Fin 4 => List.replicate (i.val + 1) (0 : Nat)) false 2 (by decide)
  obtain ⟨G, h1, h2, h3, h4⟩ := h
  refine ⟨G, h1, ?_, ?_, h4⟩
  · rw [h2]; simp [basisGet, List.range_succ]
  · rw [h3]; simp [basisGet, List.range_succ, List.replicate]

/-! ## Unpacking a lower triangle -/

theorem half_succ (j : Nat) : (j + 1) * j / 2 = j * (j - 1) / 2 + j := by
  cases j with
  | zero => simp
  | succ k =>
    have : (k + 1 + 1) * (k + 1) = (k + 1) * (k + 1 - 1) + (k + 1) * 2 := by
      simp only [Nat.add_sub_cancel]; ring
    rw [this, Nat.add_mul_div_right _ _ (by decide : 0 < 2)]

theorem half_le (j r : Nat) (h : j ≤ r) : j * (j - 1) / 2 ≤ j * r := by
  calc j * (j - 1) / 2 ≤ j * (j - 1) := Nat.div_le_self _ _
    _ ≤ j * r := Nat.mul_le_mul_left _ (by omega)

theorem lowerIndex_diag_succ (r j : Nat) (h : j < r) :
    lowerIndex r (j + 1) (j + 1) = lowerIndex r j j + (r - j) := by
  unfold lowerIndex
  have h1 := half_succ j
  have h2 := half_le j r (by omega)
  have h3 : (j + 1) * r = j * r + r := by ring
  have h4 : (j + 1) * (j + 1 - 1) = (j + 1) * j := by simp
  rw [h4, h1, h3]
  omega

theorem lowerIndex_eq (r i j : Nat) : lowerIndex r i j = lowerIndex r j j + (i - j) := by
  unfold lowerIndex; simp

theorem lowerIndex_diag_le (r : Nat) : ∀ j, j ≤ r → lowerIndex r j j + gram_lower_size (r - j) = gram_lower_size r := by
  intro j
  induction j with
  | zero => intro _; simp [lowerIndex]
  | succ j ih =>
    intro h
    have := ih (by omega)
    rw [lowerIndex_diag_succ r j (by omega)]
    have h5 : gram_lower_size (r - j) = gram_lower_size (r - (j + 1)) + (r - j) := by
      unfold gram_lower_size
      have : r - j = (r - (j + 1)) + 1 := by omega
      rw [this]
      generalize r - (j + 1) = k
      have := half_succ (k + 1)
      simp only [Nat.add_sub_cancel] at this ⊢
      rw [Nat.mul_comm (k + 1) (k + 1 + 1), this, Nat.mul_comm k (k+1)]
    omega

theorem lowerIndex_lt (r i j : Nat) (hji : j ≤ i) (hi : i < r) :
    lowerIndex r i j < gram_lower_size r := by
  rw [lowerIndex_eq]
  have h1 := lowerIndex_diag_le r (j + 1) (by omega)
  have h2 := lowerIndex_diag_succ r j (by omega)
  omega

theorem vecGet_ok {α : Type} (v : List α) (i : Nat) (h : i < v.length) :
    vecGet v i = .ok (v.get ⟨i, h⟩) := by
  unfold vecGet
  rw [List.getElem?_eq_getElem h]
  rfl

theorem MatrixX_set_ok {α : Type} (mat : MatrixX α) (i j : Nat) (x : α)
    (hi : i < mat.rows) (hj : j < mat.cols) :
    mat.set i j x = .ok
      { mat with coeff := fun a b => if a = i ∧ b = j then some x else mat.coeff a b } := by
  unfold MatrixX.set
  rw [if_pos ⟨hi, hj⟩]

theorem symmetricInnerBody_inv {α : Type} (lt : List α) (r j i : Nat)
    (hlt : lt.length = gram_lower_size r) (hji : j < i) (hir : i < r)
    (st : MatrixX α × Nat)
    (hF : Filled lt r st.1 (fun a b => b < j ∨ (b = j ∧ a < i)))
    (hc : st.2 = lowerIndex r i j) :
    ∃ st', symmetricInnerBody lt j st i = .ok st' ∧
      Filled lt r st'.1 (fun a b => b < j ∨ (b = j ∧ a < i + 1)) ∧
      st'.2 = lowerIndex r (i + 1) j := by
  obtain ⟨hr, hcol, hent⟩ := hF
  have hlt' : lowerIndex r i j < lt.length := by
    rw [hlt]; exact lowerIndex_lt r i j (by omega) hir
  unfold symmetricInnerBody
  rw [hc, vecGet_ok lt _ hlt', except_bind_ok,
    MatrixX_set_ok st.1 i j _ (by omega) (by omega), except_bind_ok,
    MatrixX_set_ok _ j i _ (by simp; omega) (by simp; omega), except_bind_ok]
  refine ⟨_, rfl, ⟨hr, hcol, ?_⟩, ?_⟩
  · intro a b hba har hdone
    have hx : lt[lowerIndex r i j]? = some (lt.get ⟨lowerIndex r i j, hlt'⟩) :=
      List.getElem?_eq_getElem hlt'
    by_cases hab : a = i ∧ b = j
    · obtain ⟨rfl, rfl⟩ := hab
      have h1 : ¬ (a = b ∧ b = a) := by omega
      simp [h1, hx]
    · have h1 : ¬ (a = j ∧ b = i) := by omega
      have h2 : ¬ (b = j ∧ a = i) := by omega
      have h3 : ¬ (b = i ∧ a = j) := by omega
      have hd : b < j ∨ (b = j ∧ a < i) := by
        rcases hdone with h | ⟨h, h'⟩
        · exact Or.inl h
        · exact Or.inr ⟨h, by omega⟩
      simp only [h1, hab, h2, h3, if_false]
      exact hent a b hba har hd
  · show lowerIndex r i j + 1 = lowerIndex r (i + 1) j
    rw [lowerIndex_eq r i j, lowerIndex_eq r (i + 1) j]
    omega

theorem symmetricOuterBody_inv {α : Type} (lt : List α) (r j : Nat)
    (hlt : lt.length = gram_lower_size r) (hjr : j < r) (st : MatrixX α × Nat)
    (hF : Filled lt r st.1 (fun _ b => b < j)) (hc : st.2 = lowerIndex r j j) :
    ∃ st', symmetricOuterBody r lt st j = .ok st' ∧
      Filled lt r st'.1 (fun _ b => b < j + 1) ∧
      st'.2 = lowerIndex r (j + 1) (j + 1) := by
  obtain ⟨hr, hcol, hent⟩ := hF
  have hlt' : lowerIndex r j j < lt.length := by
    rw [hlt]; exact lowerIndex_lt r j j (le_refl _) hjr
  unfold symmetricOuterBody
  rw [hc, vecGet_ok lt _ hlt', except_bind_ok,
    MatrixX_set_ok st.1 j j _ (by omega) (by omega), except_bind_ok]
  have hx : lt[lowerIndex r j j]? = some (lt.get ⟨lowerIndex r j j, hlt'⟩) :=
    List.getElem?_eq_getElem hlt'
  obtain ⟨st', hs', hF', hc'⟩ := foldlM_range'_inv (symmetricInnerBody lt j)
    (fun i st => Filled lt r st.1 (fun a b => b < j ∨ (b = j ∧ a < i)) ∧
      st.2 = lowerIndex r i j)
    (r - (j + 1)) (j + 1)
    (({ st.1 with coeff := fun a b =>
        if a = j ∧ b = j then some (lt.get ⟨lowerIndex r j j, hlt'⟩) else st.1.coeff a b } :
        MatrixX α), lowerIndex r j j + 1)
    (by
      refine ⟨⟨hr, hcol, ?_⟩, ?_⟩
      · intro a b hba har hdone
        by_cases hab : a = j ∧ b = j
        · obtain ⟨rfl, rfl⟩ := hab
          simp [hx]
        · have h2 : ¬ (b = j ∧ a = j) := by omega
          have hd : b < j := by
            rcases hdone with h | ⟨h, h'⟩
            · exact h
            · omega
          simp only [hab, h2, if_false]
          exact hent a b hba har hd
      · show lowerIndex r j j + 1 = lowerIndex r (j + 1) j
        rw [lowerIndex_eq r (j + 1) j]
        omega)
    (fun i s hi1 hi2 hI => by
      obtain ⟨s', h1, h2, h3⟩ :=
        symmetricInnerBody_inv lt r j i hlt (by omega) (by omega) s hI.1 hI.2
      exact ⟨s', h1, h2, h3⟩)
  refine ⟨st', hs', ⟨hF'.1, hF'.2.1, ?_⟩, ?_⟩
  · intro a b hba har hdone
    have hrj : j + 1 + (r - (j + 1)) = r := by omega
    rw [hrj] at hF'
    exact hF'.2.2 a b hba har (by omega)
  · have hrj : j + 1 + (r - (j + 1)) = r := by omega
    rw [hrj] at hc'
    rw [hc', lowerIndex_eq r r j, lowerIndex_diag_succ r j hjr]

/-- `SymmetricMatrixFromLowerTriangularPart` on a vector of `rows(rows+1)/2`
entries: the result is `rows × rows` and, for `i ≥ j`, its entries `(i, j)` and
`(j, i)` are the packed entry `lowerIndex rows i j`. -/
theorem SymmetricMatrixFromLowerTriangularPart_ok {α : Type} (rows : Nat)
    (lower_triangle : List α) (mat : MatrixX α)
    (hlt : lower_triangle.length = gram_lower_size rows) :
    ∃ mat', SymmetricMatrixFromLowerTriangularPart rows lower_triangle mat = .ok mat' ∧
      Filled lower_triangle rows mat' (fun _ _ => True) := by
  unfold SymmetricMatrixFromLowerTriangularPart
  have hne : ¬ lower_triangle.length ≠ rows * (rows + 1) / 2 := by
    rw [hlt]; simp [gram_lower_size]
  have hsize : (mat.resize rows rows).rows = rows ∧ (mat.resize rows rows).cols = rows := by
    unfold MatrixX.resize
    split
    · assumption
    · exact ⟨rfl, rfl⟩
  obtain ⟨st', hs', hF', _⟩ := foldlM_range_inv (symmetricOuterBody rows lower_triangle)
    (fun j st => Filled lower_triangle rows st.1 (fun _ b => b < j) ∧
      st.2 = lowerIndex rows j j)
    rows (mat.resize rows rows, 0)
    ⟨⟨hsize.1, hsize.2, fun a b _ _ hd => absurd hd (Nat.not_lt_zero _)⟩, by simp [lowerIndex]⟩
    (fun j s hj hI => by
      obtain ⟨s', h1, h2, h3⟩ := symmetricOuterBody_inv lower_triangle rows j hlt hj s hI.1 hI.2
      exact ⟨s', h1, h2, h3⟩)
  refine ⟨st'.1, ?_, hF'.1, hF'.2.1, fun a b hba har _ => hF'.2.2 a b hba har (by omega)⟩
  simp only [hne, if_false]
  show (do
    let _ ← (pure PUnit.unit : Except Error PUnit)
    let st ← (List.range rows).foldlM (symmetricOuterBody rows lower_triangle)
      (mat.resize rows rows, 0)
    pure st.1) = _
  rw [hs']
  rfl

/-! ## `AddSos` -/

/-- A double sum of a symmetric function is the diagonal plus twice the strict
lower triangle. -/
theorem sum_symmetric {P : Type} [CommRing P] (f : Nat → Nat → P)
    (hsym : ∀ i j, f i j = f j i) (n : Nat) :
    ∑ i in Finset.range n, ∑ j in Finset.range n, f i j =
      ∑ j in Finset.range n, f j j
        + 2 * ∑ j in Finset.range n, ∑ i in Finset.Ico (j + 1) n, f i j := by
  induction n with
  | zero => simp
  | succ n ih =>
    have h1 : ∑ i in Finset.range (n + 1), ∑ j in Finset.range (n + 1), f i j
        = ∑ i in Finset.range n, ∑ j in Finset.range n, f i j
          + ∑ i in Finset.range n, f i n + (∑ j in Finset.range n, f n j + f n n) := by
      rw [Finset.sum_range_succ, Finset.sum_range_succ (fun j => f n j), ← Finset.sum_add_distrib]
      congr 1
      exact Finset.sum_congr rfl (fun i _ => Finset.sum_range_succ _ _)
    have h2 : ∑ j in Finset.range (n + 1), ∑ i in Finset.Ico (j + 1) (n + 1), f i j
        = ∑ j in Finset.range n, ∑ i in Finset.Ico (j + 1) n, f i j
          + ∑ j in Finset.range n, f n j := by
      rw [Finset.sum_range_succ, Finset.Ico_self, Finset.sum_empty, add_zero,
        ← Finset.sum_add_distrib]
      refine Finset.sum_congr rfl (fun j hj => ?_)
      have hj' : j + 1 ≤ n := by
        have := Finset.mem_range.mp hj
        omega
      exact Finset.sum_Ico_succ_top hj' _
    have h3 : ∑ i in Finset.range n, f i n = ∑ j in Finset.range n, f n j :=
      Finset.sum_congr rfl (fun i _ => hsym i n)
    rw [h1, h2, ih, Finset.sum_range_succ (fun j => f j j), h3]
    ring

/-- The lower-triangle polynomial of a packed vector is `basisᵀ · Gram · basis` for
the symmetric matrix unpacked from it. -/
theorem lowerTrianglePolynomial_eq_quadForm {V M P : Type} [CommRing P] (vp : V → P)
    (mp : M → P) (basis : List M) (seg : List V) (gram : MatrixX V)
    (hF : Filled seg basis.length gram (fun _ _ => True)) :
    lowerTrianglePolynomial vp mp basis seg = quadForm vp mp basis gram := by
  obtain ⟨hr, hc, hent⟩ := hF
  unfold lowerTrianglePolynomial quadForm
  rw [hr, hc]
  set r := basis.length
  set m : Nat → P := fun i => ((basis[i]?).map mp).getD 0
  set l : Nat → Nat → P := fun i j => ((seg[lowerIndex r i j]?).map vp).getD 0
  have hsum := sum_symmetric
    (fun i j => m i * (if j ≤ i then l i j else l j i) * m j)
    (fun i j => by
      by_cases h1 : j ≤ i <;> by_cases h2 : i ≤ j
      · have : i = j := le_antisymm h2 h1
        subst this; ring
      · simp only [h1, h2, if_true, if_false]; ring
      · simp only [h1, h2, if_true, if_false]; ring
      · omega)
    r
  have hL : ∑ i in Finset.range r, ∑ j in Finset.range r,
        m i * ((gram.coeff i j).map vp).getD 0 * m j
      = ∑ i in Finset.range r, ∑ j in Finset.range r,
        m i * (if j ≤ i then l i j else l j i) * m j := by
    refine Finset.sum_congr rfl (fun i hi => Finset.sum_congr rfl (fun j hj => ?_))
    have hi' := Finset.mem_range.mp hi
    have hj' := Finset.mem_range.mp hj
    by_cases h : j ≤ i
    · rw [if_pos h, (hent i j h hi' trivial).1]
    · rw [if_neg h, (hent j i (by omega) hj' trivial).2]
  have hD : ∑ j in Finset.range r, l j j * m j ^ 2
      = ∑ j in Finset.range r, m j * (if j ≤ j then l j j else l j j) * m j := by
    refine Finset.sum_congr rfl (fun j _ => ?_)
    simp only [le_refl, if_true]
    ring
  have hT : ∑ j in Finset.range r, ∑ i in Finset.Ico (j + 1) r, l i j * m i * m j
      = ∑ j in Finset.range r, ∑ i in Finset.Ico (j + 1) r,
          m i * (if j ≤ i then l i j else l j i) * m j := by
    refine Finset.sum_congr rfl (fun j _ => Finset.sum_congr rfl (fun i hi => ?_))
    have := (Finset.mem_Ico.mp hi).1
    have hji : j ≤ i := by omega
    simp only [hji, if_true]
    ring
  rw [hL, hsum, ← hD, ← hT]

theorem segment_ok {α : Type} (v : List α) (start n : Nat) (h : start + n ≤ v.length) :
    segment v start n = .ok ((v.drop start).take n) := by
  unfold segment
  rw [if_pos h]

theorem length_take_drop {α : Type} (v : List α) (start n : Nat) (h : start + n ≤ v.length) :
    ((v.drop start).take n).length = n := by
  simp; omega

theorem blockOffset_succ (rows : List Nat) (b : Nat) (hb : b < rows.length) :
    blockOffset rows (b + 1) = blockOffset rows b + gram_lower_size (rows.getD b 0) := by
  unfold blockOffset
  rw [List.take_succ, List.map_append, List.sum_append, List.getD_eq_getElem?_getD,
    List.getElem?_eq_getElem hb]
  simp

theorem blockOffset_le (rows : List Nat) (b : Nat) :
    blockOffset rows b ≤ (rows.map gram_lower_size).sum := by
  unfold blockOffset
  conv_rhs => rw [← List.take_append_drop b rows]
  rw [List.map_append, List.sum_append]
  omega

theorem blockOffset_length (rows : List Nat) :
    blockOffset rows rows.length = (rows.map gram_lower_size).sum := by
  unfold blockOffset
  rw [List.take_length]

theorem blockOffset_cons (r : Nat) (rows : List Nat) (b : Nat) :
    blockOffset (r :: rows) (b + 1) = gram_lower_size r + blockOffset rows b := by
  simp [blockOffset]

/-- The first loop of `AddSos` unpacks consecutive segments of the flat vector
into the Gram matrices. -/
theorem unpack_loop {V : Type} (gram_lower : List V) :
    ∀ (grams acc : List (MatrixX V)) (off : Nat),
      off + ((grams.map (fun g => g.rows)).map gram_lower_size).sum ≤ gram_lower.length →
      ∃ out, grams.foldlM (unpackBody gram_lower) (acc, off)
          = .ok (acc ++ out, off + ((grams.map (fun g => g.rows)).map gram_lower_size).sum) ∧
        out.map (fun g => g.rows) = grams.map (fun g => g.rows) ∧
        ∀ b, b < grams.length → ∃ g', out[b]? = some g' ∧
          Filled ((gram_lower.drop (off + blockOffset (grams.map (fun g => g.rows)) b)).take
              (gram_lower_size ((grams.map (fun g => g.rows)).getD b 0)))
            ((grams.map (fun g => g.rows)).getD b 0) g' (fun _ _ => True) := by
  intro grams
  induction grams with
  | nil =>
    intro acc off _
    exact ⟨[], by simp, rfl, fun b hb => absurd hb (Nat.not_lt_zero _)⟩
  | cons g gs ih =>
    intro acc off h
    simp only [List.map_cons, List.sum_cons] at h
    have hseg : off + gram_lower_size g.rows ≤ gram_lower.length := by omega
    obtain ⟨g0, hg0, hF0⟩ := SymmetricMatrixFromLowerTriangularPart_ok g.rows
      ((gram_lower.drop off).take (gram_lower_size g.rows)) g
      (length_take_drop gram_lower off _ hseg)
    obtain ⟨out, hout, hrows, hidx⟩ := ih (acc ++ [g0]) (off + gram_lower_size g.rows)
      (by omega)
    refine ⟨g0 :: out, ?_, ?_, ?_⟩
    · rw [List.foldlM_cons]
      have hbody : unpackBody gram_lower (acc, off) g
          = .ok (acc ++ [g0], off + gram_lower_size g.rows) := by
        unfold unpackBody
        show (segment gram_lower off (gram_lower_size g.rows) >>= _) = _
        rw [segment_ok gram_lower off _ hseg, except_bind_ok, hg0]
        rfl
      rw [hbody, except_bind_ok, hout]
      simp [Nat.add_assoc]
    · simp only [List.map_cons, hrows]
      congr 1
      exact hF0.1
    · intro b hb
      cases b with
      | zero =>
        refine ⟨g0, by simp, ?_⟩
        simpa [blockOffset] using hF0
      | succ k =>
        obtain ⟨g', hg', hF'⟩ := hidx k (by simpa using hb)
        refine ⟨g', by simpa using hg', ?_⟩
        simp only [List.map_cons, blockOffset_cons, List.getD_cons_succ]
        rw [← Nat.add_assoc]
        exact hF'

theorem vecGet_of_getElem? {α : Type} (v : List α) (i : Nat) (x : α) (h : v[i]? = some x) :
    vecGet v i = .ok x := by
  unfold vecGet
  rw [h]

theorem Filled_get {α : Type} (seg : List α) (r : Nat) (g : MatrixX α)
    (hF : Filled seg r g (fun _ _ => True)) (hseg : seg.length = gram_lower_size r)
    (i j : Nat) (hi : i < r) (hj : j < r) : ∃ x, g.get i j = .ok x := by
  obtain ⟨hr, hc, hent⟩ := hF
  unfold MatrixX.get
  rw [if_pos ⟨by omega, by omega⟩]
  by_cases h : j ≤ i
  · have hlt : lowerIndex r i j < seg.length := by
      rw [hseg]; exact lowerIndex_lt r i j h hi
    rw [(hent i j h hi trivial).1, List.getElem?_eq_getElem hlt]
    exact ⟨_, rfl⟩
  · have hlt : lowerIndex r j i < seg.length := by
      rw [hseg]; exact lowerIndex_lt r j i (by omega) hj
    rw [(hent j i (by omega) hj trivial).2, List.getElem?_eq_getElem hlt]
    exact ⟨_, rfl⟩

/-- On an unpacked Gram matrix `AddPsdConstraint` adds exactly one constraint, on
the Gram entries. -/
theorem AddPsdConstraint_ok {V P : Type} (prog : MathematicalProgram V P) (seg : List V)
    (r : Nat) (g : MatrixX V) (hF : Filled seg r g (fun _ _ => True))
    (hseg : seg.length = gram_lower_size r) :
    ∃ c, AddPsdConstraint prog g = .ok (prog.addConstraint c) ∧ c.isGram = true := by
  have hr := hF.1
  have hc := hF.2.1
  unfold AddPsdConstraint
  have hsq : ¬ g.rows ≠ g.cols := by rw [hr, hc]; simp
  rw [if_neg hsq]
  by_cases h1 : g.rows = 1
  · rw [if_pos h1]
    obtain ⟨x, hx⟩ := Filled_get seg r g hF hseg 0 0 (by omega) (by omega)
    rw [hx]
    exact ⟨_, rfl, rfl⟩
  · rw [if_neg h1]
    by_cases h2 : g.rows = 2
    · rw [if_pos h2]
      obtain ⟨x00, hx00⟩ := Filled_get seg r g hF hseg 0 0 (by omega) (by omega)
      obtain ⟨x11, hx11⟩ := Filled_get seg r g hF hseg 1 1 (by omega) (by omega)
      obtain ⟨x01, hx01⟩ := Filled_get seg r g hF hseg 0 1 (by omega) (by omega)
      rw [hx00, hx11, hx01]
      exact ⟨_, rfl, rfl⟩
    · rw [if_neg h2]
      exact ⟨_, rfl, rfl⟩

theorem CalcPolynomialWLowerTriangularPart_ok {V M P : Type} [CommRing P] (vp : V → P)
    (mp : M → P) (basis : List M) (seg : List V)
    (h : seg.length = gram_lower_size basis.length) :
    CalcPolynomialWLowerTriangularPart vp mp basis seg
      = .ok (lowerTrianglePolynomial vp mp basis seg) := by
  unfold CalcPolynomialWLowerTriangularPart
  rw [if_neg (by rw [h]; simp [gram_lower_size])]

/-- The second loop of `AddSos`: one constraint per block, and the sum of the
block polynomials. -/
theorem sos_loop {V M P : Type} [CommRing P] (vp : V → P) (mp : M → P)
    (grams : List (MatrixX V)) (monomial_basis : List (List M)) (gram_lower : List V)
    (prog : MathematicalProgram V P)
    (hlen : monomial_basis.map List.length = grams.map (fun g => g.rows))
    (htot : ((grams.map (fun g => g.rows)).map gram_lower_size).sum ≤ gram_lower.length)
    (hF : ∀ b, b < grams.length → ∃ g', grams[b]? = some g' ∧
      Filled (blockSegment (grams.map (fun g => g.rows)) gram_lower b)
        ((grams.map (fun g => g.rows)).getD b 0) g' (fun _ _ => True)) :
    ∃ cs, (List.range grams.length).foldlM (sosBody vp mp grams monomial_basis gram_lower)
          (prog, 0, 0)
        = .ok ({ prog with constraints := prog.constraints ++ cs },
            sosPolynomial vp mp monomial_basis gram_lower,
            ((grams.map (fun g => g.rows)).map gram_lower_size).sum) ∧
      cs.length = grams.length ∧ ∀ c ∈ cs, c.isGram = true := by
  have hlen2 : monomial_basis.length = grams.length := by
    have := congrArg List.length hlen
    simpa using this
  obtain ⟨st', hs', hcnt, hpoly, cs, hprog, hcs, hgram⟩ := foldlM_range_inv
    (sosBody vp mp grams monomial_basis gram_lower)
    (fun i st =>
      st.2.2 = blockOffset (grams.map (fun g => g.rows)) i ∧
      st.2.1 = ∑ b in Finset.range i,
        lowerTrianglePolynomial vp mp (monomial_basis.getD b [])
          (blockSegment (monomial_basis.map List.length) gram_lower b) ∧
      ∃ cs, st.1 = { prog with constraints := prog.constraints ++ cs } ∧
        cs.length = i ∧ ∀ c ∈ cs, c.isGram = true)
    grams.length (prog, 0, 0)
    ⟨by simp [blockOffset], by simp, [], by simp, rfl, by simp⟩
    (fun i st hi hI => by
      obtain ⟨hcnt, hpoly, cs, hprog, hcs, hgram⟩ := hI
      obtain ⟨g', hg', hFg⟩ := hF i hi
      have hrows : (grams.map (fun g => g.rows)).getD i 0 = g'.rows := by
        rw [List.getD_eq_getElem?_getD, List.getElem?_map, hg']
        rfl
      have hbi : monomial_basis[i]? = some (monomial_basis.getD i []) := by
        rw [List.getD_eq_getElem?_getD, List.getElem?_eq_getElem (by omega)]
        rfl
      have hblen : (monomial_basis.getD i []).length = g'.rows := by
        have h1 : (monomial_basis.map List.length)[i]? = (grams.map (fun g => g.rows))[i]? := by
          rw [hlen]
        rw [List.getElem?_map, List.getElem?_map, hbi, hg'] at h1
        simpa using h1
      have hoff := blockOffset_succ (grams.map (fun g => g.rows)) i (by simpa using hi)
      have hle := blockOffset_le (grams.map (fun g => g.rows)) (i + 1)
      rw [hrows] at hoff hFg
      have hsegle : st.2.2 + gram_lower_size g'.rows ≤ gram_lower.length := by
        rw [hcnt]; omega
      have hsegeq : (gram_lower.drop st.2.2).take (gram_lower_size g'.rows)
          = blockSegment (grams.map (fun g => g.rows)) gram_lower i := by
        unfold blockSegment
        rw [hcnt, hrows]
      have hseglen : (blockSegment (grams.map (fun g => g.rows)) gram_lower i).length
          = gram_lower_size g'.rows := by
        rw [← hsegeq]; exact length_take_drop gram_lower _ _ hsegle
      obtain ⟨c, hc, hcg⟩ := AddPsdConstraint_ok st.1 _ g'.rows g' hFg hseglen
      refine ⟨(st.1.addConstraint c,
        st.2.1 + lowerTrianglePolynomial vp mp (monomial_basis.getD i [])
          (blockSegment (monomial_basis.map List.length) gram_lower i),
        st.2.2 + gram_lower_size g'.rows), ?_, ?_, ?_, cs ++ [c], ?_, ?_, ?_⟩
      · unfold sosBody
        rw [vecGet_of_getElem? grams i g' hg', except_bind_ok, hc, except_bind_ok,
          vecGet_of_getElem? monomial_basis i _ hbi, except_bind_ok,
          show g'.rows * (g'.rows + 1) / 2 = gram_lower_size g'.rows from rfl,
          segment_ok gram_lower _ _ hsegle, except_bind_ok, hsegeq,
          CalcPolynomialWLowerTriangularPart_ok vp mp _ _ (by rw [hseglen, hblen]),
          except_bind_ok, hlen]
        rfl
      · show st.2.2 + gram_lower_size g'.rows = _
        rw [hoff, hcnt]
      · show st.2.1 + _ = _
        rw [Finset.sum_range_succ, hpoly]
      · rw [hprog]
        simp [MathematicalProgram.addConstraint]
      · simp [hcs]
      · intro c' hc'
        rcases List.mem_append.mp hc' with h | h
        · exact hgram c' h
        · rw [List.mem_singleton.mp h]; exact hcg)
  refine ⟨cs, ?_, hcs, hgram⟩
  rw [hs']
  have h3 : st' = (st'.1, st'.2.1, st'.2.2) := rfl
  rw [h3, hprog, hpoly, hcnt]
  have h4 := blockOffset_length (grams.map (fun g => g.rows))
  simp only [List.length_map] at h4
  rw [h4]
  unfold sosPolynomial
  rw [hlen2]

/-- `AddSos` on a well-formed object and a flat vector of `gram_var_size`
entries: it succeeds, keeps the shape of the object, adds one Gram constraint per
block and returns `sosPolynomial`. -/
theorem AddSos_ok {V M P : Type} [CommRing P] (vp : V → P) (mp : M → P)
    (G : GramAndMonomialBasis V M) (hWF : G.WF) (prog : MathematicalProgram V P)
    (gram_lower : List V) (hlen : gram_lower.length = G.gram_var_size) :
    ∃ G' cs, G.AddSos vp mp prog gram_lower
        = .ok (G', { prog with constraints := prog.constraints ++ cs },
            sosPolynomial vp mp G.monomial_basis gram_lower) ∧
      G'.WF ∧ G'.gram_var_size = G.gram_var_size ∧
      G'.monomial_basis = G.monomial_basis ∧
      G'.grams.map (fun g => g.rows) = G.grams.map (fun g => g.rows) ∧
      cs.length = G.grams.length ∧ (∀ c ∈ cs, c.isGram = true) ∧
      ∀ b, b < G.grams.length → ∃ g', G'.grams[b]? = some g' ∧
        Filled (blockSegment (G.grams.map (fun g => g.rows)) gram_lower b)
          ((G.grams.map (fun g => g.rows)).getD b 0) g' (fun _ _ => True) := by
  obtain ⟨hbasis, hsize⟩ := hWF
  obtain ⟨out, hout, hrows, hidx⟩ := unpack_loop gram_lower G.grams [] 0
    (by rw [hlen, hsize]; omega)
  have houtlen : out.length = G.grams.length := by
    have := congrArg List.length hrows
    simpa using this
  have hidx' : ∀ b, b < out.length → ∃ g', out[b]? = some g' ∧
      Filled (blockSegment (out.map (fun g => g.rows)) gram_lower b)
        ((out.map (fun g => g.rows)).getD b 0) g' (fun _ _ => True) := by
    intro b hb
    obtain ⟨g', hg', hF'⟩ := hidx b (by omega)
    refine ⟨g', hg', ?_⟩
    rw [hrows]
    unfold blockSegment
    simpa using hF'
  obtain ⟨cs, hcs, hcslen, hgram⟩ := sos_loop vp mp out G.monomial_basis gram_lower prog
    (by rw [hbasis, hrows]) (by rw [hrows, ← hsize, ← hlen]) hidx'
  refine ⟨{ G with grams := out }, cs, ?_, ⟨by rw [hbasis, hrows], by rw [hrows, hsize]⟩,
    rfl, rfl, hrows, by omega, hgram, ?_⟩
  · unfold GramAndMonomialBasis.AddSos
    rw [hout, except_bind_ok]
    simp only [List.nil_append]
    rw [hcs]
    rfl
  · intro b hb
    obtain ⟨g', hg', hF'⟩ := hidx b hb
    refine ⟨g', hg', ?_⟩
    unfold blockSegment
    simpa using hF'

/-- The constructor returns a well-formed object whose `gram_var_size` is the
value of `GetGramVarSize`, with at least one block when `num_y ≥ 0`. -/
theorem GramAndMonomialBasis_new_ok {V M : Type} [Inhabited M] (arr : MonomialBasisArray M)
    (with_cross_y : Bool) (num_y : Int) (hy : num_y ≤ 3) :
    ∃ G : GramAndMonomialBasis V M,
      GramAndMonomialBasis.new arr with_cross_y num_y = .ok G ∧ G.WF ∧
      GetGramVarSize arr with_cross_y num_y = .ok G.gram_var_size ∧
      (0 ≤ num_y → 1 ≤ G.grams.length) := by
  by_cases hneg : 0 ≤ num_y
  · obtain ⟨k, rfl⟩ := Int.eq_ofNat_of_zero_le hneg
    have hk : k ≤ 3 := by omega
    refine ⟨_, GramAndMonomialBasis_new_eq arr with_cross_y k hk, ⟨?_, ?_⟩,
      GetGramVarSize_ref arr with_cross_y k hk, fun _ => ?_⟩
    · simp only [List.map_map]
      refine List.map_congr_left (fun b hb => ?_)
      exact GramBlocksRef_length arr with_cross_y k b hb
    · simp only [GramVarSizeRef_eq_sum_blocks, List.map_map]
      rfl
    · simp only [List.length_map]
      unfold GramBlocksRef
      by_cases h0 : k = 0
      · simp [h0]
      · cases with_cross_y
        · simp [h0]; omega
        · simp [h0]
  · have h0 : num_y ≠ 0 := by omega
    have ht : num_y.toNat = 0 := by omega
    have hsize := GetGramVarSize_eq arr with_cross_y num_y hy
    cases with_cross_y
    · refine ⟨⟨0, [], []⟩, ?_, ⟨rfl, rfl⟩, ?_, fun h => absurd h hneg⟩
      · unfold GramAndMonomialBasis.new
        rw [hsize]
        simp [h0, ht]
      · rw [hsize]; simp [h0, ht]
    · refine ⟨⟨gram_lower_size (arr 0).length,
        [MatrixX.sized (arr 0).length (arr 0).length], [arr 0]⟩, ?_, ⟨rfl, ?_⟩, ?_,
        fun h => absurd h hneg⟩
      · unfold GramAndMonomialBasis.new
        rw [hsize]
        simp only [except_bind_ok, h0, ht, if_false, if_true, List.range_zero,
          List.foldlM_nil, except_pure]
        rw [assignTopRows_replicate (arr 0) _ default (le_refl _)]
        simp [stackBody]
      · simp [MatrixX.sized]
      · rw [hsize]; simp [h0, ht]

/-- C6: for a flat vector `gram_lower` of `gram_var_size` entries, `AddSos`
returns the sum over the blocks of `basisᵀ · G · basis`, where `G` is the
symmetric matrix unpacked from the block's consecutive segment of `gram_lower`
(for `i ≥ j`, `G(i,j) = G(j,i) = segment[j r - j(j-1)/2 + (i - j)]`, an index
inside the segment), and every segment lies inside `gram_lower`. -/
theorem AddSos_polynomial {V M P : Type} [CommRing P] [Inhabited M] (vp : V → P)
    (mp : M → P) (monomial_basis_array : MonomialBasisArray M) (with_cross_y : Bool)
    (num_y : Int) (hy : num_y ≤ 3) (G : GramAndMonomialBasis V M)
    (hG : GramAndMonomialBasis.new monomial_basis_array with_cross_y num_y = .ok G)
    (prog : MathematicalProgram V P) (gram_lower : List V)
    (hlen : gram_lower.length = G.gram_var_size) :
    ∃ G' prog' poly, G.AddSos vp mp prog gram_lower = .ok (G', prog', poly) ∧
      G'.monomial_basis = G.monomial_basis ∧ G'.grams.length = G.grams.length ∧
      poly = ∑ b in Finset.range G'.grams.length,
        quadForm vp mp (G'.monomial_basis.getD b []) (G'.grams.getD b (MatrixX.sized 0 0)) ∧
      ∀ b, b < G.grams.length →
        blockOffset (G.grams.map (fun g => g.rows)) b
          + gram_lower_size ((G.grams.map (fun g => g.rows)).getD b 0) ≤ gram_lower.length ∧
        (blockSegment (G.grams.map (fun g => g.rows)) gram_lower b).length
          = gram_lower_size ((G.grams.map (fun g => g.rows)).getD b 0) ∧
        (∀ i j, j ≤ i → i < (G.grams.map (fun g => g.rows)).getD b 0 →
          lowerIndex ((G.grams.map (fun g => g.rows)).getD b 0) i j
            < gram_lower_size ((G.grams.map (fun g => g.rows)).getD b 0)) ∧
        Filled (blockSegment (G.grams.map (fun g => g.rows)) gram_lower b)
          ((G.grams.map (fun g => g.rows)).getD b 0)
          (G'.grams.getD b (MatrixX.sized 0 0)) (fun _ _ => True) := by
  obtain ⟨G0, hG0, hWF, _, _⟩ :=
    GramAndMonomialBasis_new_ok (V := V) monomial_basis_array with_cross_y num_y hy
  rw [hG] at hG0
  cases hG0
  obtain ⟨G', cs, hadd, hWF', _, hbasis, hrows, _, _, hidx⟩ :=
    AddSos_ok vp mp G hWF prog gram_lower hlen
  have hlen' : G'.grams.length = G.grams.length := by
    have := congrArg List.length hrows
    simpa using this
  have hoffle : ∀ b, b < G.grams.length →
      blockOffset (G.grams.map (fun g => g.rows)) b
        + gram_lower_size ((G.grams.map (fun g => g.rows)).getD b 0) ≤ gram_lower.length := by
    intro b hb
    have h1 := blockOffset_succ (G.grams.map (fun g => g.rows)) b (by simpa using hb)
    have h2 := blockOffset_le (G.grams.map (fun g => g.rows)) (b + 1)
    rw [hlen, hWF.2]
    omega
  refine ⟨G', _, _, hadd, hbasis, hlen', ?_, fun b hb => ⟨hoffle b hb, ?_, ?_, ?_⟩⟩
  · unfold sosPolynomial
    have hbl : G.monomial_basis.length = G'.grams.length := by
      have := congrArg List.length hWF.1
      simp only [List.length_map] at this
      omega
    rw [hbl, hbasis]
    refine Finset.sum_congr rfl (fun b hb => ?_)
    have hb' : b < G.grams.length := by
      have := Finset.mem_range.mp hb
      omega
    obtain ⟨g', hg', hF'⟩ := hidx b hb'
    have hget : G'.grams.getD b (MatrixX.sized 0 0) = g' := by
      rw [List.getD_eq_getElem?_getD, hg']; rfl
    have hlenb : (G.monomial_basis.getD b []).length
        = (G.grams.map (fun g => g.rows)).getD b 0 := by
      rw [← hWF.1]
      simp only [List.getD_eq_getElem?_getD, List.getElem?_map]
      cases G.monomial_basis[b]? <;> rfl
    rw [hget, hWF.1]
    rw [← hlenb] at hF'
    exact lowerTrianglePolynomial_eq_quadForm vp mp _ _ g' hF'
  · unfold blockSegment
    exact length_take_drop gram_lower _ _ (hoffle b hb)
  · intro i j hji hi
    exact lowerIndex_lt _ i j hji hi
  · obtain ⟨g', hg', hF'⟩ := hidx b hb
    have hget : G'.grams.getD b (MatrixX.sized 0 0) = g' := by
      rw [List.getD_eq_getElem?_getD, hg']; rfl
    rw [hget]
    exact hF'

theorem AddSos_polynomial_witness :
    (0 : Int) ≤ 3 ∧
    (GramAndMonomialBasis.new (fun _ : Fin 4 => [0]) true 0 :
      Except Error (GramAndMonomialBasis Nat Nat)) = .ok ⟨1, [MatrixX.sized 1 1], [[0]]⟩ ∧
    ([7] : List Nat).length = 1 ∧
    ∃ G' prog' poly,
      (⟨1, [MatrixX.sized 1 1], [[0]]⟩ : GramAndMonomialBasis Nat Nat).AddSos
        (fun v : Nat => (v : Int)) (fun _ : Nat => (1 : Int))
        (MathematicalProgram.empty : MathematicalProgram Nat Int) [7] = .ok (G', prog', poly) ∧
      G'.grams.length = 1 ∧
      poly = ∑ b in Finset.range G'.grams.length,
        quadForm (fun v : Nat => (v : Int)) (fun _ : Nat => (1 : Int))
          (G'.monomial_basis.getD b []) (G'.grams.getD b (MatrixX.sized 0 0)) := by
  refine ⟨by decide, rfl, rfl, ?_⟩
  obtain ⟨G', prog', poly, h1, _, h3, h4, _⟩ :=
    AddSos_polynomial (fun v : Nat => (v : Int)) (fun _ : Nat => (1 : Int))
      (fun _ : Fin 4 => [0]) true 0 (by decide)
      (⟨1, [MatrixX.sized 1 1], [[0]]⟩ : GramAndMonomialBasis Nat Nat) rfl
      (MathematicalProgram.empty : MathematicalProgram Nat Int) [7] rfl
  exact ⟨G', prog', poly, h1, h3, h4⟩

/-! ## `AddPsdConstraint` -/

/-- A binary quadratic form with `a ≥ 0`, `c ≥ 0`, `b² ≤ a c` is nonnegative. -/
theorem quadratic_nonneg {K : Type} [LinearOrderedField K] (a b c x y : K)
    (ha : 0 ≤ a) (hc : 0 ≤ c) (hb : b ^ 2 ≤ a * c) :
    0 ≤ a * x ^ 2 + 2 * b * x * y + c * y ^ 2 := by
  rcases eq_or_lt_of_le ha with h0 | hpos
  · have hb0 : b = 0 := by
      have h1 : b ^ 2 ≤ 0 := by rw [← h0] at hb; simpa using hb
      have h2 : 0 ≤ b ^ 2 := sq_nonneg b
      exact pow_eq_zero_iff (two_ne_zero) |>.mp (le_antisymm h1 h2)
    rw [← h0, hb0]
    have := mul_nonneg hc (sq_nonneg y)
    simpa using this
  · have hkey : a * (a * x ^ 2 + 2 * b * x * y + c * y ^ 2)
        = (a * x + b * y) ^ 2 + (a * c - b ^ 2) * y ^ 2 := by ring
    have h1 : 0 ≤ a * (a * x ^ 2 + 2 * b * x * y + c * y ^ 2) := by
      rw [hkey]
      exact add_nonneg (sq_nonneg _) (mul_nonneg (sub_nonneg.mpr hb) (sq_nonneg _))
    exact nonneg_of_mul_nonneg_right h1 hpos

/-- A binary quadratic form that is nonnegative everywhere has `a ≥ 0`, `c ≥ 0`
and `b² ≤ a c`. -/
theorem quadratic_nonneg_conv {K : Type} [LinearOrderedField K] (a b c : K)
    (h : ∀ x y : K, 0 ≤ a * x ^ 2 + 2 * b * x * y + c * y ^ 2) :
    0 ≤ a ∧ 0 ≤ c ∧ b ^ 2 ≤ a * c := by
  have ha : 0 ≤ a := by simpa using h 1 0
  have hc : 0 ≤ c := by simpa using h 0 1
  refine ⟨ha, hc, ?_⟩
  rcases eq_or_lt_of_le ha with h0 | hpos
  · rcases eq_or_lt_of_le hc with hc0 | hcpos
    · have h1 := h 1 1
      have h2 := h 1 (-1)
      rw [← h0, ← hc0] at h1 h2
      have hb0 : b = 0 := by
        have e1 : 0 ≤ 2 * b := by simpa using h1
        have e2 : 0 ≤ -(2 * b) := by
          have : (0 : K) * 1 ^ 2 + 2 * b * 1 * (-1) + 0 * (-1) ^ 2 = -(2 * b) := by ring
          rw [this] at h2; exact h2
        have e3 : 2 * b = 0 := le_antisymm (neg_nonneg.mp e2) e1
        simpa using e3
      rw [hb0, ← h0, ← hc0]; simp
    · have h1 := h (-c) b
      have hkey : a * (-c) ^ 2 + 2 * b * (-c) * b + c * b ^ 2 = c * (a * c - b ^ 2) := by ring
      rw [hkey] at h1
      exact sub_nonneg.mp (nonneg_of_mul_nonneg_right h1 hcpos)
  · have h1 := h b (-a)
    have hkey : a * b ^ 2 + 2 * b * b * (-a) + c * (-a) ^ 2 = a * (a * c - b ^ 2) := by ring
    rw [hkey] at h1
    exact sub_nonneg.mp (nonneg_of_mul_nonneg_right h1 hpos)

theorem MatrixX_get_of_coeff {V : Type} (X : MatrixX V) (i j : Nat) (x : V)
    (hi : i < X.rows) (hj : j < X.cols) (h : X.coeff i j = some x) : X.get i j = .ok x := by
  unfold MatrixX.get
  rw [if_pos ⟨hi, hj⟩, h]

/-- C7: the constraint `AddPsdConstraint` emits is equivalent to positive
semidefiniteness: a non-square matrix is rejected; a `1 × 1` matrix gets the
bound `X(0,0) ≥ 0`, which holds iff `X` is PSD; a `2 × 2` matrix gets the rotated
Lorentz cone on `(X(0,0), X(1,1), X(0,1))`, whose condition `X(0,0) ≥ 0`,
`X(1,1) ≥ 0`, `X(0,0) X(1,1) ≥ X(0,1)²` holds for a symmetric `X` iff `X` is PSD;
every other size gets the general PSD constraint. -/
theorem AddPsdConstraint_equiv_psd {V P K : Type} [LinearOrderedField K] (val : V → K)
    (prog : MathematicalProgram V P) (X : MatrixX V) (hX : X.Assigned) :
    (X.rows ≠ X.cols → AddPsdConstraint prog X = .error .throwUnless) ∧
    (X.rows = X.cols → ∃ c, AddPsdConstraint prog X = .ok (prog.addConstraint c) ∧
      (X.rows = 1 → ∃ x00, X.coeff 0 0 = some x00 ∧ c = .boundingBox 0 none x00 ∧
        (0 ≤ val x00 ↔ X.IsPSD val)) ∧
      (X.rows = 2 → ∃ x00 x11 x01, X.coeff 0 0 = some x00 ∧ X.coeff 1 1 = some x11 ∧
        X.coeff 0 1 = some x01 ∧ c = .rotatedLorentzCone x00 x11 x01 ∧
        (X.IsSymm val →
          ((0 ≤ val x00 ∧ 0 ≤ val x11 ∧ val x01 ^ 2 ≤ val x00 * val x11) ↔ X.IsPSD val))) ∧
      (X.rows ≠ 1 → X.rows ≠ 2 → c = .positiveSemidefinite X)) := by
  refine ⟨fun hne => by unfold AddPsdConstraint; rw [if_pos hne], fun hsq => ?_⟩
  unfold AddPsdConstraint
  rw [if_neg (by simpa using hsq)]
  by_cases h1 : X.rows = 1
  · rw [if_pos h1]
    have hc1 : X.cols = 1 := by omega
    obtain ⟨x00, hx00⟩ := hX 0 0 (by omega) (by omega)
    rw [MatrixX_get_of_coeff X 0 0 x00 (by omega) (by omega) hx00]
    refine ⟨_, rfl, fun _ => ⟨x00, hx00, rfl, ?_⟩, fun h2 => by omega, fun h => absurd h1 h⟩
    unfold MatrixX.IsPSD
    rw [h1, hc1]
    simp only [Finset.sum_range_one, MatrixX.entry, hx00, Option.map_some', Option.getD_some]
    constructor
    · intro h v
      have : v 0 * val x00 * v 0 = val x00 * v 0 ^ 2 := by ring
      rw [this]
      exact mul_nonneg h (sq_nonneg _)
    · intro h
      simpa using h (fun _ => 1)
  · rw [if_neg h1]
    by_cases h2 : X.rows = 2
    · rw [if_pos h2]
      have hc2 : X.cols = 2 := by omega
      obtain ⟨x00, hx00⟩ := hX 0 0 (by omega) (by omega)
      obtain ⟨x11, hx11⟩ := hX 1 1 (by omega) (by omega)
      obtain ⟨x01, hx01⟩ := hX 0 1 (by omega) (by omega)
      rw [MatrixX_get_of_coeff X 0 0 x00 (by omega) (by omega) hx00,
        MatrixX_get_of_coeff X 1 1 x11 (by omega) (by omega) hx11,
        MatrixX_get_of_coeff X 0 1 x01 (by omega) (by omega) hx01]
      refine ⟨_, rfl, fun h => absurd h h1,
        fun _ => ⟨x00, x11, x01, hx00, hx11, hx01, rfl, fun hsym => ?_⟩,
        fun _ h => absurd h2 h⟩
      have h10 : X.entry val 1 0 = val x01 := by
        rw [← hsym 0 1 (by omega) (by omega)]
        simp [MatrixX.entry, hx01]
      have h00 : X.entry val 0 0 = val x00 := by simp [MatrixX.entry, hx00]
      have h11 : X.entry val 1 1 = val x11 := by simp [MatrixX.entry, hx11]
      have h01 : X.entry val 0 1 = val x01 := by simp [MatrixX.entry, hx01]
      have hform : ∀ v : Nat → K,
          ∑ i in Finset.range X.rows, ∑ j in Finset.range X.cols, v i * X.entry val i j * v j
          = val x00 * v 0 ^ 2 + 2 * val x01 * v 0 * v 1 + val x11 * v 1 ^ 2 := by
        intro v
        rw [h2, hc2]
        simp only [Finset.sum_range_succ, Finset.sum_range_zero, zero_add, h00, h01, h10, h11]
        ring
      unfold MatrixX.IsPSD
      constructor
      · rintro ⟨ha, hc, hb⟩ v
        rw [hform v]
        exact quadratic_nonneg _ _ _ _ _ ha hc hb
      · intro h
        refine quadratic_nonneg_conv _ _ _ (fun x y => ?_)
        have := h (fun i => if i = 0 then x else y)
        rw [hform] at this
        simpa using this
    · rw [if_neg h2]
      exact ⟨_, rfl, fun h => absurd h h1, fun h => absurd h h2, fun _ _ => rfl⟩

theorem AddPsdConstraint_equiv_psd_witness :
    (⟨2, 2, fun i j => some (i + j)⟩ : MatrixX Nat).Assigned ∧
    ((⟨2, 2, fun i j => some (i + j)⟩ : MatrixX Nat).rows = 2 →
      ∃ c, AddPsdConstraint (MathematicalProgram.empty : MathematicalProgram Nat Int)
          ⟨2, 2, fun i j => some (i + j)⟩
        = .ok ((MathematicalProgram.empty : MathematicalProgram Nat Int).addConstraint c) ∧
        c = .rotatedLorentzCone 0 2 1) := by
  have hA : (⟨2, 2, fun i j => some (i + j)⟩ : MatrixX Nat).Assigned :=
    fun i j _ _ => ⟨i + j, rfl⟩
  refine ⟨hA, fun h2 => ?_⟩
  obtain ⟨c, hc, _, hc2, _⟩ :=
    (AddPsdConstraint_equiv_psd (fun v : Nat => (v : ℚ))
      (MathematicalProgram.empty : MathematicalProgram Nat Int)
      ⟨2, 2, fun i j => some (i + j)⟩ hA).2 rfl
  obtain ⟨x00, x11, x01, h00, h11, h01, hceq, _⟩ := hc2 h2
  refine ⟨c, hc, ?_⟩
  rw [hceq]
  simp only [Option.some.injEq] at h00 h11 h01
  rw [← h00, ← h11, ← h01]

/-! ## `FindRedundantInequalities` -/

/-- The classification loop in closed form. -/
theorem classify_foldl (r ns : Nat) (l : List Int) :
    ∀ st : Finset Int × Finset Int × Finset Int,
      l.foldl (classifyBody r ns) st =
        (st.1 ∪ l.toFinset.filter (fun k => k < (r : Int)),
         st.2.1 ∪ (l.toFinset.filter (fun k => (r : Int) + (ns : Int) ≤ k)).image
            (fun k => k - (r : Int) - (ns : Int)),
         st.2.2 ∪ (l.toFinset.filter
            (fun k => (r : Int) ≤ k ∧ k < (r : Int) + (ns : Int))).image
            (fun k => k - (r : Int))) := by
  induction l with
  | nil => intro st; simp
  | cons k l ih =>
    intro st
    rw [List.foldl_cons, ih]
    unfold classifyBody
    by_cases h1 : k < (r : Int)
    · have h2 : ¬ ((r : Int) + (ns : Int) ≤ k) := by omega
      have h3 : ¬ ((r : Int) ≤ k ∧ k < (r : Int) + (ns : Int)) := by omega
      simp only [h1, if_true, List.toFinset_cons, Finset.filter_insert, h2, h3, if_false]
      ext x <;> simp
    · by_cases h2 : k < (r : Int) + (ns : Int)
      · have h3 : ¬ ((r : Int) + (ns : Int) ≤ k) := by omega
        have h4 : (r : Int) ≤ k ∧ k < (r : Int) + (ns : Int) := ⟨by omega, h2⟩
        simp only [h1, h2, if_true, if_false, List.toFinset_cons, Finset.filter_insert, h3, h4,
          Finset.image_insert]
        ext x <;> simp
      · have h3 : (r : Int) + (ns : Int) ≤ k := by omega
        have h4 : ¬ ((r : Int) ≤ k ∧ k < (r : Int) + (ns : Int)) := by omega
        simp only [h1, h2, if_false, List.toFinset_cons, Finset.filter_insert, h3, h4, if_true,
          Finset.image_insert]
        ext x <;> simp

theorem stack_eq_stackedSystem {K : Type} [LinearOrderedField K] (C : MatrixXd K)
    (d s_lower s_upper : List K) :
    ((C.stack (MatrixXd.Identity s_lower.length)).stack
        (MatrixXd.Identity s_lower.length).neg)
      = (stackedSystem C d s_lower s_upper).A := by
  unfold MatrixXd.stack MatrixXd.Identity MatrixXd.neg stackedSystem
  simp only [MatrixXd.mk.injEq, true_and]
  funext i j
  by_cases h1 : i < C.rows
  · have h2 : i < C.rows + s_lower.length := by omega
    simp [h1, h2]
  · by_cases h2 : i < C.rows + s_lower.length
    · simp [h1, h2]
    · simp only [h1, h2, if_false]
      have : i - (C.rows + s_lower.length) = i - C.rows - s_lower.length := by omega
      rw [this]
      split <;> simp

/-- `FindRedundantInequalities` on well-formed input: the three output sets in
closed form, whatever the sets held before. -/
theorem FindRedundantInequalities_eq {K : Type} [LinearOrderedField K]
    (FindRedundant : HPolyhedron K → K → Finset Int)
    (C : MatrixXd K) (d s_lower s_upper : List K) (tighten : K) (A0 L0 U0 : Finset Int)
    (hcols : C.cols = s_lower.length) (hup : s_upper.length = s_lower.length)
    (hrows : C.rows = d.length) :
    FindRedundantInequalities FindRedundant C d s_lower s_upper tighten A0 L0 U0 = .ok
      ((FindRedundant (stackedSystem C d s_lower s_upper) (-tighten)).filter
          (fun k => k < (C.rows : Int)),
       ((FindRedundant (stackedSystem C d s_lower s_upper) (-tighten)).filter
          (fun k => (C.rows : Int) + (s_lower.length : Int) ≤ k)).image
          (fun k => k - (C.rows : Int) - (s_lower.length : Int)),
       ((FindRedundant (stackedSystem C d s_lower s_upper) (-tighten)).filter
          (fun k => (C.rows : Int) ≤ k ∧ k < (C.rows : Int) + (s_lower.length : Int))).image
          (fun k => k - (C.rows : Int))) := by
  unfold FindRedundantInequalities
  have h1 : MatrixXd.commaInit (C.rows + 2 * s_lower.length) s_lower.length C
      (MatrixXd.Identity s_lower.length) (MatrixXd.Identity s_lower.length).neg
      = .ok (stackedSystem C d s_lower s_upper).A := by
    unfold MatrixXd.commaInit
    rw [if_pos ⟨hcols, rfl, rfl, by simp [MatrixXd.Identity, MatrixXd.neg]; omega⟩,
      stack_eq_stackedSystem C d s_lower s_upper]
  have h2 : vectorCommaInit (d.length + 2 * s_lower.length) d s_upper
      (s_lower.map (fun x => -x)) = .ok (stackedSystem C d s_lower s_upper).b := by
    unfold vectorCommaInit
    rw [if_pos (by simp; omega)]
    rfl
  have h3 : HPolyhedron.new (stackedSystem C d s_lower s_upper).A
      (stackedSystem C d s_lower s_upper).b = .ok (stackedSystem C d s_lower s_upper) := by
    unfold HPolyhedron.new
    rw [if_pos (by simp [stackedSystem]; omega)]
  simp only [h1, h2, h3, except_bind_ok, except_pure, classify_foldl, clear]
  simp

/-- C9: `FindRedundantInequalities` hands `[C; I; -I] s ≤ [d; s_upper; -s_lower]`
to the generic routine and sends every reported row `k` to exactly one output
set: `k` to the polytope set when `k < rows(C)`, `k - rows(C)` to the upper-bound
set when `rows(C) ≤ k < rows(C) + ns`, `k - rows(C) - ns` to the lower-bound set
otherwise; the output sets have together as many elements as rows were
reported, are in range when the reported rows are, and do not depend on the
previous contents of the sets. -/
theorem FindRedundantInequalities_classifies {K : Type} [LinearOrderedField K]
    (FindRedundant : HPolyhedron K → K → Finset Int)
    (C : MatrixXd K) (d s_lower s_upper : List K) (tighten : K) (A0 L0 U0 : Finset Int)
    (hcols : C.cols = s_lower.length) (hup : s_upper.length = s_lower.length)
    (hrows : C.rows = d.length) :
    ∃ Cr Lr Ur,
      FindRedundantInequalities FindRedundant C d s_lower s_upper tighten A0 L0 U0
        = .ok (Cr, Lr, Ur) ∧
      FindRedundantInequalities FindRedundant C d s_lower s_upper tighten ∅ ∅ ∅
        = .ok (Cr, Lr, Ur) ∧
      (∀ i j, i < C.rows + 2 * s_lower.length →
        (stackedSystem C d s_lower s_upper).A.coeff i j =
          if i < C.rows then C.coeff i j
          else if i < C.rows + s_lower.length then (if i - C.rows = j then 1 else 0)
          else (if i - C.rows - s_lower.length = j then -1 else 0)) ∧
      (stackedSystem C d s_lower s_upper).b = d ++ s_upper ++ s_lower.map (fun x => -x) ∧
      (∀ k, k ∈ Cr ↔
        k ∈ FindRedundant (stackedSystem C d s_lower s_upper) (-tighten) ∧ k < (C.rows : Int)) ∧
      (∀ j, j ∈ Ur ↔
        j + (C.rows : Int) ∈ FindRedundant (stackedSystem C d s_lower s_upper) (-tighten) ∧
          0 ≤ j ∧ j < (s_lower.length : Int)) ∧
      (∀ j, j ∈ Lr ↔
        j + (C.rows : Int) + (s_lower.length : Int)
            ∈ FindRedundant (stackedSystem C d s_lower s_upper) (-tighten) ∧ 0 ≤ j) ∧
      Cr.card + Ur.card + Lr.card
        = (FindRedundant (stackedSystem C d s_lower s_upper) (-tighten)).card ∧
      ((∀ k ∈ FindRedundant (stackedSystem C d s_lower s_upper) (-tighten),
          0 ≤ k ∧ k < (C.rows : Int) + 2 * (s_lower.length : Int)) →
        (∀ k ∈ Cr, 0 ≤ k ∧ k < (C.rows : Int)) ∧
        (∀ j ∈ Ur, 0 ≤ j ∧ j < (s_lower.length : Int)) ∧
        (∀ j ∈ Lr, 0 ≤ j ∧ j < (s_lower.length : Int))) := by
  set R := FindRedundant (stackedSystem C d s_lower s_upper) (-tighten) with hR
  have hC : ∀ k, k ∈ R.filter (fun k => k < (C.rows : Int)) ↔ k ∈ R ∧ k < (C.rows : Int) := by
    intro k; simp
  have hU : ∀ j, j ∈ (R.filter
      (fun k => (C.rows : Int) ≤ k ∧ k < (C.rows : Int) + (s_lower.length : Int))).image
        (fun k => k - (C.rows : Int)) ↔
      j + (C.rows : Int) ∈ R ∧ 0 ≤ j ∧ j < (s_lower.length : Int) := by
    intro j
    simp only [Finset.mem_image, Finset.mem_filter]
    constructor
    · rintro ⟨k, ⟨hk, h1, h2⟩, rfl⟩
      refine ⟨by simpa using hk, by omega, by omega⟩
    · rintro ⟨h, h1, h2⟩
      exact ⟨j + (C.rows : Int), ⟨h, by omega, by omega⟩, by omega⟩
  have hL : ∀ j, j ∈ (R.filter
      (fun k => (C.rows : Int) + (s_lower.length : Int) ≤ k)).image
        (fun k => k - (C.rows : Int) - (s_lower.length : Int)) ↔
      j + (C.rows : Int) + (s_lower.length : Int) ∈ R ∧ 0 ≤ j := by
    intro j
    simp only [Finset.mem_image, Finset.mem_filter]
    constructor
    · rintro ⟨k, ⟨hk, h1⟩, rfl⟩
      refine ⟨by
        have : k - (C.rows : Int) - (s_lower.length : Int) + (C.rows : Int)
            + (s_lower.length : Int) = k := by omega
        rw [this]; exact hk, by omega⟩
    · rintro ⟨h, h1⟩
      exact ⟨j + (C.rows : Int) + (s_lower.length : Int), ⟨h, by omega⟩, by omega⟩
  refine ⟨_, _, _,
    FindRedundantInequalities_eq FindRedundant C d s_lower s_upper tighten A0 L0 U0
      hcols hup hrows,
    FindRedundantInequalities_eq FindRedundant C d s_lower s_upper tighten ∅ ∅ ∅
      hcols hup hrows,
    fun i j _ => rfl, rfl, hC, hU, hL, ?_, ?_⟩
  · have hinjU : Set.InjOn (fun k : Int => k - (C.rows : Int))
        (R.filter (fun k => (C.rows : Int) ≤ k ∧ k < (C.rows : Int) + (s_lower.length : Int))) :=
      fun a _ b _ h => by simp only at h; omega
    have hinjL : Set.InjOn (fun k : Int => k - (C.rows : Int) - (s_lower.length : Int))
        (R.filter (fun k => (C.rows : Int) + (s_lower.length : Int) ≤ k)) :=
      fun a _ b _ h => by simp only at h; omega
    rw [Finset.card_image_of_injOn hinjU, Finset.card_image_of_injOn hinjL]
    have e1 := Finset.filter_card_add_filter_neg_card_eq_card (s := R)
      (fun k => k < (C.rows : Int))
    have e2 := Finset.filter_card_add_filter_neg_card_eq_card
      (s := R.filter (fun k => ¬ k < (C.rows : Int)))
      (fun k => k < (C.rows : Int) + (s_lower.length : Int))
    rw [Finset.filter_filter, Finset.filter_filter] at e2
    have e3 : R.filter (fun k => ¬ k < (C.rows : Int) ∧ k < (C.rows : Int) + (s_lower.length : Int))
        = R.filter (fun k => (C.rows : Int) ≤ k ∧ k < (C.rows : Int) + (s_lower.length : Int)) :=
      Finset.filter_congr (fun k _ => by constructor <;> rintro ⟨a, b⟩ <;> exact ⟨by omega, b⟩)
    have e4 : R.filter (fun k => ¬ k < (C.rows : Int) ∧
          ¬ k < (C.rows : Int) + (s_lower.length : Int))
        = R.filter (fun k => (C.rows : Int) + (s_lower.length : Int) ≤ k) :=
      Finset.filter_congr (fun k _ => by
        constructor
        · rintro ⟨_, b⟩; omega
        · intro h; exact ⟨by omega, by omega⟩)
    rw [e3, e4] at e2
    have e5 : (R.filter (fun k => k < (C.rows : Int))).card
        + (R.filter (fun k => (C.rows : Int) ≤ k ∧
            k < (C.rows : Int) + (s_lower.length : Int))).card
        + (R.filter (fun k => (C.rows : Int) + (s_lower.length : Int) ≤ k)).card = R.card := by
      omega
    exact e5
  · intro hrange
    refine ⟨fun k hk => ?_, fun j hj => ?_, fun j hj => ?_⟩
    · obtain ⟨h1, h2⟩ := (hC k).mp hk
      exact ⟨(hrange k h1).1, h2⟩
    · obtain ⟨_, h2, h3⟩ := (hU j).mp hj
      exact ⟨h2, h3⟩
    · obtain ⟨h1, h2⟩ := (hL j).mp hj
      have := (hrange _ h1).2
      exact ⟨h2, by omega⟩

theorem FindRedundantInequalities_classifies_witness :
    exampleC.cols = ([0] : List ℚ).length ∧ ([1] : List ℚ).length = ([0] : List ℚ).length ∧
    exampleC.rows = ([2, 5] : List ℚ).length ∧
    ∃ Cr Lr Ur,
      FindRedundantInequalities (fun _ _ => ({1, 2, 3} : Finset Int)) exampleC [2, 5] [0] [1] 0
        {7} {8} {9} = .ok (Cr, Lr, Ur) ∧
      (∀ k, k ∈ Cr ↔ k ∈ ({1, 2, 3} : Finset Int) ∧ k < (exampleC.rows : Int)) ∧
      Cr.card + Ur.card + Lr.card = ({1, 2, 3} : Finset Int).card := by
  refine ⟨rfl, rfl, rfl, ?_⟩
  obtain ⟨Cr, Lr, Ur, h1, _, _, _, h5, _, _, h8, _⟩ :=
    FindRedundantInequalities_classifies (fun _ _ => ({1, 2, 3} : Finset Int)) exampleC
      [2, 5] [0] [1] 0 {7} {8} {9} rfl rfl rfl
  exact ⟨Cr, Lr, Ur, h1, h5, h8⟩

/-- In the example the rows implied by the remaining rows are `x ≤ 2` and
`x ≤ 5`, both consequences of the upper bound `x ≤ 1`. -/
theorem example_rowImplied (k : Int) :
    (0 ≤ k ∧ k < 4 ∧ RowImplied exampleSystem k.toNat) ↔ (k = 0 ∨ k = 1) := by
  have hrow : ∀ (i : Nat) (x : Nat → ℚ),
      ∑ j in Finset.range exampleSystem.A.cols, exampleSystem.A.coeff i j * x j
        = exampleSystem.A.coeff i 0 * x 0 := by
    intro i x
    show ∑ j in Finset.range 1, _ = _
    simp
  constructor
  · rintro ⟨h0, h4, himp⟩
    by_contra hne
    have hk : k = 2 ∨ k = 3 := by omega
    rcases hk with rfl | rfl
    · have himp2 : RowImplied exampleSystem 2 := himp
      have := himp2 (fun _ => 2) (fun i hi hne => by
        rw [hrow]
        have hi' : i < 4 := hi
        have : i = 0 ∨ i = 1 ∨ i = 3 := by
          have : i ≠ 2 := hne
          omega
        rcases this with rfl | rfl | rfl <;>
          norm_num [exampleSystem, stackedSystem, exampleC])
      rw [hrow] at this
      norm_num [exampleSystem, stackedSystem, exampleC] at this
    · have himp3 : RowImplied exampleSystem 3 := himp
      have := himp3 (fun _ => -1) (fun i hi hne => by
        rw [hrow]
        have hi' : i < 4 := hi
        have : i = 0 ∨ i = 1 ∨ i = 2 := by
          have : i ≠ 3 := hne
          omega
        rcases this with rfl | rfl | rfl <;>
          norm_num [exampleSystem, stackedSystem, exampleC])
      rw [hrow] at this
      norm_num [exampleSystem, stackedSystem, exampleC] at this
  · intro hk
    rcases hk with rfl | rfl
    · refine ⟨by decide, by decide, fun x hx => ?_⟩
      have h2 := hx 2 (by decide) (by decide)
      rw [hrow] at h2 ⊢
      norm_num [exampleSystem, stackedSystem, exampleC] at h2 ⊢
      linarith
    · refine ⟨by decide, by decide, fun x hx => ?_⟩
      have h2 := hx 2 (by decide) (by decide)
      rw [hrow] at h2 ⊢
      norm_num [exampleSystem, stackedSystem, exampleC] at h2 ⊢
      linarith

/-- The result of `FindRedundantInequalities` on the example when the generic
routine reports exactly the rows `0` and `1`. -/
theorem example_result (FindRedundant : HPolyhedron ℚ → ℚ → Finset Int)
    (hFR : FindRedundant exampleSystem 0 = {0, 1}) (A0 L0 U0 : Finset Int) :
    FindRedundantInequalities FindRedundant exampleC [2, 5] [0] [1] 0 A0 L0 U0
      = .ok ({0, 1}, ∅, ∅) := by
  rw [FindRedundantInequalities_eq FindRedundant exampleC [2, 5] [0] [1] 0 A0 L0 U0 rfl rfl rfl]
  have hFR' : FindRedundant (stackedSystem exampleC [2, 5] [0] [1]) 0 = {0, 1} := hFR
  rw [neg_zero, hFR']
  have e1 : Finset.filter (fun k : Int => k < (exampleC.rows : Int)) {0, 1} = {0, 1} := by decide
  have e2 : Finset.filter (fun k : Int => (exampleC.rows : Int) + (([0] : List ℚ).length : Int) ≤ k)
      {0, 1} = ∅ := by decide
  have e3 : Finset.filter (fun k : Int => (exampleC.rows : Int) ≤ k ∧
      k < (exampleC.rows : Int) + (([0] : List ℚ).length : Int)) {0, 1} = ∅ := by decide
  rw [e1, e2, e3]
  rfl

/-- C10, as the code behaves: on `x ≤ 2`, `x ≤ 5`, `0 ≤ x ≤ 1` with `tighten = 0`,
when the generic routine reports the rows implied by the remaining rows,
`FindRedundantInequalities` classifies both polytope rows `x ≤ 5` and `x ≤ 2` as
redundant (each follows from the upper bound `x ≤ 1`) and neither bound. -/
theorem FindRedundantInequalities_example (FindRedundant : HPolyhedron ℚ → ℚ → Finset Int)
    (hFR : ∀ k, k ∈ FindRedundant exampleSystem 0 ↔
      (0 ≤ k ∧ k < 4 ∧ RowImplied exampleSystem k.toNat))
    (A0 L0 U0 : Finset Int) :
    FindRedundantInequalities FindRedundant exampleC [2, 5] [0] [1] 0 A0 L0 U0
      = .ok ({0, 1}, ∅, ∅) := by
  refine example_result FindRedundant ?_ A0 L0 U0
  ext k
  rw [hFR k, example_rowImplied k]
  simp

theorem FindRedundantInequalities_example_witness :
    (∀ k, k ∈ (fun (_ : HPolyhedron ℚ) (_ : ℚ) => ({0, 1} : Finset Int)) exampleSystem 0 ↔
      (0 ≤ k ∧ k < 4 ∧ RowImplied exampleSystem k.toNat)) ∧
    FindRedundantInequalities (fun _ _ => ({0, 1} : Finset Int)) exampleC [2, 5] [0] [1] 0
      ∅ ∅ ∅ = .ok ({0, 1}, ∅, ∅) := by
  have h : ∀ k, k ∈ (fun (_ : HPolyhedron ℚ) (_ : ℚ) => ({0, 1} : Finset Int)) exampleSystem 0 ↔
      (0 ≤ k ∧ k < 4 ∧ RowImplied exampleSystem k.toNat) := by
    intro k
    rw [example_rowImplied k]
    simp
  exact ⟨h, FindRedundantInequalities_example _ h ∅ ∅ ∅⟩

/-- The example as the specification words it fails: a routine that reports the
rows implied by the remaining rows makes `FindRedundantInequalities` classify the
row `x ≤ 2` as redundant. -/
theorem FindRedundantInequalities_example_counterexample :
    ¬ (∀ FindRedundant : HPolyhedron ℚ → ℚ → Finset Int,
        (∀ k, k ∈ FindRedundant exampleSystem 0 ↔
          (0 ≤ k ∧ k < 4 ∧ RowImplied exampleSystem k.toNat)) →
        ∀ r, FindRedundantInequalities FindRedundant exampleC [2, 5] [0] [1] 0 ∅ ∅ ∅ = .ok r →
          ((1 : Int) ∈ r.1 ∧ (0 : Int) ∉ r.1 ∧ (0 : Int) ∉ r.2.2)) := by
  intro hclaim
  have h : ∀ k, k ∈ (fun (_ : HPolyhedron ℚ) (_ : ℚ) => ({0, 1} : Finset Int)) exampleSystem 0 ↔
      (0 ≤ k ∧ k < 4 ∧ RowImplied exampleSystem k.toNat) := by
    intro k
    rw [example_rowImplied k]
    simp
  have hres := example_result (fun _ _ => ({0, 1} : Finset Int)) rfl ∅ ∅ ∅
  have := (hclaim _ h _ hres).2.1
  exact this (by decide)

/-! ## The Lagrangians of one rational -/

theorem ExtendsByGram_refl {V P : Type} (prog : MathematicalProgram V P) :
    prog.ExtendsByGram prog 0 :=
  ⟨[], by simp, rfl, by simp⟩

theorem ExtendsByGram_trans {V P : Type} {p3 p2 p1 : MathematicalProgram V P} {a b : Nat}
    (h23 : p3.ExtendsByGram p2 b) (h12 : p2.ExtendsByGram p1 a) :
    p3.ExtendsByGram p1 (a + b) := by
  obtain ⟨cs2, rfl, hl2, hg2⟩ := h23
  obtain ⟨cs1, rfl, hl1, hg1⟩ := h12
  refine ⟨cs1 ++ cs2, by simp, by simp [hl1, hl2], fun c hc => ?_⟩
  rcases List.mem_append.mp hc with h | h
  · exact hg1 c h
  · exact hg2 c h

/-- One `AddSos` call on the next segment of `gram_vars`. -/
theorem addSosAt_ok {V M P : Type} [CommRing P] (vp : V → P) (mp : M → P)
    (gram_vars : List V) (bases : List (List M)) (num blocks : Nat)
    (st : SosState V M P) (hG : st.gmb.Shaped bases num blocks)
    (hle : st.gram_var_count + num ≤ gram_vars.length) :
    ∃ st', addSosAt vp mp gram_vars num st
        = .ok (st', sosAt vp mp bases gram_vars num st.gram_var_count) ∧
      st'.gmb.Shaped bases num blocks ∧
      st'.gram_var_count = st.gram_var_count + num ∧
      st'.prog.ExtendsByGram st.prog blocks := by
  obtain ⟨hWF, hnum, hbases, hblocks⟩ := hG
  obtain ⟨G', cs, hadd, hWF', hsize', hbasis', hrows', hcs, hgram, _⟩ :=
    AddSos_ok vp mp st.gmb hWF st.prog ((gram_vars.drop st.gram_var_count).take num)
      (by rw [length_take_drop gram_vars _ _ hle, hnum])
  refine ⟨⟨G', _, st.gram_var_count + num⟩, ?_, ⟨hWF', by rw [hsize', hnum],
    by rw [hbasis', hbases], ?_⟩, rfl, ⟨cs, rfl, by rw [hcs, hblocks], hgram⟩⟩
  · unfold addSosAt
    rw [segment_ok gram_vars _ _ hle, except_bind_ok, hadd, except_bind_ok, hbases]
    rfl
  · have := congrArg List.length hrows'
    simp only [List.length_map] at this
    show G'.grams.length = blocks
    omega

theorem vecSet_ok {α : Type} (v : List α) (i : Nat) (x : α) (h : i < v.length) :
    vecSet v i x = .ok (v.set i x) := by
  unfold vecSet
  rw [if_pos h]

theorem set_map_range_append_replicate {α : Type} (f : Nat → α) (j k : Nat) (d x : α) :
    ((List.range j).map f ++ List.replicate (k + 1) d).set j x
      = (List.range j).map f ++ [x] ++ List.replicate k d := by
  have hlen : ((List.range j).map f).length = j := by simp
  rw [List.set_append_right _ _ (by omega), hlen, Nat.sub_self, List.replicate_succ,
    List.set_cons_zero]
  simp

theorem activeFaces_succ (S : Finset Int) (j : Nat) :
    activeFaces S (j + 1) = activeFaces S j + (if (j : Int) ∈ S then 0 else 1) := by
  unfold activeFaces
  rw [List.range_succ, List.filter_append, List.length_append]
  by_cases h : (j : Int) ∈ S <;> simp [h]

theorem activeBounds_succ (L U : Finset Int) (j : Nat) :
    activeBounds L U (j + 1) = activeBounds L U j + (if (j : Int) ∈ L then 0 else 1)
      + (if (j : Int) ∈ U then 0 else 1) := by
  unfold activeBounds
  have h1 := activeFaces_succ L j
  have h2 := activeFaces_succ U j
  unfold activeFaces at h1 h2
  rw [h1, h2]
  omega

theorem activeFaces_mono (S : Finset Int) {j k : Nat} (h : j ≤ k) :
    activeFaces S j ≤ activeFaces S k := by
  induction k with
  | zero =>
    have : j = 0 := by omega
    subst this; exact le_refl _
  | succ k ih =>
    rcases Nat.eq_or_lt_of_le h with rfl | hlt
    · exact le_refl _
    · have := ih (by omega)
      rw [activeFaces_succ]
      omega

theorem activeBounds_mono (L U : Finset Int) {j k : Nat} (h : j ≤ k) :
    activeBounds L U j ≤ activeBounds L U k := by
  have h1 := activeFaces_mono L h
  have h2 := activeFaces_mono U h
  unfold activeBounds
  unfold activeFaces at h1 h2
  omega

/-- The loop over the faces in closed form. -/
theorem polytope_loop {V M P : Type} [CommRing P] (vp : V → P) (mp : M → P)
    (C_red : Finset Int) (gram_vars : List V) (bases : List (List M)) (num blocks : Nat)
    (n s_size : Nat) (G : GramAndMonomialBasis V M) (prog : MathematicalProgram V P)
    (start : Nat) (hG : G.Shaped bases num blocks)
    (hle : start + num * activeFaces C_red n ≤ gram_vars.length) :
    ∃ st', (List.range n).foldlM (polytopeLagrangianBody vp mp C_red gram_vars num)
        ((⟨G, prog, start⟩ : SosState V M P), SeparatingPlaneLagrangians.sized n s_size)
          = .ok st' ∧
      st'.1.gmb.Shaped bases num blocks ∧
      st'.1.gram_var_count = start + num * activeFaces C_red n ∧
      st'.1.prog.ExtendsByGram prog (blocks * activeFaces C_red n) ∧
      st'.2 = { polytope := (List.range n).map (fun (j : Nat) =>
                  if (j : Int) ∈ C_red then 0
                  else sosAt vp mp bases gram_vars num (start + num * activeFaces C_red j)),
                s_lower := List.replicate s_size 0,
                s_upper := List.replicate s_size 0 } := by
  obtain ⟨st', hs', hS, hc, hp, hl⟩ := foldlM_range_inv
    (polytopeLagrangianBody vp mp C_red gram_vars num)
    (fun j st =>
      st.1.gmb.Shaped bases num blocks ∧
      st.1.gram_var_count = start + num * activeFaces C_red j ∧
      st.1.prog.ExtendsByGram prog (blocks * activeFaces C_red j) ∧
      st.2 = { polytope := (List.range j).map (fun (j : Nat) =>
                  if (j : Int) ∈ C_red then 0
                  else sosAt vp mp bases gram_vars num (start + num * activeFaces C_red j))
                  ++ List.replicate (n - j) 0,
                s_lower := List.replicate s_size 0,
                s_upper := List.replicate s_size 0 })
    n ((⟨G, prog, start⟩ : SosState V M P), SeparatingPlaneLagrangians.sized n s_size)
    ⟨hG, by simp [activeFaces], by simpa [activeFaces] using ExtendsByGram_refl prog,
      by simp [SeparatingPlaneLagrangians.sized]⟩
    (fun j st hj hI => by
      obtain ⟨hS, hc, hp, hl⟩ := hI
      have hsucc := activeFaces_succ C_red j
      have hmono := activeFaces_mono C_red (show j + 1 ≤ n by omega)
      have hlenp : j < st.2.polytope.length := by rw [hl]; simp; omega
      have hnj : n - j = (n - (j + 1)) + 1 := by omega
      unfold polytopeLagrangianBody
      by_cases hred : (j : Int) ∈ C_red
      · rw [if_neg (by simpa using hred), vecSet_ok _ _ _ hlenp, except_bind_ok]
        rw [if_pos hred, Nat.add_zero] at hsucc
        refine ⟨_, rfl, hS, by rw [hsucc]; exact hc, by rw [hsucc]; exact hp, ?_⟩
        show SeparatingPlaneLagrangians.mk _ _ _ = _
        rw [hl]
        simp only [SeparatingPlaneLagrangians.mk.injEq, and_true]
        rw [hnj, set_map_range_append_replicate, List.range_succ, List.map_append]
        simp [hred]
      · rw [if_neg hred] at hsucc
        have hmul : num * activeFaces C_red (j + 1) = num * activeFaces C_red j + num := by
          rw [hsucc]; ring
        have hmul2 : blocks * activeFaces C_red (j + 1)
            = blocks * activeFaces C_red j + blocks := by
          rw [hsucc]; ring
        have hle' : st.1.gram_var_count + num ≤ gram_vars.length := by
          have := Nat.mul_le_mul_left num hmono
          omega
        obtain ⟨st1, hadd, hS1, hc1, hp1⟩ :=
          addSosAt_ok vp mp gram_vars bases num blocks st.1 hS hle'
        rw [if_pos hred, hadd, except_bind_ok, vecSet_ok _ _ _ hlenp, except_bind_ok]
        refine ⟨_, rfl, hS1, by rw [hc1, hc, hmul]; omega,
          by rw [hmul2]; exact ExtendsByGram_trans hp1 hp, ?_⟩
        show SeparatingPlaneLagrangians.mk _ _ _ = _
        rw [hl]
        simp only [SeparatingPlaneLagrangians.mk.injEq, and_true]
        rw [hnj, set_map_range_append_replicate, List.range_succ, List.map_append, hc]
        simp [hred])
  refine ⟨st', hs', hS, hc, hp, ?_⟩
  rw [hl]
  simp

/-- One iteration of the loop over the bounds. -/
theorem boundsLagrangianBody_ok {V M P : Type} [CommRing P] (vp : V → P) (mp : M → P)
    (L U : Finset Int) (gram_vars : List V) (bases : List (List M)) (num blocks : Nat)
    (st : SosState V M P × SeparatingPlaneLagrangians P) (j : Nat)
    (hS : st.1.gmb.Shaped bases num blocks)
    (hjl : j < st.2.s_lower.length) (hju : j < st.2.s_upper.length)
    (hle : st.1.gram_var_count
      + num * ((if (j : Int) ∈ L then 0 else 1) + (if (j : Int) ∈ U then 0 else 1))
        ≤ gram_vars.length) :
    ∃ st', boundsLagrangianBody vp mp L U gram_vars num st j = .ok st' ∧
      st'.1.gmb.Shaped bases num blocks ∧
      st'.1.gram_var_count = st.1.gram_var_count
        + num * ((if (j : Int) ∈ L then 0 else 1) + (if (j : Int) ∈ U then 0 else 1)) ∧
      st'.1.prog.ExtendsByGram st.1.prog
        (blocks * ((if (j : Int) ∈ L then 0 else 1) + (if (j : Int) ∈ U then 0 else 1))) ∧
      st'.2 = { st.2 with
        s_lower := st.2.s_lower.set j
          (if (j : Int) ∈ L then 0
           else sosAt vp mp bases gram_vars num st.1.gram_var_count),
        s_upper := st.2.s_upper.set j
          (if (j : Int) ∈ U then 0
           else sosAt vp mp bases gram_vars num
            (st.1.gram_var_count + num * (if (j : Int) ∈ L then 0 else 1))) } := by
  unfold boundsLagrangianBody
  by_cases hL : (j : Int) ∈ L
  · rw [if_neg (by simp [hL]), vecSet_ok _ _ _ hjl]
    simp only [except_bind_ok, except_pure, hL, if_true, Nat.zero_add, Nat.mul_zero,
      Nat.add_zero] at hle ⊢
    by_cases hU : (j : Int) ∈ U
    · rw [if_neg (by simp [hU]), vecSet_ok _ _ _ hju]
      simp only [except_bind_ok, except_pure, hU, if_true, Nat.mul_zero, Nat.add_zero]
      exact ⟨_, rfl, hS, rfl, ExtendsByGram_refl _, rfl⟩
    · simp only [hU, if_false, Nat.mul_one] at hle ⊢
      obtain ⟨st1, hadd, hS1, hc1, hp1⟩ :=
        addSosAt_ok vp mp gram_vars bases num blocks st.1 hS hle
      rw [if_pos (by simp [hU]), hadd, except_bind_ok, vecSet_ok _ _ _ hju,
        except_bind_ok]
      exact ⟨_, rfl, hS1, hc1, hp1, rfl⟩
  · simp only [hL, if_false, Nat.mul_one] at hle ⊢
    have hle1 : st.1.gram_var_count + num ≤ gram_vars.length := by
      have : num ≤ num * (1 + if (j : Int) ∈ U then 0 else 1) :=
        Nat.le_mul_of_pos_right _ (by omega)
      omega
    obtain ⟨st1, hadd, hS1, hc1, hp1⟩ :=
      addSosAt_ok vp mp gram_vars bases num blocks st.1 hS hle1
    rw [if_pos (by simp [hL]), hadd, except_bind_ok, vecSet_ok _ _ _ hjl,
      except_bind_ok, except_pure, except_bind_ok]
    by_cases hU : (j : Int) ∈ U
    · rw [if_neg (by simpa using hU), vecSet_ok _ _ _ hju]
      simp only [except_bind_ok, except_pure, hU, if_true, Nat.add_zero, Nat.mul_one]
      exact ⟨_, rfl, hS1, hc1, hp1, rfl⟩
    · simp only [hU, if_false] at hle ⊢
      have hle2 : st1.gram_var_count + num ≤ gram_vars.length := by
        rw [hc1]
        have : num * (1 + 1) = num + num := by ring
        omega
      obtain ⟨st2, hadd2, hS2, hc2, hp2⟩ :=
        addSosAt_ok vp mp gram_vars bases num blocks st1 hS1 hle2
      rw [if_pos (by simp), hadd2, except_bind_ok, vecSet_ok _ _ _ hju, except_bind_ok]
      refine ⟨_, rfl, hS2, ?_, ?_, ?_⟩
      · rw [hc2, hc1]
        have : num * (1 + 1) = num + num := by ring
        omega
      · have h := ExtendsByGram_trans hp2 hp1
        have e : blocks * (1 + 1) = blocks + blocks := by ring
        rw [e]; exact h
      · rw [hc1]

/-- The loop over the bounds in closed form. -/
theorem bounds_loop {V M P : Type} [CommRing P] (vp : V → P) (mp : M → P)
    (L U : Finset Int) (gram_vars : List V) (bases : List (List M)) (num blocks : Nat)
    (s_size : Nat) (G : GramAndMonomialBasis V M) (prog : MathematicalProgram V P)
    (start : Nat) (pol : List P) (hG : G.Shaped bases num blocks)
    (hle : start + num * activeBounds L U s_size ≤ gram_vars.length) :
    ∃ st', (List.range s_size).foldlM (boundsLagrangianBody vp mp L U gram_vars num)
        ((⟨G, prog, start⟩ : SosState V M P),
          (⟨pol, List.replicate s_size 0, List.replicate s_size 0⟩ :
            SeparatingPlaneLagrangians P)) = .ok st' ∧
      st'.1.gmb.Shaped bases num blocks ∧
      st'.1.gram_var_count = start + num * activeBounds L U s_size ∧
      st'.1.prog.ExtendsByGram prog (blocks * activeBounds L U s_size) ∧
      st'.2 = { polytope := pol,
                s_lower := (List.range s_size).map (fun (j : Nat) =>
                  if (j : Int) ∈ L then 0
                  else sosAt vp mp bases gram_vars num (start + num * activeBounds L U j)),
                s_upper := (List.range s_size).map (fun (j : Nat) =>
                  if (j : Int) ∈ U then 0
                  else sosAt vp mp bases gram_vars num
                    (start + num * (activeBounds L U j
                      + (if (j : Int) ∈ L then 0 else 1)))) } := by
  obtain ⟨st', hs', hS, hc, hp, hl⟩ := foldlM_range_inv
    (boundsLagrangianBody vp mp L U gram_vars num)
    (fun j st =>
      st.1.gmb.Shaped bases num blocks ∧
      st.1.gram_var_count = start + num * activeBounds L U j ∧
      st.1.prog.ExtendsByGram prog (blocks * activeBounds L U j) ∧
      st.2 = { polytope := pol,
               s_lower := (List.range j).map (fun (j : Nat) =>
                  if (j : Int) ∈ L then 0
                  else sosAt vp mp bases gram_vars num (start + num * activeBounds L U j))
                  ++ List.replicate (s_size - j) 0,
               s_upper := (List.range j).map (fun (j : Nat) =>
                  if (j : Int) ∈ U then 0
                  else sosAt vp mp bases gram_vars num
                    (start + num * (activeBounds L U j
                      + (if (j : Int) ∈ L then 0 else 1))))
                  ++ List.replicate (s_size - j) 0 })
    s_size ((⟨G, prog, start⟩ : SosState V M P),
          (⟨pol, List.replicate s_size 0, List.replicate s_size 0⟩ :
            SeparatingPlaneLagrangians P))
    ⟨hG, by simp [activeBounds], by simpa [activeBounds] using ExtendsByGram_refl prog,
      by simp⟩
    (fun j st hj hI => by
      obtain ⟨hS, hc, hp, hl⟩ := hI
      have hsucc := activeBounds_succ L U j
      have hmono := activeBounds_mono L U (show j + 1 ≤ s_size by omega)
      have hnj : s_size - j = (s_size - (j + 1)) + 1 := by omega
      have hmul : num * activeBounds L U (j + 1) = num * activeBounds L U j
          + num * ((if (j : Int) ∈ L then 0 else 1) + (if (j : Int) ∈ U then 0 else 1)) := by
        rw [hsucc]; ring
      have hmul2 : blocks * activeBounds L U (j + 1) = blocks * activeBounds L U j
          + blocks * ((if (j : Int) ∈ L then 0 else 1) + (if (j : Int) ∈ U then 0 else 1)) := by
        rw [hsucc]; ring
      have hle' : st.1.gram_var_count
          + num * ((if (j : Int) ∈ L then 0 else 1) + (if (j : Int) ∈ U then 0 else 1))
            ≤ gram_vars.length := by
        have := Nat.mul_le_mul_left num hmono
        omega
      obtain ⟨st1, hbody, hS1, hc1, hp1, hl1⟩ :=
        boundsLagrangianBody_ok vp mp L U gram_vars bases num blocks st j hS
          (by rw [hl]; simp; omega) (by rw [hl]; simp; omega) hle'
      refine ⟨st1, hbody, hS1, by rw [hc1, hc, hmul]; omega,
        by rw [hmul2]; exact ExtendsByGram_trans hp1 hp, ?_⟩
      rw [hl1, hl]
      simp only [SeparatingPlaneLagrangians.mk.injEq, true_and]
      rw [hnj, set_map_range_append_replicate, set_map_range_append_replicate,
        List.range_succ, List.map_append, List.map_append, hc]
      constructor
      · simp
      · by_cases hL : (j : Int) ∈ L <;> simp [hL, Nat.mul_add, Nat.add_assoc])
  refine ⟨st', hs', hS, hc, hp, ?_⟩
  rw [hl]
  simp

/-- The constructor in terms of `basesOf`, `numGramOf` and `blocksOf`. -/
theorem GramAndMonomialBasis_new_shaped {V M : Type} [Inhabited M]
    (arr : MonomialBasisArray M) (with_cross_y : Bool) (num_y : Int)
    (h0 : 0 ≤ num_y) (hy : num_y ≤ 3) :
    ∃ G : GramAndMonomialBasis V M,
      GramAndMonomialBasis.new arr with_cross_y num_y = .ok G ∧
      G.Shaped (basesOf arr with_cross_y num_y) (numGramOf arr with_cross_y num_y)
        (blocksOf arr with_cross_y num_y) ∧
      GetGramVarSize arr with_cross_y num_y = .ok (numGramOf arr with_cross_y num_y) ∧
      1 ≤ blocksOf arr with_cross_y num_y := by
  obtain ⟨k, rfl⟩ := Int.eq_ofNat_of_zero_le h0
  have hk : k ≤ 3 := by omega
  obtain ⟨G, hG, hWF, hsize, hblocks⟩ :=
    GramAndMonomialBasis_new_ok (V := V) arr with_cross_y (k : Int) hy
  have heq := GramAndMonomialBasis_new_eq (V := V) arr with_cross_y k hk
  rw [hG] at heq
  cases heq
  refine ⟨_, hG, ⟨hWF, ?_, ?_, ?_⟩, ?_, ?_⟩
  · simp [numGramOf]
  · simp [basesOf]
  · simp [blocksOf]
  · rw [hsize]; simp [numGramOf]
  · have := hblocks h0
    simpa [blocksOf] using this

theorem dot_ok {P : Type} [CommRing P] (a b : List P) (h : a.length = b.length) :
    dot a b = .ok (dotSum a b) := by
  unfold dot
  rw [if_pos h]
  rfl

/-- The lambda `add_rational_nonnegative` in closed form: the Lagrangians are
`lagrangiansSpec`, `gram_var_count` advances by `num * numSos`, the program gets
`blocks * numSos` Gram constraints followed by the polynomial equality. -/
theorem add_rational_nonnegative_ok {V M P : Type} [CommRing P] [Inhabited M]
    (self : CspaceFreePolytope V M P) (vp : V → P) (mp : M → P) (d_minus_Cs : List P)
    (C_red L_red U_red : Finset Int) (gram_vars : List V) (arr : MonomialBasisArray M)
    (prog : MathematicalProgram V P) (cnt : Nat) (rational : RationalFunction P)
    (h0 : 0 ≤ self.GetNumYInRational rational self.y_slack)
    (hy : self.GetNumYInRational rational self.y_slack ≤ 3)
    (hsl : self.s_minus_s_lower_.length = self.s.length)
    (hsu : self.s_upper_minus_s_.length = self.s.length)
    (hle : cnt + numGramOf arr self.with_cross_y (self.GetNumYInRational rational self.y_slack)
        * numSos C_red L_red U_red d_minus_Cs.length self.s.length ≤ gram_vars.length) :
    ∃ prog1 : MathematicalProgram V P,
      prog1.ExtendsByGram prog
        (blocksOf arr self.with_cross_y (self.GetNumYInRational rational self.y_slack)
          * numSos C_red L_red U_red d_minus_Cs.length self.s.length) ∧
      self.add_rational_nonnegative vp mp d_minus_Cs C_red L_red U_red gram_vars arr
          (prog, cnt) rational
        = .ok ((prog1.addConstraint (.polynomialEquality
              (certificatePolynomial d_minus_Cs self.s_minus_s_lower_ self.s_upper_minus_s_
                rational.numerator
                (lagrangiansSpec vp mp
                  (basesOf arr self.with_cross_y (self.GetNumYInRational rational self.y_slack))
                  gram_vars
                  (numGramOf arr self.with_cross_y
                    (self.GetNumYInRational rational self.y_slack))
                  C_red L_red U_red d_minus_Cs.length self.s.length cnt))
              (sosAt vp mp
                (basesOf arr self.with_cross_y (self.GetNumYInRational rational self.y_slack))
                gram_vars
                (numGramOf arr self.with_cross_y (self.GetNumYInRational rational self.y_slack))
                (cnt + numGramOf arr self.with_cross_y
                    (self.GetNumYInRational rational self.y_slack)
                  * (activeFaces C_red d_minus_Cs.length
                    + activeBounds L_red U_red self.s.length)))),
            cnt + numGramOf arr self.with_cross_y
                (self.GetNumYInRational rational self.y_slack)
              * numSos C_red L_red U_red d_minus_Cs.length self.s.length),
          lagrangiansSpec vp mp
            (basesOf arr self.with_cross_y (self.GetNumYInRational rational self.y_slack))
            gram_vars
            (numGramOf arr self.with_cross_y (self.GetNumYInRational rational self.y_slack))
            C_red L_red U_red d_minus_Cs.length self.s.length cnt) := by
  set y := self.GetNumYInRational rational self.y_slack with hydef
  set num := numGramOf arr self.with_cross_y y with hnum
  set bases := basesOf arr self.with_cross_y y with hbases
  set blocks := blocksOf arr self.with_cross_y y with hblocks
  obtain ⟨G, hnew, hG, _, _⟩ :=
    GramAndMonomialBasis_new_shaped (V := V) arr self.with_cross_y y h0 hy
  have hGnum : G.gram_var_size = num := hG.2.1
  have hexp : num * numSos C_red L_red U_red d_minus_Cs.length self.s.length
      = num * activeFaces C_red d_minus_Cs.length
        + num * activeBounds L_red U_red self.s.length + num := by
    unfold numSos; ring
  have hexpb : blocks * numSos C_red L_red U_red d_minus_Cs.length self.s.length
      = blocks * activeFaces C_red d_minus_Cs.length
        + blocks * activeBounds L_red U_red self.s.length + blocks := by
    unfold numSos; ring
  obtain ⟨st1, hst1, hS1, hc1, hp1, hl1⟩ :=
    polytope_loop vp mp C_red gram_vars bases num blocks d_minus_Cs.length self.s.length
      G prog cnt hG (by omega)
  obtain ⟨⟨G1, p1, c1⟩, lag1⟩ := st1
  simp only at hS1 hc1 hp1 hl1
  subst hc1 hl1
  obtain ⟨st2, hst2, hS2, hc2, hp2, hl2⟩ :=
    bounds_loop vp mp L_red U_red gram_vars bases num blocks self.s.length G1 p1
      (cnt + num * activeFaces C_red d_minus_Cs.length)
      ((List.range d_minus_Cs.length).map (fun (j : Nat) =>
        if (j : Int) ∈ C_red then 0
        else sosAt vp mp bases gram_vars num (cnt + num * activeFaces C_red j)))
      hS1 (by omega)
  obtain ⟨⟨G2, p2, c2⟩, lag2⟩ := st2
  simp only at hS2 hc2 hp2 hl2
  subst hc2 hl2
  obtain ⟨st3, hadd, _, hc3, hp3⟩ :=
    addSosAt_ok vp mp gram_vars bases num blocks
      (⟨G2, p2, cnt + num * activeFaces C_red d_minus_Cs.length
        + num * activeBounds L_red U_red self.s.length⟩ : SosState V M P) hS2
      (by simp only; omega)
  refine ⟨st3.prog, ?_, ?_⟩
  · rw [hexpb]
    exact ExtendsByGram_trans hp3 (ExtendsByGram_trans hp2 hp1)
  · unfold CspaceFreePolytope.add_rational_nonnegative
    simp only [← hydef, hnew, except_bind_ok, hGnum, hst1, hst2]
    rw [dot_ok _ _ (by simp), except_bind_ok, dot_ok _ _ (by simp [hsl]), except_bind_ok,
      dot_ok _ _ (by simp [hsu]), except_bind_ok, hadd, except_bind_ok, except_pure]
    simp only at hc3
    have hexp' : cnt + num * numSos C_red L_red U_red d_minus_Cs.length self.s.length
        = cnt + num * activeFaces C_red d_minus_Cs.length
          + num * activeBounds L_red U_red self.s.length + num := by
      rw [hexp]; omega
    rw [hc3, hexp']
    have hoff : cnt + num * (activeFaces C_red d_minus_Cs.length
          + activeBounds L_red U_red self.s.length)
        = cnt + num * activeFaces C_red d_minus_Cs.length
          + num * activeBounds L_red U_red self.s.length := by ring
    rw [hoff]
    rfl

/-! ## The rationals of one side -/

theorem After_refl {V P : Type} (prog : MathematicalProgram V P) : prog.After prog [] 0 :=
  ⟨rfl, rfl, [], by simp, rfl, rfl⟩

theorem After_trans {V P : Type} {p3 p2 p1 : MathematicalProgram V P}
    {e1 e2 : List (Constraint V P)} {a b : Nat}
    (h23 : p3.After p2 e2 b) (h12 : p2.After p1 e1 a) : p3.After p1 (e1 ++ e2) (a + b) := by
  obtain ⟨hi2, hd2, cs2, hc2, he2, hk2⟩ := h23
  obtain ⟨hi1, hd1, cs1, hc1, he1, hk1⟩ := h12
  refine ⟨by rw [hi2, hi1], by rw [hd2, hd1], cs1 ++ cs2, by rw [hc2, hc1]; simp, ?_, ?_⟩
  · rw [List.filter_append, he1, he2]
  · rw [List.filter_append, List.length_append, hk1, hk2]

theorem After_of_gram_then_equality {V P : Type} {prog1 prog : MathematicalProgram V P}
    {k : Nat} (h : prog1.ExtendsByGram prog k) (p q : P) :
    (prog1.addConstraint (.polynomialEquality p q)).After prog
      [.polynomialEquality p q] k := by
  obtain ⟨cs, rfl, hlen, hgram⟩ := h
  refine ⟨rfl, rfl, cs ++ [.polynomialEquality p q], by simp [MathematicalProgram.addConstraint],
    ?_, ?_⟩
  · rw [List.filter_append]
    have : cs.filter (fun c => !c.isGram) = [] := by
      rw [List.filter_eq_nil_iff]
      intro c hc
      simp [hgram c hc]
    rw [this]
    simp [Constraint.isGram]
  · rw [List.filter_append, List.length_append]
    have : cs.filter (fun c => c.isGram) = cs := by
      rw [List.filter_eq_self]
      exact hgram
    rw [this, hlen]
    simp [Constraint.isGram]

/-- The lambda `add_rational_nonnegative`, with the program it returns described
by the constraints it adds. -/
theorem add_rational_nonnegative_after {V M P : Type} [CommRing P] [Inhabited M]
    (self : CspaceFreePolytope V M P) (vp : V → P) (mp : M → P) (d_minus_Cs : List P)
    (C_red L_red U_red : Finset Int) (gram_vars : List V) (arr : MonomialBasisArray M)
    (prog : MathematicalProgram V P) (cnt : Nat) (rational : RationalFunction P)
    (h0 : 0 ≤ self.GetNumYInRational rational self.y_slack)
    (hy : self.GetNumYInRational rational self.y_slack ≤ 3)
    (hsl : self.s_minus_s_lower_.length = self.s.length)
    (hsu : self.s_upper_minus_s_.length = self.s.length)
    (hle : cnt + numGramOf arr self.with_cross_y (self.GetNumYInRational rational self.y_slack)
        * numSos C_red L_red U_red d_minus_Cs.length self.s.length ≤ gram_vars.length) :
    ∃ prog2 : MathematicalProgram V P,
      prog2.After prog
        (self.equalitiesSpec vp mp d_minus_Cs gram_vars C_red L_red U_red arr cnt [rational])
        (blocksOf arr self.with_cross_y (self.GetNumYInRational rational self.y_slack)
          * numSos C_red L_red U_red d_minus_Cs.length self.s.length) ∧
      self.add_rational_nonnegative vp mp d_minus_Cs C_red L_red U_red gram_vars arr
          (prog, cnt) rational
        = .ok ((prog2,
            cnt + numGramOf arr self.with_cross_y
                (self.GetNumYInRational rational self.y_slack)
              * numSos C_red L_red U_red d_minus_Cs.length self.s.length),
          lagrangiansSpec vp mp
            (basesOf arr self.with_cross_y (self.GetNumYInRational rational self.y_slack))
            gram_vars
            (numGramOf arr self.with_cross_y (self.GetNumYInRational rational self.y_slack))
            C_red L_red U_red d_minus_Cs.length self.s.length cnt) := by
  obtain ⟨prog1, hp1, hone⟩ := add_rational_nonnegative_ok self vp mp d_minus_Cs
    C_red L_red U_red gram_vars arr prog cnt rational h0 hy hsl hsu hle
  exact ⟨_, After_of_gram_then_equality hp1 _ _, hone⟩

/-- The loop over the rationals of one side in closed form. -/
theorem add_rationals_fold {V M P : Type} [CommRing P] [Inhabited M]
    (self : CspaceFreePolytope V M P) (vp : V → P) (mp : M → P) (d_minus_Cs : List P)
    (C_red L_red U_red : Finset Int) (gram_vars : List V) (arr : MonomialBasisArray M)
    (hsl : self.s_minus_s_lower_.length = self.s.length)
    (hsu : self.s_upper_minus_s_.length = self.s.length) :
    ∀ (rs : List (RationalFunction P)) (prog : MathematicalProgram V P) (cnt : Nat)
      (acc : List (SeparatingPlaneLagrangians P)),
      self.NumYInRange rs →
      cnt + self.totalGram arr (numSos C_red L_red U_red d_minus_Cs.length self.s.length) rs
        ≤ gram_vars.length →
      ∃ prog', prog'.After prog
          (self.equalitiesSpec vp mp d_minus_Cs gram_vars C_red L_red U_red arr cnt rs)
          (self.totalBlocks arr (numSos C_red L_red U_red d_minus_Cs.length self.s.length) rs) ∧
        rs.foldlM
          (fun acc rational => do
            let r ← self.add_rational_nonnegative vp mp d_minus_Cs C_red L_red U_red
              gram_vars arr acc.1 rational
            pure (r.1, acc.2 ++ [r.2]))
          ((prog, cnt), acc)
        = .ok ((prog', cnt + self.totalGram arr
              (numSos C_red L_red U_red d_minus_Cs.length self.s.length) rs),
            acc ++ self.lagrangiansListSpec vp mp gram_vars C_red L_red U_red
              d_minus_Cs.length arr cnt rs) := by
  intro rs
  induction rs with
  | nil =>
    intro prog cnt acc _ _
    exact ⟨prog, After_refl prog, by
      simp [CspaceFreePolytope.totalGram, CspaceFreePolytope.lagrangiansListSpec]⟩
  | cons r rs ih =>
    intro prog cnt acc hy hle
    have hyr := hy r (List.mem_cons_self _ _)
    have hyrs : self.NumYInRange rs := fun x hx => hy x (List.mem_cons_of_mem _ hx)
    have htot : self.totalGram arr
          (numSos C_red L_red U_red d_minus_Cs.length self.s.length) (r :: rs)
        = numGramOf arr self.with_cross_y (self.GetNumYInRational r self.y_slack)
            * numSos C_red L_red U_red d_minus_Cs.length self.s.length
          + self.totalGram arr
              (numSos C_red L_red U_red d_minus_Cs.length self.s.length) rs := by
      simp [CspaceFreePolytope.totalGram]
    have htotb : self.totalBlocks arr
          (numSos C_red L_red U_red d_minus_Cs.length self.s.length) (r :: rs)
        = blocksOf arr self.with_cross_y (self.GetNumYInRational r self.y_slack)
            * numSos C_red L_red U_red d_minus_Cs.length self.s.length
          + self.totalBlocks arr
              (numSos C_red L_red U_red d_minus_Cs.length self.s.length) rs := by
      simp [CspaceFreePolytope.totalBlocks]
    obtain ⟨prog2, hp2, hone⟩ := add_rational_nonnegative_after self vp mp d_minus_Cs
      C_red L_red U_red gram_vars arr prog cnt r hyr.1 hyr.2 hsl hsu (by omega)
    obtain ⟨prog', hafter, hfold⟩ := ih prog2
      (cnt + numGramOf arr self.with_cross_y (self.GetNumYInRational r self.y_slack)
        * numSos C_red L_red U_red d_minus_Cs.length self.s.length)
      (acc ++ [lagrangiansSpec vp mp
        (basesOf arr self.with_cross_y (self.GetNumYInRational r self.y_slack)) gram_vars
        (numGramOf arr self.with_cross_y (self.GetNumYInRational r self.y_slack))
        C_red L_red U_red d_minus_Cs.length self.s.length cnt])
      hyrs (by rw [htot] at hle; omega)
    refine ⟨prog', ?_, ?_⟩
    · rw [htotb]
      exact After_trans hafter hp2
    · rw [List.foldlM_cons, hone, except_bind_ok, except_pure, except_bind_ok, hfold, htot]
      simp [CspaceFreePolytope.lagrangiansListSpec, Nat.add_assoc]

/-! ## `ConstructPlaneSearchProgram` -/

theorem activeFaces_add_card_filter (S : Finset Int) (n : Nat) :
    activeFaces S n + (S.filter (fun k => 0 ≤ k ∧ k < (n : Int))).card = n := by
  induction n with
  | zero =>
    have : S.filter (fun k => 0 ≤ k ∧ k < ((0 : Nat) : Int)) = ∅ := by
      apply Finset.filter_false_of_mem
      intro k _ h
      omega
    rw [this]
    simp [activeFaces]
  | succ n ih =>
    have hsplit : S.filter (fun k => 0 ≤ k ∧ k < ((n + 1 : Nat) : Int))
        = S.filter (fun k => 0 ≤ k ∧ k < (n : Int)) ∪ S.filter (fun k => k = (n : Int)) := by
      ext k
      simp only [Finset.mem_filter, Finset.mem_union]
      constructor
      · rintro ⟨hk, h1, h2⟩
        by_cases h : k = (n : Int)
        · exact Or.inr ⟨hk, h⟩
        · exact Or.inl ⟨hk, h1, by omega⟩
      · rintro (⟨hk, h1, h2⟩ | ⟨hk, h⟩)
        · exact ⟨hk, h1, by omega⟩
        · exact ⟨hk, by omega, by omega⟩
    have hdisj : Disjoint (S.filter (fun k => 0 ≤ k ∧ k < (n : Int)))
        (S.filter (fun k => k = (n : Int))) := by
      rw [Finset.disjoint_filter]
      intro k _ h1 h2
      omega
    have hone : (S.filter (fun k => k = (n : Int))).card
        = if (n : Int) ∈ S then 1 else 0 := by
      rw [Finset.filter_eq']
      split <;> simp
    rw [hsplit, Finset.card_union_of_disjoint hdisj, hone, activeFaces_succ]
    by_cases h : (n : Int) ∈ S <;> simp [h] <;> omega

theorem activeFaces_add_card (S : Finset Int) (n : Nat)
    (h : ∀ k ∈ S, 0 ≤ k ∧ k < (n : Int)) : activeFaces S n + S.card = n := by
  have := activeFaces_add_card_filter S n
  rwa [Finset.filter_true_of_mem h] at this

/-- For redundant indices in range, the `num_sos` the code computes is the number
of SOS polynomials of a rational. -/
theorem num_sos_eq (C_red L_red U_red : Finset Int) (n s : Nat)
    (h : RedundantInRange C_red L_red U_red n s) :
    (1 : Int) + (n : Int) + 2 * (s : Int) - (C_red.card : Int) - (L_red.card : Int)
      - (U_red.card : Int) = (numSos C_red L_red U_red n s : Int) := by
  have h1 := activeFaces_add_card C_red n h.1
  have h2 := activeFaces_add_card L_red s h.2.1
  have h3 := activeFaces_add_card U_red s h.2.2
  have e : numSos C_red L_red U_red n s
      = activeFaces C_red n + (activeFaces L_red s + activeFaces U_red s) + 1 := rfl
  rw [e]
  push_cast
  omega

/-- The counting loop in closed form. -/
theorem count_grams_ok {V M P : Type} (self : CspaceFreePolytope V M P) (d_minus_Cs : List P)
    (C_red L_red U_red : Finset Int) (arr : MonomialBasisArray M)
    (h : RedundantInRange C_red L_red U_red d_minus_Cs.length self.s.length) :
    ∀ (rs : List (RationalFunction P)) (g0 : Int), self.NumYInRange rs →
      self.count_grams d_minus_Cs C_red L_red U_red arr g0 rs
        = .ok (g0 + (self.totalGram arr
            (numSos C_red L_red U_red d_minus_Cs.length self.s.length) rs : Nat)) := by
  intro rs
  induction rs with
  | nil => intro g0 _; simp [CspaceFreePolytope.count_grams, CspaceFreePolytope.totalGram]
  | cons r rs ih =>
    intro g0 hy
    have hyr := hy r (List.mem_cons_self _ _)
    have hyrs : self.NumYInRange rs := fun x hx => hy x (List.mem_cons_of_mem _ hx)
    obtain ⟨k, hk⟩ := Int.eq_ofNat_of_zero_le hyr.1
    have hsize : GetGramVarSize arr self.with_cross_y (self.GetNumYInRational r self.y_slack)
        = .ok (numGramOf arr self.with_cross_y (self.GetNumYInRational r self.y_slack)) := by
      rw [hk]
      rw [hk] at hyr
      rw [GetGramVarSize_ref arr self.with_cross_y k (by omega)]
      simp [numGramOf]
    have hone : self.count_gram d_minus_Cs C_red L_red U_red r arr
        = .ok (((numGramOf arr self.with_cross_y (self.GetNumYInRational r self.y_slack)
            * numSos C_red L_red U_red d_minus_Cs.length self.s.length : Nat)) : Int) := by
      unfold CspaceFreePolytope.count_gram
      simp only [hsize, except_bind_ok, except_pure]
      rw [num_sos_eq C_red L_red U_red _ _ h]
      simp
    have := ih (g0 + ((numGramOf arr self.with_cross_y (self.GetNumYInRational r self.y_slack)
            * numSos C_red L_red U_red d_minus_Cs.length self.s.length : Nat) : Int)) hyrs
    unfold CspaceFreePolytope.count_grams at this ⊢
    rw [List.foldlM_cons, hone, except_bind_ok, except_pure, except_bind_ok, this]
    simp [CspaceFreePolytope.totalGram]
    omega

theorem add_rationals_ok {V M P : Type} [CommRing P] [Inhabited M]
    (self : CspaceFreePolytope V M P) (vp : V → P) (mp : M → P) (d_minus_Cs : List P)
    (C_red L_red U_red : Finset Int) (gram_vars : List V) (arr : MonomialBasisArray M)
    (hsl : self.s_minus_s_lower_.length = self.s.length)
    (hsu : self.s_upper_minus_s_.length = self.s.length)
    (rs : List (RationalFunction P)) (prog : MathematicalProgram V P) (cnt : Nat)
    (hy : self.NumYInRange rs)
    (hle : cnt + self.totalGram arr
        (numSos C_red L_red U_red d_minus_Cs.length self.s.length) rs ≤ gram_vars.length) :
    ∃ prog', prog'.After prog
        (self.equalitiesSpec vp mp d_minus_Cs gram_vars C_red L_red U_red arr cnt rs)
        (self.totalBlocks arr (numSos C_red L_red U_red d_minus_Cs.length self.s.length) rs) ∧
      self.add_rationals vp mp d_minus_Cs C_red L_red U_red gram_vars arr (prog, cnt) rs
        = .ok ((prog', cnt + self.totalGram arr
              (numSos C_red L_red U_red d_minus_Cs.length self.s.length) rs),
            self.lagrangiansListSpec vp mp gram_vars C_red L_red U_red
              d_minus_Cs.length arr cnt rs) := by
  obtain ⟨prog', h1, h2⟩ := add_rationals_fold self vp mp d_minus_Cs C_red L_red U_red
    gram_vars arr hsl hsu rs prog cnt [] hy hle
  refine ⟨prog', h1, ?_⟩
  unfold CspaceFreePolytope.add_rationals
  rw [h2]
  simp

theorem ConstructPlaneSearchProgramBody_core {V M P : Type} [CommRing P] [Inhabited M]
    (self : CspaceFreePolytope V M P) (vp : V → P) (mp : M → P) (fresh : Nat → V)
    (pg : PlaneSeparatesGeometries P) (d_minus_Cs : List P)
    (C_red L_red U_red : Finset Int) (plane : CSpaceSeparatingPlane V P)
    (arrP arrN : MonomialBasisArray M)
    (hplane : vecGetInt self.separating_planes pg.plane_index = .ok plane)
    (hposArr : self.map_body_to_monomial_basis_array
      (SortedPair plane.expressed_body plane.positive_side_geometry.body_index) = some arrP)
    (hnegArr : self.map_body_to_monomial_basis_array
      (SortedPair plane.expressed_body plane.negative_side_geometry.body_index) = some arrN)
    (hyP : self.NumYInRange pg.positive_side_rationals)
    (hyN : self.NumYInRange pg.negative_side_rationals)
    (hsl : self.s_minus_s_lower_.length = self.s.length)
    (hsu : self.s_upper_minus_s_.length = self.s.length)
    (hred : RedundantInRange C_red L_red U_red d_minus_Cs.length self.s.length)
    (N tP tN : Nat) (gram_vars : List V)
    (hN : numSos C_red L_red U_red d_minus_Cs.length self.s.length = N)
    (htP : self.totalGram arrP N pg.positive_side_rationals = tP)
    (htN : self.totalGram arrN N pg.negative_side_rationals = tN)
    (hgv : (List.range (tP + tN)).map fresh = gram_vars) :
    ∃ prog' : MathematicalProgram V P,
      prog'.After (self.declaredProgram plane gram_vars)
        (self.equalitiesSpec vp mp d_minus_Cs gram_vars C_red L_red U_red arrP 0
            pg.positive_side_rationals
          ++ self.equalitiesSpec vp mp d_minus_Cs gram_vars C_red L_red U_red arrN tP
            pg.negative_side_rationals)
        (self.totalBlocks arrP N pg.positive_side_rationals
          + self.totalBlocks arrN N pg.negative_side_rationals) ∧
      self.ConstructPlaneSearchProgramBody vp mp fresh pg d_minus_Cs C_red L_red U_red
        = .ok (⟨prog', pg.plane_index,
            ⟨self.lagrangiansListSpec vp mp gram_vars C_red L_red U_red d_minus_Cs.length
                arrP 0 pg.positive_side_rationals,
              self.lagrangiansListSpec vp mp gram_vars C_red L_red U_red d_minus_Cs.length
                arrN tP pg.negative_side_rationals⟩⟩,
          tP + tN, gram_vars) := by
  have hlen : gram_vars.length = tP + tN := by rw [← hgv]; simp
  have hcP := count_grams_ok self d_minus_Cs C_red L_red U_red arrP hred
    pg.positive_side_rationals 0 hyP
  have hcN := count_grams_ok self d_minus_Cs C_red L_red U_red arrN hred
    pg.negative_side_rationals ((0 : Int) + (tP : Nat)) hyN
  rw [hN, htP] at hcP
  rw [hN, htN] at hcN
  have hnew : ∀ prog : MathematicalProgram V P,
      prog.NewContinuousVariables fresh ((0 : Int) + (tP : Nat) + (tN : Nat))
        = .ok (gram_vars,
            { prog with decision_variables := prog.decision_variables ++ gram_vars }) := by
    intro prog
    unfold MathematicalProgram.NewContinuousVariables
    have h1 : ¬ ((0 : Int) + (tP : Nat) + (tN : Nat) < 0) := by omega
    have h2 : ((0 : Int) + (tP : Nat) + (tN : Nat)).toNat = tP + tN := by omega
    rw [if_neg h1, h2, hgv]
  obtain ⟨prog1, hA1, hR1⟩ := add_rationals_ok self vp mp d_minus_Cs C_red L_red U_red
    gram_vars arrP hsl hsu pg.positive_side_rationals
    (self.declaredProgram plane gram_vars) 0 hyP (by rw [hN, htP, hlen]; omega)
  obtain ⟨prog2, hA2, hR2⟩ := add_rationals_ok self vp mp d_minus_Cs C_red L_red U_red
    gram_vars arrN hsl hsu pg.negative_side_rationals prog1
    tP hyN (by rw [hN, htN, hlen])
  rw [hN, htP, Nat.zero_add] at hR1
  rw [hN] at hA1
  rw [hN, htN] at hR2
  rw [hN] at hA2
  refine ⟨prog2, After_trans hA2 hA1, ?_⟩
  unfold CspaceFreePolytope.ConstructPlaneSearchProgramBody
  have hbP : self.basisArrayAt
      (SortedPair plane.expressed_body plane.positive_side_geometry.body_index) = .ok arrP := by
    unfold CspaceFreePolytope.basisArrayAt; rw [hposArr]
  have hbN : self.basisArrayAt
      (SortedPair plane.expressed_body plane.negative_side_geometry.body_index) = .ok arrN := by
    unfold CspaceFreePolytope.basisArrayAt; rw [hnegArr]
  simp only [hplane, except_bind_ok, hbP, hbN, hcP, hcN, hnew, except_pure]
  have hdecl : (if plane.positive_side_geometry.type ≠ CIrisGeometryType.kPolytope ∨
        plane.negative_side_geometry.type ≠ CIrisGeometryType.kPolytope then
      MathematicalProgram.AddIndeterminates
        { indeterminates :=
            (((MathematicalProgram.empty : MathematicalProgram V P).AddIndeterminates
              self.s).AddDecisionVariables plane.decision_variables).indeterminates,
          decision_variables :=
            (((MathematicalProgram.empty : MathematicalProgram V P).AddIndeterminates
              self.s).AddDecisionVariables plane.decision_variables).decision_variables
              ++ gram_vars,
          constraints :=
            (((MathematicalProgram.empty : MathematicalProgram V P).AddIndeterminates
              self.s).AddDecisionVariables plane.decision_variables).constraints }
        self.y_slack
      else
        { indeterminates :=
            (((MathematicalProgram.empty : MathematicalProgram V P).AddIndeterminates
              self.s).AddDecisionVariables plane.decision_variables).indeterminates,
          decision_variables :=
            (((MathematicalProgram.empty : MathematicalProgram V P).AddIndeterminates
              self.s).AddDecisionVariables plane.decision_variables).decision_variables
              ++ gram_vars,
          constraints :=
            (((MathematicalProgram.empty : MathematicalProgram V P).AddIndeterminates
              self.s).AddDecisionVariables plane.decision_variables).constraints })
      = self.declaredProgram plane gram_vars := by
    unfold CspaceFreePolytope.declaredProgram
    simp [MathematicalProgram.empty, MathematicalProgram.AddIndeterminates,
      MathematicalProgram.AddDecisionVariables]
  rw [hdecl, hR1, except_bind_ok, hR2]
  rfl

/-- `ConstructPlaneSearchProgram` up to its final check, in closed form. -/
theorem ConstructPlaneSearchProgramBody_ok {V M P : Type} [CommRing P] [Inhabited M]
    (self : CspaceFreePolytope V M P) (vp : V → P) (mp : M → P) (fresh : Nat → V)
    (pg : PlaneSeparatesGeometries P) (d_minus_Cs : List P)
    (C_red L_red U_red : Finset Int) (plane : CSpaceSeparatingPlane V P)
    (arrP arrN : MonomialBasisArray M)
    (hplane : vecGetInt self.separating_planes pg.plane_index = .ok plane)
    (hposArr : self.map_body_to_monomial_basis_array
      (SortedPair plane.expressed_body plane.positive_side_geometry.body_index) = some arrP)
    (hnegArr : self.map_body_to_monomial_basis_array
      (SortedPair plane.expressed_body plane.negative_side_geometry.body_index) = some arrN)
    (hyP : self.NumYInRange pg.positive_side_rationals)
    (hyN : self.NumYInRange pg.negative_side_rationals)
    (hsl : self.s_minus_s_lower_.length = self.s.length)
    (hsu : self.s_upper_minus_s_.length = self.s.length)
    (hred : RedundantInRange C_red L_red U_red d_minus_Cs.length self.s.length) :
    ∃ prog' : MathematicalProgram V P,
      prog'.After
        (self.declaredProgram plane ((List.range
          (self.totalGram arrP (numSos C_red L_red U_red d_minus_Cs.length self.s.length)
              pg.positive_side_rationals
            + self.totalGram arrN (numSos C_red L_red U_red d_minus_Cs.length self.s.length)
              pg.negative_side_rationals)).map fresh))
        (self.equalitiesSpec vp mp d_minus_Cs ((List.range
            (self.totalGram arrP (numSos C_red L_red U_red d_minus_Cs.length self.s.length)
                pg.positive_side_rationals
              + self.totalGram arrN (numSos C_red L_red U_red d_minus_Cs.length self.s.length)
                pg.negative_side_rationals)).map fresh)
            C_red L_red U_red arrP 0 pg.positive_side_rationals
          ++ self.equalitiesSpec vp mp d_minus_Cs ((List.range
            (self.totalGram arrP (numSos C_red L_red U_red d_minus_Cs.length self.s.length)
                pg.positive_side_rationals
              + self.totalGram arrN (numSos C_red L_red U_red d_minus_Cs.length self.s.length)
                pg.negative_side_rationals)).map fresh)
            C_red L_red U_red arrN
            (self.totalGram arrP (numSos C_red L_red U_red d_minus_Cs.length self.s.length)
                pg.positive_side_rationals)
            pg.negative_side_rationals)
        (self.totalBlocks arrP (numSos C_red L_red U_red d_minus_Cs.length self.s.length)
            pg.positive_side_rationals
          + self.totalBlocks arrN (numSos C_red L_red U_red d_minus_Cs.length self.s.length)
            pg.negative_side_rationals) ∧
      self.ConstructPlaneSearchProgramBody vp mp fresh pg d_minus_Cs C_red L_red U_red
        = .ok (⟨prog', pg.plane_index,
            ⟨self.lagrangiansListSpec vp mp ((List.range
                (self.totalGram arrP (numSos C_red L_red U_red d_minus_Cs.length self.s.length)
                    pg.positive_side_rationals
                  + self.totalGram arrN
                    (numSos C_red L_red U_red d_minus_Cs.length self.s.length)
                    pg.negative_side_rationals)).map fresh)
                C_red L_red U_red d_minus_Cs.length arrP 0 pg.positive_side_rationals,
              self.lagrangiansListSpec vp mp ((List.range
                (self.totalGram arrP (numSos C_red L_red U_red d_minus_Cs.length self.s.length)
                    pg.positive_side_rationals
                  + self.totalGram arrN
                    (numSos C_red L_red U_red d_minus_Cs.length self.s.length)
                    pg.negative_side_rationals)).map fresh)
                C_red L_red U_red d_minus_Cs.length arrN
                (self.totalGram arrP (numSos C_red L_red U_red d_minus_Cs.length self.s.length)
                  pg.positive_side_rationals)
                pg.negative_side_rationals⟩⟩,
          self.totalGram arrP (numSos C_red L_red U_red d_minus_Cs.length self.s.length)
              pg.positive_side_rationals
            + self.totalGram arrN (numSos C_red L_red U_red d_minus_Cs.length self.s.length)
              pg.negative_side_rationals,
          (List.range
            (self.totalGram arrP (numSos C_red L_red U_red d_minus_Cs.length self.s.length)
                pg.positive_side_rationals
              + self.totalGram arrN (numSos C_red L_red U_red d_minus_Cs.length self.s.length)
                pg.negative_side_rationals)).map fresh) := by
  exact ConstructPlaneSearchProgramBody_core self vp mp fresh pg d_minus_Cs C_red L_red U_red
    plane arrP arrN hplane hposArr hnegArr hyP hyN hsl hsu hred _ _ _ _ rfl rfl rfl rfl

theorem exampleCfp_ready : exampleCfp.Ready examplePg examplePlane exampleArr exampleArr where
  plane_eq := rfl
  positive_array := rfl
  negative_array := rfl
  positive_num_y := fun _ _ => ⟨le_refl (0 : Int), (by decide : (0 : Int) ≤ 3)⟩
  negative_num_y := fun _ _ => ⟨le_refl (0 : Int), (by decide : (0 : Int) ≤ 3)⟩
  s_lower_size := rfl
  s_upper_size := rfl

theorem example_redundantInRange : RedundantInRange {1} ∅ {0} 2 1 :=
  ⟨by decide, by decide, by decide⟩

theorem GetGramVarSize_numGramOf {M : Type} (arr : MonomialBasisArray M) (with_cross_y : Bool)
    (num_y : Int) (h0 : 0 ≤ num_y) (hy : num_y ≤ 3) :
    GetGramVarSize arr with_cross_y num_y = .ok (numGramOf arr with_cross_y num_y) := by
  obtain ⟨k, rfl⟩ := Int.eq_ofNat_of_zero_le h0
  rw [GetGramVarSize_ref arr with_cross_y k (by omega)]
  simp [numGramOf]

theorem cast_totalGram {V M P : Type} (self : CspaceFreePolytope V M P)
    (arr : MonomialBasisArray M) (N : Nat) (rs : List (RationalFunction P)) :
    ((self.totalGram arr N rs : Nat) : Int)
      = (rs.map (fun r =>
          (numGramOf arr self.with_cross_y (self.GetNumYInRational r self.y_slack) : Int)
            * (N : Int))).sum := by
  unfold CspaceFreePolytope.totalGram
  induction rs with
  | nil => simp
  | cons r rs ih =>
    simp only [List.map_cons, List.sum_cons]
    rw [Nat.cast_add, Nat.cast_mul, ih]

/-- C2: in `ConstructPlaneSearchProgram`, for redundant-index sets that are subsets
of the face indices and of the bound indices, the number of Gram variables
counted up front, the sum over the rationals of
`GetGramVarSize * (1 + rows(d_minus_Cs) + 2 s_size - |C_redundant| -
|s_lower_redundant| - |s_upper_redundant|)`, is the number of Gram variables
consumed while the SOS constraints are added, so the final check
`gram_var_count == gram_vars.rows()` passes and the program is returned. -/
theorem ConstructPlaneSearchProgram_gram_count {V M P : Type} [CommRing P] [Inhabited M]
    (self : CspaceFreePolytope V M P) (vp : V → P) (mp : M → P) (fresh : Nat → V)
    (plane_geometries : PlaneSeparatesGeometries P) (d_minus_Cs : List P)
    (C_redundant_indices s_lower_redundant_indices s_upper_redundant_indices : Finset Int)
    (plane : CSpaceSeparatingPlane V P) (arrP arrN : MonomialBasisArray M)
    (hready : self.Ready plane_geometries plane arrP arrN)
    (hred : RedundantInRange C_redundant_indices s_lower_redundant_indices
      s_upper_redundant_indices d_minus_Cs.length self.s.length) :
    ∃ (ret : SeparationCertificateProgram V P) (gram_var_count : Nat) (gram_vars : List V),
      (∀ r ∈ plane_geometries.positive_side_rationals,
        GetGramVarSize arrP self.with_cross_y (self.GetNumYInRational r self.y_slack)
          = .ok (numGramOf arrP self.with_cross_y (self.GetNumYInRational r self.y_slack))) ∧
      (∀ r ∈ plane_geometries.negative_side_rationals,
        GetGramVarSize arrN self.with_cross_y (self.GetNumYInRational r self.y_slack)
          = .ok (numGramOf arrN self.with_cross_y (self.GetNumYInRational r self.y_slack))) ∧
      (gram_vars.length : Int)
        = (plane_geometries.positive_side_rationals.map (fun r =>
            (numGramOf arrP self.with_cross_y (self.GetNumYInRational r self.y_slack) : Int)
              * (1 + (d_minus_Cs.length : Int) + 2 * (self.s.length : Int)
                - (C_redundant_indices.card : Int) - (s_lower_redundant_indices.card : Int)
                - (s_upper_redundant_indices.card : Int)))).sum
          + (plane_geometries.negative_side_rationals.map (fun r =>
            (numGramOf arrN self.with_cross_y (self.GetNumYInRational r self.y_slack) : Int)
              * (1 + (d_minus_Cs.length : Int) + 2 * (self.s.length : Int)
                - (C_redundant_indices.card : Int) - (s_lower_redundant_indices.card : Int)
                - (s_upper_redundant_indices.card : Int)))).sum ∧
      self.ConstructPlaneSearchProgramBody vp mp fresh plane_geometries d_minus_Cs
          C_redundant_indices s_lower_redundant_indices s_upper_redundant_indices
        = .ok (ret, gram_var_count, gram_vars) ∧
      gram_var_count = gram_vars.length ∧
      self.ConstructPlaneSearchProgram vp mp fresh plane_geometries d_minus_Cs
          C_redundant_indices s_lower_redundant_indices s_upper_redundant_indices
        = .ok ret := by
  obtain ⟨prog', _, hbody⟩ := ConstructPlaneSearchProgramBody_ok self vp mp fresh
    plane_geometries d_minus_Cs C_redundant_indices s_lower_redundant_indices
    s_upper_redundant_indices plane arrP arrN hready.plane_eq hready.positive_array
    hready.negative_array hready.positive_num_y hready.negative_num_y hready.s_lower_size
    hready.s_upper_size hred
  refine ⟨_, _, _, fun r hr => ?_, fun r hr => ?_, ?_, hbody, by simp, ?_⟩
  · exact GetGramVarSize_numGramOf arrP _ _ (hready.positive_num_y r hr).1
      (hready.positive_num_y r hr).2
  · exact GetGramVarSize_numGramOf arrN _ _ (hready.negative_num_y r hr).1
      (hready.negative_num_y r hr).2
  · rw [List.length_map, List.length_range]
    push_cast
    rw [cast_totalGram, cast_totalGram, num_sos_eq _ _ _ _ _ hred]
  · unfold CspaceFreePolytope.ConstructPlaneSearchProgram
    rw [hbody, except_bind_ok]
    simp

theorem ConstructPlaneSearchProgram_gram_count_witness :
    exampleCfp.Ready examplePg examplePlane exampleArr exampleArr ∧
    RedundantInRange {1} ∅ {0} ([3, 4] : List Int).length exampleCfp.s.length ∧
    ∃ (ret : SeparationCertificateProgram Nat Int) (gram_vars : List Nat),
      exampleCfp.ConstructPlaneSearchProgramBody (fun v : Nat => (v : Int))
          (fun _ : Nat => (1 : Int)) (fun k => k) examplePg [3, 4] {1} ∅ {0}
        = .ok (ret, gram_vars.length, gram_vars) ∧
      exampleCfp.ConstructPlaneSearchProgram (fun v : Nat => (v : Int))
          (fun _ : Nat => (1 : Int)) (fun k => k) examplePg [3, 4] {1} ∅ {0} = .ok ret := by
  refine ⟨exampleCfp_ready, example_redundantInRange, ?_⟩
  obtain ⟨ret, cnt, gv, _, _, _, h1, h2, h3⟩ :=
    ConstructPlaneSearchProgram_gram_count exampleCfp (fun v : Nat => (v : Int))
      (fun _ : Nat => (1 : Int)) (fun k => k) examplePg [3, 4] {1} ∅ {0}
      examplePlane exampleArr exampleArr exampleCfp_ready example_redundantInRange
  exact ⟨ret, gv, by rw [← h2]; exact h1, h3⟩

/-! ## The certificate of one rational -/

theorem declaredProgram_constraints {V M P : Type} (self : CspaceFreePolytope V M P)
    (plane : CSpaceSeparatingPlane V P) (gram_vars : List V) :
    (self.declaredProgram plane gram_vars).constraints = [] := by
  unfold CspaceFreePolytope.declaredProgram
  simp only
  split <;> rfl

theorem face_segments (S : Finset Int) (n : Nat) :
    ((List.range n).filter (fun (j : Nat) => (j : Int) ∉ S)).map (activeFaces S)
      = List.range (activeFaces S n) := by
  induction n with
  | zero => simp [activeFaces]
  | succ n ih =>
    rw [List.range_succ, List.filter_append, List.map_append, ih, activeFaces_succ]
    by_cases h : (n : Int) ∈ S
    · simp [h]
    · simp [h, List.range_succ]

theorem bound_segments (L U : Finset Int) (a s : Nat) :
    (List.range s).flatMap (fun (j : Nat) =>
        (if (j : Int) ∈ L then [] else [a + activeBounds L U j])
        ++ (if (j : Int) ∈ U then []
         else [a + (activeBounds L U j + (if (j : Int) ∈ L then 0 else 1))]))
      = List.range' a (activeBounds L U s) := by
  induction s with
  | zero => simp [activeBounds]
  | succ s ih =>
    rw [List.range_succ, List.flatMap_append, ih, List.flatMap_singleton, activeBounds_succ]
    by_cases hL : (s : Int) ∈ L <;> by_cases hU : (s : Int) ∈ U
    · simp [hL, hU]
    · simp only [hL, hU, if_true, if_false, List.nil_append, Nat.add_zero]
      rw [List.range'_concat]
      simp
    · simp only [hL, hU, if_true, if_false, List.append_nil, Nat.add_zero]
      rw [List.range'_concat]
      simp
    · simp only [hL, hU, if_false]
      rw [show activeBounds L U s + 1 + 1 = (activeBounds L U s + 1) + 1 from rfl,
        List.range'_concat, List.range'_concat]
      simp [Nat.add_assoc]

/-- The SOS polynomials of one rational are built on the segments
`0, 1, ..., numSos - 1`, each on its own. -/
theorem sosSegments_eq_range (C L U : Finset Int) (n s : Nat) :
    sosSegments C L U n s = List.range (numSos C L U n s) := by
  unfold sosSegments numSos
  rw [face_segments, bound_segments, List.range_eq_range', List.range_eq_range',
    List.range'_concat]
  have h := List.range'_append 0 (activeFaces C n) (activeBounds L U s) 1
  simp only [Nat.zero_add, Nat.one_mul] at h
  rw [h, Nat.add_comm (activeBounds L U s)]
  simp

/-- The `i`-th Lagrangians of a list of rationals start at the Gram variables
that the rationals before it consumed. -/
theorem getElem?_lagrangiansListSpec {V M P : Type} [CommRing P]
    (self : CspaceFreePolytope V M P) (vp : V → P) (mp : M → P)
    (gram_vars : List V) (C_red L_red U_red : Finset Int) (n : Nat)
    (arr : MonomialBasisArray M) :
    ∀ (rs : List (RationalFunction P)) (start i : Nat) (r : RationalFunction P),
      rs[i]? = some r →
      (self.lagrangiansListSpec vp mp gram_vars C_red L_red U_red n arr start rs)[i]?
        = some (lagrangiansSpec vp mp
          (basesOf arr self.with_cross_y (self.GetNumYInRational r self.y_slack)) gram_vars
          (numGramOf arr self.with_cross_y (self.GetNumYInRational r self.y_slack))
          C_red L_red U_red n self.s.length
          (start + self.totalGram arr (numSos C_red L_red U_red n self.s.length)
            (rs.take i))) := by
  intro rs
  induction rs with
  | nil => intro start i r h; simp at h
  | cons r0 rs ih =>
    intro start i r h
    cases i with
    | zero =>
      simp only [List.getElem?_cons_zero, Option.some.injEq] at h
      subst h
      simp [CspaceFreePolytope.lagrangiansListSpec, CspaceFreePolytope.totalGram]
    | succ i =>
      simp only [List.getElem?_cons_succ] at h
      have := ih (start + numGramOf arr self.with_cross_y
        (self.GetNumYInRational r0 self.y_slack) * numSos C_red L_red U_red n self.s.length)
        i r h
      simp only [CspaceFreePolytope.lagrangiansListSpec, List.getElem?_cons_succ, this,
        List.take_succ_cons, CspaceFreePolytope.totalGram, List.map_cons, List.sum_cons,
        Nat.add_assoc]

theorem totalGram_take_le {V M P : Type} (self : CspaceFreePolytope V M P)
    (arr : MonomialBasisArray M) (N : Nat) (rs : List (RationalFunction P)) (i : Nat)
    (r : RationalFunction P) (h : rs[i]? = some r) :
    self.totalGram arr N (rs.take i)
      + numGramOf arr self.with_cross_y (self.GetNumYInRational r self.y_slack) * N
        ≤ self.totalGram arr N rs := by
  induction rs generalizing i with
  | nil => simp at h
  | cons r0 rs ih =>
    cases i with
    | zero =>
      simp only [List.getElem?_cons_zero, Option.some.injEq] at h
      subst h
      simp [CspaceFreePolytope.totalGram]
    | succ i =>
      simp only [List.getElem?_cons_succ] at h
      have := ih i h
      simp only [CspaceFreePolytope.totalGram, List.take_succ_cons, List.map_cons,
        List.sum_cons] at this ⊢
      omega

theorem lagrangiansSpec_onSegments {V M P : Type} [CommRing P] (vp : V → P) (mp : M → P)
    (bases : List (List M)) (gram_vars : List V) (num : Nat) (C L U : Finset Int)
    (n s start : Nat) (hle : start + num * numSos C L U n s ≤ gram_vars.length) :
    LagrangiansOnSegments vp mp bases gram_vars num C L U n s start
      (lagrangiansSpec vp mp bases gram_vars num C L U n s start) := by
  refine ⟨hle, by simp [lagrangiansSpec], by simp [lagrangiansSpec],
    by simp [lagrangiansSpec], fun j hj => ?_, fun j hj => ?_, fun j hj => ?_⟩
  · simp only [lagrangiansSpec, List.getElem?_map, List.getElem?_range hj, Option.map_some']
  · simp only [lagrangiansSpec, List.getElem?_map, List.getElem?_range hj, Option.map_some',
      Nat.mul_add, Nat.add_assoc]
  · simp only [lagrangiansSpec, List.getElem?_map, List.getElem?_range hj, Option.map_some',
      Nat.mul_add, Nat.add_assoc]

theorem one_le_blocksOf {M : Type} (arr : MonomialBasisArray M)
    (with_cross_y : Bool) (num_y : Int) (h0 : 0 ≤ num_y) :
    1 ≤ blocksOf arr with_cross_y num_y := by
  obtain ⟨k, rfl⟩ := Int.eq_ofNat_of_zero_le h0
  unfold blocksOf GramBlocksRef
  by_cases hk : k = 0
  · simp [hk]
  · cases with_cross_y
    · simp [hk]; omega
    · simp [hk]

theorem length_lagrangiansListSpec {V M P : Type} [CommRing P]
    (self : CspaceFreePolytope V M P) (vp : V → P) (mp : M → P)
    (gram_vars : List V) (C_red L_red U_red : Finset Int) (n : Nat)
    (arr : MonomialBasisArray M) :
    ∀ (rs : List (RationalFunction P)) (start : Nat),
      (self.lagrangiansListSpec vp mp gram_vars C_red L_red U_red n arr start rs).length
        = rs.length := by
  intro rs
  induction rs with
  | nil => intro start; rfl
  | cons r rs ih =>
    intro start
    simp [CspaceFreePolytope.lagrangiansListSpec, ih]

/-- C8: in the Lagrangians `ConstructPlaneSearchProgram` returns for each
rational, the Lagrangian of a redundant face, lower bound or upper bound is the
zero polynomial and has no segment of Gram variables and no constraint; every
other Lagrangian is the SOS polynomial on its own segment of
`num_gram_vars_per_sos` Gram variables: the segments of a rational, in the
order of the code and with the one of `σ` last, are the consecutive segments
`0, 1, ..., numSos - 1` after the Gram variables of the rationals before it,
and the program holds one Gram constraint per block and per SOS polynomial,
`numSos` being the number of non-redundant indices plus one. -/
theorem ConstructPlaneSearchProgram_lagrangians {V M P : Type} [CommRing P] [Inhabited M]
    (self : CspaceFreePolytope V M P) (vp : V → P) (mp : M → P) (fresh : Nat → V)
    (plane_geometries : PlaneSeparatesGeometries P) (d_minus_Cs : List P)
    (C_redundant_indices s_lower_redundant_indices s_upper_redundant_indices : Finset Int)
    (plane : CSpaceSeparatingPlane V P) (arrP arrN : MonomialBasisArray M)
    (hready : self.Ready plane_geometries plane arrP arrN)
    (hred : RedundantInRange C_redundant_indices s_lower_redundant_indices
      s_upper_redundant_indices d_minus_Cs.length self.s.length) :
    ∃ (ret : SeparationCertificateProgram V P) (gram_vars : List V),
      self.ConstructPlaneSearchProgramBody vp mp fresh plane_geometries d_minus_Cs
          C_redundant_indices s_lower_redundant_indices s_upper_redundant_indices
        = .ok (ret, gram_vars.length, gram_vars) ∧
      ret.certificate.positive_side_rational_lagrangians.length
        = plane_geometries.positive_side_rationals.length ∧
      ret.certificate.negative_side_rational_lagrangians.length
        = plane_geometries.negative_side_rationals.length ∧
      (∀ (i : Nat) (r : RationalFunction P),
        plane_geometries.positive_side_rationals[i]? = some r →
        ∃ L, ret.certificate.positive_side_rational_lagrangians[i]? = some L ∧
          LagrangiansOnSegments vp mp
            (basesOf arrP self.with_cross_y (self.GetNumYInRational r self.y_slack))
            gram_vars
            (numGramOf arrP self.with_cross_y (self.GetNumYInRational r self.y_slack))
            C_redundant_indices s_lower_redundant_indices s_upper_redundant_indices
            d_minus_Cs.length self.s.length
            (self.totalGram arrP
              (numSos C_redundant_indices s_lower_redundant_indices
                s_upper_redundant_indices d_minus_Cs.length self.s.length)
              (plane_geometries.positive_side_rationals.take i)) L) ∧
      (∀ (i : Nat) (r : RationalFunction P),
        plane_geometries.negative_side_rationals[i]? = some r →
        ∃ L, ret.certificate.negative_side_rational_lagrangians[i]? = some L ∧
          LagrangiansOnSegments vp mp
            (basesOf arrN self.with_cross_y (self.GetNumYInRational r self.y_slack))
            gram_vars
            (numGramOf arrN self.with_cross_y (self.GetNumYInRational r self.y_slack))
            C_redundant_indices s_lower_redundant_indices s_upper_redundant_indices
            d_minus_Cs.length self.s.length
            (self.totalGram arrP
                (numSos C_redundant_indices s_lower_redundant_indices
                  s_upper_redundant_indices d_minus_Cs.length self.s.length)
                plane_geometries.positive_side_rationals
              + self.totalGram arrN
                (numSos C_redundant_indices s_lower_redundant_indices
                  s_upper_redundant_indices d_minus_Cs.length self.s.length)
                (plane_geometries.negative_side_rationals.take i)) L) ∧
      sosSegments C_redundant_indices s_lower_redundant_indices s_upper_redundant_indices
          d_minus_Cs.length self.s.length
        = List.range (numSos C_redundant_indices s_lower_redundant_indices
            s_upper_redundant_indices d_minus_Cs.length self.s.length) ∧
      numSos C_redundant_indices s_lower_redundant_indices s_upper_redundant_indices
          d_minus_Cs.length self.s.length + C_redundant_indices.card
          + s_lower_redundant_indices.card + s_upper_redundant_indices.card
        = d_minus_Cs.length + 2 * self.s.length + 1 ∧
      (ret.prog.constraints.filter (fun c => c.isGram)).length
        = (plane_geometries.positive_side_rationals.map (fun r =>
            blocksOf arrP self.with_cross_y (self.GetNumYInRational r self.y_slack)
              * numSos C_redundant_indices s_lower_redundant_indices
                  s_upper_redundant_indices d_minus_Cs.length self.s.length)).sum
          + (plane_geometries.negative_side_rationals.map (fun r =>
            blocksOf arrN self.with_cross_y (self.GetNumYInRational r self.y_slack)
              * numSos C_redundant_indices s_lower_redundant_indices
                  s_upper_redundant_indices d_minus_Cs.length self.s.length)).sum ∧
      (∀ r ∈ plane_geometries.positive_side_rationals,
        1 ≤ blocksOf arrP self.with_cross_y (self.GetNumYInRational r self.y_slack)) ∧
      (∀ r ∈ plane_geometries.negative_side_rationals,
        1 ≤ blocksOf arrN self.with_cross_y (self.GetNumYInRational r self.y_slack)) := by
  obtain ⟨N, hN⟩ : ∃ N, numSos C_redundant_indices s_lower_redundant_indices
      s_upper_redundant_indices d_minus_Cs.length self.s.length = N := ⟨_, rfl⟩
  obtain ⟨tP, htP⟩ : ∃ t, self.totalGram arrP N plane_geometries.positive_side_rationals = t :=
    ⟨_, rfl⟩
  obtain ⟨tN, htN⟩ : ∃ t, self.totalGram arrN N plane_geometries.negative_side_rationals = t :=
    ⟨_, rfl⟩
  obtain ⟨gv, hgv⟩ : ∃ gv, (List.range (tP + tN)).map fresh = gv := ⟨_, rfl⟩
  obtain ⟨prog', hafter, hbody⟩ := ConstructPlaneSearchProgramBody_core self vp mp fresh
    plane_geometries d_minus_Cs C_redundant_indices s_lower_redundant_indices
    s_upper_redundant_indices plane arrP arrN hready.plane_eq hready.positive_array
    hready.negative_array hready.positive_num_y hready.negative_num_y hready.s_lower_size
    hready.s_upper_size hred N tP tN gv hN htP htN hgv
  obtain ⟨_, _, cs, hcs, _, hk⟩ := hafter
  rw [declaredProgram_constraints, List.nil_append] at hcs
  have hl : gv.length = tP + tN := by rw [← hgv]; simp
  rw [hN, htP]
  have hcard : N + C_redundant_indices.card + s_lower_redundant_indices.card
      + s_upper_redundant_indices.card = d_minus_Cs.length + 2 * self.s.length + 1 := by
    have := num_sos_eq _ _ _ _ _ hred
    rw [hN] at this
    omega
  refine ⟨⟨prog', plane_geometries.plane_index,
    ⟨self.lagrangiansListSpec vp mp gv C_redundant_indices s_lower_redundant_indices
        s_upper_redundant_indices d_minus_Cs.length arrP 0
        plane_geometries.positive_side_rationals,
      self.lagrangiansListSpec vp mp gv C_redundant_indices s_lower_redundant_indices
        s_upper_redundant_indices d_minus_Cs.length arrN tP
        plane_geometries.negative_side_rationals⟩⟩, gv, ?_,
    length_lagrangiansListSpec _ _ _ _ _ _ _ _ _ _ _,
    length_lagrangiansListSpec _ _ _ _ _ _ _ _ _ _ _, ?_, ?_,
    by rw [← hN]; exact sosSegments_eq_range _ _ _ _ _, hcard, ?_, ?_, ?_⟩
  · rw [hbody, hl]
  · intro i r hi
    have h1 := getElem?_lagrangiansListSpec self vp mp gv C_redundant_indices
      s_lower_redundant_indices s_upper_redundant_indices d_minus_Cs.length arrP
      plane_geometries.positive_side_rationals 0 i r hi
    have h2 := totalGram_take_le self arrP N plane_geometries.positive_side_rationals i r hi
    rw [hN, Nat.zero_add] at h1
    refine ⟨_, h1, lagrangiansSpec_onSegments vp mp _ gv _ _ _ _ _ _ _ ?_⟩
    rw [hN, hl]
    omega
  · intro i r hi
    have h1 := getElem?_lagrangiansListSpec self vp mp gv C_redundant_indices
      s_lower_redundant_indices s_upper_redundant_indices d_minus_Cs.length arrN
      plane_geometries.negative_side_rationals tP i r hi
    have h2 := totalGram_take_le self arrN N plane_geometries.negative_side_rationals i r hi
    rw [hN] at h1
    refine ⟨_, h1, lagrangiansSpec_onSegments vp mp _ gv _ _ _ _ _ _ _ ?_⟩
    rw [hN, hl]
    omega
  · show (prog'.constraints.filter (fun c => c.isGram)).length = _
    rw [hcs, hk]
    rfl
  · intro r hr
    exact one_le_blocksOf arrP _ _ (hready.positive_num_y r hr).1
  · intro r hr
    exact one_le_blocksOf arrN _ _ (hready.negative_num_y r hr).1

theorem ConstructPlaneSearchProgram_lagrangians_witness :
    exampleCfp.Ready examplePg examplePlane exampleArr exampleArr ∧
    RedundantInRange {1} ∅ {0} ([3, 4] : List Int).length exampleCfp.s.length ∧
    ∃ (ret : SeparationCertificateProgram Nat Int) (gram_vars : List Nat),
      exampleCfp.ConstructPlaneSearchProgramBody (fun v : Nat => (v : Int))
          (fun _ : Nat => (1 : Int)) (fun k => k) examplePg [3, 4] {1} ∅ {0}
        = .ok (ret, gram_vars.length, gram_vars) ∧
      ret.certificate.positive_side_rational_lagrangians.length
        = examplePg.positive_side_rationals.length ∧
      sosSegments {1} ∅ {0} ([3, 4] : List Int).length exampleCfp.s.length
        = List.range (numSos {1} ∅ {0} ([3, 4] : List Int).length exampleCfp.s.length) := by
  refine ⟨exampleCfp_ready, example_redundantInRange, ?_⟩
  obtain ⟨ret, gv, h1, h2, _, _, _, h6, _⟩ :=
    ConstructPlaneSearchProgram_lagrangians exampleCfp (fun v : Nat => (v : Int))
      (fun _ : Nat => (1 : Int)) (fun k => k) examplePg [3, 4] {1} ∅ {0}
      examplePlane exampleArr exampleArr exampleCfp_ready example_redundantInRange
  exact ⟨ret, gv, h1, h2, h6⟩

/-! ## The Gram variables of the polytope search program -/

theorem keys_polyMapAssign {V K : Type} [DecidableEq V]
    (map : List (symbolic.Monomial V × K)) (key : symbolic.Monomial V) (value : K) :
    (polyMapAssign map key value).map Prod.fst
      = if key ∈ map.map Prod.fst then map.map Prod.fst else map.map Prod.fst ++ [key] := by
  unfold polyMapAssign
  by_cases h : key ∈ map.map Prod.fst
  · have hany : (map.any (fun e => e.1 == key)) = true := by
      rw [List.any_eq_true]
      obtain ⟨e, he, hk⟩ := List.mem_map.mp h
      exact ⟨e, he, by simp [hk]⟩
    rw [if_pos hany, if_pos h, List.map_map]
    apply List.map_congr_left
    intro e _
    by_cases hk : e.1 = key <;> simp [hk]
  · have hany : ¬ (map.any (fun e => e.1 == key)) = true := by
      rw [List.any_eq_true]
      rintro ⟨e, he, hk⟩
      exact h (List.mem_map.mpr ⟨e, he, by simpa using hk⟩)
    rw [if_neg hany, if_neg h]
    simp

theorem mem_polyMapAssign_self {V K : Type} [DecidableEq V]
    (map : List (symbolic.Monomial V × K)) (key : symbolic.Monomial V) (value : K) :
    (key, value) ∈ polyMapAssign map key value := by
  unfold polyMapAssign
  by_cases hany : (map.any (fun e => e.1 == key)) = true
  · rw [if_pos hany]
    rw [List.any_eq_true] at hany
    obtain ⟨e, he, hk⟩ := hany
    refine List.mem_map.mpr ⟨e, he, ?_⟩
    have hk2 : e.1 = key := by simpa using hk
    rw [if_pos hk, hk2]
  · rw [if_neg hany]
    simp

theorem mem_polyMapAssign_of_ne {V K : Type} [DecidableEq V]
    (map : List (symbolic.Monomial V × K)) (key : symbolic.Monomial V) (value : K)
    (e : symbolic.Monomial V × K) (he : e ∈ map) (hne : e.1 ≠ key) :
    e ∈ polyMapAssign map key value := by
  unfold polyMapAssign
  by_cases hany : (map.any (fun e => e.1 == key)) = true
  · rw [if_pos hany]
    refine List.mem_map.mpr ⟨e, he, ?_⟩
    rw [if_neg (by simpa using hne)]
  · rw [if_neg hany]
    exact List.mem_append_left _ he

theorem PolyMapWF_assign {V K : Type} [DecidableEq V] (allowed : List (symbolic.Monomial V))
    (map : List (symbolic.Monomial V × K)) (key : symbolic.Monomial V) (value : K)
    (h : PolyMapWF allowed map) (hk : key ∈ allowed) :
    PolyMapWF allowed (polyMapAssign map key value) := by
  have hkeys := keys_polyMapAssign map key value
  have hall : ∀ k ∈ map.map Prod.fst, k ∈ allowed := by
    intro k hk
    obtain ⟨e, he, rfl⟩ := List.mem_map.mp hk
    exact h.2 e he
  constructor
  · rw [hkeys]
    by_cases hmem : key ∈ map.map Prod.fst
    · rw [if_pos hmem]; exact h.1
    · rw [if_neg hmem]
      exact List.Nodup.append h.1 (List.nodup_singleton _)
        (by simpa [List.disjoint_singleton] using hmem)
  · intro e he
    have : e.1 ∈ (polyMapAssign map key value).map Prod.fst := List.mem_map.mpr ⟨e, he, rfl⟩
    rw [hkeys] at this
    by_cases hmem : key ∈ map.map Prod.fst
    · rw [if_pos hmem] at this; exact hall _ this
    · rw [if_neg hmem] at this
      rcases List.mem_append.mp this with h1 | h1
      · exact hall _ h1
      · rw [List.mem_singleton.mp h1]; exact hk

theorem ofVariable_injective {V : Type} (a b : V)
    (h : symbolic.Monomial.ofVariable a = symbolic.Monomial.ofVariable b) : a = b :=
  Multiset.singleton_inj.mp h

theorem ofVariable_ne_one {V : Type} (a : V) :
    symbolic.Monomial.ofVariable a ≠ symbolic.Monomial.one :=
  Multiset.singleton_ne_zero a

/-- The loop that fills `s_monomials`. -/
theorem sMonomials_loop {V : Type} (s : List V) :
    (List.range s.length).foldlM (sMonomialsBody s)
        (List.replicate s.length symbolic.Monomial.one)
      = .ok (s.map symbolic.Monomial.ofVariable) := by
  obtain ⟨acc, hacc, hI⟩ := foldlM_range_inv (sMonomialsBody s)
    (fun i acc => acc = (s.take i).map symbolic.Monomial.ofVariable
      ++ List.replicate (s.length - i) symbolic.Monomial.one)
    s.length (List.replicate s.length symbolic.Monomial.one) (by simp)
    (fun i acc hi hI => by
      dsimp only at hI ⊢
      have hlen : acc.length = s.length := by
        rw [hI]; simp [List.length_take]; omega
      refine ⟨acc.set i (symbolic.Monomial.ofVariable (s.get ⟨i, hi⟩)), ?_, ?_⟩
      · unfold sMonomialsBody
        rw [vecGet_ok s i hi, except_bind_ok, vecSet_ok _ _ _ (by omega)]
      · have h1 : ((s.take i).map symbolic.Monomial.ofVariable).length = i := by
          simp [List.length_take]; omega
        have h2 : s.length - i = (s.length - (i + 1)) + 1 := by omega
        have h3 : (s.take (i + 1)).map symbolic.Monomial.ofVariable
            = (s.take i).map symbolic.Monomial.ofVariable
              ++ [symbolic.Monomial.ofVariable (s.get ⟨i, hi⟩)] := by
          have h4 : s.take (i + 1) = s.take i ++ [s.get ⟨i, hi⟩] := by
            rw [List.take_succ, List.getElem?_eq_getElem hi]
            rfl
          rw [h4, List.map_append]
          rfl
        rw [hI, List.set_append_right _ _ (by omega), h1, Nat.sub_self, h3]
        nth_rewrite 1 [h2]
        rw [List.replicate_succ, List.set_cons_zero]
        simp)
  rw [hacc, hI]
  simp

/-- The inner loop of `CalcDminusCs` on row `i`: afterwards the map holds
`-C(i, j)` at the monomial of every `s(j)`. -/
theorem dMinusCsInner_loop {V K : Type} [DecidableEq V] [CommRing K] (C : MatrixXd K)
    (s : List V) (i : Nat) (hs : s.Nodup) (hi : i < C.rows) (hcols : C.cols = s.length)
    (map : List (symbolic.Monomial V × K))
    (hWF : PolyMapWF (s.map symbolic.Monomial.ofVariable ++ [symbolic.Monomial.one]) map) :
    ∃ map', (List.range s.length).foldlM
        (dMinusCsInnerBody C (s.map symbolic.Monomial.ofVariable) i) map = .ok map' ∧
      PolyMapWF (s.map symbolic.Monomial.ofVariable ++ [symbolic.Monomial.one]) map' ∧
      ∀ j : Fin s.length,
        (symbolic.Monomial.ofVariable (s.get j), -C.coeff i j) ∈ map' := by
  obtain ⟨map', hmap', hWF', hrow⟩ := foldlM_range_inv
    (dMinusCsInnerBody C (s.map symbolic.Monomial.ofVariable) i)
    (fun j (m : List (symbolic.Monomial V × K)) =>
      PolyMapWF (s.map symbolic.Monomial.ofVariable ++ [symbolic.Monomial.one]) m ∧
      ∀ j' : Fin s.length, j'.val < j →
        (symbolic.Monomial.ofVariable (s.get j'), -C.coeff i j') ∈ m)
    s.length map ⟨hWF, fun j' hj' => by omega⟩
    (fun j m hj hI => by
      obtain ⟨hW, hrow⟩ := hI
      have hget : vecGet (s.map symbolic.Monomial.ofVariable) j
          = .ok (symbolic.Monomial.ofVariable (s.get ⟨j, hj⟩)) := by
        apply vecGet_of_getElem?
        rw [List.getElem?_map, List.getElem?_eq_getElem hj]
        rfl
      have hC : C.get i j = .ok (C.coeff i j) := by
        unfold MatrixXd.get
        rw [if_pos ⟨hi, by omega⟩]
      refine ⟨polyMapAssign m (symbolic.Monomial.ofVariable (s.get ⟨j, hj⟩)) (-C.coeff i j),
        ?_, PolyMapWF_assign _ m _ (-C.coeff i j) hW ?_, ?_⟩
      · unfold dMinusCsInnerBody
        rw [hget, except_bind_ok, hC, except_bind_ok]
        rfl
      · exact List.mem_append_left _ (List.mem_map.mpr ⟨_, List.get_mem s j hj, rfl⟩)
      · intro j' hj'
        by_cases hjj : j'.val = j
        · have : j' = ⟨j, hj⟩ := Fin.ext hjj
          rw [this]
          exact mem_polyMapAssign_self _ _ _
        · refine mem_polyMapAssign_of_ne _ _ _ _ (hrow j' (by omega)) ?_
          intro heq
          have h1 := ofVariable_injective _ _ heq
          have h2 := (List.Nodup.get_inj_iff hs).mp h1
          exact hjj (by simpa using congrArg Fin.val h2))
  exact ⟨map', hmap', hWF', fun j => hrow j j.isLt⟩
theorem Monomial_Evaluate_ofVariable {V K : Type} [CommRing K] (v : V) (env : V → K) :
    (symbolic.Monomial.ofVariable v).Evaluate env = env v := by
  simp [symbolic.Monomial.Evaluate, symbolic.Monomial.ofVariable]

theorem Monomial_Evaluate_one {V K : Type} [CommRing K] (env : V → K) :
    (symbolic.Monomial.one : symbolic.Monomial V).Evaluate env = 1 := by
  simp [symbolic.Monomial.Evaluate, symbolic.Monomial.one]

theorem sum_map_neg_eq {α K : Type} [CommRing K] (l : List α) (f g : α → K)
    (h : ∀ x, f x = -g x) : (l.map f).sum = -(l.map g).sum := by
  induction l with
  | nil => simp
  | cons x l ih => simp only [List.map_cons, List.sum_cons, ih, h x]; ring

/-- A map without repeated keys that holds the terms of row `i`, and no other
keys, evaluates to `d(i) - Σ C(i, j) s(j)`. -/
theorem evaluate_rowTerms {V K : Type} [CommRing K] (C : MatrixXd K)
    (s : List V) (hs : s.Nodup) (i : Nat) (di : K)
    (map : List (symbolic.Monomial V × K))
    (hWF : PolyMapWF (s.map symbolic.Monomial.ofVariable ++ [symbolic.Monomial.one]) map)
    (hrow : RowTerms C s i di map) (env : V → K) :
    (⟨map⟩ : symbolic.Polynomial V K).Evaluate env
      = di - ∑ j : Fin s.length, C.coeff i j * env (s.get j) := by
  have hinj : Function.Injective
      (fun j : Fin s.length => symbolic.Monomial.ofVariable (s.get j)) := by
    intro a b hab
    exact (List.Nodup.get_inj_iff hs).mp (ofVariable_injective _ _ hab)
  have hmapNodup : map.Nodup := List.Nodup.of_map Prod.fst hWF.1
  have hrNodup : ((List.finRange s.length).map
      (fun j => (symbolic.Monomial.ofVariable (s.get j), -C.coeff i j))
        ++ [(symbolic.Monomial.one, di)]).Nodup := by
    apply List.Nodup.of_map Prod.fst
    rw [List.map_append, List.map_map]
    refine List.Nodup.append ((List.nodup_finRange _).map hinj) (List.nodup_singleton _) ?_
    simp only [List.map_cons, List.map_nil, List.disjoint_singleton, List.mem_map,
      Function.comp_apply, not_exists, not_and]
    intro j _ heq
    exact ofVariable_ne_one _ heq
  have hperm : map.Perm ((List.finRange s.length).map
      (fun j => (symbolic.Monomial.ofVariable (s.get j), -C.coeff i j))
        ++ [(symbolic.Monomial.one, di)]) := by
    rw [List.perm_ext_iff_of_nodup hmapNodup hrNodup]
    intro a
    constructor
    · intro ha
      have hkey := hWF.2 a ha
      rcases List.mem_append.mp hkey with h1 | h1
      · obtain ⟨v, hv, hva⟩ := List.mem_map.mp h1
        obtain ⟨j, hj⟩ := List.mem_iff_get.mp hv
        have hmem := hrow.1 j
        have : a = (symbolic.Monomial.ofVariable (s.get j), -C.coeff i j) :=
          List.inj_on_of_nodup_map hWF.1 ha hmem (by rw [← hva, ← hj])
        rw [this]
        exact List.mem_append_left _ (List.mem_map.mpr ⟨j, List.mem_finRange j, rfl⟩)
      · have h2 : a.1 = symbolic.Monomial.one := List.mem_singleton.mp h1
        have : a = (symbolic.Monomial.one, di) :=
          List.inj_on_of_nodup_map hWF.1 ha hrow.2 h2
        rw [this]
        exact List.mem_append_right _ (List.mem_singleton_self _)
    · intro ha
      rcases List.mem_append.mp ha with h1 | h1
      · obtain ⟨j, _, rfl⟩ := List.mem_map.mp h1
        exact hrow.1 j
      · rw [List.mem_singleton.mp h1]
        exact hrow.2
  unfold symbolic.Polynomial.Evaluate
  rw [(hperm.map _).sum_eq, List.map_append, List.sum_append, List.map_map]
  simp only [List.map_cons, List.map_nil, List.sum_cons, List.sum_nil, add_zero,
    Monomial_Evaluate_one, mul_one]
  have hsum : ((List.finRange s.length).map
      ((fun e : symbolic.Monomial V × K => e.2 * e.1.Evaluate env) ∘
        (fun j => (symbolic.Monomial.ofVariable (s.get j), -C.coeff i j)))).sum
      = - ∑ j : Fin s.length, C.coeff i j * env (s.get j) := by
    rw [Fin.sum_univ_def]
    exact sum_map_neg_eq _ _ _ (fun j => by simp [Monomial_Evaluate_ofVariable])
  rw [hsum]
  ring

/-- One row of `CalcDminusCs`: the map, which may hold the terms of the previous
row, ends up holding the terms of row `i`. -/
theorem dMinusCsOuterBody_ok {V K : Type} [DecidableEq V] [CommRing K] (C : MatrixXd K)
    (d : List K) (s : List V) (hs : s.Nodup) (hcols : C.cols = s.length)
    (st : List (symbolic.Monomial V × K) × List (symbolic.Polynomial V K)) (i : Nat)
    (hi : i < C.rows) (hd : i < d.length) (hlen : i < st.2.length)
    (hWF : PolyMapWF (s.map symbolic.Monomial.ofVariable ++ [symbolic.Monomial.one]) st.1) :
    ∃ map', dMinusCsOuterBody C d s.length (s.map symbolic.Monomial.ofVariable) st i
        = .ok (map', st.2.set i ⟨map'⟩) ∧
      PolyMapWF (s.map symbolic.Monomial.ofVariable ++ [symbolic.Monomial.one]) map' ∧
      RowTerms C s i (d.get ⟨i, hd⟩) map' := by
  obtain ⟨m1, hm1, hWF1, hrow1⟩ := dMinusCsInner_loop C s i hs hi hcols st.1 hWF
  refine ⟨polyMapAssign m1 symbolic.Monomial.one (d.get ⟨i, hd⟩), ?_,
    PolyMapWF_assign _ m1 _ _ hWF1 (List.mem_append_right _ (List.mem_singleton_self _)),
    fun j => mem_polyMapAssign_of_ne _ _ _ _ (hrow1 j) (ofVariable_ne_one _),
    mem_polyMapAssign_self _ _ _⟩
  unfold dMinusCsOuterBody
  rw [hm1, except_bind_ok, vecGet_ok d i hd, except_bind_ok]
  dsimp only
  rw [vecSet_ok _ _ _ hlen, except_bind_ok]
  rfl

/-- The closed form of `CalcDminusCs` on matching dimensions, for distinct
variables `s`. -/
theorem CalcDminusCs_ok {V M P K : Type} [DecidableEq V] [CommRing K]
    (self : CspaceFreePolytope V M P) (C : MatrixXd K) (d : List K)
    (hs : self.s.Nodup) (hrows : C.rows = d.length) (hcols : C.cols = self.s.length) :
    ∃ d_minus_Cs : List (symbolic.Polynomial V K),
      self.CalcDminusCs C d = .ok d_minus_Cs ∧ d_minus_Cs.length = C.rows ∧
      ∀ (i : Nat) (hi : i < d.length), ∃ p : symbolic.Polynomial V K,
        d_minus_Cs[i]? = some p ∧
        PolyMapWF (self.s.map symbolic.Monomial.ofVariable ++ [symbolic.Monomial.one])
          p.monomial_to_coefficient_map ∧
        RowTerms C self.s i (d.get ⟨i, hi⟩) p.monomial_to_coefficient_map := by
  obtain ⟨st, hst, hWF, hlen, hrow⟩ := foldlM_range_inv
    (dMinusCsOuterBody C d self.s.length (self.s.map symbolic.Monomial.ofVariable))
    (fun i (st : List (symbolic.Monomial V × K) × List (symbolic.Polynomial V K)) =>
      PolyMapWF (self.s.map symbolic.Monomial.ofVariable ++ [symbolic.Monomial.one]) st.1 ∧
      st.2.length = d.length ∧
      ∀ (i' : Nat) (hi' : i' < d.length), i' < i → ∃ p : symbolic.Polynomial V K,
        st.2[i']? = some p ∧
        PolyMapWF (self.s.map symbolic.Monomial.ofVariable ++ [symbolic.Monomial.one])
          p.monomial_to_coefficient_map ∧
        RowTerms C self.s i' (d.get ⟨i', hi'⟩) p.monomial_to_coefficient_map)
    C.rows ([], List.replicate d.length ⟨[]⟩)
    ⟨⟨by simp, by simp⟩, by simp, fun i' _ h => by omega⟩
    (fun i st hi hI => by
      obtain ⟨hWF, hlen, hrow⟩ := hI
      obtain ⟨map', hbody, hWF', hrow'⟩ := dMinusCsOuterBody_ok C d self.s hs hcols st i hi
        (by omega) (by omega) hWF
      refine ⟨_, hbody, hWF', by simp [hlen], fun i' hi' hlt => ?_⟩
      by_cases hii : i' = i
      · subst hii
        exact ⟨⟨map'⟩, by simp [List.getElem?_set_self, hlen, hi'], hWF', hrow'⟩
      · obtain ⟨p, hp, h1, h2⟩ := hrow i' hi' (by omega)
        exact ⟨p, by
          show (st.2.set i ⟨map'⟩)[i']? = some p
          rw [List.getElem?_set_ne (by omega)]; exact hp, h1, h2⟩)
  refine ⟨st.2, ?_, by rw [hlen, hrows], fun i hi => hrow i hi (by omega)⟩
  unfold CspaceFreePolytope.CalcDminusCs
  simp only [hrows, hcols, and_self, not_true_eq_false, if_false, sMonomials_loop,
    except_bind_ok, except_pure]
  rw [hrows] at hst
  rw [hst]
  rfl

/-- C11: for every `C`, `d` with `rows(C) = rows(d)` and `cols(C) = size(s)`
(`s` a vector of distinct variables), `CalcDminusCs` returns one polynomial per
row, and the polynomial of row `i`, evaluated at any point, is
`d(i) - Σ_j C(i, j) s_j`, a value in which no other row occurs although the
coefficient map is reused across rows; on any other dimensions `CalcDminusCs`
fails. -/
theorem CalcDminusCs_evaluate {V M P K : Type} [DecidableEq V] [CommRing K]
    (self : CspaceFreePolytope V M P) (C : MatrixXd K) (d : List K) (hs : self.s.Nodup) :
    (C.rows = d.length ∧ C.cols = self.s.length →
      ∃ d_minus_Cs : List (symbolic.Polynomial V K),
        self.CalcDminusCs C d = .ok d_minus_Cs ∧ d_minus_Cs.length = C.rows ∧
        ∀ (i : Nat) (hi : i < d.length) (env : V → K), ∃ p : symbolic.Polynomial V K,
          d_minus_Cs[i]? = some p ∧
          p.Evaluate env
            = d.get ⟨i, hi⟩ - ∑ j : Fin self.s.length, C.coeff i j * env (self.s.get j)) ∧
    (¬ (C.rows = d.length ∧ C.cols = self.s.length) →
      self.CalcDminusCs C d = .error .throwUnless) := by
  constructor
  · rintro ⟨hrows, hcols⟩
    obtain ⟨d_minus_Cs, hok, hlen, hrow⟩ := CalcDminusCs_ok self C d hs hrows hcols
    refine ⟨d_minus_Cs, hok, hlen, fun i hi env => ?_⟩
    obtain ⟨p, hp, hWF, hterms⟩ := hrow i hi
    exact ⟨p, hp, evaluate_rowTerms C self.s hs i _ _ hWF hterms env⟩
  · intro hne
    unfold CspaceFreePolytope.CalcDminusCs
    rw [if_pos hne]
    rfl

theorem CalcDminusCs_evaluate_witness :
    exampleCfp2.s.Nodup ∧
    (∃ d_minus_Cs : List (symbolic.Polynomial Nat Int),
      exampleCfp2.CalcDminusCs exampleC2 [10, 20] = .ok d_minus_Cs ∧
      ∀ (i : Nat) (hi : i < 2) (env : Nat → Int), ∃ p : symbolic.Polynomial Nat Int,
        d_minus_Cs[i]? = some p ∧
        p.Evaluate env = ([10, 20] : List Int).get ⟨i, hi⟩
          - ∑ j : Fin 2, exampleC2.coeff i j * env (([0, 1] : List Nat).get j)) ∧
    exampleCfp2.CalcDminusCs exampleC2 [10, 20, 30] = .error .throwUnless := by
  have hs : exampleCfp2.s.Nodup := by decide
  have h := CalcDminusCs_evaluate exampleCfp2 exampleC2 [10, 20] hs
  have h' := CalcDminusCs_evaluate exampleCfp2 exampleC2 [10, 20, 30] hs
  obtain ⟨d_minus_Cs, hok, _, hev⟩ := h.1 ⟨rfl, rfl⟩
  exact ⟨hs, ⟨d_minus_Cs, hok, fun i hi env => hev i hi env⟩, h'.2 (by decide)⟩

/-! ## `SolveWithBackoff` -/

theorem backoffBound_ge {K : Type} [LinearOrderedField K] (b v : K) (hb : 0 ≤ b) :
    v ≤ backoffBound b v := by
  unfold backoffBound
  by_cases hv : v > 0
  · rw [if_pos hv]
    nlinarith [mul_nonneg hb (le_of_lt hv)]
  · rw [if_neg hv]
    have hv' : v ≤ 0 := not_lt.mp hv
    nlinarith [mul_nonneg_of_nonpos_of_nonpos (neg_nonpos.mpr hb) hv']

theorem backoffRow_holds {V K : Type} [LinearOrderedField K] (cost : LinearCost V K) (u : K)
    (x : V → K) :
    (NumericConstraint.linearRow cost.a none (some (u - cost.b)) cost.vars).holds x
      ↔ cost.value x ≤ u := by
  simp only [NumericConstraint.holds, geLower, leUpper, true_and, LinearCost.value]
  constructor <;> intro h <;> linarith

theorem backoffProgram_feasible {V K : Type} [LinearOrderedField K]
    (prog : NumericProgram V K) (cost : LinearCost V K) (u : K) (x : V → K) :
    (backoffProgram prog cost u).feasible x ↔ prog.feasible x ∧ cost.value x ≤ u := by
  unfold NumericProgram.feasible backoffProgram
  simp only [List.mem_append, List.mem_singleton]
  constructor
  · intro h
    exact ⟨fun c hc => h c (Or.inl hc), (backoffRow_holds cost u x).mp (h _ (Or.inr rfl))⟩
  · rintro ⟨h1, h2⟩ c (hc | hc)
    · exact h1 c hc
    · rw [hc]; exact (backoffRow_holds cost u x).mpr h2

/-- `SolveWithBackoff` on a program with exactly one linear cost and a backoff
scale. -/
theorem SolveWithBackoff_some {V K : Type} [DecidableEq V] [LinearOrderedField K]
    (Solve : NumericProgram V K → MathematicalProgramResult V K)
    (prog : NumericProgram V K) (hq : prog.num_quadratic_costs = 0)
    (b : K) (cost : LinearCost V K) (hcost : prog.linear_costs = [cost]) :
    SolveWithBackoff Solve prog (some b)
      = .ok ⟨Solve (backoffProgram prog cost (backoffBound b (Solve prog).optimal_cost)),
          backoffProgram prog cost (backoffBound b (Solve prog).optimal_cost),
          [prog, backoffProgram prog cost (backoffBound b (Solve prog).optimal_cost)]⟩ := by
  have hprog2 : (prog.AddLinearConstraintRow cost.a none
        (some (backoffBound b (Solve prog).optimal_cost - cost.b)) cost.vars).RemoveCost cost
      = backoffProgram prog cost (backoffBound b (Solve prog).optimal_cost) := by
    simp [NumericProgram.AddLinearConstraintRow, NumericProgram.RemoveCost, backoffProgram,
      hcost]
  have hget : vecGet prog.linear_costs 0 = .ok cost := by
    rw [hcost]; rfl
  have hget1 : vecGet (prog.AddLinearConstraintRow cost.a none
        (some (backoffBound b (Solve prog).optimal_cost - cost.b)) cost.vars).linear_costs 0
      = .ok cost := hget
  unfold SolveWithBackoff
  simp only [hq, ne_eq, not_true_eq_false, if_false]
  have hne : ¬ prog.linear_costs.isEmpty = true := by rw [hcost]; simp
  have hlen : ¬ prog.linear_costs.length ≠ 1 := by rw [hcost]; simp
  simp only [hne, not_false_eq_true, if_true, hlen, if_false, hget, except_bind_ok]
  rw [show (if (Solve prog).optimal_cost > 0 then (1 + b) * (Solve prog).optimal_cost
      else (1 - b) * (Solve prog).optimal_cost)
    = backoffBound b (Solve prog).optimal_cost from rfl, hget1]
  simp only [except_bind_ok, hprog2]
  rfl

/-- `SolveWithBackoff` without a backoff scale or without a linear cost. -/
theorem SolveWithBackoff_plain {V K : Type} [DecidableEq V] [LinearOrderedField K]
    (Solve : NumericProgram V K → MathematicalProgramResult V K)
    (prog : NumericProgram V K) (hq : prog.num_quadratic_costs = 0)
    (backoff_scale : Option K) (h : backoff_scale = none ∨ prog.linear_costs = []) :
    SolveWithBackoff Solve prog backoff_scale = .ok ⟨Solve prog, prog, [prog]⟩ := by
  unfold SolveWithBackoff
  simp only [hq, ne_eq, not_true_eq_false, if_false]
  cases backoff_scale with
  | none => rfl
  | some b =>
    rcases h with h | h
    · cases h
    · simp [h]

/-- C12: on a program without quadratic costs, when `backoff_scale = b` has a
value and the program has exactly one linear cost `aᵀ x + c₀`, with `v` the
optimal cost of the first solve and `u = (1 + b) v` if `v > 0`, `(1 - b) v`
otherwise: `SolveWithBackoff` solves the program, replaces the cost by the
constraint `aᵀ x ≤ u - c₀`, which says `aᵀ x + c₀ ≤ u`, solves again and returns
the second result; for `b ≥ 0`, `u ≥ v`, so every point of the first feasible set
with cost `v` stays feasible, and every feasible point of the second program has
cost at most `u`; with no `backoff_scale` or no linear cost the program is solved
once and left unchanged. -/
theorem SolveWithBackoff_backoff {V K : Type} [DecidableEq V] [LinearOrderedField K]
    (Solve : NumericProgram V K → MathematicalProgramResult V K)
    (prog : NumericProgram V K) (hq : prog.num_quadratic_costs = 0) :
    (∀ (b : K) (cost : LinearCost V K), prog.linear_costs = [cost] →
      SolveWithBackoff Solve prog (some b)
        = .ok ⟨Solve (backoffProgram prog cost (backoffBound b (Solve prog).optimal_cost)),
            backoffProgram prog cost (backoffBound b (Solve prog).optimal_cost),
            [prog, backoffProgram prog cost (backoffBound b (Solve prog).optimal_cost)]⟩ ∧
      backoffBound b (Solve prog).optimal_cost
        = (if (Solve prog).optimal_cost > 0 then (1 + b) * (Solve prog).optimal_cost
           else (1 - b) * (Solve prog).optimal_cost) ∧
      (∀ x : V → K,
        (backoffProgram prog cost (backoffBound b (Solve prog).optimal_cost)).feasible x
          ↔ prog.feasible x ∧
            cost.value x ≤ backoffBound b (Solve prog).optimal_cost) ∧
      (0 ≤ b → (Solve prog).optimal_cost ≤ backoffBound b (Solve prog).optimal_cost) ∧
      (0 ≤ b → ∀ x : V → K, prog.feasible x → cost.value x = (Solve prog).optimal_cost →
        (backoffProgram prog cost (backoffBound b (Solve prog).optimal_cost)).feasible x)) ∧
    (∀ backoff_scale : Option K, backoff_scale = none ∨ prog.linear_costs = [] →
      SolveWithBackoff Solve prog backoff_scale = .ok ⟨Solve prog, prog, [prog]⟩) := by
  refine ⟨fun b cost hcost => ⟨SolveWithBackoff_some Solve prog hq b cost hcost, rfl,
    fun x => backoffProgram_feasible prog cost _ x,
    fun hb => backoffBound_ge b _ hb, fun hb x hx hv => ?_⟩,
    fun backoff_scale h => SolveWithBackoff_plain Solve prog hq backoff_scale h⟩
  rw [backoffProgram_feasible]
  exact ⟨hx, by rw [hv]; exact backoffBound_ge b _ hb⟩

theorem SolveWithBackoff_backoff_witness :
    exampleNumericProgram.num_quadratic_costs = 0 ∧
    SolveWithBackoff exampleSolve exampleNumericProgram (some (1 / 10))
      = .ok ⟨exampleSolve (backoffProgram exampleNumericProgram exampleCost (33 / 10)),
          backoffProgram exampleNumericProgram exampleCost (33 / 10),
          [exampleNumericProgram,
            backoffProgram exampleNumericProgram exampleCost (33 / 10)]⟩ ∧
    SolveWithBackoff exampleSolve exampleNumericProgram none
      = .ok ⟨exampleSolve exampleNumericProgram, exampleNumericProgram,
          [exampleNumericProgram]⟩ := by
  have h := SolveWithBackoff_backoff exampleSolve exampleNumericProgram rfl
  have hu : backoffBound (1 / 10 : ℚ) (exampleSolve exampleNumericProgram).optimal_cost
      = 33 / 10 := by
    unfold backoffBound exampleSolve
    norm_num
  have h1 := (h.1 (1 / 10) exampleCost rfl).1
  rw [hu] at h1
  exact ⟨rfl, h1, h.2 none (Or.inl rfl)⟩

/-! ## The dispatch loop -/

theorem DispatchInv_init {R : Type} (cfg : DispatchConfig R) (Q : Nat → R → Prop) :
    DispatchInv cfg Q (DispatchState.init cfg) where
  is_success_size := by simp [DispatchState.init]
  ret_size := by simp [DispatchState.init]
  dispatched_le := Nat.zero_le _
  dispatched_eq := rfl
  active_lt := fun e he => by simp [DispatchState.init] at he
  recorded := fun k hk => by simp [DispatchState.init] at hk
  unset := fun k _ hk => by
    simp [DispatchState.init, List.getElem?_replicate, hk]
  stopped := fun _ c hc => by simp [DispatchState.init] at hc
  returned_idle := fun _ => rfl
  stored := fun k r h => by
    simp [DispatchState.init, List.getElem?_replicate] at h

/-- A step of the dispatching thread keeps `DispatchInv`. -/
theorem DispatchInv_mainStep {R : Type} (cfg : DispatchConfig R) (Q : Nat → R → Prop)
    (σ σ' : DispatchState R) (hI : DispatchInv cfg Q σ) (h : mainStep cfg σ = some σ') :
    DispatchInv cfg Q σ' := by
  unfold mainStep at h
  split at h
  · -- the test of the outer loop
    split at h
    · cases h
      exact { hI with returned_idle := fun hp => by cases hp }
    · rename_i hcond
      cases h
      refine { hI with returned_idle := fun _ => ?_ }
      have hlen : ¬ σ.active_operations.length > 0 := fun hl => hcond (Or.inl hl)
      show σ.active_operations = []
      exact List.length_eq_zero.mp (Nat.eq_zero_of_not_pos hlen)
  · -- the scan
    rename_i operation hpc
    split at h
    · cases h
      exact { hI with returned_idle := fun hp => by cases hp }
    · cases h
      exact { hI with returned_idle := fun hp => by cases hp }
    · cases h
      exact { hI with returned_idle := fun hp => by cases hp }
    · rename_i plane_count hop
      split at h
      · rename_i flag hflag
        cases h
        have hmem : (plane_count, FutureStatus.ready) ∈ σ.active_operations :=
          List.mem_iff_getElem?.mpr ⟨operation, hop⟩
        exact {
          is_success_size := hI.is_success_size
          ret_size := hI.ret_size
          dispatched_le := hI.dispatched_le
          dispatched_eq := hI.dispatched_eq
          active_lt := fun e he => hI.active_lt e (List.mem_of_mem_eraseIdx he)
          recorded := fun k hk => by
            by_cases hkc : k = plane_count
            · exact Or.inr ⟨flag, by rw [hkc]; exact hflag⟩
            · rcases hI.recorded k hk with ⟨st, hst⟩ | hr
              · obtain ⟨i, hi⟩ := List.mem_iff_getElem?.mp hst
                refine Or.inl ⟨st, List.mem_eraseIdx_iff_getElem?.mpr ⟨i, ?_, hi⟩⟩
                intro hio
                rw [hio, hop] at hi
                exact hkc (by cases hi; rfl)
              · exact Or.inr hr
          unset := hI.unset
          stopped := fun ht c hc => by
            show (if (!flag && cfg.terminate_at_failure) = true then true
              else σ.stop_dispatching) = true
            rcases List.mem_append.mp hc with h1 | h1
            · rw [hI.stopped ht c h1]; simp
            · simp only [List.mem_singleton, Prod.mk.injEq] at h1
              rw [← h1.2, ht]; simp
          returned_idle := fun hp => by cases hp
          stored := hI.stored }
      · cases h
        exact { hI with returned_idle := fun hp => by cases hp }
  · -- the dispatch
    split at h
    · rename_i hcond
      cases h
      exact {
        is_success_size := hI.is_success_size
        ret_size := hI.ret_size
        dispatched_le := hcond.2.1
        dispatched_eq := by
          show σ.dispatched ++ [σ.sos_dispatched] = List.range (σ.sos_dispatched + 1)
          rw [List.range_succ, hI.dispatched_eq]
        active_lt := fun e he => by
          show e.1 < σ.sos_dispatched + 1
          rcases List.mem_append.mp he with h1 | h1
          · exact Nat.lt_succ_of_lt (hI.active_lt e h1)
          · rw [List.mem_singleton.mp h1]; exact Nat.lt_succ_self _
        recorded := fun k hk => by
          by_cases hks : k = σ.sos_dispatched
          · exact Or.inl ⟨.running, List.mem_append_right _ (by rw [hks]; simp)⟩
          · rcases hI.recorded k (by
                have : k < σ.sos_dispatched + 1 := hk
                omega) with ⟨st, hst⟩ | hr
            · exact Or.inl ⟨st, List.mem_append_left _ hst⟩
            · exact Or.inr hr
        unset := fun k hk hkn => hI.unset k (by
          have : σ.sos_dispatched + 1 ≤ k := hk
          omega) hkn
        stopped := hI.stopped
        returned_idle := fun hp => by rw [‹σ.pc = DispatchPc.dispatch›] at hp; cases hp
        stored := hI.stored }
    · cases h
      exact { hI with returned_idle := fun hp => by cases hp }
  · cases h
  · cases h

/-- The end of a task keeps `DispatchInv`, when every value a task stores
satisfies `Q`. -/
theorem DispatchInv_finishStep {R : Type} (cfg : DispatchConfig R) (Q : Nat → R → Prop)
    (hQ : ∀ k r, cfg.solve_small_sos k = .ok (some r) → Q k r)
    (σ σ' : DispatchState R) (operation : Nat) (hI : DispatchInv cfg Q σ)
    (h : finishStep cfg operation σ = some σ') : DispatchInv cfg Q σ' := by
  unfold finishStep at h
  split at h
  · rename_i plane_count hop
    have hmem : (plane_count, FutureStatus.running) ∈ σ.active_operations :=
      List.mem_iff_getElem?.mpr ⟨operation, hop⟩
    have hlt : plane_count < σ.sos_dispatched := hI.active_lt _ hmem
    have hkeep : ∀ k st, (k, st) ∈ σ.active_operations → ∀ st' : FutureStatus,
        ∃ st'', (k, st'') ∈ σ.active_operations.set operation (plane_count, st') := by
      intro k st hk st'
      obtain ⟨i, hi⟩ := List.mem_iff_getElem?.mp hk
      by_cases hio : i = operation
      · rw [hio, hop] at hi
        cases hi
        refine ⟨st', List.mem_iff_getElem?.mpr ⟨operation, ?_⟩⟩
        rw [List.getElem?_set_self]
        by_contra hcon
        rw [List.getElem?_eq_none (by omega)] at hop
        cases hop
      · exact ⟨st, List.mem_iff_getElem?.mpr ⟨i, by
          rw [List.getElem?_set_ne (fun hh => hio hh.symm)]; exact hi⟩⟩
    have hactive : ∀ (st' : FutureStatus),
        ∀ e ∈ σ.active_operations.set operation (plane_count, st'),
          e.1 < σ.sos_dispatched := by
      intro st' e he
      rcases List.mem_or_eq_of_mem_set he with h1 | h1
      · exact hI.active_lt e h1
      · rw [h1]; exact hlt
    split at h
    · rename_i value hvalue
      cases h
      exact {
        is_success_size := by
          show (σ.is_success.set plane_count (some value.isSome)).length = cfg.num_tasks
          rw [List.length_set]; exact hI.is_success_size
        ret_size := by
          show (σ.ret.set plane_count value).length = cfg.num_tasks
          rw [List.length_set]; exact hI.ret_size
        dispatched_le := hI.dispatched_le
        dispatched_eq := hI.dispatched_eq
        active_lt := hactive _
        recorded := fun k hk => by
          rcases hI.recorded k hk with ⟨st, hst⟩ | ⟨flag, hflag⟩
          · exact Or.inl (hkeep k st hst _)
          · refine Or.inr ?_
            show ∃ flag, (σ.is_success.set plane_count (some value.isSome))[k]?
              = some (some flag)
            by_cases hkc : plane_count = k
            · subst hkc
              refine ⟨value.isSome, ?_⟩
              rw [List.getElem?_set_self]
              have := hI.is_success_size
              have := hI.dispatched_le
              omega
            · exact ⟨flag, by rw [List.getElem?_set_ne hkc]; exact hflag⟩
        unset := fun k hk hkn => by
          have hne : plane_count ≠ k := by
            have : σ.sos_dispatched ≤ k := hk
            omega
          show (σ.is_success.set plane_count (some value.isSome))[k]? = some none ∧
            (σ.ret.set plane_count value)[k]? = some none
          rw [List.getElem?_set_ne hne, List.getElem?_set_ne hne]
          exact hI.unset k hk hkn
        stopped := hI.stopped
        returned_idle := fun hp => by
          have := hI.returned_idle hp
          rw [this] at hmem
          cases hmem
        stored := fun k r hr => by
          have hr' : (σ.ret.set plane_count value)[k]? = some (some r) := hr
          by_cases hkc : plane_count = k
          · subst hkc
            rw [List.getElem?_set_self (by
              have := hI.ret_size
              have := hI.dispatched_le
              omega)] at hr'
            simp only [Option.some.injEq] at hr'
            exact hQ _ r (by rw [hvalue, hr'])
          · rw [List.getElem?_set_ne hkc] at hr'
            exact hI.stored k r hr' }
    · cases h
      exact {
        is_success_size := hI.is_success_size
        ret_size := hI.ret_size
        dispatched_le := hI.dispatched_le
        dispatched_eq := hI.dispatched_eq
        active_lt := hactive _
        recorded := fun k hk => by
          rcases hI.recorded k hk with ⟨st, hst⟩ | hr
          · exact Or.inl (hkeep k st hst _)
          · exact Or.inr hr
        unset := hI.unset
        stopped := hI.stopped
        returned_idle := fun hp => by
          have := hI.returned_idle hp
          rw [this] at hmem
          cases hmem
        stored := hI.stored }
  · cases h

/-- `DispatchInv` holds in every state the dispatch loop reaches. -/
theorem DispatchInv_steps {R : Type} (cfg : DispatchConfig R) (Q : Nat → R → Prop)
    (hQ : ∀ k r, cfg.solve_small_sos k = .ok (some r) → Q k r)
    (σ σ' : DispatchState R) (hI : DispatchInv cfg Q σ) (h : DispatchSteps cfg σ σ') :
    DispatchInv cfg Q σ' := by
  induction h with
  | refl => exact hI
  | tail _ hstep ih =>
    rcases hstep with hm | ⟨operation, hf⟩
    · exact DispatchInv_mainStep cfg Q _ _ ih hm
    · exact DispatchInv_finishStep cfg Q hQ _ _ operation ih hf

/-- Once `stop_dispatching` is set it stays set and `sos_dispatched` stays as it
is. -/
theorem stop_dispatching_step {R : Type} (cfg : DispatchConfig R) (σ σ' : DispatchState R)
    (hstop : σ.stop_dispatching = true) (h : DispatchStep cfg σ σ') :
    σ'.stop_dispatching = true ∧ σ'.sos_dispatched = σ.sos_dispatched := by
  rcases h with hm | ⟨operation, hf⟩
  · unfold mainStep at hm
    split at hm
    · split at hm <;> cases hm <;> exact ⟨hstop, rfl⟩
    · split at hm
      · cases hm; exact ⟨hstop, rfl⟩
      · cases hm; exact ⟨hstop, rfl⟩
      · cases hm; exact ⟨hstop, rfl⟩
      · split at hm
        · cases hm
          refine ⟨?_, rfl⟩
          show (if _ then true else σ.stop_dispatching) = true
          rw [hstop]; simp
        · cases hm; exact ⟨hstop, rfl⟩
    · split at hm
      · rename_i hcond
        rw [hstop] at hcond
        exact absurd hcond.2.2 (by simp)
      · cases hm; exact ⟨hstop, rfl⟩
    · cases hm
    · cases hm
  · unfold finishStep at hf
    split at hf
    · split at hf <;> cases hf <;> exact ⟨hstop, rfl⟩
    · cases hf

theorem stop_dispatching_steps {R : Type} (cfg : DispatchConfig R) (σ σ' : DispatchState R)
    (hstop : σ.stop_dispatching = true) (h : DispatchSteps cfg σ σ') :
    σ'.stop_dispatching = true ∧ σ'.sos_dispatched = σ.sos_dispatched := by
  induction h with
  | refl => exact ⟨hstop, rfl⟩
  | tail _ hstep ih =>
    obtain ⟨h1, h2⟩ := stop_dispatching_step cfg _ _ ih.1 hstep
    exact ⟨h1, by rw [h2, ih.2]⟩

/-- Every schedule is a run of the dispatch loop. -/
theorem runSchedule_steps {R : Type} (cfg : DispatchConfig R) :
    ∀ (schedule : List (Option Nat)) (σ : DispatchState R),
      DispatchSteps cfg σ (runSchedule cfg schedule σ) := by
  intro schedule
  induction schedule with
  | nil => intro σ; exact Relation.ReflTransGen.refl
  | cons choice rest ih =>
    intro σ
    cases choice with
    | none =>
      show DispatchSteps cfg σ (runSchedule cfg rest ((mainStep cfg σ).getD σ))
      cases hm : mainStep cfg σ with
      | none => exact ih σ
      | some σ1 => exact Relation.ReflTransGen.head (Or.inl hm) (ih σ1)
    | some operation =>
      show DispatchSteps cfg σ (runSchedule cfg rest ((finishStep cfg operation σ).getD σ))
      cases hf : finishStep cfg operation σ with
      | none => exact ih σ
      | some σ1 => exact Relation.ReflTransGen.head (Or.inr ⟨operation, hf⟩) (ih σ1)

/-- C14: in the dispatch loop of `FindSeparationCertificateGivenPolytope` with
`terminate_at_failure = true`, in every state the loop reaches: the tasks
dispatched so far are `0, 1, ..., sos_dispatched - 1`, in this order and each
once; once a retired task has reported failure, `sos_dispatched` is the same in
every later state; and when the loop has returned, no task is in flight, every
index below `sos_dispatched` has its success flag recorded, and every index at or
above it is still unset with a null result. -/
theorem dispatch_loop_temporal {R : Type} (cfg : DispatchConfig R)
    (hterm : cfg.terminate_at_failure = true) (σ : DispatchState R)
    (hreach : DispatchSteps cfg (DispatchState.init cfg) σ) :
    σ.dispatched = List.range σ.sos_dispatched ∧
    (∀ c, (c, false) ∈ σ.retired → ∀ σ', DispatchSteps cfg σ σ' →
      σ'.sos_dispatched = σ.sos_dispatched) ∧
    (σ.pc = .returned →
      σ.active_operations = [] ∧
      (∀ k, k < σ.sos_dispatched → ∃ flag, σ.is_success[k]? = some (some flag)) ∧
      ∀ k, σ.sos_dispatched ≤ k → k < cfg.num_tasks →
        σ.is_success[k]? = some none ∧ σ.ret[k]? = some none) := by
  have hI := DispatchInv_steps cfg (fun _ _ => True) (fun _ _ _ => trivial) _ σ
    (DispatchInv_init cfg _) hreach
  refine ⟨hI.dispatched_eq, fun c hc σ' hsteps => ?_, fun hp => ?_⟩
  · exact (stop_dispatching_steps cfg σ σ' (hI.stopped hterm c hc) hsteps).2
  · have hidle := hI.returned_idle hp
    refine ⟨hidle, fun k hk => ?_, hI.unset⟩
    rcases hI.recorded k hk with ⟨st, hst⟩ | hr
    · rw [hidle] at hst; cases hst
    · exact hr

theorem dispatch_loop_temporal_witness :
    exampleFailureConfig.terminate_at_failure = true ∧
    DispatchSteps exampleFailureConfig (DispatchState.init exampleFailureConfig)
      (runSchedule exampleFailureConfig exampleFailureSchedule
        (DispatchState.init exampleFailureConfig)) ∧
    (runSchedule exampleFailureConfig exampleFailureSchedule
      (DispatchState.init exampleFailureConfig)).pc = .returned ∧
    (runSchedule exampleFailureConfig exampleFailureSchedule
      (DispatchState.init exampleFailureConfig)).retired = [(0, false)] ∧
    (runSchedule exampleFailureConfig exampleFailureSchedule
      (DispatchState.init exampleFailureConfig)).dispatched = [0] ∧
    (runSchedule exampleFailureConfig exampleFailureSchedule
      (DispatchState.init exampleFailureConfig)).is_success = [some false, none] ∧
    ∀ σ', DispatchSteps exampleFailureConfig
        (runSchedule exampleFailureConfig exampleFailureSchedule
          (DispatchState.init exampleFailureConfig)) σ' →
      σ'.sos_dispatched = 1 := by
  have hreach := runSchedule_steps exampleFailureConfig exampleFailureSchedule
    (DispatchState.init exampleFailureConfig)
  have h := dispatch_loop_temporal exampleFailureConfig rfl _ hreach
  exact ⟨rfl, hreach, rfl, rfl, rfl, rfl, fun σ' hσ' => h.2.1 0 (by decide) σ' hσ'⟩

/-! ## The slots of `FindSeparationCertificateGivenPolytope` -/

theorem getElem?_of_vecGet {α : Type} (v : List α) (i : Nat) (x : α)
    (h : vecGet v i = .ok x) : v[i]? = some x := by
  unfold vecGet at h
  cases hv : v[i]? with
  | none => rw [hv] at h; cases h
  | some y => rw [hv] at h; cases h; rfl

/-- The loop that fills `active_plane_indices` collects the planes whose pair is
not ignored, in increasing order. -/
theorem activePlaneIndices_eq {V M P : Type} (self : CspaceFreePolytope V M P)
    (ignored : Finset (Nat × Nat)) :
    self.activePlaneIndices ignored = .ok (self.nonIgnoredPlanes ignored) := by
  obtain ⟨acc, hacc, hI⟩ := foldlM_range_inv (activePlaneBody self ignored)
    (fun i acc => acc = (List.range i).filter (fun i =>
      match self.separating_planes[i]? with
      | some plane => decide (plane.geometry_pair ∉ ignored)
      | none => false))
    self.separating_planes.length [] (by simp)
    (fun i acc hi hI => by
      dsimp only at hI ⊢
      have hget : self.separating_planes[i]? = some (self.separating_planes.get ⟨i, hi⟩) :=
        List.getElem?_eq_getElem hi
      have hfi : (match self.separating_planes[i]? with
          | some plane => decide (plane.geometry_pair ∉ ignored)
          | none => false)
          = decide ((self.separating_planes.get ⟨i, hi⟩).geometry_pair ∉ ignored) := by
        rw [hget]
      unfold activePlaneBody
      rw [vecGet_ok _ i hi, except_bind_ok, List.range_succ, List.filter_append, ← hI]
      by_cases hign : (self.separating_planes.get ⟨i, hi⟩).geometry_pair ∈ ignored
      · rw [if_neg (fun hn => hn hign)]
        refine ⟨acc, rfl, ?_⟩
        rw [List.filter_cons_of_neg (by rw [hfi]; simpa using hign)]
        simp
      · rw [if_pos hign]
        refine ⟨acc ++ [i], rfl, ?_⟩
        rw [List.filter_cons_of_pos (by rw [hfi]; simpa using hign)]
        simp)
  unfold CspaceFreePolytope.activePlaneIndices CspaceFreePolytope.nonIgnoredPlanes
  rw [hacc, hI]

theorem mem_nonIgnoredPlanes {V M P : Type} (self : CspaceFreePolytope V M P)
    (ignored : Finset (Nat × Nat)) (i : Nat) :
    i ∈ self.nonIgnoredPlanes ignored ↔
      ∃ plane, self.separating_planes[i]? = some plane ∧ plane.geometry_pair ∉ ignored := by
  unfold CspaceFreePolytope.nonIgnoredPlanes
  rw [List.mem_filter, List.mem_range]
  constructor
  · rintro ⟨hi, hf⟩
    rw [List.getElem?_eq_getElem hi] at hf
    exact ⟨_, List.getElem?_eq_getElem hi, by simpa using hf⟩
  · rintro ⟨plane, hp, hign⟩
    have hi : i < self.separating_planes.length := by
      by_contra hcon
      rw [List.getElem?_eq_none (by omega)] at hp
      cases hp
    exact ⟨hi, by rw [hp]; simpa using hign⟩

theorem nonIgnoredPlanes_sorted {V M P : Type} (self : CspaceFreePolytope V M P)
    (ignored : Finset (Nat × Nat)) :
    (self.nonIgnoredPlanes ignored).Pairwise (· < ·) := by
  unfold CspaceFreePolytope.nonIgnoredPlanes
  exact List.Pairwise.filter _ (List.pairwise_lt_range _)

/-- The certificate that `SeparationCertificate::GetSolution` returns carries the
plane index it was given. -/
theorem GetSolution_plane_index {V P : Type} [CommRing P] (self : SeparationCertificate P)
    (plane_index : Int) (a : List P) (b : P) (vars : List V) (result : SosSolution P)
    (sol : SeparationCertificateResult P)
    (h : self.GetSolution plane_index a b vars result = .ok sol) :
    sol.plane_index = plane_index := by
  unfold SeparationCertificate.GetSolution at h
  cases h1 : set_lagrangians result self.positive_side_rational_lagrangians [] with
  | error e => rw [h1] at h; cases h
  | ok positive =>
    rw [h1, except_bind_ok] at h
    cases h2 : set_lagrangians result self.negative_side_rational_lagrangians [] with
    | error e => rw [h2] at h; cases h
    | ok negative =>
      rw [h2, except_bind_ok] at h
      cases h3 : (List.range 3).foldlM (planeSolutionBody result a) (List.replicate 3 0) with
      | error e => rw [h3] at h; cases h
      | ok ret_a =>
        rw [h3, except_bind_ok] at h
        cases h
        rfl

/-- A value that `solve_small_sos` stores for the plane count `k` carries the
plane index `active_plane_indices[k]`. -/
theorem solve_small_sos_plane_index {V M P : Type} [CommRing P] [Inhabited M]
    (self : CspaceFreePolytope V M P) (vp : V → P) (mp : M → P) (fresh : Nat → V)
    (Solve : MathematicalProgram V P → SosSolution P) (d_minus_Cs : List P)
    (C_red L_red U_red : Finset Int) (active_plane_indices : List Nat) (k : Nat)
    (r : SeparationCertificateResult P)
    (h : self.solve_small_sos vp mp fresh Solve d_minus_Cs C_red L_red U_red
      active_plane_indices k = .ok (some r)) :
    ∃ plane_index : Nat, active_plane_indices[k]? = some plane_index ∧
      r.plane_index = (plane_index : Int) := by
  unfold CspaceFreePolytope.solve_small_sos at h
  cases h1 : vecGet active_plane_indices k with
  | error e => rw [h1] at h; cases h
  | ok plane_index =>
    rw [h1, except_bind_ok] at h
    refine ⟨plane_index, getElem?_of_vecGet _ _ _ h1, ?_⟩
    cases h2 : vecGet self.plane_geometries_ plane_index with
    | error e => rw [h2] at h; cases h
    | ok pg =>
      rw [h2, except_bind_ok] at h
      cases h3 : self.ConstructPlaneSearchProgram vp mp fresh pg d_minus_Cs C_red L_red
          U_red with
      | error e => rw [h3] at h; cases h
      | ok certificate_program =>
        rw [h3, except_bind_ok] at h
        dsimp only at h
        by_cases hs : (Solve certificate_program.prog).is_success = true
        · rw [if_pos hs] at h
          cases h4 : vecGet self.separating_planes plane_index with
          | error e => rw [h4] at h; cases h
          | ok plane =>
            rw [h4, except_bind_ok] at h
            cases h5 : certificate_program.certificate.GetSolution (plane_index : Int)
                plane.a plane.b plane.decision_variables
                (Solve certificate_program.prog) with
            | error e => rw [h5] at h; cases h
            | ok sol =>
              rw [h5, except_bind_ok] at h
              cases h
              exact GetSolution_plane_index _ _ _ _ _ _ _ h5
        · rw [if_neg hs] at h
          cases h

/-- C13: for every ignored-pair set, `active_plane_indices` holds the separating
planes whose geometry pair is not ignored, in increasing order of plane index;
the vector `ret` has one slot for each of them, in every state the dispatch loop
reaches and so when it is returned; and every non-null entry at slot `k` carries
the plane index `active_plane_indices[k]`, the index of the `k`-th such plane. -/
theorem FindSeparationCertificateGivenPolytope_slots {V M P : Type} [CommRing P]
    [Inhabited M] (self : CspaceFreePolytope V M P) (vp : V → P) (mp : M → P)
    (fresh : Nat → V) (Solve : MathematicalProgram V P → SosSolution P)
    (ignored_collision_pairs : Finset (Nat × Nat)) (d_minus_Cs : List P)
    (C_redundant_indices s_lower_redundant_indices s_upper_redundant_indices : Finset Int)
    (num_threads : Nat) (terminate_at_failure : Bool)
    (σ : DispatchState (SeparationCertificateResult P))
    (hreach : DispatchSteps
      (self.dispatchConfig vp mp fresh Solve d_minus_Cs C_redundant_indices
        s_lower_redundant_indices s_upper_redundant_indices
        (self.nonIgnoredPlanes ignored_collision_pairs) num_threads terminate_at_failure)
      (DispatchState.init
        (self.dispatchConfig vp mp fresh Solve d_minus_Cs C_redundant_indices
          s_lower_redundant_indices s_upper_redundant_indices
          (self.nonIgnoredPlanes ignored_collision_pairs) num_threads terminate_at_failure))
      σ) :
    self.activePlaneIndices ignored_collision_pairs
      = .ok (self.nonIgnoredPlanes ignored_collision_pairs) ∧
    (∀ i : Nat, i ∈ self.nonIgnoredPlanes ignored_collision_pairs ↔
      ∃ plane, self.separating_planes[i]? = some plane ∧
        plane.geometry_pair ∉ ignored_collision_pairs) ∧
    (self.nonIgnoredPlanes ignored_collision_pairs).Pairwise (· < ·) ∧
    σ.ret.length = (self.nonIgnoredPlanes ignored_collision_pairs).length ∧
    ∀ (k : Nat) (r : SeparationCertificateResult P), σ.ret[k]? = some (some r) →
      ∃ plane_index : Nat,
        (self.nonIgnoredPlanes ignored_collision_pairs)[k]? = some plane_index ∧
        r.plane_index = (plane_index : Int) := by
  have hI := DispatchInv_steps _
    (fun k (r : SeparationCertificateResult P) => ∃ plane_index : Nat,
      (self.nonIgnoredPlanes ignored_collision_pairs)[k]? = some plane_index ∧
      r.plane_index = (plane_index : Int))
    (fun k r h => solve_small_sos_plane_index self vp mp fresh Solve d_minus_Cs
      C_redundant_indices s_lower_redundant_indices s_upper_redundant_indices _ k r h)
    _ σ (DispatchInv_init _ _) hreach
  exact ⟨activePlaneIndices_eq self ignored_collision_pairs,
    mem_nonIgnoredPlanes self ignored_collision_pairs,
    nonIgnoredPlanes_sorted self ignored_collision_pairs, hI.ret_size, hI.stored⟩

theorem FindSeparationCertificateGivenPolytope_slots_witness :
    DispatchSteps exampleDispatchConfig (DispatchState.init exampleDispatchConfig)
      (runSchedule exampleDispatchConfig exampleSchedule
        (DispatchState.init exampleDispatchConfig)) ∧
    (runSchedule exampleDispatchConfig exampleSchedule
      (DispatchState.init exampleDispatchConfig)).pc = .returned ∧
    exampleSearchCfp.nonIgnoredPlanes ∅ = [0] ∧
    (runSchedule exampleDispatchConfig exampleSchedule
      (DispatchState.init exampleDispatchConfig)).ret.length = 1 ∧
    ∀ (k : Nat) (r : SeparationCertificateResult Int),
      (runSchedule exampleDispatchConfig exampleSchedule
        (DispatchState.init exampleDispatchConfig)).ret[k]? = some (some r) →
      ∃ plane_index : Nat, ([0] : List Nat)[k]? = some plane_index ∧
        r.plane_index = (plane_index : Int) := by
  have hreach := runSchedule_steps exampleDispatchConfig exampleSchedule
    (DispatchState.init exampleDispatchConfig)
  have h := FindSeparationCertificateGivenPolytope_slots exampleSearchCfp
    (fun v : Nat => (v : Int)) (fun _ : Nat => (1 : Int)) (fun k => k) exampleSosSolve ∅
    [3, 4] {1} ∅ {0} 1 true _ hreach
  exact ⟨hreach, rfl, rfl, h.2.2.2.1, h.2.2.2.2⟩

/-! ## `AddEllipsoidContainmentConstraint` -/

theorem rowDot_append {V K : Type} [CommRing K] (f : Nat → K) (x : V → K) :
    ∀ (l₁ l₂ : List V) (j : Nat),
      rowDot f x j (l₁ ++ l₂) = rowDot f x j l₁ + rowDot f x (j + l₁.length) l₂ := by
  intro l₁
  induction l₁ with
  | nil => intro l₂ j; simp [rowDot]
  | cons v vs ih =>
    intro l₂ j
    show f j * x v + rowDot f x (j + 1) (vs ++ l₂)
      = f j * x v + rowDot f x (j + 1) vs + rowDot f x (j + (vs.length + 1)) l₂
    rw [ih, show j + 1 + vs.length = j + (vs.length + 1) by omega]
    ring

theorem rowDot_congr {V K : Type} [CommRing K] (f g : Nat → K) (x : V → K) :
    ∀ (l : List V) (j : Nat), (∀ k, j ≤ k → k < j + l.length → f k = g k) →
      rowDot f x j l = rowDot g x j l := by
  intro l
  induction l with
  | nil => intro j _; rfl
  | cons v vs ih =>
    intro j h
    simp only [rowDot]
    rw [h j (le_refl _) (by simp), ih (j + 1) (fun k hk1 hk2 => h k (by omega) (by
      simp only [List.length_cons]; omega))]

/-- One face of the first loop of `AddEllipsoidContainmentConstraint`. -/
theorem ellipsoidFaceBody_ok {V K : Type} [LinearOrderedField K] (Q : MatrixXd K)
    (s0 : List K) (C : MatrixX V) (d ellipsoid_margins : List V)
    (hQ : Q.rows = Q.cols) (hQC : Q.rows = C.cols) (hs0 : s0.length = C.cols)
    (st : MatrixXd K × List K × NumericProgram V K) (i : Nat)
    (hrows : st.1.rows = Q.rows + 1) (hcols : st.1.cols = 2 + C.cols)
    (hb : st.2.1.length = Q.rows + 1)
    (ci : List V) (di mi : V) (hci : C.row i = .ok ci) (hdi : d[i]? = some di)
    (hmi : ellipsoid_margins[i]? = some mi) :
    ellipsoidFaceBody Q s0 C d ellipsoid_margins st i
      = .ok (lorentz1Matrix Q s0 C.cols, List.replicate (Q.rows + 1) 0,
          st.2.2.AddLorentzConeConstraint (lorentz1Matrix Q s0 C.cols)
            (List.replicate (Q.rows + 1) 0) (ci ++ [di, mi])) := by
  obtain ⟨⟨r, c, f⟩, b, prog⟩ := st
  dsimp only at hrows hcols hb
  subst hrows hcols
  have hd1 := vecGet_of_getElem? _ _ _ hdi
  have hm1 := vecGet_of_getElem? _ _ _ hmi
  unfold ellipsoidFaceBody
  dsimp only [MatrixXd.setZero, MatrixXd.assignBlock, MatrixXd.ofRow, MatrixXd.neg]
  rw [if_pos ⟨by omega, by omega, rfl, hs0⟩, except_bind_ok]
  dsimp only [MatrixXd.setCoeff]
  rw [if_pos ⟨by omega, by omega⟩, except_bind_ok]
  dsimp only
  rw [if_pos ⟨by omega, by omega⟩, except_bind_ok]
  dsimp only
  rw [if_pos ⟨by omega, by omega, rfl, rfl⟩, except_bind_ok, hci, except_bind_ok, hd1,
    except_bind_ok, hm1, except_bind_ok, hb]
  rfl

/-- `AddEllipsoidContainmentConstraint` in closed form: per face one Lorentz cone
constraint on `[cᵢ; dᵢ; δᵢ]` with the matrix `lorentz1Matrix`, then per face one
on `cᵢ` with the matrix `lorentz2Matrix`. -/
theorem AddEllipsoidContainmentConstraint_ok {V K : Type} [LinearOrderedField K]
    (s_lower_ s_upper_ : List K) (prog : NumericProgram V K) (Q : MatrixXd K) (s0 : List K)
    (C : MatrixX V) (d ellipsoid_margins : List V)
    (c : Nat → List V) (dv mv : Nat → V)
    (hQ : Q.rows = Q.cols) (hQC : Q.rows = C.cols) (hs0 : s0.length = C.cols)
    (hupper : arrayLe s0 s_upper_ = .ok true) (hlower : arrayLe s_lower_ s0 = .ok true)
    (hC : ∀ i, i < C.rows → C.row i = .ok (c i))
    (hd : ∀ i, i < C.rows → d[i]? = some (dv i))
    (hm : ∀ i, i < C.rows → ellipsoid_margins[i]? = some (mv i)) :
    AddEllipsoidContainmentConstraint s_lower_ s_upper_ prog Q s0 C d ellipsoid_margins
      = .ok { prog with constraints := prog.constraints
          ++ ellipsoidConstraints Q s0 C.rows C.cols c dv mv } := by
  obtain ⟨st, hst, hr, hc, hb, hp⟩ := foldlM_range_inv
    (ellipsoidFaceBody Q s0 C d ellipsoid_margins)
    (fun i (st : MatrixXd K × List K × NumericProgram V K) =>
      st.1.rows = Q.rows + 1 ∧ st.1.cols = 2 + C.cols ∧ st.2.1.length = Q.rows + 1 ∧
      st.2.2 = { prog with constraints := prog.constraints
        ++ (List.range i).map (fun i =>
          NumericConstraint.lorentzCone (lorentz1Matrix Q s0 C.cols)
            (List.replicate (Q.rows + 1) 0) (c i ++ [dv i, mv i])) })
    C.rows (MatrixXd.zero (Q.rows + 1) (2 + C.cols), List.replicate (Q.rows + 1) 0, prog)
    ⟨rfl, rfl, by simp, by simp⟩
    (fun i st hi hI => by
      obtain ⟨hr, hc, hb, hp⟩ := hI
      refine ⟨_, ellipsoidFaceBody_ok Q s0 C d ellipsoid_margins hQ hQC hs0 st i hr hc hb
        (c i) (dv i) (mv i) (hC i hi) (hd i hi) (hm i hi), rfl, rfl, by simp, ?_⟩
      dsimp only
      rw [hp, List.range_succ, List.map_append]
      simp [NumericProgram.AddLorentzConeConstraint])
  obtain ⟨prog2, hprog2, hp2⟩ := foldlM_range_inv
    (unitRowBody (lorentz2Matrix C.cols) ((List.replicate (1 + C.cols) (0 : K)).set 0 1) C)
    (fun i (p : NumericProgram V K) =>
      p = { st.2.2 with constraints := st.2.2.constraints
        ++ (List.range i).map (fun i =>
          NumericConstraint.lorentzCone (lorentz2Matrix C.cols)
            ((List.replicate (1 + C.cols) (0 : K)).set 0 1) (c i)) })
    C.rows st.2.2 (by simp)
    (fun i p hi hI => by
      dsimp only at hI ⊢
      refine ⟨_, by unfold unitRowBody; rw [hC i hi, except_bind_ok]; rfl, ?_⟩
      rw [hI, List.range_succ, List.map_append]
      simp [NumericProgram.AddLorentzConeConstraint])
  have hA2 : (MatrixXd.zero (1 + C.cols) C.cols : MatrixXd K).assignBottomRows C.cols
      (MatrixXd.Identity C.cols) = .ok (lorentz2Matrix C.cols) := by
    unfold MatrixXd.assignBottomRows MatrixXd.zero
    dsimp only
    rw [if_pos (by omega)]
    unfold MatrixXd.assignBlock
    dsimp only [MatrixXd.Identity]
    rw [if_pos ⟨by omega, by omega, rfl, rfl⟩]
    rfl
  have hb2 : vecSet (List.replicate (1 + C.cols) (0 : K)) 0 1
      = .ok ((List.replicate (1 + C.cols) (0 : K)).set 0 1) :=
    vecSet_ok _ _ _ (by simp)
  unfold AddEllipsoidContainmentConstraint
  simp only [hQ, ne_eq, not_true_eq_false, if_false, hupper, hlower, except_bind_ok,
    Bool.true_eq_false]
  rw [← hQ, hst, except_bind_ok, hA2, except_bind_ok, hb2, except_bind_ok, hprog2, hp2, hp]
  simp [ellipsoidConstraints, List.append_assoc]

/-- The first entry of `A_lorentz1 * [c; d; δ]` is `d - cᵀ s0 - δ`. -/
theorem lorentz1_first_entry {V K : Type} [LinearOrderedField K] (Q : MatrixXd K)
    (s0 : List K) (ci : List V) (di mi : V) (x : V → K) :
    (lorentz1Matrix Q s0 ci.length).mulVars (ci ++ [di, mi]) x 0
      = x di - rowDot (fun k => s0.getD k 0) x 0 ci - x mi := by
  unfold MatrixXd.mulVars
  rw [rowDot_append]
  have h1 : rowDot ((lorentz1Matrix Q s0 ci.length).coeff 0) x 0 ci
      = rowDot (fun k => -(s0.getD k 0)) x 0 ci := by
    apply rowDot_congr
    intro k _ hk
    simp only [lorentz1Matrix, MatrixXd.neg, MatrixXd.ofRow]
    rw [if_neg (by omega), if_neg (by omega), if_neg (by omega), if_pos (by omega)]
    rfl
  have h2 : ∀ (l : List V) (j : Nat), rowDot (fun k => -(s0.getD k 0)) x j l
      = -rowDot (fun k => s0.getD k 0) x j l := by
    intro l
    induction l with
    | nil => intro j; simp [rowDot]
    | cons v vs ih => intro j; simp only [rowDot, ih]; ring
  rw [h1, h2]
  have e1 : (lorentz1Matrix Q s0 ci.length).coeff 0 (ci.length) = 1 := by
    dsimp only [lorentz1Matrix]
    rw [if_neg (by omega), if_neg (by omega), if_pos ⟨rfl, rfl⟩]
  have e2 : (lorentz1Matrix Q s0 ci.length).coeff 0 (ci.length + 1) = -1 := by
    dsimp only [lorentz1Matrix]
    rw [if_neg (by omega), if_pos ⟨rfl, rfl⟩]
  simp only [rowDot, Nat.zero_add, e1, e2]
  ring

/-- Entry `r + 1` of `A_lorentz1 * [c; d; δ]` is entry `r` of `Q c`, the sum of
`Q(r, k) * c(k)` over `k`. -/
theorem lorentz1_rest_entries {V K : Type} [LinearOrderedField K] (Q : MatrixXd K)
    (s0 : List K) (ci : List V) (di mi : V) (x : V → K) (hQ : Q.cols = ci.length)
    (r : Nat) (hr : r < Q.rows) :
    (lorentz1Matrix Q s0 ci.length).mulVars (ci ++ [di, mi]) x (r + 1)
      = rowDot (fun k => Q.coeff r k) x 0 ci := by
  unfold MatrixXd.mulVars
  rw [rowDot_append]
  have h1 : rowDot ((lorentz1Matrix Q s0 ci.length).coeff (r + 1)) x 0 ci
      = rowDot (fun k => Q.coeff r k) x 0 ci := by
    apply rowDot_congr
    intro k _ hk
    simp only [lorentz1Matrix]
    rw [if_pos (by omega)]
    rfl
  rw [h1]
  have e1 : (lorentz1Matrix Q s0 ci.length).coeff (r + 1) (ci.length) = 0 := by
    dsimp only [lorentz1Matrix]
    rw [if_neg (by omega), if_neg (by omega), if_neg (by omega), if_neg (by omega)]
  have e2 : (lorentz1Matrix Q s0 ci.length).coeff (r + 1) (ci.length + 1) = 0 := by
    dsimp only [lorentz1Matrix]
    rw [if_neg (by omega), if_neg (by omega), if_neg (by omega), if_neg (by omega)]
  simp only [rowDot, Nat.zero_add, e1, e2]
  ring

theorem rowDot_zero {V K : Type} [CommRing K] (f : Nat → K) (x : V → K) :
    ∀ (l : List V) (j : Nat), (∀ k, j ≤ k → k < j + l.length → f k = 0) →
      rowDot f x j l = 0 := by
  intro l
  induction l with
  | nil => intro j _; rfl
  | cons v vs ih =>
    intro j h
    simp only [rowDot]
    rw [h j (le_refl _) (by simp), ih (j + 1) (fun k hk1 hk2 => h k (by omega) (by
      simp only [List.length_cons]; omega))]
    ring

theorem rowDot_indicator {V K : Type} [CommRing K] (x : V → K) (r : Nat) :
    ∀ (l : List V) (j : Nat) (v : V), j ≤ r → l[r - j]? = some v →
      rowDot (fun k => if r = k then (1 : K) else 0) x j l = x v := by
  intro l
  induction l with
  | nil => intro j v _ h; simp at h
  | cons w ws ih =>
    intro j v hj h
    simp only [rowDot]
    by_cases hrj : r = j
    · subst hrj
      simp only [Nat.sub_self, List.getElem?_cons_zero, Option.some.injEq] at h
      rw [if_pos rfl, h, rowDot_zero _ _ _ _ (fun k hk _ => if_neg (by omega))]
      ring
    · have hsub : r - j = (r - (j + 1)) + 1 := by omega
      rw [hsub, List.getElem?_cons_succ] at h
      rw [if_neg hrj, ih (j + 1) v (by omega) h]
      ring

/-- The expression `A_lorentz2 * c + b_lorentz2` is `[1; c]`. -/
theorem lorentz2_entries {V K : Type} [LinearOrderedField K] (ci : List V) (x : V → K) :
    (lorentz2Matrix ci.length : MatrixXd K).mulVars ci x 0
        + ((List.replicate (1 + ci.length) (0 : K)).set 0 1).getD 0 0 = 1 ∧
    ∀ (r : Nat) (v : V), ci[r]? = some v →
      (lorentz2Matrix ci.length : MatrixXd K).mulVars ci x (r + 1)
        + ((List.replicate (1 + ci.length) (0 : K)).set 0 1).getD (r + 1) 0 = x v := by
  constructor
  · unfold MatrixXd.mulVars
    rw [rowDot_zero _ _ _ _ (fun k _ _ => by
      dsimp only [lorentz2Matrix]
      rw [if_neg (by omega)])]
    rw [show 1 + ci.length = ci.length + 1 by omega, List.replicate_succ]
    simp
  · intro r v hv
    have hr : r < ci.length := by
      by_contra hcon
      rw [List.getElem?_eq_none (by omega)] at hv
      cases hv
    unfold MatrixXd.mulVars
    have h1 : rowDot ((lorentz2Matrix ci.length : MatrixXd K).coeff (r + 1)) x 0 ci
        = rowDot (fun k => if r = k then (1 : K) else 0) x 0 ci := by
      apply rowDot_congr
      intro k _ hk
      dsimp only [lorentz2Matrix, MatrixXd.Identity]
      rw [if_pos (by omega)]
      have : r + 1 - (1 + ci.length - ci.length) = r := by omega
      rw [this, Nat.sub_zero]
    rw [h1, rowDot_indicator x r ci 0 v (Nat.zero_le _) (by simpa using hv)]
    rw [show 1 + ci.length = ci.length + 1 by omega, List.replicate_succ]
    simp [List.getD_eq_getElem?_getD, List.getElem?_replicate, hr]

/-- C15, at a shape matrix `Q` that is not symmetric: with `Q = [[0, 1], [0, 0]]`,
`s0 = (1/2, 0)` and one face `(c₀, c₁)`, the expression of the first Lorentz cone
constraint is `[d - s0ᵀ c - δ; c₁; 0]`, which is `[d - s0ᵀ c - δ; Q c]`, while
`cᵀ Q = (0, c₀)`; at `c = (1, 0)`, `d = 1`, `δ = 0` the constraint holds although
`‖cᵀ Q‖₂ = 1 > 1/2 = d - cᵀ s0 - δ`. -/
theorem AddEllipsoidContainmentConstraint_transposed :
    AddEllipsoidContainmentConstraint ([-1, -1] : List ℚ) [1, 1] NumericProgram.empty
        exampleQ [1 / 2, 0] exampleCvars [2] [3]
      = .ok ⟨[], 0, ellipsoidConstraints exampleQ [1 / 2, 0] 1 2
          (fun _ => [0, 1]) (fun _ => 2) (fun _ => 3)⟩ ∧
    (∀ x : Nat → ℚ,
      (lorentz1Matrix exampleQ [1 / 2, 0] 2).mulVars [0, 1, 2, 3] x 0
        = x 2 - (1 / 2 * x 0 + 0 * x 1) - x 3 ∧
      (lorentz1Matrix exampleQ [1 / 2, 0] 2).mulVars [0, 1, 2, 3] x 1
        = exampleQ.coeff 0 0 * x 0 + exampleQ.coeff 0 1 * x 1 ∧
      (lorentz1Matrix exampleQ [1 / 2, 0] 2).mulVars [0, 1, 2, 3] x 2
        = exampleQ.coeff 1 0 * x 0 + exampleQ.coeff 1 1 * x 1) ∧
    (NumericConstraint.lorentzCone (lorentz1Matrix exampleQ [1 / 2, 0] 2)
      (List.replicate 3 0) [0, 1, 2, 3]).holds examplePoint ∧
    ¬ ((examplePoint 0 * exampleQ.coeff 0 0 + examplePoint 1 * exampleQ.coeff 1 0) ^ 2
        + (examplePoint 0 * exampleQ.coeff 0 1 + examplePoint 1 * exampleQ.coeff 1 1) ^ 2
      ≤ (examplePoint 2 - (examplePoint 0 * (1 / 2) + examplePoint 1 * 0)
          - examplePoint 3) ^ 2) := by
  have hentries : ∀ x : Nat → ℚ,
      (lorentz1Matrix exampleQ [1 / 2, 0] 2).mulVars [0, 1, 2, 3] x 0
        = x 2 - (1 / 2 * x 0 + 0 * x 1) - x 3 ∧
      (lorentz1Matrix exampleQ [1 / 2, 0] 2).mulVars [0, 1, 2, 3] x 1
        = exampleQ.coeff 0 0 * x 0 + exampleQ.coeff 0 1 * x 1 ∧
      (lorentz1Matrix exampleQ [1 / 2, 0] 2).mulVars [0, 1, 2, 3] x 2
        = exampleQ.coeff 1 0 * x 0 + exampleQ.coeff 1 1 * x 1 := by
    intro x
    have h0 := lorentz1_first_entry exampleQ [1 / 2, 0] [0, 1] 2 3 x
    have h1 := lorentz1_rest_entries exampleQ [1 / 2, 0] [0, 1] 2 3 x rfl 0 (by decide)
    have h2 := lorentz1_rest_entries exampleQ [1 / 2, 0] [0, 1] 2 3 x rfl 1 (by decide)
    refine ⟨?_, ?_, ?_⟩
    · exact h0.trans (by simp [rowDot])
    · exact h1.trans (by simp [rowDot])
    · exact h2.trans (by simp [rowDot])
  refine ⟨?_, hentries, ?_, ?_⟩
  · have h := AddEllipsoidContainmentConstraint_ok ([-1, -1] : List ℚ) [1, 1]
      (NumericProgram.empty : NumericProgram Nat ℚ) exampleQ [1 / 2, 0] exampleCvars [2] [3]
      (fun _ => [0, 1]) (fun _ => 2) (fun _ => 3) rfl rfl rfl
      (by simp [arrayLe]; norm_num) (by simp [arrayLe]; norm_num)
      (fun i hi => by
        have : i = 0 := by
          have : i < 1 := hi
          omega
        subst this; rfl)
      (fun i hi => by
        have : i = 0 := by
          have : i < 1 := hi
          omega
        subst this; rfl)
      (fun i hi => by
        have : i = 0 := by
          have : i < 1 := hi
          omega
        subst this; rfl)
    rw [h]
    rfl
  · obtain ⟨h0, h1, h2⟩ := hentries examplePoint
    simp only [NumericConstraint.holds]
    have hrows : (lorentz1Matrix exampleQ [1 / 2, 0] 2).rows - 1 = 2 := rfl
    rw [hrows, Finset.sum_range_succ, Finset.sum_range_one, h0, h1, h2]
    simp [examplePoint, exampleQ]
    norm_num
  · simp [examplePoint, exampleQ]
    rw [abs_of_pos (by norm_num)]
    norm_num

/-! ## `AddCspacePolytopeContainment` -/

theorem foldlM_unit_ok (f : Unit → Nat → Except Error Unit) :
    ∀ xs : List Nat, (∀ i ∈ xs, f () i = .ok ()) → xs.foldlM f () = .ok () := by
  intro xs
  induction xs with
  | nil => intro _; rfl
  | cons x xs ih =>
    intro h
    rw [List.foldlM_cons, h x (List.mem_cons_self _ _), except_bind_ok]
    exact ih (fun i hi => h i (List.mem_cons_of_mem _ hi))

theorem foldlM_unit_error (f : Unit → Nat → Except Error Unit) (e : Error) :
    ∀ xs : List Nat, (∀ i ∈ xs, f () i = .ok () ∨ f () i = .error e) →
      (∃ i ∈ xs, f () i = .error e) → xs.foldlM f () = .error e := by
  intro xs
  induction xs with
  | nil => rintro _ ⟨i, hi, _⟩; cases hi
  | cons x xs ih =>
    intro h hex
    rw [List.foldlM_cons]
    rcases h x (List.mem_cons_self _ _) with hx | hx
    · rw [hx, except_bind_ok]
      refine ih (fun i hi => h i (List.mem_cons_of_mem _ hi)) ?_
      obtain ⟨i, hi, hie⟩ := hex
      rcases List.mem_cons.mp hi with rfl | hi'
      · rw [hx] at hie; cases hie
      · exact ⟨i, hi', hie⟩
    · rw [hx]; rfl

/-- The check of one entry of `s_inner_pts` against its bounds. -/
theorem innerPointCheckBody_eq {K : Type} [LinearOrderedField K] (s_lower_ s_upper_ : List K)
    (s_inner_pts : MatrixXd K) (i j : Nat) (lower upper : K)
    (hi : i < s_inner_pts.rows) (hj : j < s_inner_pts.cols)
    (hl : s_lower_[i]? = some lower) (hu : s_upper_[i]? = some upper) :
    innerPointCheckBody s_lower_ s_upper_ s_inner_pts i () j
      = if lower ≤ s_inner_pts.coeff i j ∧ s_inner_pts.coeff i j ≤ upper then .ok ()
        else .error .runtimeError := by
  unfold innerPointCheckBody MatrixXd.get
  rw [if_pos ⟨hi, hj⟩, except_bind_ok, vecGet_of_getElem? _ _ _ hu, except_bind_ok,
    vecGet_of_getElem? _ _ _ hl]
  by_cases h1 : s_inner_pts.coeff i j > upper
  · rw [if_pos h1, if_neg (fun h => absurd h.2 (not_le.mpr h1))]
    rfl
  · rw [if_neg h1]
    by_cases h2 : s_inner_pts.coeff i j < lower
    · simp only [except_bind_ok, except_pure]
      rw [if_pos h2, if_neg (fun h => absurd h.1 (not_le.mpr h2))]
      rfl
    · simp only [except_bind_ok, except_pure]
      rw [if_neg h2, if_pos ⟨not_lt.mp h2, not_lt.mp h1⟩]

/-- The bound check of `AddCspacePolytopeContainment` passes when every entry is
within its bounds and throws otherwise. -/
theorem pointCheck_eq {K : Type} [LinearOrderedField K] (s_lower_ s_upper_ : List K)
    (s_inner_pts : MatrixXd K) (hl : s_lower_.length = s_inner_pts.rows)
    (hu : s_upper_.length = s_inner_pts.rows) :
    (WithinBounds s_lower_ s_upper_ s_inner_pts →
      (List.range s_inner_pts.rows).foldlM
        (outerPointCheckBody s_lower_ s_upper_ s_inner_pts) () = .ok ()) ∧
    (¬ WithinBounds s_lower_ s_upper_ s_inner_pts →
      (List.range s_inner_pts.rows).foldlM
        (outerPointCheckBody s_lower_ s_upper_ s_inner_pts) () = .error .runtimeError) := by
  have hbody : ∀ (i : Nat), i < s_inner_pts.rows → ∀ j : Nat, j < s_inner_pts.cols →
      innerPointCheckBody s_lower_ s_upper_ s_inner_pts i () j
        = if s_lower_.getD i 0 ≤ s_inner_pts.coeff i j ∧
            s_inner_pts.coeff i j ≤ s_upper_.getD i 0 then .ok ()
          else .error .runtimeError := fun i hi j hj =>
    innerPointCheckBody_eq s_lower_ s_upper_ s_inner_pts i j _ _ hi hj
      (by rw [List.getD_eq_getElem?_getD, List.getElem?_eq_getElem (by omega)]; rfl)
      (by rw [List.getD_eq_getElem?_getD, List.getElem?_eq_getElem (by omega)]; rfl)
  have hinner : ∀ (i : Nat), i < s_inner_pts.rows →
      ∀ j ∈ List.range s_inner_pts.cols,
        innerPointCheckBody s_lower_ s_upper_ s_inner_pts i () j = .ok () ∨
        innerPointCheckBody s_lower_ s_upper_ s_inner_pts i () j = .error .runtimeError := by
    intro i hi j hj
    rw [hbody i hi j (List.mem_range.mp hj)]
    split
    · exact Or.inl rfl
    · exact Or.inr rfl
  constructor
  · intro h
    apply foldlM_unit_ok
    intro i hi
    have hi' := List.mem_range.mp hi
    unfold outerPointCheckBody
    apply foldlM_unit_ok
    intro j hj
    rw [hbody i hi' j (List.mem_range.mp hj), if_pos (h i j hi' (List.mem_range.mp hj))]
  · intro h
    unfold WithinBounds at h
    push_neg at h
    obtain ⟨i, j, hi, hj, hbad⟩ := h
    have hrow : outerPointCheckBody s_lower_ s_upper_ s_inner_pts () i
        = .error .runtimeError := by
      unfold outerPointCheckBody
      refine foldlM_unit_error _ _ _ (hinner i hi) ⟨j, List.mem_range.mpr hj, ?_⟩
      rw [hbody i hi j hj, if_neg (fun hh => ?_)]
      exact absurd (hbad hh.1) (not_lt.mpr hh.2)
    refine foldlM_unit_error _ _ _ (fun i' hi' => ?_) ⟨i, List.mem_range.mpr hi, hrow⟩
    have hi'' := List.mem_range.mp hi'
    unfold outerPointCheckBody
    by_cases hall : ∀ j ∈ List.range s_inner_pts.cols,
        innerPointCheckBody s_lower_ s_upper_ s_inner_pts i' () j = .ok ()
    · exact Or.inl (foldlM_unit_ok _ _ hall)
    · push_neg at hall
      obtain ⟨j', hj', hne⟩ := hall
      refine Or.inr (foldlM_unit_error _ _ _ (hinner i' hi'') ⟨j', hj', ?_⟩)
      rcases hinner i' hi'' j' hj' with h1 | h1
      · exact absurd h1 hne
      · exact h1

theorem mapM_ok_length {α β : Type} (f : α → Except Error β) :
    ∀ (l : List α) (r : List β), l.mapM f = .ok r → r.length = l.length := by
  intro l
  induction l with
  | nil =>
    intro r h
    rw [List.mapM_nil] at h
    cases h
    rfl
  | cons a as ih =>
    intro r h
    rw [List.mapM_cons] at h
    cases hfa : f a with
    | error e => rw [hfa] at h; cases h
    | ok b =>
      rw [hfa, except_bind_ok] at h
      cases hrest : as.mapM f with
      | error e => rw [hrest] at h; cases h
      | ok bs =>
        rw [hrest, except_bind_ok] at h
        cases h
        simp [ih bs hrest]

theorem MatrixX_row_length {α : Type} (C : MatrixX α) (i : Nat) (l : List α)
    (h : C.row i = .ok l) : l.length = C.cols := by
  have := mapM_ok_length _ _ _ h
  simpa using this

theorem block_le (i F w : Nat) (h : i < F) : i * w + w ≤ w * F := by
  have := Nat.mul_le_mul_left w (Nat.succ_le_of_lt h)
  rw [Nat.mul_succ] at this
  rw [Nat.mul_comm i w]
  exact this

/-- One face of the loop of `AddCspacePolytopeContainment`. -/
theorem containmentFaceBody_ok {V K : Type} [LinearOrderedField K] (C : MatrixX V)
    (d : List V) (s_inner_pts : MatrixXd K) (st : MatrixXd K × List V) (i : Nat)
    (hi : i < C.rows)
    (hrows : st.1.rows = s_inner_pts.cols * C.rows)
    (hcols : st.1.cols = (s_inner_pts.rows + 1) * C.rows)
    (hvars : st.2.length = (s_inner_pts.rows + 1) * C.rows)
    (ci : List V) (di : V) (hci : C.row i = .ok ci) (hlen : ci.length = s_inner_pts.rows)
    (hdi : d[i]? = some di) :
    containmentFaceBody C d s_inner_pts st i
      = .ok (⟨st.1.rows, st.1.cols, fun a b =>
          if i * s_inner_pts.cols ≤ a ∧ a < i * s_inner_pts.cols + s_inner_pts.cols ∧
              i * (s_inner_pts.rows + 1) + s_inner_pts.rows ≤ b ∧
              b < i * (s_inner_pts.rows + 1) + s_inner_pts.rows + 1 then -1
          else if i * s_inner_pts.cols ≤ a ∧ a < i * s_inner_pts.cols + s_inner_pts.cols ∧
              i * (s_inner_pts.rows + 1) ≤ b ∧
              b < i * (s_inner_pts.rows + 1) + s_inner_pts.rows then
            s_inner_pts.coeff (b - i * (s_inner_pts.rows + 1)) (a - i * s_inner_pts.cols)
          else st.1.coeff a b⟩,
        (st.2.take ((s_inner_pts.rows + 1) * i) ++ ci ++
          st.2.drop ((s_inner_pts.rows + 1) * i + s_inner_pts.rows)).set
          ((s_inner_pts.rows + 1) * i + s_inner_pts.rows) di) := by
  obtain ⟨⟨r, c, f⟩, vars⟩ := st
  dsimp only at hrows hcols hvars
  subst hrows hcols
  have hb1 := block_le i C.rows s_inner_pts.cols hi
  have hb2 := block_le i C.rows (s_inner_pts.rows + 1) hi
  have hcomm : (s_inner_pts.rows + 1) * i = i * (s_inner_pts.rows + 1) := Nat.mul_comm _ _
  unfold containmentFaceBody
  dsimp only [MatrixXd.assignBlock, MatrixXd.transpose, MatrixXd.negOnes]
  rw [if_pos ⟨hb1, by omega, rfl, rfl⟩, except_bind_ok]
  dsimp only
  rw [if_pos ⟨hb1, by omega, rfl, rfl⟩, except_bind_ok, hci, except_bind_ok]
  unfold assignSegment
  rw [if_pos ⟨by omega, hlen⟩, except_bind_ok, vecGet_of_getElem? _ _ _ hdi, except_bind_ok]
  unfold vecSet
  rw [if_pos (by
    simp only [List.length_append, List.length_take, List.length_drop, hlen, hvars]
    omega), except_bind_ok]
  rfl

/-- The loop of `AddCspacePolytopeContainment` over the faces succeeds; row
`i * npts + j` of the matrix holds column `j` of `s_inner_pts` and then `-1` in the
block of face `i`, and the block of face `i` in the variables is `C.row(i)` and then
`d(i)`. -/
theorem containmentFaces_ok {V K : Type} [LinearOrderedField K] (C : MatrixX V) (d : List V)
    (s_inner_pts : MatrixXd K) (c : Nat → List V) (dv : Nat → V) (vars0 : List V)
    (hCc : C.cols = s_inner_pts.rows)
    (hC : ∀ i, i < C.rows → C.row i = .ok (c i))
    (hd : ∀ i, i < C.rows → d[i]? = some (dv i))
    (hvars0 : vars0.length = (s_inner_pts.rows + 1) * C.rows) :
    ∃ st : MatrixXd K × List V,
      (List.range C.rows).foldlM (containmentFaceBody C d s_inner_pts)
        (MatrixXd.zero (s_inner_pts.cols * C.rows) ((s_inner_pts.rows + 1) * C.rows), vars0)
        = .ok st ∧
      st.1.rows = s_inner_pts.cols * C.rows ∧
      st.1.cols = (s_inner_pts.rows + 1) * C.rows ∧
      st.2.length = (s_inner_pts.rows + 1) * C.rows ∧
      (∀ i j b, i < C.rows → j < s_inner_pts.cols →
        st.1.coeff (i * s_inner_pts.cols + j) b
          = if i * (s_inner_pts.rows + 1) ≤ b ∧
                b < i * (s_inner_pts.rows + 1) + s_inner_pts.rows then
              s_inner_pts.coeff (b - i * (s_inner_pts.rows + 1)) j
            else if b = i * (s_inner_pts.rows + 1) + s_inner_pts.rows then -1 else 0) ∧
      (∀ i t, i < C.rows → t < s_inner_pts.rows + 1 →
        st.2[i * (s_inner_pts.rows + 1) + t]? = (c i ++ [dv i])[t]?) := by
  obtain ⟨st, hst, hr, hc, hv, hcoef, _, hvar⟩ := foldlM_range_inv
    (containmentFaceBody C d s_inner_pts)
    (fun k (st : MatrixXd K × List V) =>
      st.1.rows = s_inner_pts.cols * C.rows ∧
      st.1.cols = (s_inner_pts.rows + 1) * C.rows ∧
      st.2.length = (s_inner_pts.rows + 1) * C.rows ∧
      (∀ i j b, i < k → j < s_inner_pts.cols →
        st.1.coeff (i * s_inner_pts.cols + j) b
          = if i * (s_inner_pts.rows + 1) ≤ b ∧
                b < i * (s_inner_pts.rows + 1) + s_inner_pts.rows then
              s_inner_pts.coeff (b - i * (s_inner_pts.rows + 1)) j
            else if b = i * (s_inner_pts.rows + 1) + s_inner_pts.rows then -1 else 0) ∧
      (∀ a b, k * s_inner_pts.cols ≤ a → st.1.coeff a b = 0) ∧
      (∀ i t, i < k → t < s_inner_pts.rows + 1 →
        st.2[i * (s_inner_pts.rows + 1) + t]? = (c i ++ [dv i])[t]?))
    C.rows
    (MatrixXd.zero (s_inner_pts.cols * C.rows) ((s_inner_pts.rows + 1) * C.rows), vars0)
    ⟨rfl, rfl, hvars0, fun i j b hi => absurd hi (Nat.not_lt_zero _), fun _ _ _ => rfl,
      fun i t hi => absurd hi (Nat.not_lt_zero _)⟩
    (fun k st hk hI => by
      obtain ⟨hr, hc, hv, hcoef, hzero, hvar⟩ := hI
      have hlen : (c k).length = s_inner_pts.rows := by
        rw [MatrixX_row_length C k (c k) (hC k hk), hCc]
      have hb2 := block_le k C.rows (s_inner_pts.rows + 1) hk
      have hcomm : (s_inner_pts.rows + 1) * k = k * (s_inner_pts.rows + 1) :=
        Nat.mul_comm _ _
      refine ⟨_, containmentFaceBody_ok C d s_inner_pts st k hk hr hc hv (c k) (dv k)
        (hC k hk) hlen (hd k hk), hr, hc, ?_, ?_, ?_, ?_⟩
      · simp only [List.length_set, List.length_append, List.length_take, List.length_drop,
          hlen, hv]
        omega
      · intro i j b hi hj
        dsimp only
        rcases Nat.lt_succ_iff_lt_or_eq.mp hi with hik | rfl
        · have h1 := Nat.mul_le_mul_right s_inner_pts.cols (Nat.succ_le_of_lt hik)
          rw [Nat.succ_mul] at h1
          rw [if_neg (by omega), if_neg (by omega)]
          exact hcoef i j b hik hj
        · by_cases hb1 : i * (s_inner_pts.rows + 1) ≤ b ∧
              b < i * (s_inner_pts.rows + 1) + s_inner_pts.rows
          · rw [if_neg (by omega), if_pos ⟨by omega, by omega, hb1.1, hb1.2⟩, if_pos hb1,
              Nat.add_sub_cancel_left]
          · rw [if_neg hb1]
            by_cases hb3 : b = i * (s_inner_pts.rows + 1) + s_inner_pts.rows
            · rw [if_pos ⟨by omega, by omega, by omega, by omega⟩, if_pos hb3]
            · rw [if_neg (by omega), if_neg (by omega), if_neg hb3]
              exact hzero _ _ (by omega)
      · intro a b ha
        dsimp only
        rw [Nat.succ_mul] at ha
        rw [if_neg (by omega), if_neg (by omega)]
        exact hzero a b (by omega)
      · intro i t hi ht
        have hlen1 : (List.take ((s_inner_pts.rows + 1) * k) st.2).length
            = k * (s_inner_pts.rows + 1) := by
          rw [List.length_take, hv, hcomm]
          omega
        rcases Nat.lt_succ_iff_lt_or_eq.mp hi with hik | rfl
        · have h1 := Nat.mul_le_mul_right (s_inner_pts.rows + 1) (Nat.succ_le_of_lt hik)
          rw [Nat.succ_mul] at h1
          rw [List.getElem?_set_ne (by omega), List.append_assoc,
            List.getElem?_append_left (by omega), List.getElem?_take_of_lt (by omega)]
          exact hvar i t hik ht
        · rcases Nat.lt_succ_iff_lt_or_eq.mp ht with htn | rfl
          · rw [List.getElem?_set_ne (by omega),
              List.getElem?_append_left (by
                rw [List.length_append, hlen1, hlen]; omega),
              List.getElem?_append_right (by omega), hlen1, Nat.add_sub_cancel_left,
              List.getElem?_append_left (by omega)]
          · rw [hcomm, List.getElem?_set_self (by
                simp only [List.length_append, List.length_take, List.length_drop, hlen, hv]
                omega),
              List.getElem?_append_right (by omega), hlen]
            simp)
  exact ⟨st, hst, hr, hc, hv, hcoef, hvar⟩

theorem rowDot_shift {V K : Type} [CommRing K] (f g : Nat → K) (x : V → K) :
    ∀ (l : List V) (s t : Nat), (∀ k, k < l.length → f (s + k) = g (t + k)) →
      rowDot f x s l = rowDot g x t l := by
  intro l
  induction l with
  | nil => intro s t _; rfl
  | cons v vs ih =>
    intro s t h
    simp only [rowDot]
    have h0 := h 0 (by simp)
    rw [Nat.add_zero, Nat.add_zero] at h0
    rw [h0, ih (s + 1) (t + 1) (fun k hk => by
      have := h (k + 1) (by simp only [List.length_cons]; omega)
      rwa [show s + 1 + k = s + (k + 1) by omega, show t + 1 + k = t + (k + 1) by omega])]

/-- A row that is zero outside the columns `s, ..., s + len - 1` only sees the
variables at these positions. -/
theorem rowDot_block {V K : Type} [CommRing K] (f : Nat → K) (x : V → K) (vars : List V)
    (s len : Nat) (hlen : s + len ≤ vars.length)
    (hzero : ∀ k, k < s ∨ s + len ≤ k → f k = 0) :
    rowDot f x 0 vars = rowDot f x s ((vars.drop s).take len) := by
  have hsplit : vars = vars.take s ++ ((vars.drop s).take len ++ (vars.drop s).drop len) := by
    rw [List.take_append_drop, List.take_append_drop]
  have h1 : (vars.take s).length = s := by rw [List.length_take]; omega
  have h2 : ((vars.drop s).take len).length = len := by
    rw [List.length_take, List.length_drop]; omega
  conv_lhs => rw [hsplit]
  rw [rowDot_append, rowDot_append, h1, h2, Nat.zero_add,
    rowDot_zero f x (vars.take s) 0 (fun k _ hk => hzero k (Or.inl (by omega))),
    rowDot_zero f x ((vars.drop s).drop len) (s + len)
      (fun k hk _ => hzero k (Or.inr hk))]
  ring

/-- C16: when `s_inner_pts` has `size(s)` rows and every entry is within
`[s_lower, s_upper]`, `AddCspacePolytopeContainment` adds exactly one linear
constraint `A * vars ≤ 0`; row `i * npts + j` of `A * vars` is
`C.row(i) · s_inner_pts.col(j) - d(i)`, so the constraint holds exactly when
`C.row(i) · s_inner_pts.col(j) ≤ d(i)` for every face `i` and every point `j`. The call
fails when the row count differs from `size(s)` and when an entry is outside its
bound. -/
theorem AddCspacePolytopeContainment_rows {V M P K : Type} [Inhabited V]
    [LinearOrderedField K] (self : CspaceFreePolytope V M P) (s_lower_ s_upper_ : List K)
    (prog : NumericProgram V K) (C : MatrixX V) (d : List V) (s_inner_pts : MatrixXd K)
    (c : Nat → List V) (dv : Nat → V)
    (hl : s_lower_.length = self.s.length) (hu : s_upper_.length = self.s.length)
    (hCc : C.cols = self.s.length)
    (hC : ∀ i, i < C.rows → C.row i = .ok (c i))
    (hd : ∀ i, i < C.rows → d[i]? = some (dv i)) :
    (s_inner_pts.rows = self.s.length → WithinBounds s_lower_ s_upper_ s_inner_pts →
      ∃ (A : MatrixXd K) (vars : List V),
        self.AddCspacePolytopeContainment s_lower_ s_upper_ prog C d s_inner_pts
          = .ok { prog with constraints := prog.constraints ++
              [.linear A (List.replicate A.rows none) (List.replicate A.rows (some 0))
                vars] } ∧
        A.rows = s_inner_pts.cols * C.rows ∧
        (∀ i j, i < C.rows → j < s_inner_pts.cols → ∀ x : V → K,
          A.mulVars vars x (i * s_inner_pts.cols + j)
            = rowDot (fun k => s_inner_pts.coeff k j) x 0 (c i) - x (dv i)) ∧
        (∀ x : V → K,
          (NumericConstraint.linear A (List.replicate A.rows none)
              (List.replicate A.rows (some 0)) vars).holds x ↔
            ∀ i j, i < C.rows → j < s_inner_pts.cols →
              rowDot (fun k => s_inner_pts.coeff k j) x 0 (c i) ≤ x (dv i))) ∧
    (s_inner_pts.rows ≠ self.s.length →
      self.AddCspacePolytopeContainment s_lower_ s_upper_ prog C d s_inner_pts
        = .error .throwUnless) ∧
    (s_inner_pts.rows = self.s.length → ¬ WithinBounds s_lower_ s_upper_ s_inner_pts →
      self.AddCspacePolytopeContainment s_lower_ s_upper_ prog C d s_inner_pts
        = .error .runtimeError) := by
  refine ⟨fun hrows hin => ?_, fun hrows => ?_, fun hrows hout => ?_⟩
  · obtain ⟨st, hst, hr, hc, hv, hcoef, hvar⟩ := containmentFaces_ok C d s_inner_pts c dv
      (List.replicate ((s_inner_pts.rows + 1) * C.rows) default) (by rw [hCc, hrows]) hC hd
      (by simp)
    have hrow : ∀ i j, i < C.rows → j < s_inner_pts.cols → ∀ x : V → K,
        st.1.mulVars st.2 x (i * s_inner_pts.cols + j)
          = rowDot (fun k => s_inner_pts.coeff k j) x 0 (c i) - x (dv i) := by
      intro i j hi hj x
      have hlen : (c i).length = s_inner_pts.rows := by
        rw [MatrixX_row_length C i (c i) (hC i hi), hCc, hrows]
      have hb2 := block_le i C.rows (s_inner_pts.rows + 1) hi
      have hblock : (st.2.drop (i * (s_inner_pts.rows + 1))).take (s_inner_pts.rows + 1)
          = c i ++ [dv i] := by
        apply List.ext_getElem?
        intro t
        by_cases ht : t < s_inner_pts.rows + 1
        · rw [List.getElem?_take_of_lt ht, List.getElem?_drop]
          exact hvar i t hi ht
        · rw [List.getElem?_eq_none (by
              rw [List.length_take, List.length_drop]; omega),
            List.getElem?_eq_none (by simp only [List.length_append, hlen,
              List.length_singleton]; omega)]
      unfold MatrixXd.mulVars
      rw [rowDot_block _ x st.2 (i * (s_inner_pts.rows + 1)) (s_inner_pts.rows + 1)
          (by omega) (fun k hk => by
            rw [hcoef i j k hi hj, if_neg (by omega), if_neg (by omega)]),
        hblock, rowDot_append, hlen]
      simp only [rowDot]
      rw [hcoef i j _ hi hj, if_neg (by omega), if_pos rfl,
        rowDot_shift _ (fun k => s_inner_pts.coeff k j) x (c i) _ 0 (fun k hk => by
          rw [hcoef i j _ hi hj, if_pos ⟨by omega, by omega⟩, Nat.add_sub_cancel_left,
            Nat.zero_add])]
      ring
    refine ⟨st.1, st.2, ?_, hr, hrow, fun x => ?_⟩
    · unfold CspaceFreePolytope.AddCspacePolytopeContainment
      rw [if_neg (not_not.mpr hrows)]
      simp only [except_bind_ok, except_pure]
      rw [(pointCheck_eq s_lower_ s_upper_ s_inner_pts (by rw [hl, hrows])
        (by rw [hu, hrows])).1 hin, except_bind_ok]
      dsimp only [MatrixXd.zero]
      rw [show (List.range C.rows).foldlM (containmentFaceBody C d s_inner_pts)
          (⟨s_inner_pts.cols * C.rows, (s_inner_pts.rows + 1) * C.rows, fun _ _ => 0⟩,
            List.replicate ((s_inner_pts.rows + 1) * C.rows) default) = .ok st from hst,
        except_bind_ok]
      rfl
    · simp only [NumericConstraint.holds]
      constructor
      · intro h i j hi hj
        have hb1 := block_le i C.rows s_inner_pts.cols hi
        have := (h (i * s_inner_pts.cols + j) (by omega)).2
        rw [List.getD_eq_getElem?_getD, List.getElem?_replicate,
          if_pos (by omega)] at this
        simp only [Option.getD_some, leUpper] at this
        rw [hrow i j hi hj x] at this
        exact sub_nonpos.mp this
      · intro h a ha
        rw [hr] at ha
        have hm : 0 < s_inner_pts.cols := by
          rcases Nat.eq_zero_or_pos s_inner_pts.cols with h0 | h0
          · rw [h0, Nat.zero_mul] at ha; exact absurd ha (Nat.not_lt_zero _)
          · exact h0
        have hdiv : a / s_inner_pts.cols < C.rows :=
          (Nat.div_lt_iff_lt_mul hm).mpr (by rwa [Nat.mul_comm] at ha)
        have hmod : a % s_inner_pts.cols < s_inner_pts.cols := Nat.mod_lt _ hm
        have hsplit : a = a / s_inner_pts.cols * s_inner_pts.cols + a % s_inner_pts.cols := by
          rw [Nat.mul_comm]; exact (Nat.div_add_mod a s_inner_pts.cols).symm
        rw [List.getD_eq_getElem?_getD, List.getD_eq_getElem?_getD,
          List.getElem?_replicate, List.getElem?_replicate, if_pos (by omega),
          if_pos (by omega)]
        simp only [Option.getD_some, leUpper, geLower, true_and]
        rw [hsplit, hrow _ _ hdiv hmod x]
        exact sub_nonpos.mpr (h _ _ hdiv hmod)
  · unfold CspaceFreePolytope.AddCspacePolytopeContainment
    rw [if_pos hrows]
    rfl
  · unfold CspaceFreePolytope.AddCspacePolytopeContainment
    rw [if_neg (not_not.mpr hrows)]
    simp only [except_bind_ok, except_pure]
    rw [(pointCheck_eq s_lower_ s_upper_ s_inner_pts (by rw [hl, hrows])
      (by rw [hu, hrows])).2 hout]
    rfl

theorem AddCspacePolytopeContainment_rows_witness :
    WithinBounds ([-1, -1] : List ℚ) [1, 1] examplePts ∧
    (∃ (A : MatrixXd ℚ) (vars : List Nat),
      exampleCfp2.AddCspacePolytopeContainment ([-1, -1] : List ℚ) [1, 1]
          NumericProgram.empty exampleCvars [2] examplePts
        = .ok { (NumericProgram.empty : NumericProgram Nat ℚ) with
            constraints := NumericProgram.empty.constraints ++
              [.linear A (List.replicate A.rows none) (List.replicate A.rows (some 0))
                vars] } ∧
      A.rows = examplePts.cols * exampleCvars.rows ∧
      ∀ i j, i < exampleCvars.rows → j < examplePts.cols → ∀ x : Nat → ℚ,
        A.mulVars vars x (i * examplePts.cols + j)
          = rowDot (fun k => examplePts.coeff k j) x 0 [0, 1] - x 2) ∧
    ¬ WithinBounds ([-1, -1] : List ℚ) [1, 1 / 4] examplePts ∧
    exampleCfp2.AddCspacePolytopeContainment ([-1, -1] : List ℚ) [1, 1 / 4]
        NumericProgram.empty exampleCvars [2] examplePts = .error .runtimeError := by
  have hC : ∀ i, i < exampleCvars.rows → exampleCvars.row i = .ok ((fun _ => [0, 1]) i) := by
    intro i hi
    obtain rfl : i = 0 := Nat.lt_one_iff.mp hi
    rfl
  have hd : ∀ i, i < exampleCvars.rows → ([2] : List Nat)[i]? = some ((fun _ => 2) i) := by
    intro i hi
    obtain rfl : i = 0 := Nat.lt_one_iff.mp hi
    rfl
  have hin : WithinBounds ([-1, -1] : List ℚ) [1, 1] examplePts := by
    intro i j hi hj
    have hi' : i < 2 := hi
    have hj' : j < 2 := hj
    interval_cases i <;> interval_cases j <;> norm_num [examplePts]
  have hout : ¬ WithinBounds ([-1, -1] : List ℚ) [1, 1 / 4] examplePts := by
    intro h
    have := (h 1 0 (by decide) (by decide)).2
    norm_num [examplePts] at this
  have h := AddCspacePolytopeContainment_rows exampleCfp2 ([-1, -1] : List ℚ) [1, 1]
    NumericProgram.empty exampleCvars [2] examplePts (fun _ => [0, 1]) (fun _ => 2)
    rfl rfl rfl hC hd
  have h' := AddCspacePolytopeContainment_rows exampleCfp2 ([-1, -1] : List ℚ) [1, 1 / 4]
    NumericProgram.empty exampleCvars [2] examplePts (fun _ => [0, 1]) (fun _ => 2)
    rfl rfl rfl hC hd
  obtain ⟨A, vars, hok, hrows, hrow, _⟩ := h.1 rfl hin
  exact ⟨hin, ⟨A, vars, hok, hrows, hrow⟩, hout, h'.2.2 rfl hout⟩

/-! ## `SearchWithBilinearAlternation` -/

theorem except_bind_eq_ok {ε α β : Type} (x : Except ε α) (f : α → Except ε β) (b : β)
    (h : (x >>= f) = .ok b) : ∃ a, x = .ok a ∧ f a = .ok b := by
  cases x with
  | error e => cases h
  | ok a => exact ⟨a, rfl, h⟩

/-- A property that every step of a loop keeps holds at its end. -/
theorem foldlM_preserves {σ α : Type} (f : σ → α → Except Error σ) (Q : σ → Prop)
    (hf : ∀ s x s', f s x = .ok s' → Q s → Q s') :
    ∀ (xs : List α) (s0 s' : σ), xs.foldlM f s0 = .ok s' → Q s0 → Q s' := by
  intro xs
  induction xs with
  | nil =>
    intro s0 s' h hQ
    cases h
    exact hQ
  | cons x xs ih =>
    intro s0 s' h hQ
    rw [List.foldlM_cons] at h
    obtain ⟨s1, hs1, h⟩ := except_bind_eq_ok _ _ _ h
    exact ih s1 s' h (hf s0 x s1 hs1 hQ)

theorem SetSeparatingPlanesFromCertificates_num_iter {K P : Type} (self r : SearchResult K P)
    (certificates_result : List (Option (SeparationCertificateResult P)))
    (h : self.SetSeparatingPlanesFromCertificates certificates_result = .ok r) :
    r.num_iter_ = self.num_iter_ := by
  unfold SearchResult.SetSeparatingPlanesFromCertificates at h
  refine foldlM_preserves setPlanesBody (fun s => s.num_iter_ = self.num_iter_) ?_
    certificates_result _ r h rfl
  intro s x s' hs hQ
  cases x with
  | none => cases hs
  | some c =>
    cases hs
    exact hQ

/-- One run of the body of the loop of `SearchWithBilinearAlternation`: it keeps
`iter`; it leaves `ret` as it is or appends one result whose `num_iter_` is `iter`;
and when it does not leave the loop it has appended a result whose determinant is
the new `prev_cost`, which passed the convergence test. -/
theorem alternationBody_spec {V M P K : Type} [LinearOrderedField K]
    (self : CspaceFreePolytope V M P) (s_lower_ s_upper_ : List K) (env : SearchEnv K P)
    (ignored_collision_pairs : Finset (Nat × Nat)) (options : BilinearAlternationOptions K)
    (gram : Nat) (st st' : AlternationState K P) (flag : Bool)
    (h : self.alternationBody s_lower_ s_upper_ env ignored_collision_pairs options gram st
      = .ok (flag, st')) :
    st'.iter = st.iter ∧
    (st'.ret = st.ret ∨
      ∃ back, st'.ret = st.ret ++ [back] ∧ back.num_iter_ = (st.iter : Int)) ∧
    (flag = true → ∃ back, st'.ret = st.ret ++ [back] ∧ back.num_iter_ = (st.iter : Int) ∧
      back.cost env options = .ok st'.prev_cost ∧
      ¬ (st'.prev_cost - st.prev_cost) / st.prev_cost < options.convergence_tol) := by
  unfold CspaceFreePolytope.alternationBody at h
  obtain ⟨certs, hcerts, h⟩ := except_bind_eq_ok _ _ _ h
  by_cases hany : certs.any (fun certificate => certificate.isNone) = true
  · rw [if_pos hany] at h
    cases h
    exact ⟨rfl, Or.inl rfl, fun hf => by cases hf⟩
  · rw [if_neg hany] at h
    obtain ⟨back0, hb0, h⟩ := except_bind_eq_ok _ _ _ h
    obtain ⟨back1, hb1, h⟩ := except_bind_eq_ok _ _ _ h
    have hn1 : back1.num_iter_ = (st.iter : Int) :=
      SetSeparatingPlanesFromCertificates_num_iter _ _ _ hb1
    obtain ⟨pr, hpr, h⟩ := except_bind_eq_ok _ _ _ h
    cases pr with
    | none =>
      cases h
      exact ⟨rfl, Or.inr ⟨back1, rfl, hn1⟩, fun hf => by cases hf⟩
    | some pr =>
      obtain ⟨back2, hb2, h⟩ := except_bind_eq_ok _ _ _ h
      obtain ⟨back3, hb3, h⟩ := except_bind_eq_ok _ _ _ h
      obtain ⟨ellipsoid, hell, h⟩ := except_bind_eq_ok _ _ _ h
      dsimp only at hell h
      by_cases hconv : (env.determinant (MatrixXd.smul options.ellipsoid_scaling
          (env.inverse ellipsoid.A)) - st.prev_cost) / st.prev_cost
          < options.convergence_tol
      · rw [if_pos hconv] at h
        cases h
        exact ⟨rfl, Or.inr ⟨_, rfl, rfl⟩, fun hf => by cases hf⟩
      · rw [if_neg hconv] at h
        cases h
        refine ⟨rfl, Or.inr ⟨_, rfl, rfl⟩, fun _ => ⟨_, rfl, rfl, ?_, hconv⟩⟩
        unfold SearchResult.cost
        dsimp only
        rw [hell]
        rfl

/-- What `SearchWithBilinearAlternation` has when it reaches its loop: the checks
passed, `ret` is empty and `iter` is `0`. -/
theorem alternationInit_spec {V M P K : Type} [LinearOrderedField K]
    (self : CspaceFreePolytope V M P) (s_lower_ s_upper_ : List K) (env : SearchEnv K P)
    (ignored_collision_pairs : Finset (Nat × Nat)) (C_init : MatrixXd K) (d_init : List K)
    (options : BilinearAlternationOptions K) (gram : Nat) (st : AlternationState K P)
    (h : self.alternationInit s_lower_ s_upper_ env ignored_collision_pairs C_init d_init
      options = .ok (gram, st)) :
    st.ret = [] ∧ st.iter = 0 ∧ 0 ≤ options.max_iter ∧ 0 ≤ options.convergence_tol := by
  unfold CspaceFreePolytope.alternationInit at h
  by_cases h1 : C_init.rows ≠ d_init.length
  · rw [if_pos h1] at h; cases h
  rw [if_neg h1] at h
  by_cases h2 : C_init.cols ≠ self.s.length
  · rw [if_pos h2] at h; cases h
  rw [if_neg h2] at h
  by_cases h3 : ¬ options.max_iter ≥ 0
  · rw [if_pos h3] at h; cases h
  rw [if_neg h3] at h
  by_cases h4 : ¬ options.convergence_tol ≥ 0
  · rw [if_pos h4] at h; cases h
  rw [if_neg h4] at h
  by_cases h5 : ¬ options.ellipsoid_scaling > 0
  · rw [if_pos h5] at h; cases h
  rw [if_neg h5] at h
  by_cases h6 : ¬ options.ellipsoid_scaling ≤ 1
  · rw [if_pos h6] at h; cases h
  rw [if_neg h6] at h
  simp only [except_bind_ok, except_pure] at h
  obtain ⟨Cd, _, h⟩ := except_bind_eq_ok _ _ _ h
  obtain ⟨g, _, h⟩ := except_bind_eq_ok _ _ _ h
  obtain ⟨poly, _, h⟩ := except_bind_eq_ok _ _ _ h
  obtain ⟨ellipsoid, _, h⟩ := except_bind_eq_ok _ _ _ h
  cases h
  exact ⟨rfl, rfl, not_not.mp h3, not_not.mp h4⟩

/-- The loop of `SearchWithBilinearAlternation`, started with `iter` results whose
`num_iter_` is their position and `iter` runs of the body behind it: the body runs
at most `left` more times, and a returned history has at most `iter + left` results,
each with its position as `num_iter_`. -/
theorem alternationLoop_bounded {V M P K : Type} [LinearOrderedField K]
    (self : CspaceFreePolytope V M P) (s_lower_ s_upper_ : List K) (env : SearchEnv K P)
    (ignored_collision_pairs : Finset (Nat × Nat)) (options : BilinearAlternationOptions K)
    (gram : Nat) :
    ∀ (left body_runs : Nat) (st : AlternationState K P),
      st.ret.length = st.iter →
      (∀ (k : Nat) (r : SearchResult K P), st.ret[k]? = some r → r.num_iter_ = (k : Int)) →
      (self.alternationLoop s_lower_ s_upper_ env ignored_collision_pairs options gram
          left body_runs st).body_runs ≤ body_runs + left ∧
      ∀ ret, (self.alternationLoop s_lower_ s_upper_ env ignored_collision_pairs options gram
          left body_runs st).result = .ok ret →
        ret.length ≤ st.iter + left ∧ ∀ (k : Nat) (r : SearchResult K P), ret[k]? = some r → r.num_iter_ = (k : Int) := by
  intro left
  induction left with
  | zero =>
    intro body_runs st hlen hnum
    exact ⟨Nat.le_refl _, fun ret hret => by
      cases hret
      exact ⟨by omega, hnum⟩⟩
  | succ left ih =>
    intro body_runs st hlen hnum
    unfold CspaceFreePolytope.alternationLoop
    by_cases hlt : (st.iter : Int) < options.max_iter
    · rw [if_pos hlt]
      cases hbody : self.alternationBody s_lower_ s_upper_ env ignored_collision_pairs
          options gram st with
      | error e =>
        exact ⟨by dsimp only; omega, fun ret hret => by cases hret⟩
      | ok res =>
        obtain ⟨flag, st'⟩ := res
        obtain ⟨hiter, hret', hflag⟩ := alternationBody_spec self s_lower_ s_upper_ env
          ignored_collision_pairs options gram st st' flag hbody
        have hnum' : ∀ (k : Nat) (r : SearchResult K P), st'.ret[k]? = some r → r.num_iter_ = (k : Int) := by
          intro k r hk
          rcases hret' with heq | ⟨back, heq, hback⟩
          · rw [heq] at hk
            exact hnum k r hk
          · rw [heq] at hk
            by_cases hkl : k < st.ret.length
            · rw [List.getElem?_append_left hkl] at hk
              exact hnum k r hk
            · rw [List.getElem?_append_right (by omega)] at hk
              have hk0 : k - st.ret.length = 0 := by
                by_contra hne
                rw [List.getElem?_eq_none (by simp; omega)] at hk
                cases hk
              rw [hk0] at hk
              cases hk
              show back.num_iter_ = (k : Int)
              rw [hback]
              congr 1
              omega
        have hlen' : st'.ret.length ≤ st.iter + 1 := by
          rcases hret' with heq | ⟨back, heq, _⟩
          · rw [heq]; omega
          · rw [heq, List.length_append, List.length_singleton]; omega
        cases flag with
        | false =>
          exact ⟨by dsimp only; omega, fun ret hret => by
            cases hret
            exact ⟨by omega, hnum'⟩⟩
        | true =>
          obtain ⟨back, heq, _⟩ := hflag rfl
          have hlen2 : st'.ret.length = st'.iter + 1 := by
            rw [heq, List.length_append, List.length_singleton, hiter, hlen]
          obtain ⟨hruns, hres⟩ := ih (body_runs + 1) { st' with iter := st'.iter + 1 }
            hlen2 hnum'
          refine ⟨by dsimp only; omega, fun ret hret => ?_⟩
          obtain ⟨h1, h2⟩ := hres ret hret
          exact ⟨by dsimp only at h1; omega, h2⟩
    · rw [if_neg hlt]
      exact ⟨by dsimp only; omega, fun ret hret => by
        cases hret
        exact ⟨by omega, hnum⟩⟩

/-- C17: when `max_iter ≥ 0`, for every behaviour of the solver and of the other
functions that `SearchWithBilinearAlternation` calls, the body of its loop runs at
most `max_iter` times, and a returned history has at most `max_iter` results (none
when `max_iter = 0`), the result at position `k` having `num_iter_ = k`. -/
theorem SearchWithBilinearAlternation_bounded {V M P K : Type} [LinearOrderedField K]
    (self : CspaceFreePolytope V M P) (s_lower_ s_upper_ : List K) (env : SearchEnv K P)
    (ignored_collision_pairs : Finset (Nat × Nat)) (C_init : MatrixXd K) (d_init : List K)
    (options : BilinearAlternationOptions K) (hmax : 0 ≤ options.max_iter) :
    ((self.SearchWithBilinearAlternation s_lower_ s_upper_ env ignored_collision_pairs
        C_init d_init options).body_runs : Int) ≤ options.max_iter ∧
    ∀ ret, (self.SearchWithBilinearAlternation s_lower_ s_upper_ env ignored_collision_pairs
        C_init d_init options).result = .ok ret →
      (ret.length : Int) ≤ options.max_iter ∧ (options.max_iter = 0 → ret = []) ∧
      ∀ (k : Nat) (r : SearchResult K P), ret[k]? = some r → r.num_iter_ = (k : Int) := by
  unfold CspaceFreePolytope.SearchWithBilinearAlternation
  cases hinit : self.alternationInit s_lower_ s_upper_ env ignored_collision_pairs C_init
      d_init options with
  | error e => exact ⟨by simpa using hmax, fun ret hret => by cases hret⟩
  | ok res =>
    obtain ⟨gram, st⟩ := res
    obtain ⟨hret0, hiter0, _, _⟩ := alternationInit_spec self s_lower_ s_upper_ env
      ignored_collision_pairs C_init d_init options gram st hinit
    obtain ⟨hruns, hres⟩ := alternationLoop_bounded self s_lower_ s_upper_ env
      ignored_collision_pairs options gram options.max_iter.toNat 0 st
      (by rw [hret0, hiter0]; rfl) (fun k r hk => by rw [hret0] at hk; simp at hk)
    have htoNat : ((options.max_iter.toNat : Nat) : Int) = options.max_iter :=
      Int.toNat_of_nonneg hmax
    dsimp only
    refine ⟨by omega, fun ret hret => ?_⟩
    obtain ⟨h1, h2⟩ := hres ret hret
    rw [hiter0] at h1
    refine ⟨by omega, fun h0 => ?_, h2⟩
    apply List.eq_nil_of_length_eq_zero
    omega

theorem SearchWithBilinearAlternation_bounded_witness :
    (0 : Int) ≤ exampleAlternationOptions.max_iter ∧
    (exampleSearchCfp.SearchWithBilinearAlternation [-10] [10] exampleSearchEnv ∅
      exampleIntervalC [1, 1] exampleAlternationOptions).result = .ok exampleHistory ∧
    exampleHistory.length = 3 ∧
    (exampleSearchCfp.SearchWithBilinearAlternation [-10] [10] exampleSearchEnv ∅
      exampleIntervalC [1, 1] exampleAlternationOptions).body_runs = 3 ∧
    ((exampleSearchCfp.SearchWithBilinearAlternation [-10] [10] exampleSearchEnv ∅
      exampleIntervalC [1, 1] exampleAlternationOptions).body_runs : Int)
      ≤ exampleAlternationOptions.max_iter ∧
    (exampleHistory.length : Int) ≤ exampleAlternationOptions.max_iter ∧
    ∀ (k : Nat) (r : SearchResult ℚ Int), exampleHistory[k]? = some r →
      r.num_iter_ = (k : Int) := by
  have hres : (exampleSearchCfp.SearchWithBilinearAlternation [-10] [10] exampleSearchEnv ∅
      exampleIntervalC [1, 1] exampleAlternationOptions).result = .ok exampleHistory := by
    with_unfolding_all rfl
  have h := SearchWithBilinearAlternation_bounded exampleSearchCfp [-10] [10]
    exampleSearchEnv ∅ exampleIntervalC [1, 1] exampleAlternationOptions (by decide)
  exact ⟨by decide, hres, by with_unfolding_all rfl, by with_unfolding_all rfl, h.1,
    (h.2 exampleHistory hres).1, (h.2 exampleHistory hres).2.2⟩


/-- A determinant that passes the convergence test is at least the previous one. -/
theorem le_of_not_converged {K : Type} [LinearOrderedField K] (prev cost tol : K)
    (hprev : 0 < prev) (htol : 0 ≤ tol) (h : ¬ (cost - prev) / prev < tol) : prev ≤ cost := by
  by_contra hlt
  have hneg : cost - prev < 0 := by linarith [not_le.mp hlt]
  exact h (lt_of_lt_of_le (div_neg_of_neg_of_pos hneg hprev) htol)

/-- The loop of `SearchWithBilinearAlternation`, started at a positive `prev_cost`
that is the determinant of the last result so far, with determinants that do not
decrease along the results so far: in a returned history the determinants do not
decrease along the results before the last one. -/
theorem alternationLoop_determinants {V M P K : Type} [LinearOrderedField K]
    (self : CspaceFreePolytope V M P) (s_lower_ s_upper_ : List K) (env : SearchEnv K P)
    (ignored_collision_pairs : Finset (Nat × Nat)) (options : BilinearAlternationOptions K)
    (gram : Nat) (htol : 0 ≤ options.convergence_tol) :
    ∀ (left body_runs : Nat) (st : AlternationState K P),
      0 < st.prev_cost →
      (∀ r : SearchResult K P, st.ret[st.ret.length - 1]? = some r →
        r.cost env options = .ok st.prev_cost) →
      (∀ (j : Nat) (r r' : SearchResult K P), st.ret[j]? = some r → st.ret[j + 1]? = some r' →
        ∃ c c', r.cost env options = .ok c ∧ r'.cost env options = .ok c' ∧ c ≤ c') →
      ∀ ret, (self.alternationLoop s_lower_ s_upper_ env ignored_collision_pairs options gram
          left body_runs st).result = .ok ret →
        ∀ (j : Nat) (r r' : SearchResult K P), ret[j]? = some r → ret[j + 1]? = some r' →
          j + 2 < ret.length →
          ∃ c c', r.cost env options = .ok c ∧ r'.cost env options = .ok c' ∧ c ≤ c' := by
  intro left
  induction left with
  | zero =>
    intro body_runs st _ _ hchain ret hret j r r' hj hj' _
    cases hret
    exact hchain j r r' hj hj'
  | succ left ih =>
    intro body_runs st hpos hlast hchain ret hret
    unfold CspaceFreePolytope.alternationLoop at hret
    by_cases hlt : (st.iter : Int) < options.max_iter
    · rw [if_pos hlt] at hret
      cases hbody : self.alternationBody s_lower_ s_upper_ env ignored_collision_pairs
          options gram st with
      | error e =>
        rw [hbody] at hret
        cases hret
      | ok res =>
        obtain ⟨flag, st'⟩ := res
        rw [hbody] at hret
        obtain ⟨_, hret', hflag⟩ := alternationBody_spec self s_lower_ s_upper_ env
          ignored_collision_pairs options gram st st' flag hbody
        cases flag with
        | false =>
          dsimp only at hret
          cases hret
          intro j r r' hj hj' hlen
          rcases hret' with heq | ⟨back, heq, _⟩
          · rw [heq] at hj hj'
            exact hchain j r r' hj hj'
          · rw [heq] at hj hj' hlen
            rw [List.length_append, List.length_singleton] at hlen
            rw [List.getElem?_append_left (by omega)] at hj hj'
            exact hchain j r r' hj hj'
        | true =>
          dsimp only at hret
          obtain ⟨back, heq, _, hcost, hconv⟩ := hflag rfl
          have hle : st.prev_cost ≤ st'.prev_cost :=
            le_of_not_converged _ _ _ hpos htol hconv
          refine ih (body_runs + 1) { st' with iter := st'.iter + 1 }
            (lt_of_lt_of_le hpos hle) ?_ ?_ ret hret
          · intro r hr
            dsimp only at hr
            rw [heq, List.length_append, List.length_singleton, Nat.add_sub_cancel,
              List.getElem?_append_right (Nat.le_refl _), Nat.sub_self] at hr
            cases hr
            exact hcost
          · intro j r r' hj hj'
            dsimp only at hj hj'
            rw [heq] at hj hj'
            by_cases hjl : j + 1 < st.ret.length
            · rw [List.getElem?_append_left (by omega)] at hj hj'
              exact hchain j r r' hj hj'
            · by_cases hje : j + 1 = st.ret.length
              · rw [List.getElem?_append_left (by omega)] at hj
                rw [List.getElem?_append_right (by omega), hje, Nat.sub_self] at hj'
                cases hj'
                have hjl' : j = st.ret.length - 1 := by omega
                rw [hjl'] at hj
                exact ⟨st.prev_cost, st'.prev_cost, hlast r hj, hcost, hle⟩
              · rw [List.getElem?_eq_none (by
                  rw [List.length_append, List.length_singleton]; omega)] at hj'
                cases hj'
    · rw [if_neg hlt] at hret
      cases hret
      intro j r r' hj hj' _
      exact hchain j r r' hj hj'

/-- C18, amended: with `convergence_tol ≥ 0` and a positive initial determinant, in
the history that `SearchWithBilinearAlternation` returns the determinant of the
scaled ellipsoid of each result other than the last one is at least that of the
previous result. -/
theorem SearchWithBilinearAlternation_determinants {V M P K : Type} [LinearOrderedField K]
    (self : CspaceFreePolytope V M P) (s_lower_ s_upper_ : List K) (env : SearchEnv K P)
    (ignored_collision_pairs : Finset (Nat × Nat)) (C_init : MatrixXd K) (d_init : List K)
    (options : BilinearAlternationOptions K) (gram : Nat) (st0 : AlternationState K P)
    (hinit : self.alternationInit s_lower_ s_upper_ env ignored_collision_pairs C_init d_init
      options = .ok (gram, st0))
    (hpos : 0 < st0.prev_cost) (ret : List (SearchResult K P))
    (hret : (self.SearchWithBilinearAlternation s_lower_ s_upper_ env ignored_collision_pairs
      C_init d_init options).result = .ok ret)
    (j : Nat) (r r' : SearchResult K P) (hj : ret[j]? = some r) (hj' : ret[j + 1]? = some r')
    (hlast : j + 2 < ret.length) :
    ∃ c c', r.cost env options = .ok c ∧ r'.cost env options = .ok c' ∧ c ≤ c' := by
  obtain ⟨hret0, _, _, htol⟩ := alternationInit_spec self s_lower_ s_upper_ env
    ignored_collision_pairs C_init d_init options gram st0 hinit
  unfold CspaceFreePolytope.SearchWithBilinearAlternation at hret
  rw [hinit] at hret
  exact alternationLoop_determinants self s_lower_ s_upper_ env ignored_collision_pairs
    options gram htol options.max_iter.toNat 0 st0 hpos
    (fun r hr => by rw [hret0] at hr; simp at hr)
    (fun j r r' hj _ => by rw [hret0] at hj; simp at hj)
    ret hret j r r' hj hj' hlast

theorem SearchWithBilinearAlternation_determinants_witness :
    exampleSearchCfp.alternationInit [-10] [10] exampleSearchEnv ∅ exampleIntervalC [1, 1]
      exampleAlternationOptions = .ok exampleInitState ∧
    0 < exampleInitState.2.prev_cost ∧
    (exampleSearchCfp.SearchWithBilinearAlternation [-10] [10] exampleSearchEnv ∅
      exampleIntervalC [1, 1] exampleAlternationOptions).result = .ok exampleHistory ∧
    exampleHistory[0]? = some (exampleResult 0) ∧
    exampleHistory[0 + 1]? = some (exampleResult 1) ∧
    0 + 2 < exampleHistory.length ∧
    ∃ c c', (exampleResult 0).cost exampleSearchEnv exampleAlternationOptions = .ok c ∧
      (exampleResult 1).cost exampleSearchEnv exampleAlternationOptions = .ok c' ∧
      c ≤ c' := by
  have hinit : exampleSearchCfp.alternationInit [-10] [10] exampleSearchEnv ∅
      exampleIntervalC [1, 1] exampleAlternationOptions = .ok exampleInitState := by
    with_unfolding_all rfl
  have hprev : exampleInitState.2.prev_cost = 1 / 2 := by with_unfolding_all rfl
  have hpos : 0 < exampleInitState.2.prev_cost := by rw [hprev]; norm_num
  have hres : (exampleSearchCfp.SearchWithBilinearAlternation [-10] [10] exampleSearchEnv ∅
      exampleIntervalC [1, 1] exampleAlternationOptions).result = .ok exampleHistory := by
    with_unfolding_all rfl
  have h0 : exampleHistory[0]? = some (exampleResult 0) := by with_unfolding_all rfl
  have h1 : exampleHistory[0 + 1]? = some (exampleResult 1) := by with_unfolding_all rfl
  have hlen : 0 + 2 < exampleHistory.length := by
    have : exampleHistory.length = 3 := by with_unfolding_all rfl
    omega
  exact ⟨hinit, hpos, hres, h0, h1, hlen,
    SearchWithBilinearAlternation_determinants exampleSearchCfp [-10] [10] exampleSearchEnv ∅
      exampleIntervalC [1, 1] exampleAlternationOptions exampleInitState.1
      exampleInitState.2 hinit hpos exampleHistory hres 0 (exampleResult 0)
      (exampleResult 1) h0 h1 hlen⟩

/-- C18 as stated, at the example on the line with `convergence_tol = 1/10`,
`ellipsoid_scaling = 1/2` and the initial interval `[-1, 1]` of determinant `1/2`:
the polytope search returns `[-4, 4]`, `[-6, 6]` and `[-3, 3]`; the third result is
appended before the convergence test ends the loop, so the history has the
determinants `2`, `3` and `3/2`, and the last is below the one before it. -/
theorem SearchWithBilinearAlternation_determinants_counterexample :
    (0 : ℚ) ≤ exampleAlternationOptions.convergence_tol ∧
    exampleSearchCfp.alternationInit [-10] [10] exampleSearchEnv ∅ exampleIntervalC [1, 1]
      exampleAlternationOptions = .ok exampleInitState ∧
    0 < exampleInitState.2.prev_cost ∧
    (exampleSearchCfp.SearchWithBilinearAlternation [-10] [10] exampleSearchEnv ∅
      exampleIntervalC [1, 1] exampleAlternationOptions).result = .ok exampleHistory ∧
    exampleHistory.length = 3 ∧
    exampleHistory[1]? = some (exampleResult 1) ∧
    exampleHistory[2]? = some (exampleResult 2) ∧
    (exampleResult 1).cost exampleSearchEnv exampleAlternationOptions = .ok 3 ∧
    (exampleResult 2).cost exampleSearchEnv exampleAlternationOptions = .ok (3 / 2) ∧
    ¬ ∃ c c', (exampleResult 1).cost exampleSearchEnv exampleAlternationOptions = .ok c ∧
      (exampleResult 2).cost exampleSearchEnv exampleAlternationOptions = .ok c' ∧
      c ≤ c' := by
  have hprev : exampleInitState.2.prev_cost = 1 / 2 := by with_unfolding_all rfl
  have htol : exampleAlternationOptions.convergence_tol = 1 / 10 := rfl
  have hc1 : (exampleResult 1).cost exampleSearchEnv exampleAlternationOptions = .ok 3 := by
    with_unfolding_all rfl
  have hc2 : (exampleResult 2).cost exampleSearchEnv exampleAlternationOptions
      = .ok (3 / 2) := by
    with_unfolding_all rfl
  refine ⟨by rw [htol]; norm_num, by with_unfolding_all rfl, by rw [hprev]; norm_num,
    by with_unfolding_all rfl, by with_unfolding_all rfl, by with_unfolding_all rfl,
    by with_unfolding_all rfl, hc1, hc2, ?_⟩
  rintro ⟨c, c', h1, h2, hle⟩
  rw [hc1] at h1
  rw [hc2] at h2
  cases h1
  cases h2
  norm_num at hle

/-! ## `BinarySearch` -/

theorem UpdateSeparatingPlanes_fields {K P : Type} (self : SearchResult K P)
    (certificates_result : List (Option (SeparationCertificateResult P))) :
    (self.UpdateSeparatingPlanes certificates_result).C_ = self.C_ ∧
    (self.UpdateSeparatingPlanes certificates_result).d_ = self.d_ ∧
    (self.UpdateSeparatingPlanes certificates_result).certified_polytope_
      = self.certified_polytope_ ∧
    (self.UpdateSeparatingPlanes certificates_result).num_iter_ = self.num_iter_ := by
  unfold SearchResult.UpdateSeparatingPlanes
  induction certificates_result generalizing self with
  | nil => exact ⟨rfl, rfl, rfl, rfl⟩
  | cons c cs ih =>
    rw [List.foldl_cons]
    cases c with
    | none => exact ih self
    | some c => exact ih _

theorem SetPolytope_fields {V M P K : Type} [LinearOrderedField K]
    (self r : SearchResult K P) (C : MatrixXd K) (d : List K)
    (cspace_free_polytope : CspaceFreePolytope V M P) (s_lower_ s_upper_ : List K)
    (h : self.SetPolytope C d cspace_free_polytope s_lower_ s_upper_ = .ok r) :
    r.C_ = C ∧ r.d_ = d ∧ r.num_iter_ = self.num_iter_ ∧ r.a_ = self.a_ ∧ r.b_ = self.b_ ∧
    cspace_free_polytope.GetPolyhedronWithJointLimits s_lower_ s_upper_ C d
      = .ok r.certified_polytope_ := by
  unfold SearchResult.SetPolytope at h
  by_cases hrows : C.rows ≠ d.length
  · rw [if_pos hrows] at h
    cases h
  · rw [if_neg hrows] at h
    simp only [except_bind_ok, except_pure] at h
    obtain ⟨p, hp, h⟩ := except_bind_eq_ok _ _ _ h
    cases h
    exact ⟨rfl, rfl, rfl, rfl, rfl, hp⟩

/-- A call of `is_scale_feasible` that returns: it records its scale; it called the
certificate search once, on the polytope of the scale, and reports feasible exactly
when no certificate is missing; when feasible it stores that polytope, and
otherwise it leaves the stored polytope as it is. -/
theorem is_scale_feasible_spec {V M P K : Type} [LinearOrderedField K]
    (self : CspaceFreePolytope V M P) (s_lower_ s_upper_ : List K) (env : SearchEnv K P)
    (ignored_collision_pairs : Finset (Nat × Nat)) (C : MatrixXd K)
    (d_init s_center : List K) (st st' : BinarySearchState K P) (scale : K) (flag : Bool)
    (h : self.is_scale_feasible s_lower_ s_upper_ env ignored_collision_pairs C d_init
      s_center st scale = .ok (flag, st')) :
    st'.checked = st.checked ++ [scale] ∧
    st'.ret.num_iter_ = st.ret.num_iter_ ∧
    (∃ d ignored_collision_pairs_for_scale certificates_result,
      scaledOffset C d_init s_center scale = .ok d ∧
      env.FindSeparationCertificateGivenPolytope st.checked.length
        ignored_collision_pairs_for_scale C d = .ok certificates_result ∧
      flag = !certificates_result.any (fun certificate => certificate.isNone) ∧
      (flag = true → st'.ret.C_ = C ∧ st'.ret.d_ = d ∧
        self.GetPolyhedronWithJointLimits s_lower_ s_upper_ C d
          = .ok st'.ret.certified_polytope_)) ∧
    (flag = false → st'.ret.C_ = st.ret.C_ ∧ st'.ret.d_ = st.ret.d_ ∧
      st'.ret.certified_polytope_ = st.ret.certified_polytope_) := by
  unfold CspaceFreePolytope.is_scale_feasible at h
  obtain ⟨d, hd, h⟩ := except_bind_eq_ok _ _ _ h
  obtain ⟨ign, hign, h⟩ := except_bind_eq_ok _ _ _ h
  obtain ⟨certs, hcerts, h⟩ := except_bind_eq_ok _ _ _ h
  obtain ⟨lbs, hlbs, h⟩ := except_bind_eq_ok _ _ _ h
  by_cases hany : certs.any (fun certificate => certificate.isNone) = true
  · rw [if_pos hany] at h
    cases h
    obtain ⟨h1, h2, h3, h4⟩ := UpdateSeparatingPlanes_fields st.ret certs
    exact ⟨rfl, h4, ⟨d, ign, certs, hd, hcerts, by rw [hany]; rfl, fun hf => by cases hf⟩,
      fun _ => ⟨h1, h2, h3⟩⟩
  · rw [if_neg hany] at h
    obtain ⟨ret, hret, h⟩ := except_bind_eq_ok _ _ _ h
    cases h
    obtain ⟨h1, h2, h3, h4⟩ := UpdateSeparatingPlanes_fields ret certs
    obtain ⟨g1, g2, g3, _, _, g6⟩ := SetPolytope_fields st.ret ret C d self s_lower_
      s_upper_ hret
    refine ⟨rfl, h4.trans g3, ⟨d, ign, certs, hd, hcerts, ?_, fun _ =>
      ⟨h1.trans g1, h2.trans g2, by rw [h3]; exact g6⟩⟩, fun hf => by cases hf⟩
    rw [Bool.not_eq_true] at hany
    rw [hany]
    rfl

/-- The entries of `scale * d_init + (1 - scale) * C * s_center`. -/
theorem scaledOffset_entries {K : Type} [LinearOrderedField K] (C : MatrixXd K)
    (d_init s_center d : List K) (scale : K)
    (h : scaledOffset C d_init s_center scale = .ok d) :
    d.length = C.rows ∧ d_init.length = C.rows ∧ s_center.length = C.cols ∧
    ∀ i, i < C.rows →
      d[i]? = some (scale * d_init.getD i 0 + (1 - scale) *
        ((List.range C.cols).map (fun j => C.coeff i j * s_center.getD j 0)).sum) := by
  unfold scaledOffset MatrixXd.mulVec at h
  by_cases hcols : (MatrixXd.smul (1 - scale) C).cols = s_center.length
  · rw [if_pos hcols, except_bind_ok] at h
    unfold vecAdd at h
    by_cases hlen : (d_init.map (fun x => scale * x)).length
        = ((List.range (MatrixXd.smul (1 - scale) C).rows).map (fun i =>
          ((List.range (MatrixXd.smul (1 - scale) C).cols).map (fun j =>
            (MatrixXd.smul (1 - scale) C).coeff i j * s_center.getD j 0)).sum)).length
    · rw [if_pos hlen] at h
      cases h
      rw [List.length_map, List.length_map, List.length_range] at hlen
      have hrows : (MatrixXd.smul (1 - scale) C).rows = C.rows := rfl
      have hcols' : (MatrixXd.smul (1 - scale) C).cols = C.cols := rfl
      rw [hrows] at hlen
      refine ⟨by simp [hlen, hrows], hlen, by rw [← hcols, hcols'], fun i hi => ?_⟩
      rw [List.getElem?_zipWith, List.getElem?_map, List.getElem?_map,
        List.getElem?_range (by rw [hrows]; exact hi),
        List.getElem?_eq_getElem (by omega : i < d_init.length)]
      simp only [Option.map_some', hcols']
      rw [List.getD_eq_getElem?_getD, List.getElem?_eq_getElem (by omega : i < d_init.length),
        Option.getD_some]
      congr 2
      rw [← List.sum_map_mul_left]
      congr 1
      apply List.map_congr_left
      intro j _
      show (1 - scale) * C.coeff i j * s_center.getD j 0 = _
      ring
    · rw [if_neg hlen] at h
      cases h
  · rw [if_neg hcols] at h
    cases h

/-- C19: when the checks of `BinarySearch` pass and the feasibility check at
`scale_min` fails, `BinarySearch` returns `nullopt`, and `scale_min` is the only
scale that was checked; the check fails because the certificate search returned an
empty slot. -/
theorem BinarySearch_scale_min_infeasible {V M P K : Type} [LinearOrderedField K]
    (self : CspaceFreePolytope V M P) (s_lower_ s_upper_ : List K) (env : SearchEnv K P)
    (ignored_collision_pairs : Finset (Nat × Nat)) (C : MatrixXd K)
    (d_init s_center : List K) (options : BinarySearchOptions K)
    (st : BinarySearchState K P)
    (hchecks : binarySearchChecks s_lower_ s_upper_ env C d_init s_center options = .ok ())
    (hmin : self.is_scale_feasible s_lower_ s_upper_ env ignored_collision_pairs C d_init
      s_center (BinarySearchState.init self env) options.scale_min = .ok (false, st)) :
    self.BinarySearch s_lower_ s_upper_ env ignored_collision_pairs C d_init s_center options
      = .ok ⟨none, options.scale_min, options.scale_max, st⟩ ∧
    st.checked = [options.scale_min] ∧
    ∃ d ignored_collision_pairs_for_scale certificates_result,
      scaledOffset C d_init s_center options.scale_min = .ok d ∧
      env.FindSeparationCertificateGivenPolytope 0 ignored_collision_pairs_for_scale C d
        = .ok certificates_result ∧
      certificates_result.any (fun certificate => certificate.isNone) = true := by
  obtain ⟨hchecked, _, ⟨d, ign, certs, hd, hcerts, hflag, _⟩, _⟩ := is_scale_feasible_spec
    self s_lower_ s_upper_ env ignored_collision_pairs C d_init s_center _ st _ false hmin
  refine ⟨?_, hchecked, d, ign, certs, hd, hcerts, ?_⟩
  · unfold CspaceFreePolytope.BinarySearch
    rw [hchecks, except_bind_ok]
    dsimp only
    rw [hmin, except_bind_ok]
    rfl
  · cases hc : certs.any (fun certificate => certificate.isNone) with
    | true => rfl
    | false => rw [hc] at hflag; cases hflag

theorem BinarySearch_scale_min_infeasible_witness :
    binarySearchChecks [-10] [10] exampleFailingEnv exampleIntervalC [2, 2] [1]
      exampleBinarySearchOptions = .ok () ∧
    exampleSearchCfp.is_scale_feasible [-10] [10] exampleFailingEnv ∅ exampleIntervalC [2, 2]
      [1] (BinarySearchState.init exampleSearchCfp exampleFailingEnv)
      exampleBinarySearchOptions.scale_min
      = .ok (false, (exampleCheck exampleFailingEnv
          (BinarySearchState.init exampleSearchCfp exampleFailingEnv) (1 / 2)).2) ∧
    exampleSearchCfp.BinarySearch [-10] [10] exampleFailingEnv ∅ exampleIntervalC [2, 2] [1]
      exampleBinarySearchOptions
      = .ok ⟨none, 1 / 2, 3 / 4, (exampleCheck exampleFailingEnv
          (BinarySearchState.init exampleSearchCfp exampleFailingEnv) (1 / 2)).2⟩ ∧
    (exampleCheck exampleFailingEnv
      (BinarySearchState.init exampleSearchCfp exampleFailingEnv) (1 / 2)).2.checked
      = [1 / 2] := by
  have hchecks : binarySearchChecks [-10] [10] exampleFailingEnv exampleIntervalC [2, 2] [1]
      exampleBinarySearchOptions = .ok () := by with_unfolding_all rfl
  have hmin : exampleSearchCfp.is_scale_feasible [-10] [10] exampleFailingEnv ∅
      exampleIntervalC [2, 2] [1] (BinarySearchState.init exampleSearchCfp exampleFailingEnv)
      exampleBinarySearchOptions.scale_min
      = .ok (false, (exampleCheck exampleFailingEnv
          (BinarySearchState.init exampleSearchCfp exampleFailingEnv) (1 / 2)).2) := by
    with_unfolding_all rfl
  have h := BinarySearch_scale_min_infeasible exampleSearchCfp [-10] [10] exampleFailingEnv ∅
    exampleIntervalC [2, 2] [1] exampleBinarySearchOptions _ hchecks hmin
  exact ⟨hchecks, hmin, h.1, h.2.1⟩

/-- C20: when the checks of `BinarySearch` pass and the feasibility checks at
`scale_min` and at `scale_max` both succeed, `BinarySearch` returns a result with
`num_iter_ = 0` whose polytope has the input `C` and the offset
`d = scale_max * d_init + (1 - scale_max) * C * s_center`; the two scales are the only
ones that were checked, so no bisection step ran. -/
theorem BinarySearch_scale_max_feasible {V M P K : Type} [LinearOrderedField K]
    (self : CspaceFreePolytope V M P) (s_lower_ s_upper_ : List K) (env : SearchEnv K P)
    (ignored_collision_pairs : Finset (Nat × Nat)) (C : MatrixXd K)
    (d_init s_center : List K) (options : BinarySearchOptions K)
    (st1 st2 : BinarySearchState K P)
    (hchecks : binarySearchChecks s_lower_ s_upper_ env C d_init s_center options = .ok ())
    (hmin : self.is_scale_feasible s_lower_ s_upper_ env ignored_collision_pairs C d_init
      s_center (BinarySearchState.init self env) options.scale_min = .ok (true, st1))
    (hmax : self.is_scale_feasible s_lower_ s_upper_ env ignored_collision_pairs C d_init
      s_center st1 options.scale_max = .ok (true, st2)) :
    ∃ (out : BinarySearchOutcome K P) (ret : SearchResult K P) (d : List K),
      self.BinarySearch s_lower_ s_upper_ env ignored_collision_pairs C d_init s_center
        options = .ok out ∧
      out.result = some ret ∧ ret.num_iter_ = 0 ∧ ret.C_ = C ∧ ret.d_ = d ∧
      scaledOffset C d_init s_center options.scale_max = .ok d ∧
      d.length = C.rows ∧
      (∀ i, i < C.rows →
        d[i]? = some (options.scale_max * d_init.getD i 0 + (1 - options.scale_max) *
          ((List.range C.cols).map (fun j => C.coeff i j * s_center.getD j 0)).sum)) ∧
      out.st.checked = [options.scale_min, options.scale_max] ∧
      out.scale_min = options.scale_min ∧ out.scale_max = options.scale_max := by
  obtain ⟨hchecked1, _, _, _⟩ := is_scale_feasible_spec self s_lower_ s_upper_ env
    ignored_collision_pairs C d_init s_center _ st1 _ true hmin
  obtain ⟨hchecked2, _, ⟨d, _, _, hd, _, _, hpoly⟩, _⟩ := is_scale_feasible_spec self
    s_lower_ s_upper_ env ignored_collision_pairs C d_init s_center st1 st2 _ true hmax
  obtain ⟨hC, hdd, _⟩ := hpoly rfl
  obtain ⟨hlen, _, _, hentries⟩ := scaledOffset_entries C d_init s_center d _ hd
  refine ⟨⟨some { st2.ret with num_iter_ := 0 }, options.scale_min, options.scale_max,
    { st2 with ret := { st2.ret with num_iter_ := 0 } }⟩, { st2.ret with num_iter_ := 0 }, d,
    ?_, rfl, rfl, hC, hdd, hd, hlen, hentries, ?_, rfl, rfl⟩
  · unfold CspaceFreePolytope.BinarySearch
    rw [hchecks, except_bind_ok]
    dsimp only
    rw [hmin, except_bind_ok]
    dsimp only
    rw [if_neg (by simp), hmax, except_bind_ok]
    rfl
  · show st2.checked = _
    rw [hchecked2, hchecked1]
    rfl

theorem BinarySearch_scale_max_feasible_witness :
    binarySearchChecks [-10] [10] exampleSearchEnv exampleIntervalC [2, 2] [1]
      exampleBinarySearchOptions = .ok () ∧
    ∃ (out : BinarySearchOutcome ℚ Int) (ret : SearchResult ℚ Int),
      exampleSearchCfp.BinarySearch [-10] [10] exampleSearchEnv ∅ exampleIntervalC [2, 2] [1]
        exampleBinarySearchOptions = .ok out ∧
      out.result = some ret ∧ ret.num_iter_ = 0 ∧ ret.d_ = [7 / 4, 5 / 4] ∧
      out.st.checked = [1 / 2, 3 / 4] := by
  have hchecks : binarySearchChecks [-10] [10] exampleSearchEnv exampleIntervalC [2, 2] [1]
      exampleBinarySearchOptions = .ok () := by with_unfolding_all rfl
  have hmin : exampleSearchCfp.is_scale_feasible [-10] [10] exampleSearchEnv ∅
      exampleIntervalC [2, 2] [1] (BinarySearchState.init exampleSearchCfp exampleSearchEnv)
      exampleBinarySearchOptions.scale_min
      = .ok (true, (exampleCheck exampleSearchEnv
          (BinarySearchState.init exampleSearchCfp exampleSearchEnv) (1 / 2)).2) := by
    with_unfolding_all rfl
  have hmax : exampleSearchCfp.is_scale_feasible [-10] [10] exampleSearchEnv ∅
      exampleIntervalC [2, 2] [1] (exampleCheck exampleSearchEnv
          (BinarySearchState.init exampleSearchCfp exampleSearchEnv) (1 / 2)).2
      exampleBinarySearchOptions.scale_max
      = .ok (true, (exampleCheck exampleSearchEnv (exampleCheck exampleSearchEnv
          (BinarySearchState.init exampleSearchCfp exampleSearchEnv) (1 / 2)).2
          (3 / 4)).2) := by
    with_unfolding_all rfl
  obtain ⟨out, ret, d, hout, hres, hnum, _, hd, hoff, _, _, hchecked, _, _⟩ :=
    BinarySearch_scale_max_feasible exampleSearchCfp [-10] [10] exampleSearchEnv ∅
      exampleIntervalC [2, 2] [1] exampleBinarySearchOptions _ _ hchecks hmin hmax
  have hval : scaledOffset exampleIntervalC [2, 2] [1] exampleBinarySearchOptions.scale_max
      = .ok [7 / 4, 5 / 4] := by with_unfolding_all rfl
  rw [hval] at hoff
  cases hoff
  exact ⟨hchecks, out, ret, hout, hres, hnum, hd, hchecked⟩


/-! ## The offsets of `BinarySearch` -/

/-- The invariant rule for the bisection loop of `BinarySearch`. -/
theorem bisectionLoop_inv {V M P K : Type} [LinearOrderedField K]
    (self : CspaceFreePolytope V M P) (s_lower_ s_upper_ : List K) (env : SearchEnv K P)
    (ignored_collision_pairs : Finset (Nat × Nat)) (C : MatrixXd K)
    (d_init s_center : List K) (options : BinarySearchOptions K)
    (Inv : BisectionState K P → Prop)
    (hstep : ∀ (b : BisectionState K P) (flag : Bool) (st' : BinarySearchState K P),
      Inv b → b.scale_max - b.scale_min > options.convergence_tol →
      (b.iter : Int) < options.max_iter →
      self.is_scale_feasible s_lower_ s_upper_ env ignored_collision_pairs C d_init s_center
        b.st ((b.scale_max + b.scale_min) / 2) = .ok (flag, st') →
      (flag = true → Inv { b with scale_min := (b.scale_max + b.scale_min) / 2,
                                  iter := b.iter + 1, st := st' }) ∧
      (flag = false → Inv { b with scale_max := (b.scale_max + b.scale_min) / 2,
                                   iter := b.iter + 1, st := st' })) :
    ∀ (left : Nat) (b b' : BisectionState K P),
      self.bisectionLoop s_lower_ s_upper_ env ignored_collision_pairs C d_init s_center
        options left b = .ok b' →
      Inv b → Inv b' := by
  intro left
  induction left with
  | zero =>
    intro b b' h hI
    cases h
    exact hI
  | succ left ih =>
    intro b b' h hI
    unfold CspaceFreePolytope.bisectionLoop at h
    by_cases hc : b.scale_max - b.scale_min > options.convergence_tol ∧
        (b.iter : Int) < options.max_iter
    · rw [if_pos hc] at h
      obtain ⟨res, hres, h⟩ := except_bind_eq_ok _ _ _ h
      obtain ⟨flag, st'⟩ := res
      obtain ⟨ht, hf⟩ := hstep b flag st' hI hc.1 hc.2 hres
      cases flag with
      | true =>
        dsimp only at h
        rw [if_pos rfl] at h
        exact ih _ b' h (ht rfl)
      | false =>
        dsimp only at h
        rw [if_neg (by simp)] at h
        exact ih _ b' h (hf rfl)
    · rw [if_neg hc] at h
      cases h
      exact hI

/-- The bisection loop of `BinarySearch` ends with its condition false, when it is
started with enough runs left. -/
theorem bisectionLoop_exit {V M P K : Type} [LinearOrderedField K]
    (self : CspaceFreePolytope V M P) (s_lower_ s_upper_ : List K) (env : SearchEnv K P)
    (ignored_collision_pairs : Finset (Nat × Nat)) (C : MatrixXd K)
    (d_init s_center : List K) (options : BinarySearchOptions K) :
    ∀ (left : Nat) (b b' : BisectionState K P),
      self.bisectionLoop s_lower_ s_upper_ env ignored_collision_pairs C d_init s_center
        options left b = .ok b' →
      options.max_iter ≤ (b.iter : Int) + (left : Int) →
      ¬ (b'.scale_max - b'.scale_min > options.convergence_tol ∧
        (b'.iter : Int) < options.max_iter) := by
  intro left
  induction left with
  | zero =>
    intro b b' h hle
    cases h
    rintro ⟨_, hlt⟩
    simp only [Nat.cast_zero, add_zero] at hle
    exact absurd hlt (not_lt.mpr hle)
  | succ left ih =>
    intro b b' h hle
    unfold CspaceFreePolytope.bisectionLoop at h
    by_cases hc : b.scale_max - b.scale_min > options.convergence_tol ∧
        (b.iter : Int) < options.max_iter
    · rw [if_pos hc] at h
      obtain ⟨res, hres, h⟩ := except_bind_eq_ok _ _ _ h
      obtain ⟨flag, st'⟩ := res
      cases flag with
      | true =>
        dsimp only at h
        rw [if_pos rfl] at h
        exact ih _ b' h (by dsimp only; push_cast at hle ⊢; omega)
      | false =>
        dsimp only at h
        rw [if_neg (by simp)] at h
        exact ih _ b' h (by dsimp only; push_cast at hle ⊢; omega)
    · rw [if_neg hc] at h
      cases h
      exact hc

/-- The checks of `BinarySearch` that passed. -/
theorem binarySearchChecks_spec {K P : Type} [LinearOrderedField K]
    (s_lower_ s_upper_ : List K) (env : SearchEnv K P) (C : MatrixXd K)
    (d_init s_center : List K) (options : BinarySearchOptions K)
    (h : binarySearchChecks s_lower_ s_upper_ env C d_init s_center options = .ok ()) :
    (∃ Cs, C.mulVec s_center = .ok Cs ∧ arrayLe Cs d_init = .ok true) ∧
    arrayLe s_lower_ s_center = .ok true ∧ arrayLe s_center s_upper_ = .ok true ∧
    0 ≤ options.scale_min ∧ options.scale_min ≤ options.scale_max ∧
    0 ≤ options.max_iter ∧ 0 < options.convergence_tol := by
  unfold binarySearchChecks at h
  cases hCs : C.mulVec s_center with
  | error e => rw [hCs] at h; cases h
  | ok Cs =>
    rw [hCs, except_bind_ok] at h
    cases hle1 : arrayLe Cs d_init with
    | error e => rw [hle1] at h; cases h
    | ok le1 =>
      rw [hle1, except_bind_ok] at h
      cases le1 with
      | false => rw [if_pos (by simp)] at h; cases h
      | true =>
        rw [if_neg (by simp)] at h
        try simp only [pure_bind] at h
        cases hle2 : arrayLe s_lower_ s_center with
        | error e => rw [hle2] at h; cases h
        | ok le2 =>
          rw [hle2, except_bind_ok] at h
          cases le2 with
          | false => rw [if_pos (by simp)] at h; cases h
          | true =>
            rw [if_neg (by simp)] at h
            try simp only [pure_bind] at h
            cases hle3 : arrayLe s_center s_upper_ with
            | error e => rw [hle3] at h; cases h
            | ok le3 =>
              rw [hle3, except_bind_ok] at h
              cases le3 with
              | false => rw [if_pos (by simp)] at h; cases h
              | true =>
                rw [if_neg (by simp)] at h
                try simp only [pure_bind] at h
                by_cases h4 : ¬ options.scale_min ≥ 0
                · rw [if_pos h4] at h; cases h
                rw [if_neg h4] at h
                try simp only [pure_bind] at h
                by_cases h5 : ¬ options.scale_min ≤ options.scale_max
                · rw [if_pos h5] at h; cases h
                rw [if_neg h5] at h
                try simp only [pure_bind] at h
                by_cases h6 : ¬ options.max_iter ≥ 0
                · rw [if_pos h6] at h; cases h
                rw [if_neg h6] at h
                try simp only [pure_bind] at h
                by_cases h7 : ¬ options.convergence_tol > 0
                · rw [if_pos h7] at h; cases h
                exact ⟨⟨Cs, rfl, hle1⟩, rfl, rfl, not_not.mp h4, not_not.mp h5,
                  not_not.mp h6, not_not.mp h7⟩

/-- The three ways in which `BinarySearch` returns. -/
theorem BinarySearch_cases {V M P K : Type} [LinearOrderedField K]
    (self : CspaceFreePolytope V M P) (s_lower_ s_upper_ : List K) (env : SearchEnv K P)
    (ignored_collision_pairs : Finset (Nat × Nat)) (C : MatrixXd K)
    (d_init s_center : List K) (options : BinarySearchOptions K)
    (out : BinarySearchOutcome K P)
    (h : self.BinarySearch s_lower_ s_upper_ env ignored_collision_pairs C d_init s_center
      options = .ok out) :
    binarySearchChecks s_lower_ s_upper_ env C d_init s_center options = .ok () ∧
    ((∃ st1, self.is_scale_feasible s_lower_ s_upper_ env ignored_collision_pairs C d_init
        s_center (BinarySearchState.init self env) options.scale_min = .ok (false, st1) ∧
        out = ⟨none, options.scale_min, options.scale_max, st1⟩) ∨
    (∃ st1 st2, self.is_scale_feasible s_lower_ s_upper_ env ignored_collision_pairs C d_init
        s_center (BinarySearchState.init self env) options.scale_min = .ok (true, st1) ∧
      self.is_scale_feasible s_lower_ s_upper_ env ignored_collision_pairs C d_init
        s_center st1 options.scale_max = .ok (true, st2) ∧
      out = ⟨some { st2.ret with num_iter_ := 0 }, options.scale_min, options.scale_max,
        { st2 with ret := { st2.ret with num_iter_ := 0 } }⟩) ∨
    (∃ st1 st2 b, self.is_scale_feasible s_lower_ s_upper_ env ignored_collision_pairs C
        d_init s_center (BinarySearchState.init self env) options.scale_min
        = .ok (true, st1) ∧
      self.is_scale_feasible s_lower_ s_upper_ env ignored_collision_pairs C d_init
        s_center st1 options.scale_max = .ok (false, st2) ∧
      self.bisectionLoop s_lower_ s_upper_ env ignored_collision_pairs C d_init s_center
        options options.max_iter.toNat ⟨options.scale_min, options.scale_max, 0, st2⟩
        = .ok b ∧
      out = ⟨some { b.st.ret with num_iter_ := (b.iter : Int) }, b.scale_min, b.scale_max,
        { b.st with ret := { b.st.ret with num_iter_ := (b.iter : Int) } }⟩)) := by
  unfold CspaceFreePolytope.BinarySearch at h
  obtain ⟨u, hchecks, h⟩ := except_bind_eq_ok _ _ _ h
  refine ⟨hchecks, ?_⟩
  dsimp only at h
  obtain ⟨res1, h1, h⟩ := except_bind_eq_ok _ _ _ h
  obtain ⟨flag1, st1⟩ := res1
  cases flag1 with
  | false =>
    dsimp only at h
    rw [if_pos (by simp)] at h
    cases h
    exact Or.inl ⟨st1, h1, rfl⟩
  | true =>
    dsimp only at h
    rw [if_neg (by simp)] at h
    obtain ⟨res2, h2, h⟩ := except_bind_eq_ok _ _ _ h
    obtain ⟨flag2, st2⟩ := res2
    cases flag2 with
    | true =>
      dsimp only at h
      rw [if_pos rfl] at h
      cases h
      exact Or.inr (Or.inl ⟨st1, st2, h1, h2, rfl⟩)
    | false =>
      dsimp only at h
      rw [if_neg (by simp)] at h
      obtain ⟨b, hb, h⟩ := except_bind_eq_ok _ _ _ h
      cases h
      exact Or.inr (Or.inr ⟨st1, st2, b, h1, h2, hb, rfl⟩)

/-- A call of `is_scale_feasible` that returns, with everything it computed. -/
theorem is_scale_feasible_event {V M P K : Type} [LinearOrderedField K]
    (self : CspaceFreePolytope V M P) (s_lower_ s_upper_ : List K) (env : SearchEnv K P)
    (ignored_collision_pairs : Finset (Nat × Nat)) (C : MatrixXd K)
    (d_init s_center : List K) (st st' : BinarySearchState K P) (scale : K) (flag : Bool)
    (h : self.is_scale_feasible s_lower_ s_upper_ env ignored_collision_pairs C d_init
      s_center st scale = .ok (flag, st')) :
    ∃ event : CheckEvent K P,
      self.checkEvent s_lower_ s_upper_ env ignored_collision_pairs C d_init s_center st
        scale = .ok (event, st') ∧
      event.scale = scale ∧ event.feasible = flag ∧
      scaledOffset C d_init s_center scale = .ok event.d ∧
      (List.range self.separating_planes.length).foldlM
        (ignoredForScaleBody self ignored_collision_pairs
          st.geometry_pair_scale_lower_bounds scale) ignored_collision_pairs
        = .ok event.ignored_collision_pairs_for_scale ∧
      env.FindSeparationCertificateGivenPolytope st.checked.length
        event.ignored_collision_pairs_for_scale C event.d = .ok event.certificates_result ∧
      flag = !event.certificates_result.any (fun certificate => certificate.isNone) ∧
      event.certificates_result.foldlM (lowerBoundsBody scale)
        st.geometry_pair_scale_lower_bounds = .ok st'.geometry_pair_scale_lower_bounds ∧
      st'.checked = st.checked ++ [scale] ∧
      (flag = false → st'.ret = st.ret.UpdateSeparatingPlanes event.certificates_result) ∧
      (flag = true → ∃ ret, st.ret.SetPolytope C event.d self s_lower_ s_upper_ = .ok ret ∧
        st'.ret = ret.UpdateSeparatingPlanes event.certificates_result) := by
  have h0 := h
  unfold CspaceFreePolytope.is_scale_feasible at h
  obtain ⟨d, hd, h⟩ := except_bind_eq_ok _ _ _ h
  obtain ⟨ign, hign, h⟩ := except_bind_eq_ok _ _ _ h
  obtain ⟨certs, hcerts, h⟩ := except_bind_eq_ok _ _ _ h
  obtain ⟨lbs, hlbs, h⟩ := except_bind_eq_ok _ _ _ h
  have hev : self.checkEvent s_lower_ s_upper_ env ignored_collision_pairs C d_init s_center
      st scale = .ok (⟨scale, d, ign, certs, flag⟩, st') := by
    unfold CspaceFreePolytope.checkEvent
    rw [hd, except_bind_ok, hign, except_bind_ok, hcerts, except_bind_ok, h0,
      except_bind_ok]
    rfl
  refine ⟨⟨scale, d, ign, certs, flag⟩, hev, rfl, rfl, hd, hign, hcerts, ?_⟩
  by_cases hany : certs.any (fun certificate => certificate.isNone) = true
  · rw [if_pos hany] at h
    cases h
    exact ⟨by rw [hany]; rfl, hlbs, rfl, fun _ => rfl, fun hf => by cases hf⟩
  · rw [if_neg hany] at h
    obtain ⟨ret, hret, h⟩ := except_bind_eq_ok _ _ _ h
    cases h
    rw [Bool.not_eq_true] at hany
    exact ⟨by rw [hany]; rfl, hlbs, rfl, fun hf => (by cases hf), fun _ => ⟨ret, hret, rfl⟩⟩

/-- The history of the checks grows by the last check. -/
theorem checkHistory_snoc {V M P K : Type} [LinearOrderedField K]
    (self : CspaceFreePolytope V M P) (s_lower_ s_upper_ : List K) (env : SearchEnv K P)
    (ignored_collision_pairs : Finset (Nat × Nat)) (C : MatrixXd K)
    (d_init s_center : List K) (scale : K) (event : CheckEvent K P)
    (st st' : BinarySearchState K P)
    (hev : self.checkEvent s_lower_ s_upper_ env ignored_collision_pairs C d_init s_center
      st scale = .ok (event, st')) :
    ∀ (scales : List K) (st0 : BinarySearchState K P) (events : List (CheckEvent K P)),
      self.checkHistory s_lower_ s_upper_ env ignored_collision_pairs C d_init s_center
        scales st0 = .ok (events, st) →
      self.checkHistory s_lower_ s_upper_ env ignored_collision_pairs C d_init s_center
        (scales ++ [scale]) st0 = .ok (events ++ [event], st') := by
  intro scales
  induction scales with
  | nil =>
    intro st0 events h
    cases h
    show self.checkHistory s_lower_ s_upper_ env ignored_collision_pairs C d_init s_center
      [scale] st = _
    unfold CspaceFreePolytope.checkHistory
    rw [hev, except_bind_ok]
    unfold CspaceFreePolytope.checkHistory
    rfl
  | cons x xs ih =>
    intro st0 events h
    unfold CspaceFreePolytope.checkHistory at h
    obtain ⟨res, hres, h⟩ := except_bind_eq_ok _ _ _ h
    obtain ⟨ev1, st1⟩ := res
    obtain ⟨res2, hres2, h⟩ := except_bind_eq_ok _ _ _ h
    obtain ⟨evs2, st2⟩ := res2
    cases h
    show self.checkHistory s_lower_ s_upper_ env ignored_collision_pairs C d_init s_center
      (x :: (xs ++ [scale])) st0 = _
    unfold CspaceFreePolytope.checkHistory
    rw [hres, except_bind_ok]
    dsimp only
    rw [ih st1 evs2 hres2, except_bind_ok]
    rfl

/-- A check that returns extends the history of the checks before it. -/
theorem checkHistory_step {V M P K : Type} [LinearOrderedField K]
    (self : CspaceFreePolytope V M P) (s_lower_ s_upper_ : List K) (env : SearchEnv K P)
    (ignored_collision_pairs : Finset (Nat × Nat)) (C : MatrixXd K)
    (d_init s_center : List K) (st0 st st' : BinarySearchState K P)
    (events : List (CheckEvent K P)) (scale : K) (flag : Bool)
    (hH : self.checkHistory s_lower_ s_upper_ env ignored_collision_pairs C d_init s_center
      st.checked st0 = .ok (events, st))
    (h : self.is_scale_feasible s_lower_ s_upper_ env ignored_collision_pairs C d_init
      s_center st scale = .ok (flag, st')) :
    ∃ event : CheckEvent K P,
      self.checkHistory s_lower_ s_upper_ env ignored_collision_pairs C d_init s_center
        st'.checked st0 = .ok (events ++ [event], st') ∧
      self.checkEvent s_lower_ s_upper_ env ignored_collision_pairs C d_init s_center st
        scale = .ok (event, st') ∧
      event.scale = scale ∧ event.feasible = flag := by
  obtain ⟨event, hev, hscale, hflag, _, _, _, _, _, hchecked, _⟩ := is_scale_feasible_event
    self s_lower_ s_upper_ env ignored_collision_pairs C d_init s_center st st' scale flag h
  refine ⟨event, ?_, hev, hscale, hflag⟩
  rw [hchecked]
  exact checkHistory_snoc self s_lower_ s_upper_ env ignored_collision_pairs C d_init
    s_center scale event st st' hev st.checked st0 events hH

/-- C22, amended: when `BinarySearch` bisects, which is when the check at
`scale_min` succeeds and the check at `scale_max` fails, and returns with
`num_iter_ < max_iter`, the final bracket satisfies
`scale_max - scale_min ≤ convergence_tol`; among the checks that were made, one at the
lower end of the final bracket succeeded and one at its upper end failed. -/
theorem BinarySearch_final_bracket {V M P K : Type} [LinearOrderedField K]
    (self : CspaceFreePolytope V M P) (s_lower_ s_upper_ : List K) (env : SearchEnv K P)
    (ignored_collision_pairs : Finset (Nat × Nat)) (C : MatrixXd K)
    (d_init s_center : List K) (options : BinarySearchOptions K)
    (st1 st2 : BinarySearchState K P) (out : BinarySearchOutcome K P)
    (ret : SearchResult K P)
    (hmin : self.is_scale_feasible s_lower_ s_upper_ env ignored_collision_pairs C d_init
      s_center (BinarySearchState.init self env) options.scale_min = .ok (true, st1))
    (hmax : self.is_scale_feasible s_lower_ s_upper_ env ignored_collision_pairs C d_init
      s_center st1 options.scale_max = .ok (false, st2))
    (h : self.BinarySearch s_lower_ s_upper_ env ignored_collision_pairs C d_init s_center
      options = .ok out)
    (hret : out.result = some ret) (hlt : ret.num_iter_ < options.max_iter) :
    out.scale_max - out.scale_min ≤ options.convergence_tol ∧
    ∃ (events : List (CheckEvent K P)) (st : BinarySearchState K P),
      self.checkHistory s_lower_ s_upper_ env ignored_collision_pairs C d_init s_center
        out.st.checked (BinarySearchState.init self env) = .ok (events, st) ∧
      (∃ event ∈ events, event.scale = out.scale_min ∧ event.feasible = true) ∧
      (∃ event ∈ events, event.scale = out.scale_max ∧ event.feasible = false) := by
  obtain ⟨_, hcases⟩ := BinarySearch_cases self s_lower_ s_upper_ env
    ignored_collision_pairs C d_init s_center options out h
  rcases hcases with ⟨st1', h1, _⟩ | ⟨st1', st2', h1, h2, _⟩ | ⟨st1', st2', b, h1, h2, hb, hout⟩
  · rw [hmin] at h1
    cases h1
  · rw [hmin] at h1
    cases h1
    rw [hmax] at h2
    cases h2
  · rw [hmin] at h1
    cases h1
    rw [hmax] at h2
    cases h2
    rw [hout] at hret
    cases hret
    rw [hout]
    dsimp only at hlt ⊢
    have hexit := bisectionLoop_exit self s_lower_ s_upper_ env ignored_collision_pairs C
      d_init s_center options options.max_iter.toNat _ b hb (by
        dsimp only
        have := Int.self_le_toNat options.max_iter
        push_cast
        omega)
    obtain ⟨ev1, hH1, _, hs1, hf1⟩ := checkHistory_step self s_lower_ s_upper_ env
      ignored_collision_pairs C d_init s_center (BinarySearchState.init self env)
      (BinarySearchState.init self env) st1 [] options.scale_min true rfl hmin
    obtain ⟨ev2, hH2, _, hs2, hf2⟩ := checkHistory_step self s_lower_ s_upper_ env
      ignored_collision_pairs C d_init s_center (BinarySearchState.init self env)
      st1 st2 _ options.scale_max false hH1 hmax
    have hI := bisectionLoop_inv self s_lower_ s_upper_ env ignored_collision_pairs C
      d_init s_center options
      (fun b => ∃ events : List (CheckEvent K P),
        self.checkHistory s_lower_ s_upper_ env ignored_collision_pairs C d_init s_center
          b.st.checked (BinarySearchState.init self env) = .ok (events, b.st) ∧
        (∃ event ∈ events, event.scale = b.scale_min ∧ event.feasible = true) ∧
        (∃ event ∈ events, event.scale = b.scale_max ∧ event.feasible = false))
      (fun b flag st' hI _ _ hcheck => by
        obtain ⟨events, hH, ⟨el, hel, hels, helf⟩, ⟨eu, heu, heus, heuf⟩⟩ := hI
        obtain ⟨ev, hH', _, hs, hf⟩ := checkHistory_step self s_lower_ s_upper_ env
          ignored_collision_pairs C d_init s_center (BinarySearchState.init self env)
          b.st st' events _ flag hH hcheck
        refine ⟨fun hflag => ⟨events ++ [ev], hH', ⟨ev, by simp, hs, by rw [hf, hflag]⟩,
            ⟨eu, by simp [heu], heus, heuf⟩⟩,
          fun hflag => ⟨events ++ [ev], hH', ⟨el, by simp [hel], hels, helf⟩,
            ⟨ev, by simp, hs, by rw [hf, hflag]⟩⟩⟩)
      options.max_iter.toNat _ b hb
      ⟨[] ++ [ev1] ++ [ev2], hH2, ⟨ev1, by simp, hs1, hf1⟩, ⟨ev2, by simp, hs2, hf2⟩⟩
    obtain ⟨events, hH, hl, hu⟩ := hI
    refine ⟨?_, events, b.st, hH, hl, hu⟩
    by_contra hgt
    exact hexit ⟨not_le.mp hgt, hlt⟩

theorem BinarySearch_final_bracket_witness :
    exampleTwoPlaneCfp.is_scale_feasible [-10] [10] exampleBisectionEnv ∅ exampleIntervalC
      [2, 2] [1] (BinarySearchState.init exampleTwoPlaneCfp exampleBisectionEnv)
      (exampleToleranceOptions (1 / 10)).scale_min
      = .ok (true, (exampleTwoPlaneCheck
          (BinarySearchState.init exampleTwoPlaneCfp exampleBisectionEnv) (1 / 2)).2) ∧
    exampleTwoPlaneCfp.is_scale_feasible [-10] [10] exampleBisectionEnv ∅ exampleIntervalC
      [2, 2] [1] (exampleTwoPlaneCheck
          (BinarySearchState.init exampleTwoPlaneCfp exampleBisectionEnv) (1 / 2)).2
      (exampleToleranceOptions (1 / 10)).scale_max
      = .ok (false, (exampleTwoPlaneCheck (exampleTwoPlaneCheck
          (BinarySearchState.init exampleTwoPlaneCfp exampleBisectionEnv) (1 / 2)).2
          (3 / 4)).2) ∧
    exampleTwoPlaneCfp.BinarySearch [-10] [10] exampleBisectionEnv ∅ exampleIntervalC [2, 2]
      [1] (exampleToleranceOptions (1 / 10))
      = .ok (exampleBinarySearch (exampleToleranceOptions (1 / 10))) ∧
    (exampleBinarySearch (exampleToleranceOptions (1 / 10))).result
      = some (exampleBinarySearchResult (exampleToleranceOptions (1 / 10))) ∧
    (exampleBinarySearchResult (exampleToleranceOptions (1 / 10))).num_iter_
      < (exampleToleranceOptions (1 / 10)).max_iter ∧
    (exampleBinarySearch (exampleToleranceOptions (1 / 10))).scale_min = 5 / 8 ∧
    (exampleBinarySearch (exampleToleranceOptions (1 / 10))).scale_max = 11 / 16 ∧
    (exampleBinarySearch (exampleToleranceOptions (1 / 10))).scale_max
        - (exampleBinarySearch (exampleToleranceOptions (1 / 10))).scale_min
      ≤ (exampleToleranceOptions (1 / 10)).convergence_tol ∧
    ∃ (events : List (CheckEvent ℚ Int)) (st : BinarySearchState ℚ Int),
      exampleTwoPlaneCfp.checkHistory [-10] [10] exampleBisectionEnv ∅ exampleIntervalC
        [2, 2] [1] (exampleBinarySearch (exampleToleranceOptions (1 / 10))).st.checked
        (BinarySearchState.init exampleTwoPlaneCfp exampleBisectionEnv) = .ok (events, st) ∧
      (∃ event ∈ events,
        event.scale = (exampleBinarySearch (exampleToleranceOptions (1 / 10))).scale_min ∧
        event.feasible = true) ∧
      (∃ event ∈ events,
        event.scale = (exampleBinarySearch (exampleToleranceOptions (1 / 10))).scale_max ∧
        event.feasible = false) := by
  have hmin : exampleTwoPlaneCfp.is_scale_feasible [-10] [10] exampleBisectionEnv ∅
      exampleIntervalC [2, 2] [1]
      (BinarySearchState.init exampleTwoPlaneCfp exampleBisectionEnv)
      (exampleToleranceOptions (1 / 10)).scale_min
      = .ok (true, (exampleTwoPlaneCheck
          (BinarySearchState.init exampleTwoPlaneCfp exampleBisectionEnv) (1 / 2)).2) := by
    with_unfolding_all rfl
  have hmax : exampleTwoPlaneCfp.is_scale_feasible [-10] [10] exampleBisectionEnv ∅
      exampleIntervalC [2, 2] [1] (exampleTwoPlaneCheck
          (BinarySearchState.init exampleTwoPlaneCfp exampleBisectionEnv) (1 / 2)).2
      (exampleToleranceOptions (1 / 10)).scale_max
      = .ok (false, (exampleTwoPlaneCheck (exampleTwoPlaneCheck
          (BinarySearchState.init exampleTwoPlaneCfp exampleBisectionEnv) (1 / 2)).2
          (3 / 4)).2) := by
    with_unfolding_all rfl
  have hrun : exampleTwoPlaneCfp.BinarySearch [-10] [10] exampleBisectionEnv ∅
      exampleIntervalC [2, 2] [1] (exampleToleranceOptions (1 / 10))
      = .ok (exampleBinarySearch (exampleToleranceOptions (1 / 10))) := by
    with_unfolding_all rfl
  have hret : (exampleBinarySearch (exampleToleranceOptions (1 / 10))).result
      = some (exampleBinarySearchResult (exampleToleranceOptions (1 / 10))) := by
    with_unfolding_all rfl
  have hnum : (exampleBinarySearchResult (exampleToleranceOptions (1 / 10))).num_iter_ = 2 := by
    with_unfolding_all rfl
  have hlt : (exampleBinarySearchResult (exampleToleranceOptions (1 / 10))).num_iter_
      < (exampleToleranceOptions (1 / 10)).max_iter := by
    rw [hnum]
    decide
  have h := BinarySearch_final_bracket exampleTwoPlaneCfp [-10] [10] exampleBisectionEnv ∅
    exampleIntervalC [2, 2] [1] (exampleToleranceOptions (1 / 10)) _ _ _ _ hmin hmax hrun
    hret hlt
  exact ⟨hmin, hmax, hrun, hret, hlt, by with_unfolding_all rfl, by with_unfolding_all rfl,
    h.1, h.2⟩

/-- C22 as stated, at the example with `convergence_tol = 1/16`: the search
bisects, the bracket `[1/2, 3/4]` is halved twice to `[5/8, 11/16]`, whose width
`1/16` is not above the tolerance, so the loop ends with `num_iter_ = 2 < 3 = max_iter`
and a bracket whose width is equal to the tolerance, not below it. -/
theorem BinarySearch_final_bracket_counterexample :
    exampleTwoPlaneCfp.is_scale_feasible [-10] [10] exampleBisectionEnv ∅ exampleIntervalC
      [2, 2] [1] (BinarySearchState.init exampleTwoPlaneCfp exampleBisectionEnv)
      (exampleToleranceOptions (1 / 16)).scale_min
      = .ok (true, (exampleTwoPlaneCheck
          (BinarySearchState.init exampleTwoPlaneCfp exampleBisectionEnv) (1 / 2)).2) ∧
    exampleTwoPlaneCfp.is_scale_feasible [-10] [10] exampleBisectionEnv ∅ exampleIntervalC
      [2, 2] [1] (exampleTwoPlaneCheck
          (BinarySearchState.init exampleTwoPlaneCfp exampleBisectionEnv) (1 / 2)).2
      (exampleToleranceOptions (1 / 16)).scale_max
      = .ok (false, (exampleTwoPlaneCheck (exampleTwoPlaneCheck
          (BinarySearchState.init exampleTwoPlaneCfp exampleBisectionEnv) (1 / 2)).2
          (3 / 4)).2) ∧
    exampleTwoPlaneCfp.BinarySearch [-10] [10] exampleBisectionEnv ∅ exampleIntervalC [2, 2]
      [1] (exampleToleranceOptions (1 / 16))
      = .ok (exampleBinarySearch (exampleToleranceOptions (1 / 16))) ∧
    (exampleBinarySearch (exampleToleranceOptions (1 / 16))).result
      = some (exampleBinarySearchResult (exampleToleranceOptions (1 / 16))) ∧
    (exampleBinarySearchResult (exampleToleranceOptions (1 / 16))).num_iter_ = 2 ∧
    (exampleToleranceOptions (1 / 16)).max_iter = 3 ∧
    (exampleBinarySearch (exampleToleranceOptions (1 / 16))).scale_min = 5 / 8 ∧
    (exampleBinarySearch (exampleToleranceOptions (1 / 16))).scale_max = 11 / 16 ∧
    (exampleToleranceOptions (1 / 16)).convergence_tol = 1 / 16 ∧
    ¬ ((exampleBinarySearch (exampleToleranceOptions (1 / 16))).scale_max
        - (exampleBinarySearch (exampleToleranceOptions (1 / 16))).scale_min
      < (exampleToleranceOptions (1 / 16)).convergence_tol) := by
  have hlo : (exampleBinarySearch (exampleToleranceOptions (1 / 16))).scale_min = 5 / 8 := by
    with_unfolding_all rfl
  have hhi : (exampleBinarySearch (exampleToleranceOptions (1 / 16))).scale_max
      = 11 / 16 := by
    with_unfolding_all rfl
  have htol : (exampleToleranceOptions (1 / 16)).convergence_tol = 1 / 16 := rfl
  refine ⟨by with_unfolding_all rfl, by with_unfolding_all rfl, by with_unfolding_all rfl,
    by with_unfolding_all rfl, by with_unfolding_all rfl, rfl, hlo, hhi, htol, ?_⟩
  rw [hlo, hhi, htol]
  norm_num


/-- C25: when `BinarySearch` returns a result, its `C_` is the input `C` and its `d_`
is `x * d_init + (1 - x) * C * s_center`, with the polytope made of them, where `x` is
the largest scale at which a check succeeded; `x` is `options.scale_max` when the
check there succeeded, with `num_iter_ = 0`, and the final `scale_min` otherwise. A
check that fails leaves the stored polytope as it is. -/
theorem BinarySearch_best_polytope {V M P K : Type} [LinearOrderedField K]
    (self : CspaceFreePolytope V M P) (s_lower_ s_upper_ : List K) (env : SearchEnv K P)
    (ignored_collision_pairs : Finset (Nat × Nat)) (C : MatrixXd K)
    (d_init s_center : List K) (options : BinarySearchOptions K)
    (out : BinarySearchOutcome K P) (ret : SearchResult K P)
    (h : self.BinarySearch s_lower_ s_upper_ env ignored_collision_pairs C d_init s_center
      options = .ok out)
    (hret : out.result = some ret) :
    (∃ (x : K) (events : List (CheckEvent K P)) (st : BinarySearchState K P),
      self.checkHistory s_lower_ s_upper_ env ignored_collision_pairs C d_init s_center
        out.st.checked (BinarySearchState.init self env) = .ok (events, st) ∧
      (∃ event ∈ events, event.scale = x ∧ event.feasible = true) ∧
      (∀ event ∈ events, event.feasible = true → event.scale ≤ x) ∧
      ret.C_ = C ∧ scaledOffset C d_init s_center x = .ok ret.d_ ∧
      self.GetPolyhedronWithJointLimits s_lower_ s_upper_ C ret.d_
        = .ok ret.certified_polytope_ ∧
      ((x = options.scale_max ∧ ret.num_iter_ = 0) ∨ x = out.scale_min)) ∧
    ∀ (st st' : BinarySearchState K P) (scale : K),
      self.is_scale_feasible s_lower_ s_upper_ env ignored_collision_pairs C d_init s_center
        st scale = .ok (false, st') →
      st'.ret.C_ = st.ret.C_ ∧ st'.ret.d_ = st.ret.d_ ∧
      st'.ret.certified_polytope_ = st.ret.certified_polytope_ := by
  refine ⟨?_, fun st st' scale hf =>
    (is_scale_feasible_spec self s_lower_ s_upper_ env ignored_collision_pairs C d_init
      s_center st st' scale false hf).2.2.2 rfl⟩
  obtain ⟨hchecks, hcases⟩ := BinarySearch_cases self s_lower_ s_upper_ env
    ignored_collision_pairs C d_init s_center options out h
  obtain ⟨_, _, _, _, hle, _, htol⟩ := binarySearchChecks_spec s_lower_ s_upper_ env C
    d_init s_center options hchecks
  rcases hcases with ⟨st1, _, hout⟩ | ⟨st1, st2, hmin, hmax, hout⟩ |
    ⟨st1, st2, b, hmin, hmax, hb, hout⟩
  · rw [hout] at hret
    cases hret
  · rw [hout] at hret
    cases hret
    rw [hout]
    obtain ⟨ev1, hH1, _, hs1, hf1⟩ := checkHistory_step self s_lower_ s_upper_ env
      ignored_collision_pairs C d_init s_center (BinarySearchState.init self env)
      (BinarySearchState.init self env) st1 [] options.scale_min true rfl hmin
    obtain ⟨ev2, hH2, _, hs2, hf2⟩ := checkHistory_step self s_lower_ s_upper_ env
      ignored_collision_pairs C d_init s_center (BinarySearchState.init self env)
      st1 st2 _ options.scale_max true hH1 hmax
    obtain ⟨_, _, ⟨d, _, _, hd, _, _, hpoly⟩, _⟩ := is_scale_feasible_spec self s_lower_
      s_upper_ env ignored_collision_pairs C d_init s_center st1 st2 _ true hmax
    obtain ⟨hC, hdd, hcert⟩ := hpoly rfl
    refine ⟨options.scale_max, [] ++ [ev1] ++ [ev2], st2, hH2, ⟨ev2, by simp, hs2, hf2⟩, ?_,
      hC, (by rw [← hdd] at hd; exact hd), (by rw [← hdd] at hcert; exact hcert),
      Or.inl ⟨rfl, rfl⟩⟩
    intro ev hev _
    simp only [List.nil_append, List.cons_append, List.mem_cons, List.mem_singleton,
      List.not_mem_nil, or_false] at hev
    rcases hev with rfl | rfl
    · rw [hs1]; exact hle
    · rw [hs2]
  · rw [hout] at hret
    cases hret
    rw [hout]
    obtain ⟨ev1, hH1, _, hs1, hf1⟩ := checkHistory_step self s_lower_ s_upper_ env
      ignored_collision_pairs C d_init s_center (BinarySearchState.init self env)
      (BinarySearchState.init self env) st1 [] options.scale_min true rfl hmin
    obtain ⟨ev2, hH2, _, hs2, hf2⟩ := checkHistory_step self s_lower_ s_upper_ env
      ignored_collision_pairs C d_init s_center (BinarySearchState.init self env)
      st1 st2 _ options.scale_max false hH1 hmax
    obtain ⟨_, _, ⟨d, _, _, hd, _, _, hpoly⟩, _⟩ := is_scale_feasible_spec self s_lower_
      s_upper_ env ignored_collision_pairs C d_init s_center _ st1 _ true hmin
    obtain ⟨hC, hdd, hcert⟩ := hpoly rfl
    obtain ⟨_, _, _, hkeep⟩ := is_scale_feasible_spec self s_lower_
      s_upper_ env ignored_collision_pairs C d_init s_center st1 st2 _ false hmax
    obtain ⟨hC2, hd2, hcert2⟩ := hkeep rfl
    have hlargest0 : ∀ event ∈ [] ++ [ev1] ++ [ev2], event.feasible = true →
        event.scale ≤ options.scale_min := by
      intro e he hfe
      simp only [List.nil_append, List.cons_append, List.mem_cons, List.mem_singleton,
        List.not_mem_nil, or_false] at he
      rcases he with rfl | rfl
      · rw [hs1]
      · rw [hf2] at hfe
        cases hfe
    have hI := bisectionLoop_inv self s_lower_ s_upper_ env ignored_collision_pairs C
      d_init s_center options
      (fun b => ∃ events : List (CheckEvent K P),
        self.checkHistory s_lower_ s_upper_ env ignored_collision_pairs C d_init s_center
          b.st.checked (BinarySearchState.init self env) = .ok (events, b.st) ∧
        (∃ event ∈ events, event.scale = b.scale_min ∧ event.feasible = true) ∧
        (∀ event ∈ events, event.feasible = true → event.scale ≤ b.scale_min) ∧
        b.st.ret.C_ = C ∧ scaledOffset C d_init s_center b.scale_min = .ok b.st.ret.d_ ∧
        self.GetPolyhedronWithJointLimits s_lower_ s_upper_ C b.st.ret.d_
          = .ok b.st.ret.certified_polytope_)
      (fun b flag st' hI hwidth _ hcheck => by
        obtain ⟨events, hH, ⟨el, hel, hels, helf⟩, hlargest, hbC, hbd, hbcert⟩ := hI
        obtain ⟨ev, hH', _, hs, hf⟩ := checkHistory_step self s_lower_ s_upper_ env
          ignored_collision_pairs C d_init s_center (BinarySearchState.init self env)
          b.st st' events _ flag hH hcheck
        obtain ⟨_, _, ⟨d', _, _, hd', _, _, hpoly'⟩, hkeep'⟩ := is_scale_feasible_spec self
          s_lower_ s_upper_ env ignored_collision_pairs C d_init s_center b.st st' _ flag
          hcheck
        have hmid : b.scale_min ≤ (b.scale_max + b.scale_min) / 2 := by
          have : 0 < b.scale_max - b.scale_min := lt_trans htol hwidth
          linarith
        refine ⟨fun hflag => ?_, fun hflag => ?_⟩
        · obtain ⟨hC', hdd', hcert'⟩ := hpoly' hflag
          refine ⟨events ++ [ev], hH', ⟨ev, by simp, hs, by rw [hf, hflag]⟩, ?_, hC',
            (by rw [← hdd'] at hd'; exact hd'), (by rw [← hdd'] at hcert'; exact hcert')⟩
          intro e he hfe
          rcases List.mem_append.mp he with he' | he'
          · exact le_trans (hlargest e he' hfe) hmid
          · rw [List.mem_singleton] at he'
            rw [he', hs]
        · obtain ⟨hC', hdd', hcert'⟩ := hkeep' hflag
          refine ⟨events ++ [ev], hH', ⟨el, by simp [hel], hels, helf⟩, ?_,
            (by dsimp only; rw [hC', hbC]), (by dsimp only; rw [hdd']; exact hbd),
            (by dsimp only; rw [hdd', hcert']; exact hbcert)⟩
          intro e he hfe
          rcases List.mem_append.mp he with he' | he'
          · exact hlargest e he' hfe
          · rw [List.mem_singleton] at he'
            rw [he', hf, hflag] at hfe
            cases hfe)
      options.max_iter.toNat _ b hb
      ⟨[] ++ [ev1] ++ [ev2], hH2, ⟨ev1, by simp, hs1, hf1⟩, hlargest0,
        (by dsimp only; rw [hC2, hC]), (by dsimp only; rw [hd2, hdd]; exact hd),
        (by dsimp only; rw [hd2, hcert2]; rw [← hdd] at hcert; exact hcert)⟩
    obtain ⟨events, hH, hl, hlargest, hbC, hbd, hbcert⟩ := hI
    exact ⟨b.scale_min, events, b.st, hH, hl, hlargest, hbC, hbd, hbcert, Or.inr rfl⟩

theorem BinarySearch_best_polytope_witness :
    exampleTwoPlaneCfp.BinarySearch [-10] [10] exampleBisectionEnv ∅ exampleIntervalC [2, 2]
      [1] exampleBinarySearchOptions = .ok (exampleBinarySearch exampleBinarySearchOptions) ∧
    (exampleBinarySearch exampleBinarySearchOptions).result
      = some (exampleBinarySearchResult exampleBinarySearchOptions) ∧
    (exampleBinarySearch exampleBinarySearchOptions).scale_min = 5 / 8 ∧
    (exampleBinarySearchResult exampleBinarySearchOptions).d_ = [13 / 8, 7 / 8] ∧
    scaledOffset exampleIntervalC [2, 2] [1] (5 / 8) = .ok [13 / 8, 7 / 8] ∧
    ∃ (x : ℚ) (events : List (CheckEvent ℚ Int)) (st : BinarySearchState ℚ Int),
      exampleTwoPlaneCfp.checkHistory [-10] [10] exampleBisectionEnv ∅ exampleIntervalC
        [2, 2] [1] (exampleBinarySearch exampleBinarySearchOptions).st.checked
        (BinarySearchState.init exampleTwoPlaneCfp exampleBisectionEnv) = .ok (events, st) ∧
      (∃ event ∈ events, event.scale = x ∧ event.feasible = true) ∧
      (∀ event ∈ events, event.feasible = true → event.scale ≤ x) ∧
      (exampleBinarySearchResult exampleBinarySearchOptions).C_ = exampleIntervalC ∧
      scaledOffset exampleIntervalC [2, 2] [1] x
        = .ok (exampleBinarySearchResult exampleBinarySearchOptions).d_ ∧
      exampleTwoPlaneCfp.GetPolyhedronWithJointLimits [-10] [10] exampleIntervalC
          (exampleBinarySearchResult exampleBinarySearchOptions).d_
        = .ok (exampleBinarySearchResult exampleBinarySearchOptions).certified_polytope_ ∧
      ((x = exampleBinarySearchOptions.scale_max ∧
          (exampleBinarySearchResult exampleBinarySearchOptions).num_iter_ = 0) ∨
        x = (exampleBinarySearch exampleBinarySearchOptions).scale_min) := by
  have hrun : exampleTwoPlaneCfp.BinarySearch [-10] [10] exampleBisectionEnv ∅
      exampleIntervalC [2, 2] [1] exampleBinarySearchOptions
      = .ok (exampleBinarySearch exampleBinarySearchOptions) := by with_unfolding_all rfl
  have hret : (exampleBinarySearch exampleBinarySearchOptions).result
      = some (exampleBinarySearchResult exampleBinarySearchOptions) := by
    with_unfolding_all rfl
  exact ⟨hrun, hret, by with_unfolding_all rfl, by with_unfolding_all rfl,
    by with_unfolding_all rfl,
    (BinarySearch_best_polytope exampleTwoPlaneCfp [-10] [10] exampleBisectionEnv ∅
      exampleIntervalC [2, 2] [1] exampleBinarySearchOptions _ _ hrun hret).1⟩


/-! ## The lower bounds and the planes of `BinarySearch` -/

/-- The invariant rule for a loop that is known to end without a failure. -/
theorem foldlM_ok_inv {σ α : Type} (f : σ → α → Except Error σ) :
    ∀ (xs : List α) (Inv : Nat → σ → Prop) (s0 s' : σ), xs.foldlM f s0 = .ok s' →
      Inv 0 s0 →
      (∀ i x s s1, xs[i]? = some x → Inv i s → f s x = .ok s1 → Inv (i + 1) s1) →
      Inv xs.length s' := by
  intro xs
  induction xs with
  | nil =>
    intro Inv s0 s' h h0 _
    cases h
    exact h0
  | cons x xs ih =>
    intro Inv s0 s' h h0 hstep
    rw [List.foldlM_cons] at h
    obtain ⟨s1, hs1, h⟩ := except_bind_eq_ok _ _ _ h
    exact ih (fun i s => Inv (i + 1) s) s1 s' h (hstep 0 x s0 s1 (by simp) h0 hs1)
      (fun i y s s2 hy hI hf => hstep (i + 1) y s s2 (by simpa using hy) hI hf)

/-- The set `ignored_collision_pairs_for_scale` of `is_scale_feasible`: the ignored
pairs, and the pairs of the planes whose lower bound is at least the scale. -/
theorem ignoredForScale_mem {V M P K : Type} [LinearOrderedField K]
    (self : CspaceFreePolytope V M P) (ignored_collision_pairs : Finset (Nat × Nat))
    (bounds : List K) (scale : K) (ign : Finset (Nat × Nat))
    (h : (List.range self.separating_planes.length).foldlM
      (ignoredForScaleBody self ignored_collision_pairs bounds scale) ignored_collision_pairs
      = .ok ign) (p : Nat × Nat) :
    p ∈ ign ↔ p ∈ ignored_collision_pairs ∨
      ∃ (i : Nat) (plane : CSpaceSeparatingPlane V P) (lb : K),
        self.separating_planes[i]? = some plane ∧ bounds[i]? = some lb ∧
        plane.geometry_pair = p ∧ p ∉ ignored_collision_pairs ∧ lb ≥ scale := by
  have hI := foldlM_ok_inv (ignoredForScaleBody self ignored_collision_pairs bounds scale)
    (List.range self.separating_planes.length)
    (fun k (acc : Finset (Nat × Nat)) => ∀ p, p ∈ acc ↔ p ∈ ignored_collision_pairs ∨
      ∃ (i : Nat) (plane : CSpaceSeparatingPlane V P) (lb : K), i < k ∧
        self.separating_planes[i]? = some plane ∧ bounds[i]? = some lb ∧
        plane.geometry_pair = p ∧ p ∉ ignored_collision_pairs ∧ lb ≥ scale)
    ignored_collision_pairs ign h
    (fun p => ⟨fun hp => Or.inl hp, fun hp => by
      rcases hp with hp | ⟨i, _, _, hi, _⟩
      · exact hp
      · exact absurd hi (Nat.not_lt_zero _)⟩)
    (fun k x acc acc1 hx hI hf => by
      have hxk : x = k := by
        have := List.getElem?_eq_some_iff.mp hx
        obtain ⟨hk, hk'⟩ := this
        rw [List.getElem_range] at hk'
        exact hk'.symm
      subst hxk
      unfold ignoredForScaleBody at hf
      obtain ⟨plane, hplane, hf⟩ := except_bind_eq_ok _ _ _ hf
      obtain ⟨lb, hlb, hf⟩ := except_bind_eq_ok _ _ _ hf
      have hplane' := getElem?_of_vecGet _ _ _ hplane
      have hlb' := getElem?_of_vecGet _ _ _ hlb
      intro p
      by_cases hc : plane.geometry_pair ∉ ignored_collision_pairs ∧ lb ≥ scale
      · rw [if_pos hc] at hf
        cases hf
        rw [Finset.mem_insert, hI p]
        constructor
        · rintro (hp | hp | ⟨i, pl, l, hi, h1, h2, h3, h4, h5⟩)
          · exact Or.inr ⟨x, plane, lb, Nat.lt_succ_self _, hplane', hlb', hp.symm,
              by rw [hp]; exact hc.1, hc.2⟩
          · exact Or.inl hp
          · exact Or.inr ⟨i, pl, l, Nat.lt_succ_of_lt hi, h1, h2, h3, h4, h5⟩
        · rintro (hp | ⟨i, pl, l, hi, h1, h2, h3, h4, h5⟩)
          · exact Or.inr (Or.inl hp)
          · rcases Nat.lt_succ_iff_lt_or_eq.mp hi with hlt | heq
            · exact Or.inr (Or.inr ⟨i, pl, l, hlt, h1, h2, h3, h4, h5⟩)
            · subst heq
              rw [hplane'] at h1
              cases h1
              exact Or.inl h3.symm
      · rw [if_neg hc] at hf
        cases hf
        rw [hI p]
        constructor
        · rintro (hp | ⟨i, pl, l, hi, h1, h2, h3, h4, h5⟩)
          · exact Or.inl hp
          · exact Or.inr ⟨i, pl, l, Nat.lt_succ_of_lt hi, h1, h2, h3, h4, h5⟩
        · rintro (hp | ⟨i, pl, l, hi, h1, h2, h3, h4, h5⟩)
          · exact Or.inl hp
          · rcases Nat.lt_succ_iff_lt_or_eq.mp hi with hlt | heq
            · exact Or.inr ⟨i, pl, l, hlt, h1, h2, h3, h4, h5⟩
            · subst heq
              rw [hplane'] at h1
              cases h1
              rw [hlb'] at h2
              cases h2
              exact absurd ⟨by rw [h3]; exact h4, h5⟩ hc)
  rw [List.length_range] at hI
  rw [hI p]
  constructor
  · rintro (hp | ⟨i, pl, l, _, h1, h2, h3, h4, h5⟩)
    · exact Or.inl hp
    · exact Or.inr ⟨i, pl, l, h1, h2, h3, h4, h5⟩
  · rintro (hp | ⟨i, pl, l, h1, h2, h3, h4, h5⟩)
    · exact Or.inl hp
    · refine Or.inr ⟨i, pl, l, ?_, h1, h2, h3, h4, h5⟩
      by_contra hge
      rw [List.getElem?_eq_none (by omega)] at h1
      cases h1

/-- The loop of `is_scale_feasible` that updates `geometry_pair_scale_lower_bounds`:
the entry of a plane with a certificate becomes the scale, the other entries stay. -/
theorem lowerBounds_fold {K P : Type} (scale : K) :
    ∀ (certs : List (Option (SeparationCertificateResult P))) (lbs0 lbs : List K),
      certs.foldlM (lowerBoundsBody scale) lbs0 = .ok lbs →
      lbs.length = lbs0.length ∧
      ∀ i : Nat,
        ((∃ r : SeparationCertificateResult P, some r ∈ certs ∧ r.plane_index = (i : Int)) →
          i < lbs0.length ∧ lbs[i]? = some scale) ∧
        ((¬ ∃ r : SeparationCertificateResult P, some r ∈ certs ∧
          r.plane_index = (i : Int)) → lbs[i]? = lbs0[i]?) := by
  intro certs
  induction certs with
  | nil =>
    intro lbs0 lbs h
    cases h
    exact ⟨rfl, fun i => ⟨fun ⟨r, hr, _⟩ => by simp at hr, fun _ => rfl⟩⟩
  | cons c cs ih =>
    intro lbs0 lbs h
    rw [List.foldlM_cons] at h
    obtain ⟨lbs1, h1, h⟩ := except_bind_eq_ok _ _ _ h
    obtain ⟨hlen, hi⟩ := ih lbs1 lbs h
    cases c with
    | none =>
      cases h1
      refine ⟨hlen, fun i => ⟨fun ⟨r, hr, hidx⟩ => ?_, fun hno => ?_⟩⟩
      · have hr' : some r ∈ cs := by simpa using hr
        exact (hi i).1 ⟨r, hr', hidx⟩
      · exact (hi i).2 (fun ⟨r, hr, hidx⟩ => hno ⟨r, List.mem_cons_of_mem _ hr, hidx⟩)
    | some c =>
      have h1' : vecSetInt lbs0 c.plane_index scale = .ok lbs1 := h1
      unfold vecSetInt at h1'
      by_cases hneg : c.plane_index < 0
      · rw [if_pos hneg] at h1'
        cases h1'
      · rw [if_neg hneg] at h1'
        unfold vecSet at h1'
        by_cases hlt : c.plane_index.toNat < lbs0.length
        · rw [if_pos hlt] at h1'
          cases h1'
          have hlen1 : (lbs0.set c.plane_index.toNat scale).length = lbs0.length :=
            List.length_set _ _ _
          refine ⟨by rw [hlen, hlen1], fun i => ⟨fun ⟨r, hr, hidx⟩ => ?_, fun hno => ?_⟩⟩
          · by_cases hcs : ∃ r : SeparationCertificateResult P, some r ∈ cs ∧
                r.plane_index = (i : Int)
            · obtain ⟨hi1, hi2⟩ := (hi i).1 hcs
              exact ⟨by rw [← hlen1]; exact hi1, hi2⟩
            · have hrc : r = c := by
                rcases List.mem_cons.mp hr with heq | hmem
                · exact Option.some.inj heq
                · exact absurd ⟨r, hmem, hidx⟩ hcs
              subst hrc
              have hji : r.plane_index.toNat = i := by omega
              rw [(hi i).2 hcs, ← hji]
              exact ⟨hlt, by rw [List.getElem?_set_self hlt]⟩
          · have hcs : ¬ ∃ r : SeparationCertificateResult P, some r ∈ cs ∧
                r.plane_index = (i : Int) :=
              fun ⟨r, hr, hidx⟩ => hno ⟨r, List.mem_cons_of_mem _ hr, hidx⟩
            have hne : c.plane_index.toNat ≠ i := by
              intro heq
              exact hno ⟨c, List.mem_cons_self _ _, by omega⟩
            rw [(hi i).2 hcs, List.getElem?_set_ne hne]
        · rw [if_neg hlt] at h1'
          cases h1'

theorem mem_mapInsertOrAssign {β : Type} (m : List (Int × β)) (key : Int) (v : β) (k : Int)
    (x : β) (h : (k, x) ∈ mapInsertOrAssign m key v) :
    (k = key ∧ x = v) ∨ ((k, x) ∈ m ∧ k ≠ key) := by
  unfold mapInsertOrAssign at h
  by_cases hc : mapContains m key = true
  · rw [if_pos hc] at h
    unfold mapSet at h
    obtain ⟨e, he, hfe⟩ := List.mem_map.mp h
    by_cases hk : e.1 = key
    · rw [if_pos (by simpa using hk)] at hfe
      cases hfe
      exact Or.inl ⟨hk, rfl⟩
    · rw [if_neg (by simpa using hk)] at hfe
      subst hfe
      exact Or.inr ⟨he, hk⟩
  · rw [if_neg hc] at h
    rcases List.mem_append.mp h with hm | hm
    · refine Or.inr ⟨hm, fun hk => hc ?_⟩
      unfold mapContains
      rw [List.any_eq_true]
      exact ⟨(k, x), hm, by simpa using hk⟩
    · rw [List.mem_singleton] at hm
      cases hm
      exact Or.inl ⟨rfl, rfl⟩

/-- A plane normal that `UpdateSeparatingPlanes` leaves in `a_` comes from a
certificate of the call, or was there before and its plane has no certificate in the
call. -/
theorem UpdateSeparatingPlanes_mem_a {K P : Type} :
    ∀ (certs : List (Option (SeparationCertificateResult P))) (self : SearchResult K P)
      (idx : Int) (a : List P), (idx, a) ∈ (self.UpdateSeparatingPlanes certs).a_ →
      (∃ r : SeparationCertificateResult P, some r ∈ certs ∧ r.plane_index = idx ∧ r.a = a) ∨
      ((idx, a) ∈ self.a_ ∧
        ¬ ∃ r : SeparationCertificateResult P, some r ∈ certs ∧ r.plane_index = idx) := by
  intro certs
  induction certs with
  | nil =>
    intro self idx a h
    exact Or.inr ⟨h, fun ⟨r, hr, _⟩ => by simp at hr⟩
  | cons c cs ih =>
    intro self idx a h
    unfold SearchResult.UpdateSeparatingPlanes at h
    rw [List.foldl_cons] at h
    rcases ih (updatePlanesBody self c) idx a h with ⟨r, hr, h1, h2⟩ | ⟨hmem, hno⟩
    · exact Or.inl ⟨r, List.mem_cons_of_mem _ hr, h1, h2⟩
    · cases c with
      | none =>
        refine Or.inr ⟨hmem, fun ⟨r, hr, hidx⟩ => hno ⟨r, ?_, hidx⟩⟩
        simpa using hr
      | some c =>
        rcases mem_mapInsertOrAssign _ _ _ _ _ hmem with ⟨hk, hx⟩ | ⟨hold, hne⟩
        · exact Or.inl ⟨c, List.mem_cons_self _ _, hk.symm, hx.symm⟩
        · refine Or.inr ⟨hold, fun ⟨r, hr, hidx⟩ => ?_⟩
          rcases List.mem_cons.mp hr with heq | hmem'
          · have := Option.some.inj heq
            subst this
            exact hne hidx.symm
          · exact hno ⟨r, hmem', hidx⟩

/-- An offset that `UpdateSeparatingPlanes` leaves in `b_` comes from a certificate
of the call, or was there before and its plane has no certificate in the call. -/
theorem UpdateSeparatingPlanes_mem_b {K P : Type} :
    ∀ (certs : List (Option (SeparationCertificateResult P))) (self : SearchResult K P)
      (idx : Int) (b : P), (idx, b) ∈ (self.UpdateSeparatingPlanes certs).b_ →
      (∃ r : SeparationCertificateResult P, some r ∈ certs ∧ r.plane_index = idx ∧ r.b = b) ∨
      ((idx, b) ∈ self.b_ ∧
        ¬ ∃ r : SeparationCertificateResult P, some r ∈ certs ∧ r.plane_index = idx) := by
  intro certs
  induction certs with
  | nil =>
    intro self idx b h
    exact Or.inr ⟨h, fun ⟨r, hr, _⟩ => by simp at hr⟩
  | cons c cs ih =>
    intro self idx b h
    unfold SearchResult.UpdateSeparatingPlanes at h
    rw [List.foldl_cons] at h
    rcases ih (updatePlanesBody self c) idx b h with ⟨r, hr, h1, h2⟩ | ⟨hmem, hno⟩
    · exact Or.inl ⟨r, List.mem_cons_of_mem _ hr, h1, h2⟩
    · cases c with
      | none =>
        refine Or.inr ⟨hmem, fun ⟨r, hr, hidx⟩ => hno ⟨r, ?_, hidx⟩⟩
        simpa using hr
      | some c =>
        rcases mem_mapInsertOrAssign _ _ _ _ _ hmem with ⟨hk, hx⟩ | ⟨hold, hne⟩
        · exact Or.inl ⟨c, List.mem_cons_self _ _, hk.symm, hx.symm⟩
        · refine Or.inr ⟨hold, fun ⟨r, hr, hidx⟩ => ?_⟩
          rcases List.mem_cons.mp hr with heq | hmem'
          · have := Option.some.inj heq
            subst this
            exact hne hidx.symm
          · exact hno ⟨r, hmem', hidx⟩

/-- A check of the history is a call of `is_scale_feasible`, and records what the
call computed. -/
theorem checkEvent_facts {V M P K : Type} [LinearOrderedField K]
    (self : CspaceFreePolytope V M P) (s_lower_ s_upper_ : List K) (env : SearchEnv K P)
    (ignored_collision_pairs : Finset (Nat × Nat)) (C : MatrixXd K)
    (d_init s_center : List K) (st st' : BinarySearchState K P) (scale : K)
    (event : CheckEvent K P)
    (h : self.checkEvent s_lower_ s_upper_ env ignored_collision_pairs C d_init s_center st
      scale = .ok (event, st')) :
    self.is_scale_feasible s_lower_ s_upper_ env ignored_collision_pairs C d_init s_center
      st scale = .ok (event.feasible, st') ∧
    event.scale = scale ∧
    scaledOffset C d_init s_center scale = .ok event.d ∧
    (List.range self.separating_planes.length).foldlM
      (ignoredForScaleBody self ignored_collision_pairs
        st.geometry_pair_scale_lower_bounds scale) ignored_collision_pairs
      = .ok event.ignored_collision_pairs_for_scale ∧
    env.FindSeparationCertificateGivenPolytope st.checked.length
      event.ignored_collision_pairs_for_scale C event.d = .ok event.certificates_result ∧
    event.feasible = !event.certificates_result.any (fun certificate => certificate.isNone) ∧
    event.certificates_result.foldlM (lowerBoundsBody scale)
      st.geometry_pair_scale_lower_bounds = .ok st'.geometry_pair_scale_lower_bounds ∧
    st'.checked = st.checked ++ [scale] ∧
    (event.feasible = false →
      st'.ret = st.ret.UpdateSeparatingPlanes event.certificates_result) ∧
    (event.feasible = true →
      ∃ ret, st.ret.SetPolytope C event.d self s_lower_ s_upper_ = .ok ret ∧
        st'.ret = ret.UpdateSeparatingPlanes event.certificates_result) := by
  have h0 := h
  unfold CspaceFreePolytope.checkEvent at h
  obtain ⟨d, _, h⟩ := except_bind_eq_ok _ _ _ h
  obtain ⟨ign, _, h⟩ := except_bind_eq_ok _ _ _ h
  obtain ⟨certs, _, h⟩ := except_bind_eq_ok _ _ _ h
  obtain ⟨res, hres, h⟩ := except_bind_eq_ok _ _ _ h
  obtain ⟨flag, st''⟩ := res
  cases h
  obtain ⟨event', hev', h1, h2, h3, h4, h5, h6, h7, h8, h9, h10⟩ := is_scale_feasible_event
    self s_lower_ s_upper_ env ignored_collision_pairs C d_init s_center st st' scale flag
    hres
  rw [h0] at hev'
  cases hev'
  exact ⟨hres, h1, h3, h4, h5, h6, h7, h8, h9, h10⟩

/-- A certificate that the search returns belongs to a plane that is not ignored. -/
theorem slots_certified {V M P K : Type} (env : SearchEnv K P)
    (self : CspaceFreePolytope V M P) (hslots : env.Slots self) (n : Nat)
    (ignored : Finset (Nat × Nat)) (C : MatrixXd K) (d : List K)
    (certs : List (Option (SeparationCertificateResult P)))
    (h : env.FindSeparationCertificateGivenPolytope n ignored C d = .ok certs)
    (r : SeparationCertificateResult P) (hr : some r ∈ certs) :
    ∃ i : Nat, r.plane_index = (i : Int) ∧ i ∈ self.nonIgnoredPlanes ignored := by
  obtain ⟨_, hslot⟩ := hslots n ignored C d certs h
  obtain ⟨k, hk⟩ := List.mem_iff_getElem?.mp hr
  obtain ⟨i, hi, hidx⟩ := hslot k r hk
  exact ⟨i, hidx, List.getElem?_mem hi⟩

/-- When no slot is empty, every plane that is not ignored has a certificate. -/
theorem slots_all_certified {V M P K : Type} (env : SearchEnv K P)
    (self : CspaceFreePolytope V M P) (hslots : env.Slots self) (n : Nat)
    (ignored : Finset (Nat × Nat)) (C : MatrixXd K) (d : List K)
    (certs : List (Option (SeparationCertificateResult P)))
    (h : env.FindSeparationCertificateGivenPolytope n ignored C d = .ok certs)
    (hall : certs.any (fun certificate => certificate.isNone) = false)
    (i : Nat) (hi : i ∈ self.nonIgnoredPlanes ignored) :
    ∃ r : SeparationCertificateResult P, some r ∈ certs ∧ r.plane_index = (i : Int) := by
  obtain ⟨hlen, hslot⟩ := hslots n ignored C d certs h
  obtain ⟨k, hk⟩ := List.mem_iff_getElem?.mp hi
  have hklt : k < certs.length := by
    rw [hlen]
    by_contra hge
    rw [List.getElem?_eq_none (by omega)] at hk
    cases hk
  cases hc : certs[k]? with
  | none =>
    rw [List.getElem?_eq_none_iff] at hc
    omega
  | some c =>
    cases c with
    | none =>
      have hmem : (none : Option (SeparationCertificateResult P)) ∈ certs :=
        List.getElem?_mem hc
      have : certs.any (fun certificate => certificate.isNone) = true :=
        List.any_eq_true.mpr ⟨none, hmem, rfl⟩
      rw [hall] at this
      cases this
    | some r =>
      obtain ⟨i', hi', hidx⟩ := hslot k r hc
      rw [hk] at hi'
      cases hi'
      exact ⟨r, List.getElem?_mem hc, hidx⟩

/-- One check and the lower bounds: a plane that obtains a certificate had a bound
below the scale and gets the scale as its bound; the bound of a plane without a
certificate stays; a plane whose bound is at least the scale has its pair in
`ignored_collision_pairs_for_scale` and obtains no certificate. -/
theorem check_bounds {V M P K : Type} [LinearOrderedField K]
    (self : CspaceFreePolytope V M P) (s_lower_ s_upper_ : List K) (env : SearchEnv K P)
    (hslots : env.Slots self)
    (ignored_collision_pairs : Finset (Nat × Nat)) (C : MatrixXd K)
    (d_init s_center : List K) (st st' : BinarySearchState K P) (scale : K)
    (event : CheckEvent K P)
    (hlen : st.geometry_pair_scale_lower_bounds.length = self.separating_planes.length)
    (h : self.checkEvent s_lower_ s_upper_ env ignored_collision_pairs C d_init s_center st
      scale = .ok (event, st')) :
    st'.geometry_pair_scale_lower_bounds.length = self.separating_planes.length ∧
    ∀ i : Nat, i < self.separating_planes.length →
      ∃ (plane : CSpaceSeparatingPlane V P) (lb : K),
        self.separating_planes[i]? = some plane ∧
        st.geometry_pair_scale_lower_bounds[i]? = some lb ∧
        (event.Certified i → lb < scale ∧
          plane.geometry_pair ∉ event.ignored_collision_pairs_for_scale ∧
          st'.geometry_pair_scale_lower_bounds[i]? = some scale) ∧
        (¬ event.Certified i → st'.geometry_pair_scale_lower_bounds[i]? = some lb) ∧
        (scale ≤ lb → plane.geometry_pair ∈ event.ignored_collision_pairs_for_scale ∧
          ¬ event.Certified i) := by
  obtain ⟨_, _, _, hign, hcerts, _, hfold, _, _, _⟩ := checkEvent_facts self s_lower_
    s_upper_ env ignored_collision_pairs C d_init s_center st st' scale event h
  obtain ⟨hlen', hlbs⟩ := lowerBounds_fold scale event.certificates_result _ _ hfold
  refine ⟨by rw [hlen', hlen], fun i hi => ?_⟩
  have hplane : self.separating_planes[i]? = some (self.separating_planes.get ⟨i, hi⟩) :=
    List.getElem?_eq_getElem hi
  have hlb : st.geometry_pair_scale_lower_bounds[i]?
      = some (st.geometry_pair_scale_lower_bounds.get ⟨i, by rw [hlen]; exact hi⟩) :=
    List.getElem?_eq_getElem (by rw [hlen]; exact hi)
  have hcert : event.Certified i →
      (self.separating_planes.get ⟨i, hi⟩).geometry_pair
        ∉ event.ignored_collision_pairs_for_scale := by
    rintro ⟨r, hr, hidx⟩
    obtain ⟨i', hidx', hmem⟩ := slots_certified env self hslots _ _ C event.d _ hcerts r hr
    have hii : i' = i := by
      rw [hidx] at hidx'
      exact (Int.ofNat_inj.mp hidx').symm
    subst hii
    obtain ⟨plane, hp, hnot⟩ := (mem_nonIgnoredPlanes self _ i').mp hmem
    rw [hplane] at hp
    cases hp
    exact hnot
  refine ⟨_, _, hplane, hlb, fun hc => ⟨?_, hcert hc, ?_⟩, fun hnc => ?_, fun hle => ?_⟩
  · by_contra hge
    refine hcert hc ((ignoredForScale_mem self ignored_collision_pairs _ scale _ hign _).mpr ?_)
    by_cases hin : (self.separating_planes.get ⟨i, hi⟩).geometry_pair
        ∈ ignored_collision_pairs
    · exact Or.inl hin
    · exact Or.inr ⟨i, _, _, hplane, hlb, rfl, hin, not_lt.mp hge⟩
  · exact ((hlbs i).1 hc).2
  · rw [(hlbs i).2 hnc, hlb]
  · have hin : (self.separating_planes.get ⟨i, hi⟩).geometry_pair
        ∈ event.ignored_collision_pairs_for_scale := by
      refine (ignoredForScale_mem self ignored_collision_pairs _ scale _ hign _).mpr ?_
      by_cases hin : (self.separating_planes.get ⟨i, hi⟩).geometry_pair
          ∈ ignored_collision_pairs
      · exact Or.inl hin
      · exact Or.inr ⟨i, _, _, hplane, hlb, rfl, hin, hle⟩
    exact ⟨hin, fun hc => hcert hc hin⟩

/-- The lower bounds along a history of checks: the bound of a plane does not
decrease; every certificate of the plane was obtained at a scale above the bound at
the start and at most the bound at the end; and the bound at the end is the bound at
the start when the plane obtained no certificate, and otherwise the scale of a check
in which it obtained one. -/
theorem checkHistory_bounds {V M P K : Type} [LinearOrderedField K]
    (self : CspaceFreePolytope V M P) (s_lower_ s_upper_ : List K) (env : SearchEnv K P)
    (hslots : env.Slots self)
    (ignored_collision_pairs : Finset (Nat × Nat)) (C : MatrixXd K)
    (d_init s_center : List K) :
    ∀ (scales : List K) (st0 st : BinarySearchState K P) (events : List (CheckEvent K P)),
      st0.geometry_pair_scale_lower_bounds.length = self.separating_planes.length →
      self.checkHistory s_lower_ s_upper_ env ignored_collision_pairs C d_init s_center
        scales st0 = .ok (events, st) →
      st.geometry_pair_scale_lower_bounds.length = self.separating_planes.length ∧
      ∀ i : Nat, i < self.separating_planes.length →
        ∃ lb0 lb : K, st0.geometry_pair_scale_lower_bounds[i]? = some lb0 ∧
          st.geometry_pair_scale_lower_bounds[i]? = some lb ∧ lb0 ≤ lb ∧
          (∀ event ∈ events, event.Certified i → lb0 < event.scale ∧ event.scale ≤ lb) ∧
          ((lb = lb0 ∧ ∀ event ∈ events, ¬ event.Certified i) ∨
            ∃ event ∈ events, event.Certified i ∧ lb = event.scale) := by
  intro scales
  induction scales with
  | nil =>
    intro st0 st events hlen h
    cases h
    refine ⟨hlen, fun i hi => ?_⟩
    have hlb : st0.geometry_pair_scale_lower_bounds[i]?
        = some (st0.geometry_pair_scale_lower_bounds.get ⟨i, by rw [hlen]; exact hi⟩) :=
      List.getElem?_eq_getElem (by rw [hlen]; exact hi)
    exact ⟨_, _, hlb, hlb, le_refl _, fun e he => by simp at he,
      Or.inl ⟨rfl, fun e he => by simp at he⟩⟩
  | cons x xs ih =>
    intro st0 st events hlen h
    unfold CspaceFreePolytope.checkHistory at h
    obtain ⟨res, hres, h⟩ := except_bind_eq_ok _ _ _ h
    obtain ⟨ev, st1⟩ := res
    obtain ⟨res2, hres2, h⟩ := except_bind_eq_ok _ _ _ h
    obtain ⟨evs, st2⟩ := res2
    cases h
    obtain ⟨hscale, _⟩ := (checkEvent_facts self s_lower_ s_upper_ env
      ignored_collision_pairs C d_init s_center st0 st1 x ev hres).2
    obtain ⟨hlen1, hstep⟩ := check_bounds self s_lower_ s_upper_ env hslots
      ignored_collision_pairs C d_init s_center st0 st1 x ev hlen hres
    obtain ⟨hlen2, hrest⟩ := ih st1 st evs hlen1 hres2
    refine ⟨hlen2, fun i hi => ?_⟩
    obtain ⟨plane, lb0, _, hlb0, hc, hnc, _⟩ := hstep i hi
    obtain ⟨lb1, lb, hlb1, hlb, hle, hall, hlast⟩ := hrest i hi
    by_cases hcert : ev.Certified i
    · obtain ⟨hlt, _, hnew⟩ := hc hcert
      rw [hlb1] at hnew
      cases hnew
      refine ⟨lb0, lb, hlb0, hlb, le_trans (le_of_lt hlt) hle, ?_, ?_⟩
      · intro e he hce
        rcases List.mem_cons.mp he with rfl | he'
        · rw [hscale]
          exact ⟨hlt, hle⟩
        · exact ⟨lt_trans hlt (hall e he' hce).1, (hall e he' hce).2⟩
      · rcases hlast with ⟨heq, _⟩ | ⟨e, he, hce, heq⟩
        · exact Or.inr ⟨ev, List.mem_cons_self _ _, hcert, by rw [heq, hscale]⟩
        · exact Or.inr ⟨e, List.mem_cons_of_mem _ he, hce, heq⟩
    · have hnew := hnc hcert
      rw [hlb1] at hnew
      have hb : lb1 = lb0 := Option.some.inj hnew
      rw [hb] at hle hall hlast
      refine ⟨lb0, lb, hlb0, hlb, hle, ?_, ?_⟩
      · intro e he hce
        rcases List.mem_cons.mp he with rfl | he'
        · exact absurd hce hcert
        · exact hall e he' hce
      · rcases hlast with ⟨heq, hnone⟩ | ⟨e, he, hce, heq⟩
        · refine Or.inl ⟨heq, fun e he => ?_⟩
          rcases List.mem_cons.mp he with rfl | he'
          · exact hcert
          · exact hnone e he'
        · exact Or.inr ⟨e, List.mem_cons_of_mem _ he, hce, heq⟩

/-- The checks that `BinarySearch` made are the history of the scales it recorded;
the variables at its end are those at the end of the history, up to `num_iter_`. -/
theorem BinarySearch_history {V M P K : Type} [LinearOrderedField K]
    (self : CspaceFreePolytope V M P) (s_lower_ s_upper_ : List K) (env : SearchEnv K P)
    (ignored_collision_pairs : Finset (Nat × Nat)) (C : MatrixXd K)
    (d_init s_center : List K) (options : BinarySearchOptions K)
    (out : BinarySearchOutcome K P)
    (h : self.BinarySearch s_lower_ s_upper_ env ignored_collision_pairs C d_init s_center
      options = .ok out) :
    ∃ (events : List (CheckEvent K P)) (st : BinarySearchState K P),
      self.checkHistory s_lower_ s_upper_ env ignored_collision_pairs C d_init s_center
        out.st.checked (BinarySearchState.init self env) = .ok (events, st) ∧
      out.st = { st with ret := { st.ret with num_iter_ := out.st.ret.num_iter_ } } := by
  obtain ⟨_, hcases⟩ := BinarySearch_cases self s_lower_ s_upper_ env
    ignored_collision_pairs C d_init s_center options out h
  rcases hcases with ⟨st1, hmin, hout⟩ | ⟨st1, st2, hmin, hmax, hout⟩ |
    ⟨st1, st2, b, hmin, hmax, hb, hout⟩
  · obtain ⟨ev1, hH1, _⟩ := checkHistory_step self s_lower_ s_upper_ env
      ignored_collision_pairs C d_init s_center (BinarySearchState.init self env)
      (BinarySearchState.init self env) st1 [] options.scale_min false rfl hmin
    rw [hout]
    exact ⟨_, st1, hH1, rfl⟩
  · obtain ⟨ev1, hH1, _⟩ := checkHistory_step self s_lower_ s_upper_ env
      ignored_collision_pairs C d_init s_center (BinarySearchState.init self env)
      (BinarySearchState.init self env) st1 [] options.scale_min true rfl hmin
    obtain ⟨ev2, hH2, _⟩ := checkHistory_step self s_lower_ s_upper_ env
      ignored_collision_pairs C d_init s_center (BinarySearchState.init self env)
      st1 st2 _ options.scale_max true hH1 hmax
    rw [hout]
    exact ⟨_, st2, hH2, rfl⟩
  · obtain ⟨ev1, hH1, _⟩ := checkHistory_step self s_lower_ s_upper_ env
      ignored_collision_pairs C d_init s_center (BinarySearchState.init self env)
      (BinarySearchState.init self env) st1 [] options.scale_min true rfl hmin
    obtain ⟨ev2, hH2, _⟩ := checkHistory_step self s_lower_ s_upper_ env
      ignored_collision_pairs C d_init s_center (BinarySearchState.init self env)
      st1 st2 _ options.scale_max false hH1 hmax
    have hI := bisectionLoop_inv self s_lower_ s_upper_ env ignored_collision_pairs C
      d_init s_center options
      (fun b => ∃ events : List (CheckEvent K P),
        self.checkHistory s_lower_ s_upper_ env ignored_collision_pairs C d_init s_center
          b.st.checked (BinarySearchState.init self env) = .ok (events, b.st))
      (fun b flag st' hI _ _ hcheck => by
        obtain ⟨events, hH⟩ := hI
        obtain ⟨ev, hH', _⟩ := checkHistory_step self s_lower_ s_upper_ env
          ignored_collision_pairs C d_init s_center (BinarySearchState.init self env)
          b.st st' events _ flag hH hcheck
        exact ⟨fun _ => ⟨_, hH'⟩, fun _ => ⟨_, hH'⟩⟩)
      options.max_iter.toNat _ b hb ⟨_, hH2⟩
    obtain ⟨events, hH⟩ := hI
    rw [hout]
    exact ⟨events, b.st, hH, rfl⟩

theorem exampleBisectionEnv_slots : exampleBisectionEnv.Slots exampleTwoPlaneCfp := by
  intro n ignored C d certs h
  have hc : certs = (exampleTwoPlaneCfp.nonIgnoredPlanes ignored).map (fun i =>
      if n = 0 ∨ (n = 1 ∧ i = 0) ∨ (n = 2 ∧ i = 1) then
        some ⟨(i : Int), [], [], [(n : Int), (i : Int), 0], (n : Int)⟩
      else none) := by
    have h' : Except.ok ((exampleTwoPlaneCfp.nonIgnoredPlanes ignored).map (fun (i : Nat) =>
        if n = 0 ∨ (n = 1 ∧ i = 0) ∨ (n = 2 ∧ i = 1) then
          some (⟨(i : Int), [], [], [(n : Int), (i : Int), 0], (n : Int)⟩ :
            SeparationCertificateResult Int)
        else none)) = (Except.ok certs : Except Error _) := h
    injection h' with h'
    exact h'.symm
  subst hc
  refine ⟨List.length_map _ _, fun k r hk => ?_⟩
  rw [List.getElem?_map] at hk
  cases hi : (exampleTwoPlaneCfp.nonIgnoredPlanes ignored)[k]? with
  | none =>
    rw [hi] at hk
    cases hk
  | some i =>
    rw [hi] at hk
    simp only [Option.map_some', Option.some.injEq] at hk
    refine ⟨i, rfl, ?_⟩
    split at hk
    · cases hk
      rfl
    · cases hk

/-- C27: when the certificate search has one slot for every plane that is not
ignored, along every history of checks that starts where `BinarySearch` starts the
entry `geometry_pair_scale_lower_bounds[i]` is `0` when plane `i` obtained no
certificate so far, and otherwise the largest scale at which it obtained one. In one
check an entry does not decrease; it changes only when its plane obtains a
certificate, the scale then being above the old entry and the new entry; and a check
at a scale that is at most the entry has the pair of the plane in
`ignored_collision_pairs_for_scale` and gives the plane no certificate. The checks
of `BinarySearch` are such a history. -/
theorem BinarySearch_lower_bounds {V M P K : Type} [LinearOrderedField K]
    (self : CspaceFreePolytope V M P) (s_lower_ s_upper_ : List K) (env : SearchEnv K P)
    (ignored_collision_pairs : Finset (Nat × Nat)) (C : MatrixXd K)
    (d_init s_center : List K) (hslots : env.Slots self) :
    (∀ (scales : List K) (events : List (CheckEvent K P)) (st : BinarySearchState K P),
      self.checkHistory s_lower_ s_upper_ env ignored_collision_pairs C d_init s_center
        scales (BinarySearchState.init self env) = .ok (events, st) →
      st.geometry_pair_scale_lower_bounds.length = self.separating_planes.length ∧
      ∀ i : Nat, i < self.separating_planes.length →
        (st.geometry_pair_scale_lower_bounds[i]? = some 0 ∧
          ∀ event ∈ events, ¬ event.Certified i) ∨
        ∃ event ∈ events, event.Certified i ∧
          st.geometry_pair_scale_lower_bounds[i]? = some event.scale ∧
          ∀ event' ∈ events, event'.Certified i → event'.scale ≤ event.scale) ∧
    (∀ (st st' : BinarySearchState K P) (scale : K) (event : CheckEvent K P),
      st.geometry_pair_scale_lower_bounds.length = self.separating_planes.length →
      self.checkEvent s_lower_ s_upper_ env ignored_collision_pairs C d_init s_center st
        scale = .ok (event, st') →
      ∀ i : Nat, i < self.separating_planes.length →
        ∃ (plane : CSpaceSeparatingPlane V P) (lb lb' : K),
          self.separating_planes[i]? = some plane ∧
          st.geometry_pair_scale_lower_bounds[i]? = some lb ∧
          st'.geometry_pair_scale_lower_bounds[i]? = some lb' ∧ lb ≤ lb' ∧
          (lb' ≠ lb → event.Certified i ∧ lb < scale ∧ lb' = scale) ∧
          (scale ≤ lb → plane.geometry_pair ∈ event.ignored_collision_pairs_for_scale ∧
            ¬ event.Certified i)) ∧
    ∀ (options : BinarySearchOptions K) (out : BinarySearchOutcome K P),
      self.BinarySearch s_lower_ s_upper_ env ignored_collision_pairs C d_init s_center
        options = .ok out →
      ∃ (events : List (CheckEvent K P)) (st : BinarySearchState K P),
        self.checkHistory s_lower_ s_upper_ env ignored_collision_pairs C d_init s_center
          out.st.checked (BinarySearchState.init self env) = .ok (events, st) ∧
        st.geometry_pair_scale_lower_bounds = out.st.geometry_pair_scale_lower_bounds := by
  refine ⟨fun scales events st hH => ?_, fun st st' scale event hlen hev i hi => ?_,
    fun options out h => ?_⟩
  · obtain ⟨hlen, hb⟩ := checkHistory_bounds self s_lower_ s_upper_ env hslots
      ignored_collision_pairs C d_init s_center scales (BinarySearchState.init self env) st
      events (List.length_replicate _ _) hH
    refine ⟨hlen, fun i hi => ?_⟩
    obtain ⟨lb0, lb, hlb0, hlb, _, hall, hlast⟩ := hb i hi
    have h0 : lb0 = 0 := by
      have : (BinarySearchState.init self env : BinarySearchState K P)
          |>.geometry_pair_scale_lower_bounds[i]? = some 0 := by
        show (List.replicate self.separating_planes.length (0 : K))[i]? = some 0
        rw [List.getElem?_replicate, if_pos hi]
      rw [this] at hlb0
      exact (Option.some.inj hlb0).symm
    rcases hlast with ⟨heq, hnone⟩ | ⟨e, he, hce, heq⟩
    · exact Or.inl ⟨by rw [hlb, heq, h0], hnone⟩
    · refine Or.inr ⟨e, he, hce, by rw [hlb, heq], fun e' he' hce' => ?_⟩
      rw [← heq]
      exact (hall e' he' hce').2
  · obtain ⟨_, hstep⟩ := check_bounds self s_lower_ s_upper_ env hslots
      ignored_collision_pairs C d_init s_center st st' scale event hlen hev
    obtain ⟨plane, lb, hplane, hlb, hc, hnc, hskip⟩ := hstep i hi
    by_cases hcert : event.Certified i
    · obtain ⟨hlt, _, hnew⟩ := hc hcert
      exact ⟨plane, lb, scale, hplane, hlb, hnew, le_of_lt hlt,
        fun _ => ⟨hcert, hlt, rfl⟩, hskip⟩
    · exact ⟨plane, lb, lb, hplane, hlb, hnc hcert, le_refl _,
        fun hne => absurd rfl hne, hskip⟩
  · obtain ⟨events, st, hH, hout⟩ := BinarySearch_history self s_lower_ s_upper_ env
      ignored_collision_pairs C d_init s_center options out h
    refine ⟨events, st, hH, ?_⟩
    rw [hout]

theorem BinarySearch_lower_bounds_witness :
    exampleBisectionEnv.Slots exampleTwoPlaneCfp ∧
    exampleTwoPlaneCfp.BinarySearch [-10] [10] exampleBisectionEnv ∅ exampleIntervalC [2, 2]
      [1] exampleBinarySearchOptions = .ok (exampleBinarySearch exampleBinarySearchOptions) ∧
    (exampleBinarySearch exampleBinarySearchOptions).st.geometry_pair_scale_lower_bounds
      = [3 / 4, 5 / 8] ∧
    ∃ (events : List (CheckEvent ℚ Int)) (st : BinarySearchState ℚ Int),
      exampleTwoPlaneCfp.checkHistory [-10] [10] exampleBisectionEnv ∅ exampleIntervalC
        [2, 2] [1] (exampleBinarySearch exampleBinarySearchOptions).st.checked
        (BinarySearchState.init exampleTwoPlaneCfp exampleBisectionEnv) = .ok (events, st) ∧
      st.geometry_pair_scale_lower_bounds
        = (exampleBinarySearch exampleBinarySearchOptions).st.geometry_pair_scale_lower_bounds ∧
      ∀ i : Nat, i < exampleTwoPlaneCfp.separating_planes.length →
        (st.geometry_pair_scale_lower_bounds[i]? = some 0 ∧
          ∀ event ∈ events, ¬ event.Certified i) ∨
        ∃ event ∈ events, event.Certified i ∧
          st.geometry_pair_scale_lower_bounds[i]? = some event.scale ∧
          ∀ event' ∈ events, event'.Certified i → event'.scale ≤ event.scale := by
  have hrun : exampleTwoPlaneCfp.BinarySearch [-10] [10] exampleBisectionEnv ∅
      exampleIntervalC [2, 2] [1] exampleBinarySearchOptions
      = .ok (exampleBinarySearch exampleBinarySearchOptions) := by with_unfolding_all rfl
  have h := BinarySearch_lower_bounds exampleTwoPlaneCfp [-10] [10] exampleBisectionEnv ∅
    exampleIntervalC [2, 2] [1] exampleBisectionEnv_slots
  obtain ⟨events, st, hH, hb⟩ := h.2.2 _ _ hrun
  exact ⟨exampleBisectionEnv_slots, hrun, by with_unfolding_all rfl, events, st, hH, hb,
    (h.1 _ events st hH).2⟩


/-- The first check of `BinarySearch` at the scale `0`: every plane has its pair in
`ignored_collision_pairs_for_scale`, the certificate search has no slot, and the
check succeeds. -/
theorem first_check_at_zero {V M P K : Type} [LinearOrderedField K]
    (self : CspaceFreePolytope V M P) (s_lower_ s_upper_ : List K) (env : SearchEnv K P)
    (hslots : env.Slots self)
    (ignored_collision_pairs : Finset (Nat × Nat)) (C : MatrixXd K)
    (d_init s_center : List K) (st1 : BinarySearchState K P) (flag : Bool)
    (h : self.is_scale_feasible s_lower_ s_upper_ env ignored_collision_pairs C d_init
      s_center (BinarySearchState.init self env) 0 = .ok (flag, st1)) :
    flag = true ∧
    ∃ event : CheckEvent K P,
      self.checkEvent s_lower_ s_upper_ env ignored_collision_pairs C d_init s_center
        (BinarySearchState.init self env) 0 = .ok (event, st1) ∧
      event.feasible = true ∧
      (∀ plane ∈ self.separating_planes,
        plane.geometry_pair ∈ event.ignored_collision_pairs_for_scale) ∧
      self.nonIgnoredPlanes event.ignored_collision_pairs_for_scale = [] ∧
      event.certificates_result = [] ∧
      st1.geometry_pair_scale_lower_bounds
        = (BinarySearchState.init self env :
            BinarySearchState K P).geometry_pair_scale_lower_bounds := by
  obtain ⟨event, hev, _, hflag, _, hign, hcerts, hany, hfold, _⟩ := is_scale_feasible_event
    self s_lower_ s_upper_ env ignored_collision_pairs C d_init s_center _ st1 0 flag h
  have hpairs : ∀ plane ∈ self.separating_planes,
      plane.geometry_pair ∈ event.ignored_collision_pairs_for_scale := by
    intro plane hplane
    obtain ⟨i, hi⟩ := List.mem_iff_getElem?.mp hplane
    have hilt : i < self.separating_planes.length := by
      by_contra hge
      rw [List.getElem?_eq_none (by omega)] at hi
      cases hi
    refine (ignoredForScale_mem self ignored_collision_pairs _ 0 _ hign _).mpr ?_
    by_cases hin : plane.geometry_pair ∈ ignored_collision_pairs
    · exact Or.inl hin
    · refine Or.inr ⟨i, plane, 0, hi, ?_, rfl, hin, le_refl _⟩
      show (List.replicate self.separating_planes.length (0 : K))[i]? = some 0
      rw [List.getElem?_replicate, if_pos hilt]
  have hnone : self.nonIgnoredPlanes event.ignored_collision_pairs_for_scale = [] := by
    rw [List.eq_nil_iff_forall_not_mem]
    intro i hi
    obtain ⟨plane, hp, hnot⟩ := (mem_nonIgnoredPlanes self _ i).mp hi
    exact hnot (hpairs plane (List.getElem?_mem hp))
  have hempty : event.certificates_result = [] := by
    apply List.eq_nil_of_length_eq_zero
    rw [(hslots _ _ C event.d _ hcerts).1, hnone]
    rfl
  have hflag' : flag = true := by
    rw [hany, hempty]
    rfl
  refine ⟨hflag', event, hev, by rw [hflag, hflag'], hpairs, hnone, hempty, ?_⟩
  rw [hempty] at hfold
  have hfold' : (Except.ok (BinarySearchState.init self env :
      BinarySearchState K P).geometry_pair_scale_lower_bounds : Except Error (List K))
      = .ok st1.geometry_pair_scale_lower_bounds := hfold
  injection hfold' with hfold'
  exact hfold'.symm

/-- C29: when the certificate search has one slot for every plane that is not
ignored and `options.scale_min = 0`, the first check of `BinarySearch` puts the
pair of every plane into `ignored_collision_pairs_for_scale`, so the certificate
search has no slot and returns no certificate, and the check succeeds, whatever the
solver does; so a call of `BinarySearch` that returns does not return `nullopt`. -/
theorem BinarySearch_scale_min_zero {V M P K : Type} [LinearOrderedField K]
    (self : CspaceFreePolytope V M P) (s_lower_ s_upper_ : List K) (env : SearchEnv K P)
    (ignored_collision_pairs : Finset (Nat × Nat)) (C : MatrixXd K)
    (d_init s_center : List K) (options : BinarySearchOptions K)
    (out : BinarySearchOutcome K P) (hslots : env.Slots self)
    (hzero : options.scale_min = 0)
    (h : self.BinarySearch s_lower_ s_upper_ env ignored_collision_pairs C d_init s_center
      options = .ok out) :
    out.result ≠ none ∧
    ∃ (event : CheckEvent K P) (st1 : BinarySearchState K P),
      self.checkEvent s_lower_ s_upper_ env ignored_collision_pairs C d_init s_center
        (BinarySearchState.init self env) 0 = .ok (event, st1) ∧
      event.feasible = true ∧
      (∀ plane ∈ self.separating_planes,
        plane.geometry_pair ∈ event.ignored_collision_pairs_for_scale) ∧
      self.nonIgnoredPlanes event.ignored_collision_pairs_for_scale = [] ∧
      event.certificates_result = [] := by
  obtain ⟨_, hcases⟩ := BinarySearch_cases self s_lower_ s_upper_ env
    ignored_collision_pairs C d_init s_center options out h
  rw [hzero] at hcases
  rcases hcases with ⟨st1, hmin, _⟩ | ⟨st1, st2, hmin, _, hout⟩ |
    ⟨st1, st2, b, hmin, _, _, hout⟩
  · have := (first_check_at_zero self s_lower_ s_upper_ env hslots ignored_collision_pairs
      C d_init s_center st1 false hmin).1
    cases this
  · obtain ⟨_, event, hev, hf, hp, hn, he, _⟩ := first_check_at_zero self s_lower_ s_upper_
      env hslots ignored_collision_pairs C d_init s_center st1 true hmin
    refine ⟨?_, event, st1, hev, hf, hp, hn, he⟩
    rw [hout]
    exact fun hne => by cases hne
  · obtain ⟨_, event, hev, hf, hp, hn, he, _⟩ := first_check_at_zero self s_lower_ s_upper_
      env hslots ignored_collision_pairs C d_init s_center st1 true hmin
    refine ⟨?_, event, st1, hev, hf, hp, hn, he⟩
    rw [hout]
    exact fun hne => by cases hne

theorem BinarySearch_scale_min_zero_witness :
    exampleBisectionEnv.Slots exampleTwoPlaneCfp ∧
    ({ exampleBinarySearchOptions with scale_min := 0 } : BinarySearchOptions ℚ).scale_min
      = 0 ∧
    exampleTwoPlaneCfp.BinarySearch [-10] [10] exampleBisectionEnv ∅ exampleIntervalC [2, 2]
      [1] { exampleBinarySearchOptions with scale_min := 0 }
      = .ok (exampleBinarySearch { exampleBinarySearchOptions with scale_min := 0 }) ∧
    (exampleBinarySearch { exampleBinarySearchOptions with scale_min := 0 }).st.checked
      = [0, 3 / 4, 3 / 8, 9 / 16, 15 / 32] ∧
    (exampleBinarySearch { exampleBinarySearchOptions with scale_min := 0 }).result ≠ none ∧
    ∃ (event : CheckEvent ℚ Int) (st1 : BinarySearchState ℚ Int),
      exampleTwoPlaneCfp.checkEvent [-10] [10] exampleBisectionEnv ∅ exampleIntervalC [2, 2]
        [1] (BinarySearchState.init exampleTwoPlaneCfp exampleBisectionEnv) 0
        = .ok (event, st1) ∧
      event.feasible = true ∧
      (∀ plane ∈ exampleTwoPlaneCfp.separating_planes,
        plane.geometry_pair ∈ event.ignored_collision_pairs_for_scale) ∧
      exampleTwoPlaneCfp.nonIgnoredPlanes event.ignored_collision_pairs_for_scale = [] ∧
      event.certificates_result = [] := by
  have hrun : exampleTwoPlaneCfp.BinarySearch [-10] [10] exampleBisectionEnv ∅
      exampleIntervalC [2, 2] [1] { exampleBinarySearchOptions with scale_min := 0 }
      = .ok (exampleBinarySearch { exampleBinarySearchOptions with scale_min := 0 }) := by
    with_unfolding_all rfl
  have h := BinarySearch_scale_min_zero exampleTwoPlaneCfp [-10] [10] exampleBisectionEnv ∅
    exampleIntervalC [2, 2] [1] { exampleBinarySearchOptions with scale_min := 0 } _
    exampleBisectionEnv_slots rfl hrun
  exact ⟨exampleBisectionEnv_slots, rfl, hrun, by with_unfolding_all rfl, h.1, h.2⟩


/-! ## The planes that `BinarySearch` keeps -/

/-- An entry that a check writes comes from that check. -/
theorem EntryFrom_new {V M P K : Type} [LinearOrderedField K]
    (self : CspaceFreePolytope V M P) (s_lower_ s_upper_ : List K) (env : SearchEnv K P)
    (hslots : env.Slots self)
    (ignored_collision_pairs : Finset (Nat × Nat)) (C : MatrixXd K)
    (d_init s_center : List K) (st st' : BinarySearchState K P) (scale : K)
    (event : CheckEvent K P) (events : List (CheckEvent K P)) (x : K) (hx : x ≤ scale)
    (hlen : st.geometry_pair_scale_lower_bounds.length = self.separating_planes.length)
    (h : self.checkEvent s_lower_ s_upper_ env ignored_collision_pairs C d_init s_center st
      scale = .ok (event, st'))
    (idx : Int) (q : SeparationCertificateResult P → Prop)
    (hnew : ∃ r : SeparationCertificateResult P,
      some r ∈ event.certificates_result ∧ r.plane_index = idx ∧ q r) :
    EntryFrom self ignored_collision_pairs (events ++ [event]) st' x idx q := by
  obtain ⟨r, hr, hidx, hq⟩ := hnew
  obtain ⟨_, hscale, _, hign, hcerts, _⟩ := checkEvent_facts self s_lower_ s_upper_ env
    ignored_collision_pairs C d_init s_center st st' scale event h
  obtain ⟨i, hi, hmem⟩ := slots_certified env self hslots _ _ C event.d _ hcerts r hr
  obtain ⟨plane, hplane, hnot⟩ := (mem_nonIgnoredPlanes self _ i).mp hmem
  have hilt : i < self.separating_planes.length := by
    by_contra hge
    rw [List.getElem?_eq_none (by omega)] at hplane
    cases hplane
  obtain ⟨_, hstep⟩ := check_bounds self s_lower_ s_upper_ env hslots
    ignored_collision_pairs C d_init s_center st st' scale event hlen h
  obtain ⟨plane', lb, hplane', _, hc, _, _⟩ := hstep i hilt
  rw [hplane] at hplane'
  cases hplane'
  obtain ⟨_, _, hnewb⟩ := hc ⟨r, hr, hi⟩
  refine ⟨i, by rw [← hidx, hi], plane, hplane, fun hin => hnot ?_, event, by simp,
    ⟨r, hr, hidx, hq⟩, by rw [hnewb, hscale], by rw [hscale]; exact hx⟩
  exact (ignoredForScale_mem self ignored_collision_pairs _ scale _ hign _).mpr (Or.inl hin)

/-- An entry that a check does not write keeps coming from the history; after a
check that succeeds, its scale is at least the scale of that check. -/
theorem EntryFrom_old {V M P K : Type} [LinearOrderedField K]
    (self : CspaceFreePolytope V M P) (s_lower_ s_upper_ : List K) (env : SearchEnv K P)
    (hslots : env.Slots self) (hdistinct : self.DistinctPairs)
    (ignored_collision_pairs : Finset (Nat × Nat)) (C : MatrixXd K)
    (d_init s_center : List K) (st st' : BinarySearchState K P) (scale : K)
    (event : CheckEvent K P) (events : List (CheckEvent K P)) (x : K)
    (hlen : st.geometry_pair_scale_lower_bounds.length = self.separating_planes.length)
    (h : self.checkEvent s_lower_ s_upper_ env ignored_collision_pairs C d_init s_center st
      scale = .ok (event, st'))
    (idx : Int) (q : SeparationCertificateResult P → Prop)
    (hold : EntryFrom self ignored_collision_pairs events st x idx q)
    (hno : ¬ ∃ r : SeparationCertificateResult P,
      some r ∈ event.certificates_result ∧ r.plane_index = idx) :
    EntryFrom self ignored_collision_pairs (events ++ [event]) st'
      (if event.feasible = true then scale else x) idx q := by
  obtain ⟨i, hi, plane, hplane, hnotin, ev, hev, hr, hb, hxle⟩ := hold
  obtain ⟨_, _, _, hign, hcerts, hfeas, _⟩ := checkEvent_facts self s_lower_ s_upper_ env
    ignored_collision_pairs C d_init s_center st st' scale event h
  have hilt : i < self.separating_planes.length := by
    by_contra hge
    rw [List.getElem?_eq_none (by omega)] at hplane
    cases hplane
  obtain ⟨_, hstep⟩ := check_bounds self s_lower_ s_upper_ env hslots
    ignored_collision_pairs C d_init s_center st st' scale event hlen h
  obtain ⟨plane', lb, hplane', hlb, _, hnc, _⟩ := hstep i hilt
  rw [hplane] at hplane'
  cases hplane'
  rw [hb] at hlb
  have hlb' : lb = ev.scale := (Option.some.inj hlb).symm
  subst hlb'
  have hncert : ¬ event.Certified i := fun ⟨r, hr', hidx'⟩ => hno ⟨r, hr', by rw [hidx', hi]⟩
  refine ⟨i, hi, plane, hplane, hnotin, ev, List.mem_append_left _ hev, hr, hnc hncert, ?_⟩
  by_cases hf : event.feasible = true
  · rw [if_pos hf]
    by_contra hlt
    apply hncert
    have hall : event.certificates_result.any (fun certificate => certificate.isNone)
        = false := by
      rw [hfeas] at hf
      simpa using hf
    refine slots_all_certified env self hslots _ _ C event.d _ hcerts hall i
      ((mem_nonIgnoredPlanes self _ i).mpr ⟨plane, hplane, fun hin => ?_⟩)
    rcases (ignoredForScale_mem self ignored_collision_pairs _ scale _ hign _).mp hin with
      hin' | ⟨j, pj, lbj, hpj, hlbj, hpair, _, hge⟩
    · exact hnotin hin'
    · have hji : j = i := hdistinct j i pj plane hpj hplane hpair
      subst hji
      rw [hb] at hlbj
      have : lbj = ev.scale := (Option.some.inj hlbj).symm
      subst this
      exact hlt hge
  · rw [if_neg hf]
    exact hxle

/-- A check at a scale that is at least `x` keeps the provenance of the stored
planes; after a check that succeeds the scales of their checks are at least the
scale of that check. -/
theorem PlanesFrom_step {V M P K : Type} [LinearOrderedField K]
    (self : CspaceFreePolytope V M P) (s_lower_ s_upper_ : List K) (env : SearchEnv K P)
    (hslots : env.Slots self) (hdistinct : self.DistinctPairs)
    (ignored_collision_pairs : Finset (Nat × Nat)) (C : MatrixXd K)
    (d_init s_center : List K) (st st' : BinarySearchState K P) (scale : K)
    (event : CheckEvent K P) (events : List (CheckEvent K P)) (x : K) (hx : x ≤ scale)
    (hlen : st.geometry_pair_scale_lower_bounds.length = self.separating_planes.length)
    (h : self.checkEvent s_lower_ s_upper_ env ignored_collision_pairs C d_init s_center st
      scale = .ok (event, st'))
    (hI : PlanesFrom self ignored_collision_pairs events st x) :
    PlanesFrom self ignored_collision_pairs (events ++ [event]) st'
      (if event.feasible = true then scale else x) := by
  obtain ⟨_, _, _, _, _, _, _, _, hfalse, htrue⟩ := checkEvent_facts self s_lower_ s_upper_
    env ignored_collision_pairs C d_init s_center st st' scale event h
  have hle : (if event.feasible = true then scale else x) ≤ scale := by
    split
    · exact le_refl _
    · exact hx
  have hret : ∃ ret : SearchResult K P, ret.a_ = st.ret.a_ ∧ ret.b_ = st.ret.b_ ∧
      st'.ret = ret.UpdateSeparatingPlanes event.certificates_result := by
    cases hf : event.feasible with
    | false => exact ⟨st.ret, rfl, rfl, hfalse hf⟩
    | true =>
      obtain ⟨ret, hset, hupd⟩ := htrue hf
      obtain ⟨_, _, _, ha, hb, _⟩ := SetPolytope_fields st.ret ret C event.d self s_lower_
        s_upper_ hset
      exact ⟨ret, ha, hb, hupd⟩
  obtain ⟨ret, ha, hb, hupd⟩ := hret
  constructor
  · intro idx a hmem
    rw [hupd] at hmem
    rcases UpdateSeparatingPlanes_mem_a _ ret idx a hmem with ⟨r, hr, hidx, hra⟩ | ⟨hold, hno⟩
    · exact EntryFrom_new self s_lower_ s_upper_ env hslots ignored_collision_pairs C d_init
        s_center st st' scale event events _ hle hlen h idx _ ⟨r, hr, hidx, hra⟩
    · rw [ha] at hold
      exact EntryFrom_old self s_lower_ s_upper_ env hslots hdistinct ignored_collision_pairs
        C d_init s_center st st' scale event events x hlen h idx _ (hI.1 idx a hold) hno
  · intro idx b hmem
    rw [hupd] at hmem
    rcases UpdateSeparatingPlanes_mem_b _ ret idx b hmem with ⟨r, hr, hidx, hrb⟩ | ⟨hold, hno⟩
    · exact EntryFrom_new self s_lower_ s_upper_ env hslots ignored_collision_pairs C d_init
        s_center st st' scale event events _ hle hlen h idx _ ⟨r, hr, hidx, hrb⟩
    · rw [hb] at hold
      exact EntryFrom_old self s_lower_ s_upper_ env hslots hdistinct ignored_collision_pairs
        C d_init s_center st st' scale event events x hlen h idx _ (hI.2 idx b hold) hno

/-- A call of `is_scale_feasible` at a scale that is at least `x` extends the
history and keeps the provenance of the stored planes. -/
theorem PlanesFrom_check {V M P K : Type} [LinearOrderedField K]
    (self : CspaceFreePolytope V M P) (s_lower_ s_upper_ : List K) (env : SearchEnv K P)
    (hslots : env.Slots self) (hdistinct : self.DistinctPairs)
    (ignored_collision_pairs : Finset (Nat × Nat)) (C : MatrixXd K)
    (d_init s_center : List K) (st0 st st' : BinarySearchState K P) (scale : K)
    (flag : Bool) (events : List (CheckEvent K P)) (x : K) (hx : x ≤ scale)
    (hlen : st.geometry_pair_scale_lower_bounds.length = self.separating_planes.length)
    (hH : self.checkHistory s_lower_ s_upper_ env ignored_collision_pairs C d_init s_center
      st.checked st0 = .ok (events, st))
    (hP : PlanesFrom self ignored_collision_pairs events st x)
    (h : self.is_scale_feasible s_lower_ s_upper_ env ignored_collision_pairs C d_init
      s_center st scale = .ok (flag, st')) :
    ∃ events' : List (CheckEvent K P),
      self.checkHistory s_lower_ s_upper_ env ignored_collision_pairs C d_init s_center
        st'.checked st0 = .ok (events', st') ∧
      st'.geometry_pair_scale_lower_bounds.length = self.separating_planes.length ∧
      PlanesFrom self ignored_collision_pairs events' st' (if flag = true then scale else x) := by
  obtain ⟨event, hH', hev, _, hf⟩ := checkHistory_step self s_lower_ s_upper_ env
    ignored_collision_pairs C d_init s_center st0 st st' events scale flag hH h
  have hP' := PlanesFrom_step self s_lower_ s_upper_ env hslots hdistinct
    ignored_collision_pairs C d_init s_center st st' scale event events x hx hlen hev hP
  rw [hf] at hP'
  exact ⟨events ++ [event], hH', (check_bounds self s_lower_ s_upper_ env hslots
    ignored_collision_pairs C d_init s_center st st' scale event hlen hev).1, hP'⟩

/-- C26, amended: whenever `BinarySearch` returns a result, every separating plane
`(a, b)` retained in it was computed by a feasibility check at a scale that is at
least the scale of the returned polytope; here the certificate search returns one
slot per plane that is not ignored, and two planes do not share a geometry pair. -/
theorem BinarySearch_stored_planes {V M P K : Type} [LinearOrderedField K]
    (self : CspaceFreePolytope V M P) (s_lower_ s_upper_ : List K) (env : SearchEnv K P)
    (hslots : env.Slots self) (hdistinct : self.DistinctPairs)
    (hdefault : env.default_result.a_ = [] ∧ env.default_result.b_ = [])
    (ignored_collision_pairs : Finset (Nat × Nat)) (C : MatrixXd K)
    (d_init s_center : List K) (options : BinarySearchOptions K)
    (out : BinarySearchOutcome K P) (ret : SearchResult K P)
    (h : self.BinarySearch s_lower_ s_upper_ env ignored_collision_pairs C d_init s_center
      options = .ok out)
    (hret : out.result = some ret) :
    ∃ (x : K) (events : List (CheckEvent K P)) (st : BinarySearchState K P),
      self.checkHistory s_lower_ s_upper_ env ignored_collision_pairs C d_init s_center
        out.st.checked (BinarySearchState.init self env) = .ok (events, st) ∧
      scaledOffset C d_init s_center x = .ok ret.d_ ∧
      (∀ (idx : Int) (a : List P), (idx, a) ∈ ret.a_ →
        ∃ event ∈ events, x ≤ event.scale ∧
          ∃ r : SeparationCertificateResult P,
            some r ∈ event.certificates_result ∧ r.plane_index = idx ∧ r.a = a) ∧
      (∀ (idx : Int) (b : P), (idx, b) ∈ ret.b_ →
        ∃ event ∈ events, x ≤ event.scale ∧
          ∃ r : SeparationCertificateResult P,
            some r ∈ event.certificates_result ∧ r.plane_index = idx ∧ r.b = b) := by
  have hfin : ∀ (x : K) (events : List (CheckEvent K P)) (st : BinarySearchState K P),
      PlanesFrom self ignored_collision_pairs events st x →
      (∀ (idx : Int) (a : List P), (idx, a) ∈ st.ret.a_ →
        ∃ event ∈ events, x ≤ event.scale ∧
          ∃ r : SeparationCertificateResult P,
            some r ∈ event.certificates_result ∧ r.plane_index = idx ∧ r.a = a) ∧
      (∀ (idx : Int) (b : P), (idx, b) ∈ st.ret.b_ →
        ∃ event ∈ events, x ≤ event.scale ∧
          ∃ r : SeparationCertificateResult P,
            some r ∈ event.certificates_result ∧ r.plane_index = idx ∧ r.b = b) := by
    intro x events st hP
    constructor
    · intro idx a hmem
      obtain ⟨_, _, _, _, _, ev, hev, hr, _, hle⟩ := hP.1 idx a hmem
      exact ⟨ev, hev, hle, hr⟩
    · intro idx b hmem
      obtain ⟨_, _, _, _, _, ev, hev, hr, _, hle⟩ := hP.2 idx b hmem
      exact ⟨ev, hev, hle, hr⟩
  have hP0 : PlanesFrom self ignored_collision_pairs []
      (BinarySearchState.init self env) options.scale_min := by
    constructor
    · intro idx a hmem
      have : (idx, a) ∈ env.default_result.a_ := hmem
      rw [hdefault.1] at this
      cases this
    · intro idx b hmem
      have : (idx, b) ∈ env.default_result.b_ := hmem
      rw [hdefault.2] at this
      cases this
  have hlen0 : (BinarySearchState.init self env).geometry_pair_scale_lower_bounds.length
      = self.separating_planes.length := List.length_replicate _ _
  obtain ⟨hchecks, hcases⟩ := BinarySearch_cases self s_lower_ s_upper_ env
    ignored_collision_pairs C d_init s_center options out h
  obtain ⟨_, _, _, _, hle, _, htol⟩ := binarySearchChecks_spec s_lower_ s_upper_ env C
    d_init s_center options hchecks
  rcases hcases with ⟨st1, _, hout⟩ | ⟨st1, st2, hmin, hmax, hout⟩ |
    ⟨st1, st2, b, hmin, hmax, hb, hout⟩
  · rw [hout] at hret
    cases hret
  · rw [hout] at hret
    cases hret
    rw [hout]
    obtain ⟨events1, hH1, hlen1, hP1⟩ := PlanesFrom_check self s_lower_ s_upper_ env hslots
      hdistinct ignored_collision_pairs C d_init s_center (BinarySearchState.init self env)
      (BinarySearchState.init self env) st1 options.scale_min true [] options.scale_min
      (le_refl _) hlen0 rfl hP0 hmin
    rw [if_pos rfl] at hP1
    obtain ⟨events2, hH2, hlen2, hP2⟩ := PlanesFrom_check self s_lower_ s_upper_ env hslots
      hdistinct ignored_collision_pairs C d_init s_center (BinarySearchState.init self env)
      st1 st2 options.scale_max true events1 options.scale_min hle hlen1 hH1 hP1 hmax
    rw [if_pos rfl] at hP2
    obtain ⟨_, _, ⟨d, _, _, hd, _, _, hpoly⟩, _⟩ := is_scale_feasible_spec self s_lower_
      s_upper_ env ignored_collision_pairs C d_init s_center st1 st2 _ true hmax
    obtain ⟨_, hdd, _⟩ := hpoly rfl
    obtain ⟨ha, hb⟩ := hfin _ _ _ hP2
    exact ⟨options.scale_max, events2, st2, hH2, (by rw [← hdd] at hd; exact hd), ha, hb⟩
  · rw [hout] at hret
    cases hret
    rw [hout]
    obtain ⟨events1, hH1, hlen1, hP1⟩ := PlanesFrom_check self s_lower_ s_upper_ env hslots
      hdistinct ignored_collision_pairs C d_init s_center (BinarySearchState.init self env)
      (BinarySearchState.init self env) st1 options.scale_min true [] options.scale_min
      (le_refl _) hlen0 rfl hP0 hmin
    rw [if_pos rfl] at hP1
    obtain ⟨events2, hH2, hlen2, hP2⟩ := PlanesFrom_check self s_lower_ s_upper_ env hslots
      hdistinct ignored_collision_pairs C d_init s_center (BinarySearchState.init self env)
      st1 st2 options.scale_max false events1 options.scale_min hle hlen1 hH1 hP1 hmax
    rw [if_neg (by simp)] at hP2
    obtain ⟨_, _, ⟨d, _, _, hd, _, _, hpoly⟩, _⟩ := is_scale_feasible_spec self s_lower_
      s_upper_ env ignored_collision_pairs C d_init s_center _ st1 _ true hmin
    obtain ⟨_, hdd, _⟩ := hpoly rfl
    obtain ⟨_, _, _, hkeep⟩ := is_scale_feasible_spec self s_lower_
      s_upper_ env ignored_collision_pairs C d_init s_center st1 st2 _ false hmax
    obtain ⟨_, hd2, _⟩ := hkeep rfl
    have hI := bisectionLoop_inv self s_lower_ s_upper_ env ignored_collision_pairs C
      d_init s_center options
      (fun b => ∃ events : List (CheckEvent K P),
        self.checkHistory s_lower_ s_upper_ env ignored_collision_pairs C d_init s_center
          b.st.checked (BinarySearchState.init self env) = .ok (events, b.st) ∧
        b.st.geometry_pair_scale_lower_bounds.length = self.separating_planes.length ∧
        PlanesFrom self ignored_collision_pairs events b.st b.scale_min ∧
        scaledOffset C d_init s_center b.scale_min = .ok b.st.ret.d_)
      (fun b flag st' hI hwidth _ hcheck => by
        obtain ⟨events, hH, hlen, hP, hbd⟩ := hI
        have hmid : b.scale_min ≤ (b.scale_max + b.scale_min) / 2 := by
          have : 0 < b.scale_max - b.scale_min := lt_trans htol hwidth
          linarith
        obtain ⟨events', hH', hlen', hP'⟩ := PlanesFrom_check self s_lower_ s_upper_ env
          hslots hdistinct ignored_collision_pairs C d_init s_center
          (BinarySearchState.init self env) b.st st' _ flag events b.scale_min hmid hlen hH
          hP hcheck
        obtain ⟨_, _, ⟨d', _, _, hd', _, _, hpoly'⟩, hkeep'⟩ := is_scale_feasible_spec self
          s_lower_ s_upper_ env ignored_collision_pairs C d_init s_center b.st st' _ flag
          hcheck
        refine ⟨fun hflag => ?_, fun hflag => ?_⟩
        · obtain ⟨_, hdd', _⟩ := hpoly' hflag
          rw [hflag, if_pos rfl] at hP'
          exact ⟨events', hH', hlen', hP', (by rw [← hdd'] at hd'; exact hd')⟩
        · obtain ⟨_, hdd', _⟩ := hkeep' hflag
          rw [hflag, if_neg (by simp)] at hP'
          exact ⟨events', hH', hlen', hP', (by dsimp only; rw [hdd']; exact hbd)⟩)
      options.max_iter.toNat _ b hb
      ⟨events2, hH2, hlen2, hP2, (by dsimp only; rw [hd2, hdd]; exact hd)⟩
    obtain ⟨events, hH, _, hP, hbd⟩ := hI
    obtain ⟨ha, hb'⟩ := hfin _ _ _ hP
    exact ⟨b.scale_min, events, b.st, hH, hbd, ha, hb'⟩

theorem exampleTwoPlaneCfp_distinct : exampleTwoPlaneCfp.DistinctPairs := by
  intro i j plane_i plane_j hi hj hp
  rcases i with _ | _ | i <;> rcases j with _ | _ | j
  · rfl
  · cases hi
    cases hj
    exact absurd hp (by decide)
  · cases hj
  · cases hi
    cases hj
    exact absurd hp (by decide)
  · rfl
  · cases hj
  · cases hi
  · cases hi
  · cases hi

theorem BinarySearch_stored_planes_witness :
    exampleBisectionEnv.Slots exampleTwoPlaneCfp ∧ exampleTwoPlaneCfp.DistinctPairs ∧
    (exampleBisectionEnv.default_result.a_ = [] ∧ exampleBisectionEnv.default_result.b_ = []) ∧
    exampleTwoPlaneCfp.BinarySearch [-10] [10] exampleBisectionEnv ∅ exampleIntervalC [2, 2]
      [1] exampleBinarySearchOptions = .ok (exampleBinarySearch exampleBinarySearchOptions) ∧
    (exampleBinarySearch exampleBinarySearchOptions).result
      = some (exampleBinarySearchResult exampleBinarySearchOptions) ∧
    (exampleBinarySearchResult exampleBinarySearchOptions).a_
      = [(0, [1, 0, 0]), (1, [2, 1, 0])] ∧
    (exampleBinarySearchResult exampleBinarySearchOptions).b_ = [(0, 1), (1, 2)] ∧
    ∃ (x : ℚ) (events : List (CheckEvent ℚ Int)) (st : BinarySearchState ℚ Int),
      exampleTwoPlaneCfp.checkHistory [-10] [10] exampleBisectionEnv ∅ exampleIntervalC
        [2, 2] [1] (exampleBinarySearch exampleBinarySearchOptions).st.checked
        (BinarySearchState.init exampleTwoPlaneCfp exampleBisectionEnv) = .ok (events, st) ∧
      scaledOffset exampleIntervalC [2, 2] [1] x
        = .ok (exampleBinarySearchResult exampleBinarySearchOptions).d_ ∧
      (∀ (idx : Int) (a : List Int),
        (idx, a) ∈ (exampleBinarySearchResult exampleBinarySearchOptions).a_ →
        ∃ event ∈ events, x ≤ event.scale ∧
          ∃ r : SeparationCertificateResult Int,
            some r ∈ event.certificates_result ∧ r.plane_index = idx ∧ r.a = a) ∧
      (∀ (idx : Int) (b : Int),
        (idx, b) ∈ (exampleBinarySearchResult exampleBinarySearchOptions).b_ →
        ∃ event ∈ events, x ≤ event.scale ∧
          ∃ r : SeparationCertificateResult Int,
            some r ∈ event.certificates_result ∧ r.plane_index = idx ∧ r.b = b) := by
  have hrun : exampleTwoPlaneCfp.BinarySearch [-10] [10] exampleBisectionEnv ∅
      exampleIntervalC [2, 2] [1] exampleBinarySearchOptions
      = .ok (exampleBinarySearch exampleBinarySearchOptions) := by with_unfolding_all rfl
  have hret : (exampleBinarySearch exampleBinarySearchOptions).result
      = some (exampleBinarySearchResult exampleBinarySearchOptions) := by
    with_unfolding_all rfl
  exact ⟨exampleBisectionEnv_slots, exampleTwoPlaneCfp_distinct,
    ⟨by with_unfolding_all rfl, by with_unfolding_all rfl⟩, hrun, hret,
    by with_unfolding_all rfl, by with_unfolding_all rfl,
    BinarySearch_stored_planes exampleTwoPlaneCfp [-10] [10] exampleBisectionEnv
      exampleBisectionEnv_slots exampleTwoPlaneCfp_distinct
      ⟨by with_unfolding_all rfl, by with_unfolding_all rfl⟩ ∅ exampleIntervalC [2, 2] [1]
      exampleBinarySearchOptions _ _ hrun hret⟩

/-- C26, as stated, fails: in the example with two planes `BinarySearch` returns the
polytope of the scale `5 / 8`, and the plane `(0, [1, 0, 0])` that the result stores
was computed by the check at the scale `3 / 4`, which failed; the check at the scale
`5 / 8` returned a certificate for the plane `1` only. -/
theorem BinarySearch_stored_planes_counterexample :
    exampleTwoPlaneCfp.BinarySearch [-10] [10] exampleBisectionEnv ∅ exampleIntervalC [2, 2]
      [1] exampleBinarySearchOptions = .ok (exampleBinarySearch exampleBinarySearchOptions) ∧
    (exampleBinarySearch exampleBinarySearchOptions).result
      = some (exampleBinarySearchResult exampleBinarySearchOptions) ∧
    scaledOffset exampleIntervalC [2, 2] [1] (5 / 8)
      = .ok (exampleBinarySearchResult exampleBinarySearchOptions).d_ ∧
    (∃ st, exampleTwoPlaneCfp.checkHistory [-10] [10] exampleBisectionEnv ∅ exampleIntervalC
      [2, 2] [1] (exampleBinarySearch exampleBinarySearchOptions).st.checked
      (BinarySearchState.init exampleTwoPlaneCfp exampleBisectionEnv)
      = .ok (exampleEvents, st)) ∧
    exampleEvents.map (fun event => (event.summary, event.feasible))
      = [((1 / 2, [some 0, some 1]), true), ((3 / 4, [some 0, none]), false),
         ((5 / 8, [some 1]), true), ((11 / 16, [none]), false),
         ((21 / 32, [none]), false)] ∧
    ¬ ∀ (idx : Int) (a : List Int),
      (idx, a) ∈ (exampleBinarySearchResult exampleBinarySearchOptions).a_ →
      ∃ event ∈ exampleEvents, event.scale = 5 / 8 ∧
        ∃ r : SeparationCertificateResult Int,
          some r ∈ event.certificates_result ∧ r.plane_index = idx ∧ r.a = a := by
  have hmap : exampleEvents.map (fun event => (event.summary, event.feasible))
      = [((1 / 2, [some 0, some 1]), true), ((3 / 4, [some 0, none]), false),
         ((5 / 8, [some 1]), true), ((11 / 16, [none]), false),
         ((21 / 32, [none]), false)] := by with_unfolding_all rfl
  refine ⟨by with_unfolding_all rfl, by with_unfolding_all rfl, by with_unfolding_all rfl,
    ⟨_, by with_unfolding_all rfl⟩, hmap, fun hall => ?_⟩
  obtain ⟨event, hev, hscale, r, hr, hidx, _⟩ := hall 0 [1, 0, 0] (by with_unfolding_all decide)
  have hmem := List.mem_map_of_mem (fun event : CheckEvent ℚ Int =>
    (event.summary, event.feasible)) hev
  rw [hmap] at hmem
  have hidx' : some (0 : Int) ∈ event.summary.2 := by
    unfold CheckEvent.summary
    rw [← hidx]
    exact List.mem_map_of_mem (fun certificate : Option (SeparationCertificateResult Int) =>
      certificate.map (fun r => r.plane_index)) hr
  have hs : event.summary.1 = 5 / 8 := hscale
  simp only [List.mem_cons, List.mem_singleton, List.not_mem_nil, or_false, Prod.mk.injEq]
    at hmem
  rcases hmem with ⟨h1, _⟩ | ⟨h1, _⟩ | ⟨h1, _⟩ | ⟨h1, _⟩ | ⟨h1, _⟩ <;>
    rw [h1] at hs hidx' <;> revert hs hidx' <;> norm_num


/-! ## The map of certificates of `InitializePolytopeSearchProgram` -/

/-- The loop that fills `certificates_vec` throws the `runtime_error` when a plane
that is not ignored has no entry in the map. -/
theorem certificatesVec_missing {V P : Type} (ignored_collision_pairs : Finset (Nat × Nat))
    (certificates : List ((Nat × Nat) × SeparationCertificateResult P)) :
    ∀ (planes : List (CSpaceSeparatingPlane V P))
      (certificates_vec : List (Option (SeparationCertificateResult P))),
      (∃ plane ∈ planes, plane.geometry_pair ∉ ignored_collision_pairs ∧
        ∀ e ∈ certificates, e.1 ≠ plane.geometry_pair) →
      planes.foldlM (certificatesVecBody ignored_collision_pairs certificates)
        certificates_vec = .error .runtimeError := by
  intro planes
  induction planes with
  | nil =>
    rintro _ ⟨_, hmem, _⟩
    cases hmem
  | cons plane planes ih =>
    intro certificates_vec hex
    rw [List.foldlM_cons]
    by_cases hmiss : plane.geometry_pair ∉ ignored_collision_pairs ∧
        ∀ e ∈ certificates, e.1 ≠ plane.geometry_pair
    · have hfind : certificates.find? (fun e => e.1 == plane.geometry_pair) = none := by
        rw [List.find?_eq_none]
        intro e he
        simpa using hmiss.2 e he
      unfold certificatesVecBody
      rw [if_pos hmiss.1, hfind]
      rfl
    · have hex' : ∃ plane' ∈ planes, plane'.geometry_pair ∉ ignored_collision_pairs ∧
          ∀ e ∈ certificates, e.1 ≠ plane'.geometry_pair := by
        obtain ⟨p, hp, hp'⟩ := hex
        rcases List.mem_cons.mp hp with rfl | hp
        · exact absurd hp' hmiss
        · exact ⟨p, hp, hp'⟩
      cases hstep : certificatesVecBody ignored_collision_pairs certificates certificates_vec
          plane with
      | error e =>
        unfold certificatesVecBody at hstep
        split at hstep
        · split at hstep
          · cases hstep
            rfl
          · cases hstep
        · cases hstep
      | ok v =>
        exact ih v hex'

/-- The loop that fills `certificates_vec` returns, with one entry for every plane
that is not ignored, when every such plane has an entry in the map. -/
theorem certificatesVec_ok {V P : Type} (ignored_collision_pairs : Finset (Nat × Nat))
    (certificates : List ((Nat × Nat) × SeparationCertificateResult P)) :
    ∀ (planes : List (CSpaceSeparatingPlane V P))
      (certificates_vec : List (Option (SeparationCertificateResult P))),
      (∀ plane ∈ planes, plane.geometry_pair ∉ ignored_collision_pairs →
        ∃ e ∈ certificates, e.1 = plane.geometry_pair) →
      ∃ vec, planes.foldlM (certificatesVecBody ignored_collision_pairs certificates)
        certificates_vec = .ok vec ∧
        vec.length = certificates_vec.length + (planes.filter (fun plane =>
          decide (plane.geometry_pair ∉ ignored_collision_pairs))).length := by
  intro planes
  induction planes with
  | nil =>
    intro certificates_vec _
    exact ⟨certificates_vec, rfl, rfl⟩
  | cons plane planes ih =>
    intro certificates_vec hall
    rw [List.foldlM_cons]
    by_cases hign : plane.geometry_pair ∉ ignored_collision_pairs
    · obtain ⟨e, he, hpair⟩ := hall plane (List.mem_cons_self _ _) hign
      cases hfind : certificates.find? (fun e => e.1 == plane.geometry_pair) with
      | none =>
        rw [List.find?_eq_none] at hfind
        exact absurd (by simpa using hpair) (hfind e he)
      | some it =>
        obtain ⟨vec, hvec, hlen⟩ := ih (certificates_vec ++ [some it.2])
          (fun p hp => hall p (List.mem_cons_of_mem _ hp))
        refine ⟨vec, ?_, ?_⟩
        · unfold certificatesVecBody
          rw [if_pos hign, hfind]
          exact hvec
        · rw [hlen, List.filter_cons_of_pos (by simpa using hign)]
          simp only [List.length_append, List.length_cons, List.length_nil]
          omega
    · obtain ⟨vec, hvec, hlen⟩ := ih certificates_vec
        (fun p hp => hall p (List.mem_cons_of_mem _ hp))
      refine ⟨vec, ?_, ?_⟩
      · unfold certificatesVecBody
        rw [if_neg hign]
        exact hvec
      · rw [hlen, List.filter_cons_of_neg (by simpa using hign)]

/-- On a map whose first entry has a positive-side Lagrangian, the map-taking
`InitializePolytopeSearchProgram` throws the `runtime_error` when a plane that is not
ignored has no entry in the map. -/
theorem InitializePolytopeSearchProgramMap_missing {V M P : Type} [CommRing P]
    [Inhabited M] (self : CspaceFreePolytope V M P) (vp : V → P) (mp : M → P)
    (fresh : Nat → V) (MakeMatrixContinuousVariable : Nat → Nat → MatrixX V)
    (MakeVectorContinuousVariable : Nat → List V)
    (CalcDminusCs : MatrixX V → List V → Except Error (List P))
    (ignored_collision_pairs : Finset (Nat × Nat))
    (first : (Nat × Nat) × SeparationCertificateResult P)
    (rest : List ((Nat × Nat) × SeparationCertificateResult P))
    (search_s_bounds_lagrangians : Bool) (C : MatrixX V) (d : List V)
    (new_certificates : List (Int × SeparationCertificate P))
    (lagrangians : SeparatingPlaneLagrangians P)
    (hfirst : first.2.positive_side_rational_lagrangians[0]? = some lagrangians)
    (d_minus_Cs : List P)
    (hcalc : CalcDminusCs
      (MakeMatrixContinuousVariable lagrangians.polytope.length self.s.length)
      (MakeVectorContinuousVariable lagrangians.polytope.length) = .ok d_minus_Cs)
    (hmiss : ∃ plane ∈ self.separating_planes,
      plane.geometry_pair ∉ ignored_collision_pairs ∧
      ∀ e ∈ first :: rest, e.1 ≠ plane.geometry_pair) :
    self.InitializePolytopeSearchProgramMap vp mp fresh MakeMatrixContinuousVariable
      MakeVectorContinuousVariable CalcDminusCs ignored_collision_pairs (first :: rest)
      search_s_bounds_lagrangians (some C) (some d) (some new_certificates)
      = .error .runtimeError := by
  have hv : vecGet first.2.positive_side_rational_lagrangians 0 = .ok lagrangians := by
    unfold vecGet
    rw [hfirst]
  have hloop := certificatesVec_missing ignored_collision_pairs (first :: rest)
    self.separating_planes [] hmiss
  unfold CspaceFreePolytope.InitializePolytopeSearchProgramMap
  simp only [Option.isNone_some, List.head?_cons]
  rw [if_neg (by simp), if_neg (by simp), if_neg (by simp)]
  simp only [pure_bind]
  rw [hv]
  simp only [except_bind_ok]
  rw [hcalc, hloop]
  rfl

/-- C28, on the code: for the empty map of certificates the map-taking
`InitializePolytopeSearchProgram` does not reach the loop that reports a missing
pair. It reads `certificates.begin()->second` first, which for an empty map is
undefined behaviour (the failure `outOfRange` of the model), whatever the ignored
pairs are. On the example object, whose only plane is not ignored and has no entry,
the loop by itself throws the `runtime_error`, and the function fails before it. -/
theorem InitializePolytopeSearchProgramMap_empty_map :
    (∀ {V M P : Type} [CommRing P] [Inhabited M] (self : CspaceFreePolytope V M P)
      (vp : V → P) (mp : M → P) (fresh : Nat → V)
      (MakeMatrixContinuousVariable : Nat → Nat → MatrixX V)
      (MakeVectorContinuousVariable : Nat → List V)
      (CalcDminusCs : MatrixX V → List V → Except Error (List P))
      (ignored_collision_pairs : Finset (Nat × Nat)) (search_s_bounds_lagrangians : Bool)
      (C : MatrixX V) (d : List V)
      (new_certificates : List (Int × SeparationCertificate P)),
      self.InitializePolytopeSearchProgramMap vp mp fresh MakeMatrixContinuousVariable
        MakeVectorContinuousVariable CalcDminusCs ignored_collision_pairs []
        search_s_bounds_lagrangians (some C) (some d) (some new_certificates)
        = .error .outOfRange) ∧
    (∃ plane ∈ exampleSearchCfp.separating_planes,
      plane.geometry_pair ∉ (∅ : Finset (Nat × Nat))) ∧
    exampleSearchCfp.separating_planes.foldlM
      (certificatesVecBody ∅ ([] : List ((Nat × Nat) × SeparationCertificateResult Int))) []
      = .error .runtimeError ∧
    exampleSearchCfp.InitializePolytopeSearchProgramMap (fun v : Nat => (v : Int))
      (fun _ : Nat => (1 : Int)) (fun k => k) (fun rows cols => MatrixX.sized rows cols)
      (fun rows => List.range rows) (fun _ _ => .ok []) ∅ [] false
      (some (MatrixX.sized 0 0)) (some []) (some []) = .error .outOfRange := by
  refine ⟨fun _ _ _ _ _ _ _ _ _ _ _ _ => rfl, ?_, ?_, rfl⟩
  · exact ⟨_, List.mem_cons_self _ _, by simp⟩
  · exact certificatesVec_missing ∅ [] _ []
      ⟨_, List.mem_cons_self _ _, by simp, fun e he => by cases he⟩

end Drake
